import Mathlib

/-!
# Simon and Speck block ciphers (vdweegen/SimonSpeck): shallow embedding

Every C file of the repository is embedded in a namespace of its own
(`speck64_32`, `simon144_96`, ...) that repeats the file's constants, macros
and functions under their source names.

Conventions of the embedding.

* A `uint8_t *` argument is a `Buf`: the byte found at each offset from the
  pointer.  Reads reduce the stored value modulo 256, writes store values
  below 256.  Bytes past the end of a caller's array are simply the values
  of the `Buf` at larger offsets, so an out-of-bounds read is visible as a
  dependency on them.
* Host integers are natural numbers; every C operation that can wrap is
  followed by an explicit `% 2 ^ h` for the width `h` of its C type
  (`shl`, `add`, `sub`), and an assignment to a narrower type truncates.
* The host is little-endian (the files reinterpret byte buffers as integers).
* A local integer that is filled by a partial `memcpy` keeps the upper bytes
  of its indeterminate initial value; those initial values are the fields of
  `Locals` and are arbitrary.
* `printf` calls are not embedded.
-/

namespace SimonSpeck

/-! ## Memory and control primitives -/

/-- A byte buffer seen through a `uint8_t *`: the byte at each offset. -/
abbrev Buf := Nat → Nat

/-- Little-endian value of the `n` bytes at offsets `off, ..., off + n - 1`
(a load of an `n`-byte unsigned integer on a little-endian host). -/
def loadLE (b : Buf) (off : Nat) : Nat → Nat
  | 0 => 0
  | n + 1 => b off % 256 + 256 * loadLE b (off + 1) n

/-- Buffer after the low `n` bytes of `v` are written little-endian at
offsets `off, ..., off + n - 1` (a store of an `n`-byte integer, or a copy of
the first `n` bytes of a wider integer object). -/
def storeLE (b : Buf) (off n v : Nat) : Buf :=
  fun j => if off ≤ j ∧ j < off + n then v / 256 ^ (j - off) % 256 else b j

/-- The C call `memcpy(dst + doff, src + soff, n)`. -/
def memcpy (dst : Buf) (doff : Nat) (src : Buf) (soff n : Nat) : Buf :=
  fun j => if doff ≤ j ∧ j < doff + n then src (soff + (j - doff)) % 256 else dst j

/-- The C call `memcpy(&v, src + off, n)` for an `h`-bit integer object `v`
whose previous content is `old`: the low `n` bytes are replaced, the
remaining upper bytes are kept. -/
def memcpyWord (h old : Nat) (src : Buf) (off n : Nat) : Nat :=
  loadLE src off n + 256 ^ n * (old % 2 ^ h / 256 ^ n)

/-- The loop `for (i = 0; i < n; i++) body`. -/
def forUp {σ : Type} (body : Nat → σ → σ) : Nat → σ → σ
  | 0, s => s
  | n + 1, s => body n (forUp body n s)

/-- The loop `for (i = n - 1; i >= 0; i--) body` over a signed counter. -/
def forDown {σ : Type} (body : Nat → σ → σ) : Nat → σ → σ
  | 0, s => s
  | n + 1, s => forDown body n (body n s)

/-- Left shift `x << r` in an unsigned C type of `h` bits, for `r < h`. (C leaves a
shift by `h` or more undefined; the files never make one.) -/
def shl (h x r : Nat) : Nat := (x <<< r) % 2 ^ h

/-- Addition `x + y` in an unsigned C type of `h` bits. -/
def add (h x y : Nat) : Nat := (x + y) % 2 ^ h

/-- Subtraction `x - y` whose result is converted to an unsigned C type of
`h` bits (wrap-around modulo `2 ^ h`). -/
def sub (h x y : Nat) : Nat := (((x : Int) - (y : Int)) % (2 : Int) ^ h).toNat

/-- The macro `ULLONG_MAX` that the files define. -/
def ULLONG_MAX : Nat := 18446744073709551615

/-- The array `uint64_t keys[4]` of the key expansions. -/
structure Keys where
  /-- The element `keys[0]`. -/
  keys0 : Nat
  /-- The element `keys[1]`. -/
  keys1 : Nat
  /-- The element `keys[2]`. -/
  keys2 : Nat
  /-- The element `keys[3]`. -/
  keys3 : Nat

/-- The read `keys[j]` (indices above 3 are never used by the files). -/
def Keys.get (k : Keys) : Nat → Nat
  | 0 => k.keys0
  | 1 => k.keys1
  | 2 => k.keys2
  | 3 => k.keys3
  | _ => 0

/-- The assignment `keys[j] = v` (indices above 3 are never used by the files). -/
def Keys.set (k : Keys) (j v : Nat) : Keys :=
  match j with
  | 0 => { k with keys0 := v }
  | 1 => { k with keys1 := v }
  | 2 => { k with keys2 := v }
  | 3 => { k with keys3 := v }
  | _ => k

/-- The bytes of the array `keys`, as seen through `(uint8_t *)&keys[0]`. -/
def Keys.mem (k : Keys) : Buf :=
  fun j =>
    if j < 8 then k.keys0 / 256 ^ j % 256
    else if j < 16 then k.keys1 / 256 ^ (j - 8) % 256
    else if j < 24 then k.keys2 / 256 ^ (j - 16) % 256
    else if j < 32 then k.keys3 / 256 ^ (j - 24) % 256
    else 0

/-- The state of a key expansion: the array `keys` and the bytes behind
`key_schedule`. -/
structure ExpandState where
  /-- The array `keys`. -/
  keys : Keys
  /-- The bytes behind `key_schedule`. -/
  key_schedule : Buf

/-- The first statements of every key expansion:
`uint64_t keys[4] = {}; for (i = 0; i < key_size; i++) memcpy(&keys[i], key + (bytes * i), bytes);`
followed by `memcpy(key_schedule, &keys[0], bytes);`.
The copies are made on the bytes of the array, so a `bytes` larger than 8
spills into the next element; bytes copied past `keys[3]` are dropped. -/
def load_keys (key key_schedule : Buf) (bytes key_size : Nat) : ExpandState :=
  let mem := forUp (fun i m => memcpy m (8 * i) key (bytes * i) bytes) key_size (fun _ => 0)
  let keys : Keys :=
    { keys0 := loadLE mem 0 8
      keys1 := loadLE mem 8 8
      keys2 := loadLE mem 16 8
      keys3 := loadLE mem 24 8 }
  { keys := keys, key_schedule := memcpy key_schedule 0 keys.mem 0 bytes }

/-- The main loop of every key expansion,
`for (i = 0; i < n; i++) { step; memcpy(key_schedule + (bytes * (i+1)), &keys[0], bytes); }`,
where `step` stands for the statements of the body before the final
`memcpy`; they read and write `keys` only. -/
def expand_loop (step : Nat → Keys → Keys) (bytes n : Nat) (s : ExpandState) : ExpandState :=
  forUp (fun i s =>
    let keys := step i s.keys
    { keys := keys, key_schedule := memcpy s.key_schedule (bytes * (i + 1)) keys.mem 0 bytes })
    n s

/-- Modelled from the spec: the type `bytes3_t` of the headers
`speck72_48-2.h`, `speck96_48.h` and `simon72_48.h`, which are not among the
sources. Its size is the three bytes of a 24-bit word (spec 4.2: unpacking
writes the low `word_bytes` bytes of a word value). -/
def sizeof_bytes3_t : Nat := 3

/-- Modelled from the spec: the type `bytes6_t` of the headers
`speck96_96.h` and `simon144_96.h`, which are not among the sources. Its size
is the six bytes of a 48-bit word (spec 4.2). -/
def sizeof_bytes6_t : Nat := 6

/-- The working variables of an encryption or decryption routine. -/
structure Regs where
  /-- The variable `x`. -/
  x : Nat
  /-- The variable `y`. -/
  y : Nat
  /-- The variable `round_key` (0 in the routines that have none). -/
  round_key : Nat

/-- Indeterminate initial contents of the locals `y`, `x` and `round_key` of
the routines that fill them with a partial `memcpy`. -/
structure Locals where
  /-- Initial content of `y`. -/
  y : Nat
  /-- Initial content of `x`. -/
  x : Nat
  /-- Initial content of `round_key`. -/
  round_key : Nat

/-- A buffer holding the listed bytes at offsets 0, 1, ... and zero after. -/
def ofBytes (l : List Nat) : Buf := fun j => l.getD j 0

/-- The first `n` bytes of a buffer, as a list. -/
def takeBytes (b : Buf) (n : Nat) : List Nat := (List.range n).map b

/-- A buffer of zero bytes. -/
def zeroBuf : Buf := fun _ => 0

/-! ## src/speck/64_32/speck64_32.c -/

namespace speck64_32

def rotation_alpha : Nat := 7
def rotation_beta : Nat := 2
def key_size : Nat := 4
def word_size : Nat := 16
def bytes : Nat := 2
def rounds : Nat := 22

/-- The macro `rotate_right(x, r)` on an operand whose (promoted) type has `h` bits. -/
def rotate_right (h x r : Nat) : Nat := (x >>> r) ||| shl h x (word_size - r)

/-- The macro `rotate_left(x, r)` on an operand whose (promoted) type has `h` bits. -/
def rotate_left (h x r : Nat) : Nat := shl h x r ||| (x >>> (word_size - r))

/-- The body of the loop of `expand_speck_64_32` before its final `memcpy`.
It has no inner loop: only `keys[0]` and `keys[key_size - 1]` are assigned. -/
def expand_step (i : Nat) (keys : Keys) : Keys :=
  let mod_mask := ULLONG_MAX >>> (64 - word_size)
  let x := rotate_right 64 (keys.get 1) rotation_alpha &&& mod_mask
  let x := add 64 x (keys.get 0) &&& mod_mask
  let x := x ^^^ i
  let y := rotate_left 64 (keys.get 0) rotation_beta &&& mod_mask
  let y := y ^^^ x
  let keys := keys.set 0 y
  keys.set (key_size - 1) x

/-- The function `expand_speck_64_32`: the loop runs while `i < rounds - 1`. -/
def expand_speck_64_32 (key key_schedule : Buf) : Buf :=
  (expand_loop expand_step bytes (rounds - 1) (load_keys key key_schedule bytes key_size)).key_schedule

/-- The function `encrypt_speck_64_32`. `x` and `y` are `uint16_t`: each
right-hand side is computed in `int` (32 bits, no overflow occurs) and
truncated to 16 bits by the assignment. -/
def encrypt_speck_64_32 (key_schedule plaintext ciphertext : Buf) : Buf :=
  let y := loadLE plaintext 0 2
  let x := loadLE plaintext 2 2
  let s := forUp (fun i (s : Regs) =>
    let x := rotate_right 32 s.x rotation_alpha % 2 ^ 16
    let x := (x + s.y) % 2 ^ 16
    let x := (x ^^^ loadLE key_schedule (2 * i) 2) % 2 ^ 16
    let y := rotate_left 32 s.y rotation_beta % 2 ^ 16
    let y := (y ^^^ x) % 2 ^ 16
    { s with x := x, y := y })
    rounds { x := x, y := y, round_key := 0 }
  storeLE (storeLE ciphertext 0 2 s.y) 2 2 s.x

/-- The function `decrypt_speck_64_32`. -/
def decrypt_speck_64_32 (key_schedule plaintext ciphertext : Buf) : Buf :=
  let y := loadLE ciphertext 0 2
  let x := loadLE ciphertext 2 2
  let s := forUp (fun i (s : Regs) =>
    let y := (s.y ^^^ s.x) % 2 ^ 16
    let y := rotate_right 32 y rotation_beta % 2 ^ 16
    let x := (s.x ^^^ loadLE key_schedule (2 * (rounds - 1 - i)) 2) % 2 ^ 16
    let x := sub 16 x y
    let x := rotate_left 32 x rotation_alpha % 2 ^ 16
    { s with x := x, y := y })
    rounds { x := x, y := y, round_key := 0 }
  storeLE (storeLE plaintext 0 2 s.y) 2 2 s.x

/-- The array `encryption_key` of `main` (commented out in the file), followed by zero
bytes. -/
def main_encryption_key : Buf := ofBytes
  [0x00, 0x01, 0x08, 0x09, 0x10, 0x11, 0x18, 0x19]

/-- The array `plaintext` of `main` (commented out in the file), followed by zero
bytes. -/
def main_plaintext : Buf := ofBytes
  [0x4c, 0x69, 0x74, 0x65]

/-- The first two calls of `main` (commented out in the file),
`expand_speck_64_32(encryption_key, key_schedule); encrypt_speck_64_32(key_schedule, plaintext, ciphertext);`:
the ciphertext buffer after them, given what the buffers `key_schedule` and
`ciphertext` held before. -/
def main_ciphertext (key_schedule ciphertext : Buf) : Buf :=
  encrypt_speck_64_32 (expand_speck_64_32 main_encryption_key key_schedule) main_plaintext ciphertext

end speck64_32

/-! ## src/speck/72_48/speck72_48-2.c -/

namespace speck72_48

def rotation_alpha : Nat := 8
def rotation_beta : Nat := 3
def key_size : Nat := 3
def word_size : Nat := 24
def bytes : Nat := 3
def rounds : Nat := 3
def mod_mask : Nat := 0x00FFFFFF

/-- The macro `rotate_right(x, r)` on an operand of an `h`-bit unsigned type. -/
def rotate_right (h x r : Nat) : Nat := (x >>> r) ||| shl h x (word_size - r)

/-- The macro `rotate_left(x, r)` on an operand of an `h`-bit unsigned type. -/
def rotate_left (h x r : Nat) : Nat := shl h x r ||| (x >>> (word_size - r))

/-- The body of the loop of `expand_speck` before its final `memcpy`. The inner
loop `for (int i = 1; i < (key_size - 1); i++) keys[i] = keys[i + 1];` runs
`key_size - 2` times, its counter being `t + 1`. This file declares `uint64_t keys[3]`: the
element `keys3` of `Keys` is never read or written here. -/
def expand_step (i : Nat) (keys : Keys) : Keys :=
  let x := rotate_right 64 (keys.get 1) rotation_alpha &&& mod_mask
  let x := add 64 x (keys.get 0) &&& mod_mask
  let x := (x ^^^ i) &&& mod_mask
  let y := rotate_left 64 (keys.get 0) rotation_beta &&& mod_mask
  let y := y ^^^ x
  let keys := keys.set 0 y
  let keys := forUp (fun t keys => keys.set (t + 1) (keys.get (t + 1 + 1))) (key_size - 1 - 1) keys
  keys.set (key_size - 1) x

/-- The function `expand_speck`: the loop runs while `i < rounds - 1`. -/
def expand_speck (key key_schedule : Buf) : Buf :=
  (expand_loop expand_step bytes (rounds - 1) (load_keys key key_schedule bytes key_size)).key_schedule

/-- The function `encrypt_speck_72_48`. `y`, `x` and `round_key` are
`uint32_t` locals filled by copies of `bytes` bytes; `mod_mask` is `uint64_t`. -/
def encrypt_speck_72_48 (key_schedule plaintext ciphertext : Buf) (u : Locals) : Buf :=
  let y := memcpyWord 32 u.y plaintext 0 bytes
  let x := memcpyWord 32 u.x plaintext bytes bytes
  let x := (x &&& mod_mask) % 2 ^ 32
  let y := (y &&& mod_mask) % 2 ^ 32
  let s := forUp (fun i (s : Regs) =>
    let round_key := memcpyWord 32 s.round_key key_schedule (bytes * i) bytes
    let round_key := (round_key &&& mod_mask) % 2 ^ 32
    let x := (rotate_right 32 s.x rotation_alpha &&& mod_mask) % 2 ^ 32
    let x := (add 32 x s.y &&& mod_mask) % 2 ^ 32
    let x := ((x ^^^ round_key) &&& mod_mask) % 2 ^ 32
    let y := (rotate_left 32 s.y rotation_beta &&& mod_mask) % 2 ^ 32
    let y := ((y ^^^ x) &&& mod_mask) % 2 ^ 32
    { x := x, y := y, round_key := round_key })
    rounds { x := x, y := y, round_key := u.round_key % 2 ^ 32 }
  storeLE (storeLE ciphertext 0 sizeof_bytes3_t s.y) sizeof_bytes3_t sizeof_bytes3_t s.x

/-- The function `decrypt_speck_72_48`. -/
def decrypt_speck_72_48 (key_schedule plaintext ciphertext : Buf) (u : Locals) : Buf :=
  let y := memcpyWord 32 u.y ciphertext 0 bytes
  let x := memcpyWord 32 u.x ciphertext bytes bytes
  let x := (x &&& mod_mask) % 2 ^ 32
  let y := (y &&& mod_mask) % 2 ^ 32
  let s := forUp (fun i (s : Regs) =>
    let round_key := memcpyWord 32 s.round_key key_schedule (bytes * (rounds - 1 - i)) bytes
    let round_key := (round_key &&& mod_mask) % 2 ^ 32
    let y := ((s.y ^^^ s.x) &&& mod_mask) % 2 ^ 32
    let y := (rotate_right 32 y rotation_beta &&& mod_mask) % 2 ^ 32
    let x := ((s.x ^^^ round_key) &&& mod_mask) % 2 ^ 32
    let x := (sub 32 x y &&& mod_mask) % 2 ^ 32
    let x := (rotate_left 32 x rotation_alpha &&& mod_mask) % 2 ^ 32
    { x := x, y := y, round_key := round_key })
    rounds { x := x, y := y, round_key := u.round_key % 2 ^ 32 }
  storeLE (storeLE plaintext 0 sizeof_bytes3_t s.y) sizeof_bytes3_t sizeof_bytes3_t s.x

end speck72_48

/-! ## src/speck/96_48/speck96_48.c -/

namespace speck96_48

def rotation_alpha : Nat := 8
def rotation_beta : Nat := 3
def key_size : Nat := 4
def word_size : Nat := 24
def bytes : Nat := 3
def rounds : Nat := 23
def mod_mask : Nat := 0x00FFFFFF

/-- The macro `rotate_right(x, r)` on an operand of an `h`-bit unsigned type. -/
def rotate_right (h x r : Nat) : Nat := (x >>> r) ||| shl h x (word_size - r)

/-- The macro `rotate_left(x, r)` on an operand of an `h`-bit unsigned type. -/
def rotate_left (h x r : Nat) : Nat := shl h x r ||| (x >>> (word_size - r))

/-- The body of the loop of `expand_speck` before its final `memcpy`. The inner
loop `for (int i = 1; i < (key_size - 1); i++) keys[i] = keys[i + 1];` runs
`key_size - 2` times, its counter being `t + 1`. -/
def expand_step (i : Nat) (keys : Keys) : Keys :=
  let x := rotate_right 64 (keys.get 1) rotation_alpha &&& mod_mask
  let x := add 64 x (keys.get 0) &&& mod_mask
  let x := (x ^^^ i) &&& mod_mask
  let y := rotate_left 64 (keys.get 0) rotation_beta &&& mod_mask
  let y := y ^^^ x
  let keys := keys.set 0 y
  let keys := forUp (fun t keys => keys.set (t + 1) (keys.get (t + 1 + 1))) (key_size - 1 - 1) keys
  keys.set (key_size - 1) x

/-- The function `expand_speck`: the loop runs while `i < rounds - 1`. -/
def expand_speck (key key_schedule : Buf) : Buf :=
  (expand_loop expand_step bytes (rounds - 1) (load_keys key key_schedule bytes key_size)).key_schedule

/-- The function `encrypt_speck_96_48`. `y`, `x` and `round_key` are
`uint32_t` locals filled by copies of `bytes` bytes; `mod_mask` is `uint64_t`. -/
def encrypt_speck_96_48 (key_schedule plaintext ciphertext : Buf) (u : Locals) : Buf :=
  let y := memcpyWord 32 u.y plaintext 0 bytes
  let x := memcpyWord 32 u.x plaintext bytes bytes
  let x := (x &&& mod_mask) % 2 ^ 32
  let y := (y &&& mod_mask) % 2 ^ 32
  let s := forUp (fun i (s : Regs) =>
    let round_key := memcpyWord 32 s.round_key key_schedule (bytes * i) bytes
    let round_key := (round_key &&& mod_mask) % 2 ^ 32
    let x := (rotate_right 32 s.x rotation_alpha &&& mod_mask) % 2 ^ 32
    let x := (add 32 x s.y &&& mod_mask) % 2 ^ 32
    let x := ((x ^^^ round_key) &&& mod_mask) % 2 ^ 32
    let y := (rotate_left 32 s.y rotation_beta &&& mod_mask) % 2 ^ 32
    let y := ((y ^^^ x) &&& mod_mask) % 2 ^ 32
    { x := x, y := y, round_key := round_key })
    rounds { x := x, y := y, round_key := u.round_key % 2 ^ 32 }
  storeLE (storeLE ciphertext 0 sizeof_bytes3_t s.y) sizeof_bytes3_t sizeof_bytes3_t s.x

/-- The function `decrypt_speck_96_48`. -/
def decrypt_speck_96_48 (key_schedule plaintext ciphertext : Buf) (u : Locals) : Buf :=
  let y := memcpyWord 32 u.y ciphertext 0 bytes
  let x := memcpyWord 32 u.x ciphertext bytes bytes
  let x := (x &&& mod_mask) % 2 ^ 32
  let y := (y &&& mod_mask) % 2 ^ 32
  let s := forUp (fun i (s : Regs) =>
    let round_key := memcpyWord 32 s.round_key key_schedule (bytes * (rounds - 1 - i)) bytes
    let round_key := (round_key &&& mod_mask) % 2 ^ 32
    let y := ((s.y ^^^ s.x) &&& mod_mask) % 2 ^ 32
    let y := (rotate_right 32 y rotation_beta &&& mod_mask) % 2 ^ 32
    let x := ((s.x ^^^ round_key) &&& mod_mask) % 2 ^ 32
    let x := (sub 32 x y &&& mod_mask) % 2 ^ 32
    let x := (rotate_left 32 x rotation_alpha &&& mod_mask) % 2 ^ 32
    { x := x, y := y, round_key := round_key })
    rounds { x := x, y := y, round_key := u.round_key % 2 ^ 32 }
  storeLE (storeLE plaintext 0 sizeof_bytes3_t s.y) sizeof_bytes3_t sizeof_bytes3_t s.x

/-- The array `encryption_key` of `main`, followed by zero
bytes. -/
def main_encryption_key : Buf := ofBytes
  [0x00, 0x01, 0x02, 0x08, 0x09, 0x0A, 0x10, 0x11, 0x12, 0x18, 0x19, 0x1a]

/-- The array `plaintext` of `main`, followed by zero
bytes. -/
def main_plaintext : Buf := ofBytes
  [0x74, 0x68, 0x69, 0x73, 0x20, 0x6d]

/-- The first two calls of `main`,
`expand_speck(encryption_key, key_schedule); encrypt_speck_96_48(key_schedule, plaintext, ciphertext);`:
the ciphertext buffer after them, given what the buffers `key_schedule` and
`ciphertext` held before,
and the initial contents `u` of the locals of the encryption. -/
def main_ciphertext (key_schedule ciphertext : Buf) (u : Locals) : Buf :=
  encrypt_speck_96_48 (expand_speck main_encryption_key key_schedule) main_plaintext ciphertext u

end speck96_48

/-! ## src/speck/96_96/speck96_96.c -/

namespace speck96_96

def rotation_alpha : Nat := 8
def rotation_beta : Nat := 3
def key_size : Nat := 2
def word_size : Nat := 48
def bytes : Nat := 6
def rounds : Nat := 28
def mod_mask : Nat := 0x00FFFFFFFFFFFF

/-- The macro `rotate_right(x, r)` on an operand of an `h`-bit unsigned type. -/
def rotate_right (h x r : Nat) : Nat := (x >>> r) ||| shl h x (word_size - r)

/-- The macro `rotate_left(x, r)` on an operand of an `h`-bit unsigned type. -/
def rotate_left (h x r : Nat) : Nat := shl h x r ||| (x >>> (word_size - r))

/-- The body of the loop of `expand_speck` before its final `memcpy`. The inner
loop `for (int i = 1; i < (key_size - 1); i++) keys[i] = keys[i + 1];` runs
`key_size - 2` times, its counter being `t + 1`. -/
def expand_step (i : Nat) (keys : Keys) : Keys :=
  let x := rotate_right 64 (keys.get 1) rotation_alpha &&& mod_mask
  let x := add 64 x (keys.get 0) &&& mod_mask
  let x := (x ^^^ i) &&& mod_mask
  let y := rotate_left 64 (keys.get 0) rotation_beta &&& mod_mask
  let y := y ^^^ x
  let keys := keys.set 0 y
  let keys := forUp (fun t keys => keys.set (t + 1) (keys.get (t + 1 + 1))) (key_size - 1 - 1) keys
  keys.set (key_size - 1) x

/-- The function `expand_speck`: the loop runs while `i < rounds`. -/
def expand_speck (key key_schedule : Buf) : Buf :=
  (expand_loop expand_step bytes (rounds) (load_keys key key_schedule bytes key_size)).key_schedule

/-- The function `encrypt_speck_96_96`. `y`, `x` and `round_key` are
`uint64_t` locals filled by copies of `bytes` bytes; `mod_mask` is `uint64_t`. -/
def encrypt_speck_96_96 (key_schedule plaintext ciphertext : Buf) (u : Locals) : Buf :=
  let y := memcpyWord 64 u.y plaintext 0 bytes
  let x := memcpyWord 64 u.x plaintext bytes bytes
  let x := x &&& mod_mask
  let y := y &&& mod_mask
  let s := forUp (fun i (s : Regs) =>
    let round_key := memcpyWord 64 s.round_key key_schedule (bytes * i) bytes
    let round_key := round_key &&& mod_mask
    let x := rotate_right 64 s.x rotation_alpha &&& mod_mask
    let x := add 64 x s.y &&& mod_mask
    let x := (x ^^^ round_key) &&& mod_mask
    let y := rotate_left 64 s.y rotation_beta &&& mod_mask
    let y := (y ^^^ x) &&& mod_mask
    { x := x, y := y, round_key := round_key })
    rounds { x := x, y := y, round_key := u.round_key % 2 ^ 64 }
  storeLE (storeLE ciphertext 0 sizeof_bytes6_t s.y) sizeof_bytes6_t sizeof_bytes6_t s.x

/-- The function `decrypt_speck_96_96`. -/
def decrypt_speck_96_96 (key_schedule plaintext ciphertext : Buf) (u : Locals) : Buf :=
  let y := memcpyWord 64 u.y ciphertext 0 bytes
  let x := memcpyWord 64 u.x ciphertext bytes bytes
  let x := x &&& mod_mask
  let y := y &&& mod_mask
  let s := forUp (fun i (s : Regs) =>
    let round_key := memcpyWord 64 s.round_key key_schedule (bytes * (rounds - 1 - i)) bytes
    let round_key := round_key &&& mod_mask
    let y := (s.y ^^^ s.x) &&& mod_mask
    let y := rotate_right 64 y rotation_beta &&& mod_mask
    let x := (s.x ^^^ round_key) &&& mod_mask
    let x := sub 64 x y &&& mod_mask
    let x := rotate_left 64 x rotation_alpha &&& mod_mask
    { x := x, y := y, round_key := round_key })
    rounds { x := x, y := y, round_key := u.round_key % 2 ^ 64 }
  storeLE (storeLE plaintext 0 sizeof_bytes6_t s.y) sizeof_bytes6_t sizeof_bytes6_t s.x

end speck96_96

/-! ## src/speck/128_64/speck128_64.c -/

namespace speck128_64

def rotation_alpha : Nat := 8
def rotation_beta : Nat := 3
def key_size : Nat := 4
def word_size : Nat := 32
def bytes : Nat := 4
def rounds : Nat := 27

/-- The macro `rotate_right(x, r)` on an operand of an `h`-bit unsigned type. -/
def rotate_right (h x r : Nat) : Nat := (x >>> r) ||| shl h x (word_size - r)

/-- The macro `rotate_left(x, r)` on an operand of an `h`-bit unsigned type. -/
def rotate_left (h x r : Nat) : Nat := shl h x r ||| (x >>> (word_size - r))

/-- The body of the loop of `expand_speck_128_64` before its final `memcpy`. The inner
loop `for (int i = 1; i < (key_size - 1); i++) keys[i] = keys[i + 1];` runs
`key_size - 2` times, its counter being `t + 1`. -/
def expand_step (i : Nat) (keys : Keys) : Keys :=
  let mod_mask := ULLONG_MAX >>> (64 - word_size)
  let x := rotate_right 64 (keys.get 1) rotation_alpha &&& mod_mask
  let x := add 64 x (keys.get 0) &&& mod_mask
  let x := (x ^^^ i) &&& mod_mask
  let y := rotate_left 64 (keys.get 0) rotation_beta &&& mod_mask
  let y := y ^^^ x
  let keys := keys.set 0 y
  let keys := forUp (fun t keys => keys.set (t + 1) (keys.get (t + 1 + 1))) (key_size - 1 - 1) keys
  keys.set (key_size - 1) x

/-- The function `expand_speck_128_64`: the loop runs while `i < rounds`. -/
def expand_speck_128_64 (key key_schedule : Buf) : Buf :=
  (expand_loop expand_step bytes (rounds) (load_keys key key_schedule bytes key_size)).key_schedule

/-- The function `encrypt_speck_128_64`. `y` and `x` are `uint32_t`, read
and written through `uint32_t *`; `mod_mask` is a `uint64_t` local. -/
def encrypt_speck_128_64 (key_schedule plaintext ciphertext : Buf) : Buf :=
  let mod_mask := ULLONG_MAX >>> (64 - word_size)
  let y := loadLE plaintext 0 4
  let x := loadLE plaintext 4 4
  let s := forUp (fun i (s : Regs) =>
    let x := (rotate_right 32 s.x rotation_alpha &&& mod_mask) % 2 ^ 32
    let x := (add 32 x s.y &&& mod_mask) % 2 ^ 32
    let x := ((x ^^^ loadLE key_schedule (4 * i) 4) &&& mod_mask) % 2 ^ 32
    let y := (rotate_left 32 s.y rotation_beta &&& mod_mask) % 2 ^ 32
    let y := ((y ^^^ x) &&& mod_mask) % 2 ^ 32
    { s with x := x, y := y })
    rounds { x := x, y := y, round_key := 0 }
  storeLE (storeLE ciphertext 0 4 s.y) 4 4 s.x

/-- The function `decrypt_speck_128_64`. -/
def decrypt_speck_128_64 (key_schedule plaintext ciphertext : Buf) : Buf :=
  let mod_mask := ULLONG_MAX >>> (64 - word_size)
  let y := loadLE ciphertext 0 4
  let x := loadLE ciphertext 4 4
  let s := forUp (fun i (s : Regs) =>
    let y := ((s.y ^^^ s.x) &&& mod_mask) % 2 ^ 32
    let y := (rotate_right 32 y rotation_beta &&& mod_mask) % 2 ^ 32
    let x := ((s.x ^^^ loadLE key_schedule (4 * (rounds - 1 - i)) 4) &&& mod_mask) % 2 ^ 32
    let x := (sub 32 x y &&& mod_mask) % 2 ^ 32
    let x := (rotate_left 32 x rotation_alpha &&& mod_mask) % 2 ^ 32
    { s with x := x, y := y })
    rounds { x := x, y := y, round_key := 0 }
  storeLE (storeLE plaintext 0 4 s.y) 4 4 s.x

/-- The array `encryption_key` of `main`, followed by zero
bytes. -/
def main_encryption_key : Buf := ofBytes
  [0x00, 0x01, 0x02, 0x03, 0x08, 0x09, 0x0a, 0x0b, 0x10, 0x11, 0x12, 0x13, 0x18, 0x19, 0x1a, 0x1b]

/-- The array `plaintext` of `main`, followed by zero
bytes. -/
def main_plaintext : Buf := ofBytes
  [0x2d, 0x43, 0x75, 0x74, 0x74, 0x65, 0x72, 0x3b]

/-- The first two calls of `main`,
`expand_speck_128_64(encryption_key, key_schedule); encrypt_speck_128_64(key_schedule, plaintext, ciphertext);`:
the ciphertext buffer after them, given what the buffers `key_schedule` and
`ciphertext` held before. -/
def main_ciphertext (key_schedule ciphertext : Buf) : Buf :=
  encrypt_speck_128_64 (expand_speck_128_64 main_encryption_key key_schedule) main_plaintext ciphertext

end speck128_64

/-! ## src/speck/128_128/speck128_128.c -/

namespace speck128_128

def rotation_alpha : Nat := 8
def rotation_beta : Nat := 3
def key_size : Nat := 2
def word_size : Nat := 64
def bytes : Nat := 8
def rounds : Nat := 32

/-- The macro `rotate_right(x, r)` on an operand of an `h`-bit unsigned type. -/
def rotate_right (h x r : Nat) : Nat := (x >>> r) ||| shl h x (word_size - r)

/-- The macro `rotate_left(x, r)` on an operand of an `h`-bit unsigned type. -/
def rotate_left (h x r : Nat) : Nat := shl h x r ||| (x >>> (word_size - r))

/-- The body of the loop of `expand_speck` before its final `memcpy`. The inner
loop `for (int i = 1; i < (key_size - 1); i++) keys[i] = keys[i + 1];` runs
`key_size - 2` times, its counter being `t + 1`. -/
def expand_step (i : Nat) (keys : Keys) : Keys :=
  let mod_mask := ULLONG_MAX >>> (64 - word_size)
  let x := rotate_right 64 (keys.get 1) rotation_alpha &&& mod_mask
  let x := add 64 x (keys.get 0) &&& mod_mask
  let x := (x ^^^ i) &&& mod_mask
  let y := rotate_left 64 (keys.get 0) rotation_beta &&& mod_mask
  let y := y ^^^ x
  let keys := keys.set 0 y
  let keys := forUp (fun t keys => keys.set (t + 1) (keys.get (t + 1 + 1))) (key_size - 1 - 1) keys
  keys.set (key_size - 1) x

/-- The function `expand_speck`: the loop runs while `i < rounds - 1`. -/
def expand_speck (key key_schedule : Buf) : Buf :=
  (expand_loop expand_step bytes (rounds - 1) (load_keys key key_schedule bytes key_size)).key_schedule

/-- The function `encrypt_speck_128_128`. `y` and `x` are `uint64_t`, read
and written through `uint64_t *`; `mod_mask` is a `uint64_t` local. -/
def encrypt_speck_128_128 (key_schedule plaintext ciphertext : Buf) : Buf :=
  let mod_mask := ULLONG_MAX >>> (64 - word_size)
  let y := loadLE plaintext 0 8
  let x := loadLE plaintext 8 8
  let s := forUp (fun i (s : Regs) =>
    let x := rotate_right 64 s.x rotation_alpha &&& mod_mask
    let x := add 64 x s.y &&& mod_mask
    let x := (x ^^^ loadLE key_schedule (8 * i) 8) &&& mod_mask
    let y := rotate_left 64 s.y rotation_beta &&& mod_mask
    let y := (y ^^^ x) &&& mod_mask
    { s with x := x, y := y })
    rounds { x := x, y := y, round_key := 0 }
  storeLE (storeLE ciphertext 0 8 s.y) 8 8 s.x

/-- The function `decrypt_speck_128_128`. -/
def decrypt_speck_128_128 (key_schedule plaintext ciphertext : Buf) : Buf :=
  let mod_mask := ULLONG_MAX >>> (64 - word_size)
  let y := loadLE ciphertext 0 8
  let x := loadLE ciphertext 8 8
  let s := forUp (fun i (s : Regs) =>
    let y := (s.y ^^^ s.x) &&& mod_mask
    let y := rotate_right 64 y rotation_beta &&& mod_mask
    let x := (s.x ^^^ loadLE key_schedule (8 * (rounds - 1 - i)) 8) &&& mod_mask
    let x := sub 64 x y &&& mod_mask
    let x := rotate_left 64 x rotation_alpha &&& mod_mask
    { s with x := x, y := y })
    rounds { x := x, y := y, round_key := 0 }
  storeLE (storeLE plaintext 0 8 s.y) 8 8 s.x

/-- The array `encryption_key` of `main`, followed by zero
bytes. -/
def main_encryption_key : Buf := ofBytes
  [0x00, 0x01, 0x02, 0x03, 0x04, 0x05, 0x06, 0x07, 0x08, 0x09, 0x0a, 0x0b, 0x0c, 0x0d, 0x0e, 0x0f]

/-- The array `plaintext` of `main`, followed by zero
bytes. -/
def main_plaintext : Buf := ofBytes
  [0x20, 0x6d, 0x61, 0x64, 0x65, 0x20, 0x69, 0x74, 0x20, 0x65, 0x71, 0x75, 0x69, 0x76, 0x61, 0x6c]

/-- The first two calls of `main`,
`expand_speck(encryption_key, key_schedule); encrypt_speck_128_128(key_schedule, plaintext, ciphertext);`:
the ciphertext buffer after them, given what the buffers `key_schedule` and
`ciphertext` held before. -/
def main_ciphertext (key_schedule ciphertext : Buf) : Buf :=
  encrypt_speck_128_128 (expand_speck main_encryption_key key_schedule) main_plaintext ciphertext

end speck128_128

/-! ## src/speck/256_128/speck256_128.c -/

namespace speck256_128

def rotation_alpha : Nat := 8
def rotation_beta : Nat := 3
def key_size : Nat := 4
def word_size : Nat := 64
def bytes : Nat := 12
def rounds : Nat := 34

/-- The macro `rotate_right(x, r)` on an operand of an `h`-bit unsigned type. -/
def rotate_right (h x r : Nat) : Nat := (x >>> r) ||| shl h x (word_size - r)

/-- The macro `rotate_left(x, r)` on an operand of an `h`-bit unsigned type. -/
def rotate_left (h x r : Nat) : Nat := shl h x r ||| (x >>> (word_size - r))

/-- The body of the loop of `expand_speck` before its final `memcpy`. The inner
loop `for (int i = 1; i < (key_size - 1); i++) keys[i] = keys[i + 1];` runs
`key_size - 2` times, its counter being `t + 1`. -/
def expand_step (i : Nat) (keys : Keys) : Keys :=
  let mod_mask := ULLONG_MAX >>> (64 - word_size)
  let x := rotate_right 64 (keys.get 1) rotation_alpha &&& mod_mask
  let x := add 64 x (keys.get 0) &&& mod_mask
  let x := (x ^^^ i) &&& mod_mask
  let y := rotate_left 64 (keys.get 0) rotation_beta &&& mod_mask
  let y := y ^^^ x
  let keys := keys.set 0 y
  let keys := forUp (fun t keys => keys.set (t + 1) (keys.get (t + 1 + 1))) (key_size - 1 - 1) keys
  keys.set (key_size - 1) x

/-- The function `expand_speck`: the loop runs while `i < rounds`. -/
def expand_speck (key key_schedule : Buf) : Buf :=
  (expand_loop expand_step bytes (rounds) (load_keys key key_schedule bytes key_size)).key_schedule

/-- The function `encrypt_speck_256_128`. `y` and `x` are `uint64_t`, read
and written through `uint64_t *`; `mod_mask` is a `uint64_t` local. -/
def encrypt_speck_256_128 (key_schedule plaintext ciphertext : Buf) : Buf :=
  let mod_mask := ULLONG_MAX >>> (64 - word_size)
  let y := loadLE plaintext 0 8
  let x := loadLE plaintext 8 8
  let s := forUp (fun i (s : Regs) =>
    let x := rotate_right 64 s.x rotation_alpha &&& mod_mask
    let x := add 64 x s.y &&& mod_mask
    let x := (x ^^^ loadLE key_schedule (8 * i) 8) &&& mod_mask
    let y := rotate_left 64 s.y rotation_beta &&& mod_mask
    let y := (y ^^^ x) &&& mod_mask
    { s with x := x, y := y })
    rounds { x := x, y := y, round_key := 0 }
  storeLE (storeLE ciphertext 0 8 s.y) 8 8 s.x

/-- The function `decrypt_speck_256_128`. -/
def decrypt_speck_256_128 (key_schedule plaintext ciphertext : Buf) : Buf :=
  let mod_mask := ULLONG_MAX >>> (64 - word_size)
  let y := loadLE ciphertext 0 8
  let x := loadLE ciphertext 8 8
  let s := forUp (fun i (s : Regs) =>
    let y := (s.y ^^^ s.x) &&& mod_mask
    let y := rotate_right 64 y rotation_beta &&& mod_mask
    let x := (s.x ^^^ loadLE key_schedule (8 * (rounds - 1 - i)) 8) &&& mod_mask
    let x := sub 64 x y &&& mod_mask
    let x := rotate_left 64 x rotation_alpha &&& mod_mask
    { s with x := x, y := y })
    rounds { x := x, y := y, round_key := 0 }
  storeLE (storeLE plaintext 0 8 s.y) 8 8 s.x

/-- The array `encryption_key` of `main`, followed by zero
bytes. -/
def main_encryption_key : Buf := ofBytes
  [0x00, 0x01, 0x02, 0x03, 0x04, 0x05, 0x06, 0x07, 0x08, 0x09, 0x0a, 0x0b, 0x0c, 0x0d, 0x0e, 0x0f,
    0x10, 0x11, 0x12, 0x13, 0x14, 0x15, 0x16, 0x17, 0x18, 0x19, 0x1a, 0x1b, 0x1c, 0x1d, 0x1e, 0x1f]

/-- The array `plaintext` of `main`, followed by zero
bytes. -/
def main_plaintext : Buf := ofBytes
  [0x70, 0x6f, 0x6f, 0x6e, 0x65, 0x72, 0x2e, 0x20, 0x49, 0x6e, 0x20, 0x74, 0x68, 0x6f, 0x73, 0x65]

/-- The first two calls of `main`,
`expand_speck(encryption_key, key_schedule); encrypt_speck_256_128(key_schedule, plaintext, ciphertext);`:
the ciphertext buffer after them, given what the buffers `key_schedule` and
`ciphertext` held before. -/
def main_ciphertext (key_schedule ciphertext : Buf) : Buf :=
  encrypt_speck_256_128 (expand_speck main_encryption_key key_schedule) main_plaintext ciphertext

end speck256_128

/-! ## src/simon/64_32/simon64_32.c -/

namespace simon64_32

def key_size : Nat := 4
def word_size : Nat := 16
def bytes : Nat := 2
def rounds : Nat := 32
def z_sequence : Nat := 0b0001100111000011010100100010111110110011100001101010010001011111

/-- The macro `shift_left(x, r)` on an operand whose (promoted) type has `h` bits. -/
def shift_left (h x r : Nat) : Nat := shl h x r ||| (x >>> (word_size - r))

/-- The macro `shift_right(x, r)`, whose body
`(x >> r) | ((x & ((1 << r) - 1)) << (word_size - r))` has no outer
parentheses, used as a whole right-hand side. -/
def shift_right (h x r : Nat) : Nat :=
  (x >>> r) ||| shl h (x &&& ((1 <<< r) - 1)) (word_size - r)

/-- The expression `shift_right(x, r) & m`: since the macro body has no outer
parentheses and `&` binds tighter than `|`, the mask applies to the second
operand of `|` only. -/
def shift_right_and (h x r m : Nat) : Nat :=
  (x >>> r) ||| (shl h (x &&& ((1 <<< r) - 1)) (word_size - r) &&& m)

/-- The body of the loop of `expand_simon_64_32` before its final `memcpy`. -/
def expand_step (i : Nat) (keys : Keys) : Keys :=
  let mod_mask := ULLONG_MAX >>> (64 - word_size)
  let c := 0xfffffffffffffffc
  let x := shift_right 64 (keys.get (key_size - 1)) 3
  let x := x ^^^ keys.get 1
  let y := shift_right 64 x 1
  let x := x ^^^ keys.get 0
  let x := x ^^^ y
  let y := c ^^^ ((z_sequence >>> (i % 62)) &&& 1)
  let x := x ^^^ y
  let keys := forUp (fun t keys => keys.set t (keys.get (t + 1))) (key_size - 1) keys
  keys.set (key_size - 1) (x &&& mod_mask)

/-- The function `expand_simon_64_32`: the loop runs while `i < rounds`. -/
def expand_simon_64_32 (key key_schedule : Buf) : Buf :=
  (expand_loop expand_step bytes (rounds) (load_keys key key_schedule bytes key_size)).key_schedule

/-- The function `encrypt_simon_64_32`. `x`, `y` and `tmp` are `uint16_t`:
each right-hand side is computed in `int` (32 bits, no overflow occurs) and
truncated to 16 bits by the assignment. -/
def encrypt_simon_64_32 (key_schedule plaintext ciphertext : Buf) : Buf :=
  let y := loadLE plaintext 0 2
  let x := loadLE plaintext 2 2
  let s := forUp (fun i (s : Regs) =>
    let tmp := shift_left 32 s.x 1 % 2 ^ 16
    let tmp := (tmp &&& shift_left 32 s.x 8) % 2 ^ 16
    let tmp := (tmp ^^^ s.y) % 2 ^ 16
    let tmp := (tmp ^^^ shift_left 32 s.x 2) % 2 ^ 16
    let y := s.x
    let x := (tmp ^^^ loadLE key_schedule (2 * i) 2) % 2 ^ 16
    { s with x := x, y := y })
    rounds { x := x, y := y, round_key := 0 }
  storeLE (storeLE ciphertext 0 2 s.y) 2 2 s.x

/-- The function `decrypt_simon_64_32`: `x` is read from the first word of
the ciphertext, the loop counts `i` down from `rounds - 1` to 0. -/
def decrypt_simon_64_32 (key_schedule plaintext ciphertext : Buf) : Buf :=
  let x := loadLE ciphertext 0 2
  let y := loadLE ciphertext 2 2
  let s := forDown (fun i (s : Regs) =>
    let tmp := shift_left 32 s.x 1 % 2 ^ 16
    let tmp := (tmp &&& shift_left 32 s.x 8) % 2 ^ 16
    let tmp := (tmp ^^^ s.y) % 2 ^ 16
    let tmp := (tmp ^^^ shift_left 32 s.x 2) % 2 ^ 16
    let y := s.x
    let x := (tmp ^^^ loadLE key_schedule (2 * i) 2) % 2 ^ 16
    { s with x := x, y := y })
    rounds { x := x, y := y, round_key := 0 }
  storeLE (storeLE plaintext 0 2 s.x) 2 2 s.y

/-- The array `encryption_key` of `main`, followed by zero
bytes. -/
def main_encryption_key : Buf := ofBytes
  [0x00, 0x01, 0x08, 0x09, 0x10, 0x11, 0x18, 0x19]

/-- The array `plaintext` of `main`, followed by zero
bytes. -/
def main_plaintext : Buf := ofBytes
  [0x77, 0x68, 0x65, 0x65]

/-- The first two calls of `main`,
`expand_simon_64_32(encryption_key, key_schedule); encrypt_simon_64_32(key_schedule, plaintext, ciphertext);`:
the ciphertext buffer after them, given what the buffers `key_schedule` and
`ciphertext` held before. -/
def main_ciphertext (key_schedule ciphertext : Buf) : Buf :=
  encrypt_simon_64_32 (expand_simon_64_32 main_encryption_key key_schedule) main_plaintext ciphertext

end simon64_32

/-! ## src/simon/72_48/simon72_48.c -/

namespace simon72_48

def key_size : Nat := 3
def word_size : Nat := 24
def bytes : Nat := 3
def rounds : Nat := 36
def z_sequence : Nat := 0b0001100111000011010100100010111110110011100001101010010001011111
def mod_mask : Nat := 0x00FFFFFF

/-- The macro `shift_left(x, r)` on an operand of an `h`-bit unsigned type. -/
def shift_left (h x r : Nat) : Nat := shl h x r ||| (x >>> (word_size - r))

/-- The macro `shift_right(x, r)`, whose body
`(x >> r) | ((x & ((1 << r) - 1)) << (word_size - r))` has no outer
parentheses, used as a whole right-hand side. -/
def shift_right (h x r : Nat) : Nat :=
  (x >>> r) ||| shl h (x &&& ((1 <<< r) - 1)) (word_size - r)

/-- The expression `shift_right(x, r) & m`: since the macro body has no outer
parentheses and `&` binds tighter than `|`, the mask applies to the second
operand of `|` only. -/
def shift_right_and (h x r m : Nat) : Nat :=
  (x >>> r) ||| (shl h (x &&& ((1 <<< r) - 1)) (word_size - r) &&& m)

/-- The body of the loop of `expand_simon_72_48` before its final `memcpy`. -/
def expand_step (i : Nat) (keys : Keys) : Keys :=
  let c := 0xfffffffffffffffc
  let x := shift_right_and 64 (keys.get (key_size - 1)) 3 mod_mask
  let y := shift_right_and 64 x 1 mod_mask
  let x := (x ^^^ keys.get 0) &&& mod_mask
  let x := (x ^^^ y) &&& mod_mask
  let y := (c ^^^ ((z_sequence >>> (i % 62)) &&& 1)) &&& mod_mask
  let x := (x ^^^ y) &&& mod_mask
  let keys := forUp (fun t keys => keys.set t (keys.get (t + 1))) (key_size - 1) keys
  keys.set (key_size - 1) (x &&& mod_mask)

/-- The function `expand_simon_72_48`: the loop runs while `i < rounds - 1`. -/
def expand_simon_72_48 (key key_schedule : Buf) : Buf :=
  (expand_loop expand_step bytes (rounds - 1) (load_keys key key_schedule bytes key_size)).key_schedule

/-- The function `encrypt_simon_72_48`. `y`, `x` and `round_key` are
`uint64_t` locals filled by copies of `bytes` bytes. -/
def encrypt_simon_72_48 (key_schedule plaintext ciphertext : Buf) (u : Locals) : Buf :=
  let y := memcpyWord 64 u.y plaintext 0 bytes
  let x := memcpyWord 64 u.x plaintext bytes bytes
  let x := x &&& mod_mask
  let y := y &&& mod_mask
  let s := forUp (fun i (s : Regs) =>
    let round_key := memcpyWord 64 s.round_key key_schedule (bytes * i) bytes
    let round_key := round_key &&& mod_mask
    let tmp := shift_left 64 s.x 1 &&& mod_mask
    let tmp := (tmp &&& shift_left 64 s.x 8) &&& mod_mask
    let tmp := (tmp ^^^ s.y) &&& mod_mask
    let tmp := (tmp ^^^ shift_left 64 s.x 2) &&& mod_mask
    let y := s.x
    let x := (tmp ^^^ round_key) &&& mod_mask
    { x := x, y := y, round_key := round_key })
    rounds { x := x, y := y, round_key := u.round_key % 2 ^ 64 }
  storeLE (storeLE ciphertext 0 sizeof_bytes3_t s.y) sizeof_bytes3_t sizeof_bytes3_t s.x

/-- The function `decrypt_simon_72_48`: `x` is read from the first word of
the ciphertext, round `i` uses subkey `rounds - 1 - i`. -/
def decrypt_simon_72_48 (key_schedule plaintext ciphertext : Buf) (u : Locals) : Buf :=
  let x := memcpyWord 64 u.x ciphertext 0 bytes
  let y := memcpyWord 64 u.y ciphertext bytes bytes
  let x := x &&& mod_mask
  let y := y &&& mod_mask
  let s := forUp (fun i (s : Regs) =>
    let round_key := memcpyWord 64 s.round_key key_schedule (bytes * (rounds - 1 - i)) bytes
    let round_key := round_key &&& mod_mask
    let tmp := shift_left 64 s.x 1 &&& mod_mask
    let tmp := (tmp &&& shift_left 64 s.x 8) &&& mod_mask
    let tmp := (tmp ^^^ s.y) &&& mod_mask
    let tmp := (tmp ^^^ shift_left 64 s.x 2) &&& mod_mask
    let y := s.x
    let x := (tmp ^^^ round_key) &&& mod_mask
    { x := x, y := y, round_key := round_key })
    rounds { x := x, y := y, round_key := u.round_key % 2 ^ 64 }
  storeLE (storeLE plaintext 0 sizeof_bytes3_t s.x) sizeof_bytes3_t sizeof_bytes3_t s.y

end simon72_48

/-! ## src/simon/128_64/simon128_64.c -/

namespace simon128_64

def key_size : Nat := 4
def word_size : Nat := 32
def bytes : Nat := 4
def rounds : Nat := 44
def z_sequence : Nat := 0b0011110000101100111001010001001000000111101001100011010111011011

/-- The macro `shift_left(x, r)` on an operand of an `h`-bit unsigned type. -/
def shift_left (h x r : Nat) : Nat := shl h x r ||| (x >>> (word_size - r))

/-- The macro `shift_right(x, r)`, whose body
`(x >> r) | ((x & ((1 << r) - 1)) << (word_size - r))` has no outer
parentheses, used as a whole right-hand side. -/
def shift_right (h x r : Nat) : Nat :=
  (x >>> r) ||| shl h (x &&& ((1 <<< r) - 1)) (word_size - r)

/-- The expression `shift_right(x, r) & m`: since the macro body has no outer
parentheses and `&` binds tighter than `|`, the mask applies to the second
operand of `|` only. -/
def shift_right_and (h x r m : Nat) : Nat :=
  (x >>> r) ||| (shl h (x &&& ((1 <<< r) - 1)) (word_size - r) &&& m)

/-- The body of the loop of `expand_simon_128_64` before its final `memcpy`. -/
def expand_step (i : Nat) (keys : Keys) : Keys :=
  let c := 0xfffffffffffffffc
  let x := shift_right 64 (keys.get (key_size - 1)) 3
  let x := x ^^^ keys.get 1
  let y := shift_right 64 x 1
  let x := x ^^^ keys.get 0
  let x := x ^^^ y
  let y := c ^^^ ((z_sequence >>> (i % 62)) &&& 1)
  let x := x ^^^ y
  let keys := forUp (fun t keys => keys.set t (keys.get (t + 1))) (key_size - 1) keys
  keys.set (key_size - 1) (x &&& (ULLONG_MAX >>> (64 - word_size)))

/-- The function `expand_simon_128_64`: the loop runs while `i < rounds - 1`. -/
def expand_simon_128_64 (key key_schedule : Buf) : Buf :=
  (expand_loop expand_step bytes (rounds - 1) (load_keys key key_schedule bytes key_size)).key_schedule

/-- The function `encrypt_simon_128_64`. `x`, `y` and `tmp` are `uint32_t`,
`mod_mask` is a `uint64_t` local. -/
def encrypt_simon_128_64 (key_schedule plaintext ciphertext : Buf) : Buf :=
  let mod_mask := ULLONG_MAX >>> (64 - word_size)
  let y := loadLE plaintext 0 4
  let x := loadLE plaintext 4 4
  let s := forUp (fun i (s : Regs) =>
    let tmp := (shift_left 32 s.x 1 &&& mod_mask) % 2 ^ 32
    let tmp := ((tmp &&& shift_left 32 s.x 8) &&& mod_mask) % 2 ^ 32
    let tmp := ((tmp ^^^ s.y) &&& mod_mask) % 2 ^ 32
    let tmp := ((tmp ^^^ shift_left 32 s.x 2) &&& mod_mask) % 2 ^ 32
    let y := (s.x &&& mod_mask) % 2 ^ 32
    let x := ((tmp ^^^ loadLE key_schedule (4 * i) 4) &&& mod_mask) % 2 ^ 32
    { s with x := x, y := y })
    rounds { x := x, y := y, round_key := 0 }
  storeLE (storeLE ciphertext 0 4 s.y) 4 4 s.x

/-- The function `decrypt_simon_128_64`: `x` is read from the first word of
the ciphertext, the loop counts `i` down from `rounds - 1` to 0. -/
def decrypt_simon_128_64 (key_schedule plaintext ciphertext : Buf) : Buf :=
  let mod_mask := ULLONG_MAX >>> (64 - word_size)
  let x := loadLE ciphertext 0 4
  let y := loadLE ciphertext 4 4
  let s := forDown (fun i (s : Regs) =>
    let tmp := shift_left 32 s.x 1
    let tmp := ((tmp &&& shift_left 32 s.x 8) &&& mod_mask) % 2 ^ 32
    let tmp := ((tmp ^^^ s.y) &&& mod_mask) % 2 ^ 32
    let tmp := ((tmp ^^^ shift_left 32 s.x 2) &&& mod_mask) % 2 ^ 32
    let y := (s.x &&& mod_mask) % 2 ^ 32
    let x := ((tmp ^^^ loadLE key_schedule (4 * i) 4) &&& mod_mask) % 2 ^ 32
    { s with x := x, y := y })
    rounds { x := x, y := y, round_key := 0 }
  storeLE (storeLE plaintext 0 4 s.x) 4 4 s.y

end simon128_64

/-! ## src/simon/144_96/simon144_96.c -/

namespace simon144_96

def key_size : Nat := 3
def word_size : Nat := 48
def bytes : Nat := 6
def rounds : Nat := 54
def z_sequence : Nat := 0b0011110000101100111001010001001000000111101001100011010111011011
def mod_mask : Nat := 0x00FFFFFFFFFFFF

/-- The macro `shift_left(x, r)` on an operand of an `h`-bit unsigned type. -/
def shift_left (h x r : Nat) : Nat := shl h x r ||| (x >>> (word_size - r))

/-- The macro `shift_right(x, r)`, whose body
`(x >> r) | ((x & ((1 << r) - 1)) << (word_size - r))` has no outer
parentheses, used as a whole right-hand side. -/
def shift_right (h x r : Nat) : Nat :=
  (x >>> r) ||| shl h (x &&& ((1 <<< r) - 1)) (word_size - r)

/-- The expression `shift_right(x, r) & m`: since the macro body has no outer
parentheses and `&` binds tighter than `|`, the mask applies to the second
operand of `|` only. -/
def shift_right_and (h x r m : Nat) : Nat :=
  (x >>> r) ||| (shl h (x &&& ((1 <<< r) - 1)) (word_size - r) &&& m)

/-- The body of the loop of `expand_simon_144_96` before its final `memcpy`. -/
def expand_step (i : Nat) (keys : Keys) : Keys :=
  let c := 0xfffffffffffffffc
  let x := shift_right_and 64 (keys.get (key_size - 1)) 3 mod_mask
  let y := shift_right_and 64 x 1 mod_mask
  let x := (x ^^^ keys.get 0) &&& mod_mask
  let x := (x ^^^ y) &&& mod_mask
  let y := (c ^^^ ((z_sequence >>> (i % 62)) &&& 1)) &&& mod_mask
  let x := (x ^^^ y) &&& mod_mask
  let keys := forUp (fun t keys => keys.set t (keys.get (t + 1))) (key_size - 1) keys
  keys.set (key_size - 1) (x &&& mod_mask)

/-- The function `expand_simon_144_96`: the loop runs while `i < rounds - 1`. -/
def expand_simon_144_96 (key key_schedule : Buf) : Buf :=
  (expand_loop expand_step bytes (rounds - 1) (load_keys key key_schedule bytes key_size)).key_schedule

/-- The function `encrypt_simon_144_96`. `y`, `x` and `round_key` are
`uint64_t` locals filled by copies of `bytes` bytes. -/
def encrypt_simon_144_96 (key_schedule plaintext ciphertext : Buf) (u : Locals) : Buf :=
  let y := memcpyWord 64 u.y plaintext 0 bytes
  let x := memcpyWord 64 u.x plaintext bytes bytes
  let x := x &&& mod_mask
  let y := y &&& mod_mask
  let s := forUp (fun i (s : Regs) =>
    let round_key := memcpyWord 64 s.round_key key_schedule (bytes * i) bytes
    let round_key := round_key &&& mod_mask
    let tmp := shift_left 64 s.x 1 &&& mod_mask
    let tmp := (tmp &&& shift_left 64 s.x 8) &&& mod_mask
    let tmp := (tmp ^^^ s.y) &&& mod_mask
    let tmp := (tmp ^^^ shift_left 64 s.x 2) &&& mod_mask
    let y := s.x &&& mod_mask
    let x := (tmp ^^^ round_key) &&& mod_mask
    { x := x, y := y, round_key := round_key })
    rounds { x := x, y := y, round_key := u.round_key % 2 ^ 64 }
  storeLE (storeLE ciphertext 0 sizeof_bytes6_t s.y) sizeof_bytes6_t sizeof_bytes6_t s.x

/-- The function `decrypt_simon_144_96`: `x` is read from the first word of
the ciphertext, round `i` uses subkey `rounds - 1 - i`. -/
def decrypt_simon_144_96 (key_schedule plaintext ciphertext : Buf) (u : Locals) : Buf :=
  let x := memcpyWord 64 u.x ciphertext 0 bytes
  let y := memcpyWord 64 u.y ciphertext bytes bytes
  let x := x &&& mod_mask
  let y := y &&& mod_mask
  let s := forUp (fun i (s : Regs) =>
    let round_key := memcpyWord 64 s.round_key key_schedule (bytes * (rounds - 1 - i)) bytes
    let round_key := round_key &&& mod_mask
    let tmp := shift_left 64 s.x 1
    let tmp := (tmp &&& shift_left 64 s.x 8) &&& mod_mask
    let tmp := (tmp ^^^ s.y) &&& mod_mask
    let tmp := (tmp ^^^ shift_left 64 s.x 2) &&& mod_mask
    let y := s.x &&& mod_mask
    let x := (tmp ^^^ round_key) &&& mod_mask
    { x := x, y := y, round_key := round_key })
    rounds { x := x, y := y, round_key := u.round_key % 2 ^ 64 }
  storeLE (storeLE plaintext 0 sizeof_bytes6_t s.x) sizeof_bytes6_t sizeof_bytes6_t s.y

/-- The array `encryption_key` of `main`, followed by zero
bytes. -/
def main_encryption_key : Buf := ofBytes
  [0x00, 0x01, 0x02, 0x03, 0x04, 0x05, 0x08, 0x09, 0x0a, 0x0b, 0x0c, 0x0d, 0x10, 0x11, 0x12, 0x13,
    0x14, 0x15]

/-- The array `plaintext` of `main`, followed by zero
bytes. -/
def main_plaintext : Buf := ofBytes
  [0x6f, 0x66, 0x20, 0x64, 0x75, 0x73, 0x74, 0x20, 0x74, 0x68, 0x61, 0x74]

/-- The first two calls of `main`,
`expand_simon_144_96(encryption_key, key_schedule); encrypt_simon_144_96(key_schedule, plaintext, ciphertext);`:
the ciphertext buffer after them, given what the buffers `key_schedule` and
`ciphertext` held before,
and the initial contents `u` of the locals of the encryption. -/
def main_ciphertext (key_schedule ciphertext : Buf) (u : Locals) : Buf :=
  encrypt_simon_144_96 (expand_simon_144_96 main_encryption_key key_schedule) main_plaintext ciphertext u

end simon144_96

/-! ## src/simon/128_128/simon128_128.c -/

namespace simon128_128

def key_size : Nat := 2
def word_size : Nat := 64
def bytes : Nat := 8
def rounds : Nat := 68
def z_sequence : Nat := 0b0011001101101001111110001000010100011001001011000000111011110101

/-- The macro `shift_left(x, r)` on an operand of an `h`-bit unsigned type. -/
def shift_left (h x r : Nat) : Nat := shl h x r ||| (x >>> (word_size - r))

/-- The macro `shift_right(x, r)`, whose body
`(x >> r) | ((x & ((1 << r) - 1)) << (word_size - r))` has no outer
parentheses, used as a whole right-hand side. -/
def shift_right (h x r : Nat) : Nat :=
  (x >>> r) ||| shl h (x &&& ((1 <<< r) - 1)) (word_size - r)

/-- The expression `shift_right(x, r) & m`: since the macro body has no outer
parentheses and `&` binds tighter than `|`, the mask applies to the second
operand of `|` only. -/
def shift_right_and (h x r m : Nat) : Nat :=
  (x >>> r) ||| (shl h (x &&& ((1 <<< r) - 1)) (word_size - r) &&& m)

/-- The body of the loop of `expand_simon_128_128` before its final `memcpy`. In
`x = x ^ keys[0] & mod_mask` the mask applies to `keys[0]` (`&` binds tighter
than `^`). -/
def expand_step (i : Nat) (keys : Keys) : Keys :=
  let mod_mask := ULLONG_MAX
  let c := 0xfffffffffffffffc
  let x := shift_right_and 64 (keys.get (key_size - 1)) 3 mod_mask
  let y := shift_right_and 64 x 1 mod_mask
  let x := x ^^^ (keys.get 0 &&& mod_mask)
  let x := x ^^^ y
  let y := (c ^^^ ((z_sequence >>> (i % 62)) &&& 1)) &&& mod_mask
  let x := x ^^^ y
  let keys := forUp (fun t keys => keys.set t (keys.get (t + 1))) (key_size - 1) keys
  keys.set (key_size - 1) (x &&& (ULLONG_MAX >>> (64 - word_size)))

/-- The function `expand_simon_128_128`: the loop runs while `i < rounds`. -/
def expand_simon_128_128 (key key_schedule : Buf) : Buf :=
  (expand_loop expand_step bytes (rounds) (load_keys key key_schedule bytes key_size)).key_schedule

/-- The function `encrypt_simon_128_128`. All variables are `uint64_t`. -/
def encrypt_simon_128_128 (key_schedule plaintext ciphertext : Buf) : Buf :=
  let mod_mask := ULLONG_MAX
  let y := loadLE plaintext 0 8
  let x := loadLE plaintext 8 8
  let s := forUp (fun i (s : Regs) =>
    let tmp := shift_left 64 s.x 1 &&& mod_mask
    let tmp := (tmp &&& shift_left 64 s.x 8) &&& mod_mask
    let tmp := (tmp ^^^ s.y) &&& mod_mask
    let tmp := (tmp ^^^ shift_left 64 s.x 2) &&& mod_mask
    let y := s.x
    let x := (tmp ^^^ loadLE key_schedule (8 * i) 8) &&& mod_mask
    { s with x := x, y := y })
    rounds { x := x, y := y, round_key := 0 }
  storeLE (storeLE ciphertext 0 8 s.y) 8 8 s.x

/-- The function `decrypt_simon_128_128`: `x` is read from the first word of
the ciphertext, the loop counts `i` down from `rounds - 1` to 0. -/
def decrypt_simon_128_128 (key_schedule plaintext ciphertext : Buf) : Buf :=
  let mod_mask := ULLONG_MAX
  let x := loadLE ciphertext 0 8
  let y := loadLE ciphertext 8 8
  let s := forDown (fun i (s : Regs) =>
    let tmp := shift_left 64 s.x 1 &&& mod_mask
    let tmp := (tmp &&& shift_left 64 s.x 8) &&& mod_mask
    let tmp := (tmp ^^^ s.y) &&& mod_mask
    let tmp := (tmp ^^^ shift_left 64 s.x 2) &&& mod_mask
    let y := s.x
    let x := (tmp ^^^ loadLE key_schedule (8 * i) 8) &&& mod_mask
    { s with x := x, y := y })
    rounds { x := x, y := y, round_key := 0 }
  storeLE (storeLE plaintext 0 8 s.x) 8 8 s.y

/-- The array `encryption_key` of `main`, followed by zero
bytes. -/
def main_encryption_key : Buf := ofBytes
  [0x00, 0x01, 0x02, 0x03, 0x04, 0x05, 0x06, 0x07, 0x08, 0x09, 0x0a, 0x0b, 0x0c, 0x0d, 0x0e, 0x0f]

/-- The array `plaintext` of `main`, followed by zero
bytes. -/
def main_plaintext : Buf := ofBytes
  [0x20, 0x74, 0x72, 0x61, 0x76, 0x65, 0x6c, 0x6c, 0x65, 0x72, 0x73, 0x20, 0x64, 0x65, 0x73, 0x63]

/-- The first two calls of `main`,
`expand_simon_128_128(encryption_key, key_schedule); encrypt_simon_128_128(key_schedule, plaintext, ciphertext);`:
the ciphertext buffer after them, given what the buffers `key_schedule` and
`ciphertext` held before. -/
def main_ciphertext (key_schedule ciphertext : Buf) : Buf :=
  encrypt_simon_128_128 (expand_simon_128_128 main_encryption_key key_schedule) main_plaintext ciphertext

end simon128_128

/-! ## src/simon/192_128/simon192_128.c -/

namespace simon192_128

def key_size : Nat := 3
def word_size : Nat := 64
def bytes : Nat := 8
def rounds : Nat := 69
def z_sequence : Nat := 0b0011110000101100111001010001001000000111101001100011010111011011

/-- The macro `shift_left(x, r)` on an operand of an `h`-bit unsigned type. -/
def shift_left (h x r : Nat) : Nat := shl h x r ||| (x >>> (word_size - r))

/-- The macro `shift_right(x, r)`, whose body
`(x >> r) | ((x & ((1 << r) - 1)) << (word_size - r))` has no outer
parentheses, used as a whole right-hand side. -/
def shift_right (h x r : Nat) : Nat :=
  (x >>> r) ||| shl h (x &&& ((1 <<< r) - 1)) (word_size - r)

/-- The expression `shift_right(x, r) & m`: since the macro body has no outer
parentheses and `&` binds tighter than `|`, the mask applies to the second
operand of `|` only. -/
def shift_right_and (h x r m : Nat) : Nat :=
  (x >>> r) ||| (shl h (x &&& ((1 <<< r) - 1)) (word_size - r) &&& m)

/-- The body of the loop of `expand_simon_192_128` before its final `memcpy`. -/
def expand_step (i : Nat) (keys : Keys) : Keys :=
  let c := 0xfffffffffffffffc
  let x := shift_right 64 (keys.get (key_size - 1)) 3
  let y := shift_right 64 x 1
  let x := x ^^^ keys.get 0
  let x := x ^^^ y
  let y := c ^^^ ((z_sequence >>> (i % 62)) &&& 1)
  let x := x ^^^ y
  let keys := forUp (fun t keys => keys.set t (keys.get (t + 1))) (key_size - 1) keys
  keys.set (key_size - 1) (x &&& (ULLONG_MAX >>> (64 - word_size)))

/-- The function `expand_simon_192_128`: the loop runs while `i < rounds - 1`. -/
def expand_simon_192_128 (key key_schedule : Buf) : Buf :=
  (expand_loop expand_step bytes (rounds - 1) (load_keys key key_schedule bytes key_size)).key_schedule

/-- The function `encrypt_simon_192_128`. All variables are `uint64_t`. -/
def encrypt_simon_192_128 (key_schedule plaintext ciphertext : Buf) : Buf :=
  let y := loadLE plaintext 0 8
  let x := loadLE plaintext 8 8
  let s := forUp (fun i (s : Regs) =>
    let tmp := shift_left 64 s.x 1
    let tmp := tmp &&& shift_left 64 s.x 8
    let tmp := tmp ^^^ s.y
    let tmp := tmp ^^^ shift_left 64 s.x 2
    let y := s.x
    let x := tmp ^^^ loadLE key_schedule (8 * i) 8
    { s with x := x, y := y })
    rounds { x := x, y := y, round_key := 0 }
  storeLE (storeLE ciphertext 0 8 s.y) 8 8 s.x

/-- The function `decrypt_simon_192_128`: `x` is read from the first word of
the ciphertext, the loop counts `i` down from `rounds - 1` to 0. -/
def decrypt_simon_192_128 (key_schedule plaintext ciphertext : Buf) : Buf :=
  let x := loadLE ciphertext 0 8
  let y := loadLE ciphertext 8 8
  let s := forDown (fun i (s : Regs) =>
    let tmp := shift_left 64 s.x 1
    let tmp := tmp &&& shift_left 64 s.x 8
    let tmp := tmp ^^^ s.y
    let tmp := tmp ^^^ shift_left 64 s.x 2
    let y := s.x
    let x := tmp ^^^ loadLE key_schedule (8 * i) 8
    { s with x := x, y := y })
    rounds { x := x, y := y, round_key := 0 }
  storeLE (storeLE plaintext 0 8 s.x) 8 8 s.y

end simon192_128

/-! ## Reference word operations and ciphers

True `w`-bit rotations, the round functions of the two families on words
below `2 ^ w`, and the ciphers built from them. They are the yardstick the
embedded C code is compared with. -/
/-- Rotation of a `w`-bit word to the left by `r`. -/
def rotl (w x r : Nat) : Nat := ((x <<< r) ||| (x >>> (w - r))) % 2 ^ w

/-- Rotation of a `w`-bit word to the right by `r`. -/
def rotr (w x r : Nat) : Nat := ((x >>> r) ||| (x <<< (w - r))) % 2 ^ w

/-- One Speck encryption round on the pair `(x, y)` with subkey `k`. -/
def speckRound (w a b k : Nat) (p : Nat × Nat) : Nat × Nat :=
  let x := ((rotr w p.1 a + p.2) % 2 ^ w) ^^^ k
  (x, rotl w p.2 b ^^^ x)

/-- One Speck decryption step on the pair `(x, y)` with subkey `k`. -/
def speckRoundInv (w a b k : Nat) (p : Nat × Nat) : Nat × Nat :=
  let y := rotr w (p.2 ^^^ p.1) b
  (rotl w (sub w (p.1 ^^^ k) y) a, y)

/-- One Simon round on the pair `(x, y)` with subkey `k`:
`x` becomes `(S^1 x & S^8 x) xor y xor S^2 x xor k` and `y` becomes the old `x`. -/
def simonRound (w k : Nat) (p : Nat × Nat) : Nat × Nat :=
  ((((rotl w p.1 1 &&& rotl w p.1 8) ^^^ p.2) ^^^ rotl w p.1 2) ^^^ k, p.1)

/-- Speck encryption of a block of two words: the rounds with subkeys
`K 0, ..., K (n - 1)` in that order. -/
def speckEncrypt (w a b : Nat) (K : Nat → Nat) (n : Nat) (p : Nat × Nat) : Nat × Nat :=
  forUp (fun i => speckRound w a b (K i)) n p

/-- Speck decryption: the inverse steps with subkeys `K (n - 1), ..., K 0`. -/
def speckDecrypt (w a b : Nat) (K : Nat → Nat) (n : Nat) (p : Nat × Nat) : Nat × Nat :=
  forUp (fun i => speckRoundInv w a b (K (n - 1 - i))) n p

/-- Simon encryption of a block of two words. -/
def simonEncrypt (w : Nat) (K : Nat → Nat) (n : Nat) (p : Nat × Nat) : Nat × Nat :=
  forUp (fun i => simonRound w (K i)) n p

/-- Simon decryption as the files do it: the same round with subkeys
`K (n - 1), ..., K 0`, on a block whose words are exchanged. -/
def simonDecrypt (w : Nat) (K : Nat → Nat) (n : Nat) (p : Nat × Nat) : Nat × Nat :=
  forDown (fun i => simonRound w (K i)) n p

/-! ## The Speck key schedule as the specification states it -/

/-- One step of the Speck key schedule in the words of the specification. The
state is `(k_i, l)`, where `l j` is the word `l_j` once it is defined. Step `i`
sets `l_(i+m-1) = ((k_i + rotr_w(l_i, alpha)) mod 2^w) xor i` and
`k_(i+1) = rotl_w(k_i, beta) xor l_(i+m-1)`. -/
def speckScheduleStep (w a b m i : Nat) (s : Nat × (Nat → Nat)) : Nat × (Nat → Nat) :=
  let lnew := ((s.1 + rotr w (s.2 i) a) % 2 ^ w) ^^^ i
  (rotl w s.1 b ^^^ lnew, fun j => if j = i + m - 1 then lnew else s.2 j)

/-- The Speck key schedule in the words of the specification, for `m` master
words `K 0, ..., K (m - 1)`: it starts from `k_0 = K 0` and `l_j = K (j + 1)`
for `j < m - 1`; after `n` steps the first component is `k_n`. -/
def speckSchedule (w a b m : Nat) (K : Nat → Nat) (n : Nat) : Nat × (Nat → Nat) :=
  forUp (speckScheduleStep w a b m) n (K 0, fun j => if j < m - 1 then K (j + 1) else 0)

/-! ## The published constant sequences of Simon; reversed schedules and swapped blocks -/

/-- The published 62-element constant sequence `z0` of Simon, leftmost element
first. It is the sequence of Simon 32/64 and Simon 48/72 (the files `simon64_32.c` and `simon72_48.c`). -/
def z0_published : List Nat :=
  [
    1, 1, 1, 1, 1, 0, 1, 0, 0, 0, 1, 0, 0, 1, 0, 1, 0, 1, 1, 0, 0, 0, 0, 1, 1, 1, 0, 0, 1, 1, 0,
    1, 1, 1, 1, 1, 0, 1, 0, 0, 0, 1, 0, 0, 1, 0, 1, 0, 1, 1, 0, 0, 0, 0, 1, 1, 1, 0, 0, 1, 1, 0]

/-- The published 62-element constant sequence `z2` of Simon, leftmost element
first. It is the sequence of Simon 128/128 (the file `simon128_128.c`). -/
def z2_published : List Nat :=
  [
    1, 0, 1, 0, 1, 1, 1, 1, 0, 1, 1, 1, 0, 0, 0, 0, 0, 0, 1, 1, 0, 1, 0, 0, 1, 0, 0, 1, 1, 0, 0,
    0, 1, 0, 1, 0, 0, 0, 0, 1, 0, 0, 0, 1, 1, 1, 1, 1, 1, 0, 0, 1, 0, 1, 1, 0, 1, 1, 0, 0, 1, 1]

/-- The published 62-element constant sequence `z3` of Simon, leftmost element
first. It is the sequence of Simon 64/128, Simon 96/144 and Simon 128/192 (the files `simon128_64.c`,
`simon144_96.c` and `simon192_128.c`). -/
def z3_published : List Nat :=
  [
    1, 1, 0, 1, 1, 0, 1, 1, 1, 0, 1, 0, 1, 1, 0, 0, 0, 1, 1, 0, 0, 1, 0, 1, 1, 1, 1, 0, 0, 0, 0,
    0, 0, 1, 0, 0, 1, 0, 0, 0, 1, 0, 1, 0, 0, 1, 1, 1, 0, 0, 1, 1, 0, 1, 0, 0, 0, 0, 1, 1, 1, 1]

/-- The schedule with the words of `ks` in reverse order: the buffer whose word
`i` (of `m` bytes), for `i < n`, is word `n - 1 - i` of `ks`. -/
def reverseSchedule (ks : Buf) (m n : Nat) : Buf :=
  fun j => ks (m * (n - 1 - j / m) + j % m)

/-- The block `b` with its two words exchanged: the two words of `m` bytes at
the start of `b` change places, the other bytes stay. -/
def swapBlock (b : Buf) (m : Nat) : Buf :=
  fun j => if j < m then b (m + j) else if j < 2 * m then b (j - m) else b j

/-! ## The shifts of C, with the cases that C leaves undefined -/

/-- The C expression `x << r` on a non-negative operand whose type, after the
integer promotions, has `h` bits; `none` where C leaves the shift undefined. The
count must be below `h`. In an unsigned type the value is `x * 2 ^ r` reduced
modulo `2 ^ h`, which is `shl h x r`. In the signed type `int` (`signed = true`:
the type to which a `uint16_t` operand is promoted) `x * 2 ^ r` must moreover be
representable, that is below `2 ^ (h - 1)`, and is then the value. -/
def shl_checked (signed : Bool) (h x r : Nat) : Option Nat :=
  if r < h ∧ (signed = true → x <<< r < 2 ^ (h - 1)) then some (shl h x r) else none

/-- The C expression `x >> r` on a non-negative operand whose type, after the
integer promotions, has `h` bits; `none` where C leaves the shift undefined,
that is when the count is `h` or more. -/
def shr_checked (h x r : Nat) : Option Nat :=
  if r < h then some (x >>> r) else none

/-- The macro `rotate_right(x, r)` of the Speck files,
`((x >> r) | (x << (word_size - r)))`, with word size `w`, on an operand whose
promoted type has `h` bits: it has a value when both shifts have one (and the
count `word_size - r` is not negative). -/
def rotate_right_checked (signed : Bool) (h w x r : Nat) : Option Nat :=
  if w < r then none else
    match shr_checked h x r, shl_checked signed h x (w - r) with
    | some a, some b => some (a ||| b)
    | _, _ => none

/-- The macro `rotate_left(x, r)` of the Speck files,
`((x << r) | (x >> (word_size - r)))`, with word size `w`, on an operand whose
promoted type has `h` bits: it has a value when both shifts have one (and the
count `word_size - r` is not negative). -/
def rotate_left_checked (signed : Bool) (h w x r : Nat) : Option Nat :=
  if w < r then none else
    match shl_checked signed h x r, shr_checked h x (w - r) with
    | some a, some b => some (a ||| b)
    | _, _ => none

/-! ## The locals of the routines at the end of their loop -/

namespace speck64_32

/-- The locals `x` and `y` of `encrypt_speck_64_32` after `n` passes of its loop, before the
two stores. The statements are those of `encrypt_speck_64_32`, with the bound `n` in place
of `rounds`; with `n = rounds` it is the routine. -/
def encrypt_speck_64_32_locals (key_schedule plaintext : Buf) (n : Nat) : Regs :=
  let y := loadLE plaintext 0 2
  let x := loadLE plaintext 2 2
  let s := forUp (fun i (s : Regs) =>
    let x := rotate_right 32 s.x rotation_alpha % 2 ^ 16
    let x := (x + s.y) % 2 ^ 16
    let x := (x ^^^ loadLE key_schedule (2 * i) 2) % 2 ^ 16
    let y := rotate_left 32 s.y rotation_beta % 2 ^ 16
    let y := (y ^^^ x) % 2 ^ 16
    { s with x := x, y := y })
    n { x := x, y := y, round_key := 0 }
  s

/-- The locals `x` and `y` of `decrypt_speck_64_32` after `n` passes of its loop, before the
two stores. The statements are those of `decrypt_speck_64_32`, with the bound `n` in place
of `rounds`; with `n = rounds` it is the routine. -/
def decrypt_speck_64_32_locals (key_schedule ciphertext : Buf) (n : Nat) : Regs :=
  let y := loadLE ciphertext 0 2
  let x := loadLE ciphertext 2 2
  let s := forUp (fun i (s : Regs) =>
    let y := (s.y ^^^ s.x) % 2 ^ 16
    let y := rotate_right 32 y rotation_beta % 2 ^ 16
    let x := (s.x ^^^ loadLE key_schedule (2 * (rounds - 1 - i)) 2) % 2 ^ 16
    let x := sub 16 x y
    let x := rotate_left 32 x rotation_alpha % 2 ^ 16
    { s with x := x, y := y })
    n { x := x, y := y, round_key := 0 }
  s

end speck64_32

namespace speck72_48

/-- The locals `x` and `y` of `encrypt_speck_72_48` after `n` passes of its loop, before the
two stores. The statements are those of `encrypt_speck_72_48`, with the bound `n` in place
of `rounds`; with `n = rounds` it is the routine. -/
def encrypt_speck_72_48_locals (key_schedule plaintext : Buf) (u : Locals) (n : Nat) : Regs :=
  let y := memcpyWord 32 u.y plaintext 0 bytes
  let x := memcpyWord 32 u.x plaintext bytes bytes
  let x := (x &&& mod_mask) % 2 ^ 32
  let y := (y &&& mod_mask) % 2 ^ 32
  let s := forUp (fun i (s : Regs) =>
    let round_key := memcpyWord 32 s.round_key key_schedule (bytes * i) bytes
    let round_key := (round_key &&& mod_mask) % 2 ^ 32
    let x := (rotate_right 32 s.x rotation_alpha &&& mod_mask) % 2 ^ 32
    let x := (add 32 x s.y &&& mod_mask) % 2 ^ 32
    let x := ((x ^^^ round_key) &&& mod_mask) % 2 ^ 32
    let y := (rotate_left 32 s.y rotation_beta &&& mod_mask) % 2 ^ 32
    let y := ((y ^^^ x) &&& mod_mask) % 2 ^ 32
    { x := x, y := y, round_key := round_key })
    n { x := x, y := y, round_key := u.round_key % 2 ^ 32 }
  s

/-- The locals `x` and `y` of `decrypt_speck_72_48` after `n` passes of its loop, before the
two stores. The statements are those of `decrypt_speck_72_48`, with the bound `n` in place
of `rounds`; with `n = rounds` it is the routine. -/
def decrypt_speck_72_48_locals (key_schedule ciphertext : Buf) (u : Locals) (n : Nat) : Regs :=
  let y := memcpyWord 32 u.y ciphertext 0 bytes
  let x := memcpyWord 32 u.x ciphertext bytes bytes
  let x := (x &&& mod_mask) % 2 ^ 32
  let y := (y &&& mod_mask) % 2 ^ 32
  let s := forUp (fun i (s : Regs) =>
    let round_key := memcpyWord 32 s.round_key key_schedule (bytes * (rounds - 1 - i)) bytes
    let round_key := (round_key &&& mod_mask) % 2 ^ 32
    let y := ((s.y ^^^ s.x) &&& mod_mask) % 2 ^ 32
    let y := (rotate_right 32 y rotation_beta &&& mod_mask) % 2 ^ 32
    let x := ((s.x ^^^ round_key) &&& mod_mask) % 2 ^ 32
    let x := (sub 32 x y &&& mod_mask) % 2 ^ 32
    let x := (rotate_left 32 x rotation_alpha &&& mod_mask) % 2 ^ 32
    { x := x, y := y, round_key := round_key })
    n { x := x, y := y, round_key := u.round_key % 2 ^ 32 }
  s

end speck72_48

namespace speck96_48

/-- The locals `x` and `y` of `encrypt_speck_96_48` after `n` passes of its loop, before the
two stores. The statements are those of `encrypt_speck_96_48`, with the bound `n` in place
of `rounds`; with `n = rounds` it is the routine. -/
def encrypt_speck_96_48_locals (key_schedule plaintext : Buf) (u : Locals) (n : Nat) : Regs :=
  let y := memcpyWord 32 u.y plaintext 0 bytes
  let x := memcpyWord 32 u.x plaintext bytes bytes
  let x := (x &&& mod_mask) % 2 ^ 32
  let y := (y &&& mod_mask) % 2 ^ 32
  let s := forUp (fun i (s : Regs) =>
    let round_key := memcpyWord 32 s.round_key key_schedule (bytes * i) bytes
    let round_key := (round_key &&& mod_mask) % 2 ^ 32
    let x := (rotate_right 32 s.x rotation_alpha &&& mod_mask) % 2 ^ 32
    let x := (add 32 x s.y &&& mod_mask) % 2 ^ 32
    let x := ((x ^^^ round_key) &&& mod_mask) % 2 ^ 32
    let y := (rotate_left 32 s.y rotation_beta &&& mod_mask) % 2 ^ 32
    let y := ((y ^^^ x) &&& mod_mask) % 2 ^ 32
    { x := x, y := y, round_key := round_key })
    n { x := x, y := y, round_key := u.round_key % 2 ^ 32 }
  s

/-- The locals `x` and `y` of `decrypt_speck_96_48` after `n` passes of its loop, before the
two stores. The statements are those of `decrypt_speck_96_48`, with the bound `n` in place
of `rounds`; with `n = rounds` it is the routine. -/
def decrypt_speck_96_48_locals (key_schedule ciphertext : Buf) (u : Locals) (n : Nat) : Regs :=
  let y := memcpyWord 32 u.y ciphertext 0 bytes
  let x := memcpyWord 32 u.x ciphertext bytes bytes
  let x := (x &&& mod_mask) % 2 ^ 32
  let y := (y &&& mod_mask) % 2 ^ 32
  let s := forUp (fun i (s : Regs) =>
    let round_key := memcpyWord 32 s.round_key key_schedule (bytes * (rounds - 1 - i)) bytes
    let round_key := (round_key &&& mod_mask) % 2 ^ 32
    let y := ((s.y ^^^ s.x) &&& mod_mask) % 2 ^ 32
    let y := (rotate_right 32 y rotation_beta &&& mod_mask) % 2 ^ 32
    let x := ((s.x ^^^ round_key) &&& mod_mask) % 2 ^ 32
    let x := (sub 32 x y &&& mod_mask) % 2 ^ 32
    let x := (rotate_left 32 x rotation_alpha &&& mod_mask) % 2 ^ 32
    { x := x, y := y, round_key := round_key })
    n { x := x, y := y, round_key := u.round_key % 2 ^ 32 }
  s

end speck96_48

namespace speck96_96

/-- The locals `x` and `y` of `encrypt_speck_96_96` after `n` passes of its loop, before the
two stores. The statements are those of `encrypt_speck_96_96`, with the bound `n` in place
of `rounds`; with `n = rounds` it is the routine. -/
def encrypt_speck_96_96_locals (key_schedule plaintext : Buf) (u : Locals) (n : Nat) : Regs :=
  let y := memcpyWord 64 u.y plaintext 0 bytes
  let x := memcpyWord 64 u.x plaintext bytes bytes
  let x := x &&& mod_mask
  let y := y &&& mod_mask
  let s := forUp (fun i (s : Regs) =>
    let round_key := memcpyWord 64 s.round_key key_schedule (bytes * i) bytes
    let round_key := round_key &&& mod_mask
    let x := rotate_right 64 s.x rotation_alpha &&& mod_mask
    let x := add 64 x s.y &&& mod_mask
    let x := (x ^^^ round_key) &&& mod_mask
    let y := rotate_left 64 s.y rotation_beta &&& mod_mask
    let y := (y ^^^ x) &&& mod_mask
    { x := x, y := y, round_key := round_key })
    n { x := x, y := y, round_key := u.round_key % 2 ^ 64 }
  s

/-- The locals `x` and `y` of `decrypt_speck_96_96` after `n` passes of its loop, before the
two stores. The statements are those of `decrypt_speck_96_96`, with the bound `n` in place
of `rounds`; with `n = rounds` it is the routine. -/
def decrypt_speck_96_96_locals (key_schedule ciphertext : Buf) (u : Locals) (n : Nat) : Regs :=
  let y := memcpyWord 64 u.y ciphertext 0 bytes
  let x := memcpyWord 64 u.x ciphertext bytes bytes
  let x := x &&& mod_mask
  let y := y &&& mod_mask
  let s := forUp (fun i (s : Regs) =>
    let round_key := memcpyWord 64 s.round_key key_schedule (bytes * (rounds - 1 - i)) bytes
    let round_key := round_key &&& mod_mask
    let y := (s.y ^^^ s.x) &&& mod_mask
    let y := rotate_right 64 y rotation_beta &&& mod_mask
    let x := (s.x ^^^ round_key) &&& mod_mask
    let x := sub 64 x y &&& mod_mask
    let x := rotate_left 64 x rotation_alpha &&& mod_mask
    { x := x, y := y, round_key := round_key })
    n { x := x, y := y, round_key := u.round_key % 2 ^ 64 }
  s

end speck96_96

namespace speck128_64

/-- The locals `x` and `y` of `encrypt_speck_128_64` after `n` passes of its loop, before the
two stores. The statements are those of `encrypt_speck_128_64`, with the bound `n` in place
of `rounds`; with `n = rounds` it is the routine. -/
def encrypt_speck_128_64_locals (key_schedule plaintext : Buf) (n : Nat) : Regs :=
  let mod_mask := ULLONG_MAX >>> (64 - word_size)
  let y := loadLE plaintext 0 4
  let x := loadLE plaintext 4 4
  let s := forUp (fun i (s : Regs) =>
    let x := (rotate_right 32 s.x rotation_alpha &&& mod_mask) % 2 ^ 32
    let x := (add 32 x s.y &&& mod_mask) % 2 ^ 32
    let x := ((x ^^^ loadLE key_schedule (4 * i) 4) &&& mod_mask) % 2 ^ 32
    let y := (rotate_left 32 s.y rotation_beta &&& mod_mask) % 2 ^ 32
    let y := ((y ^^^ x) &&& mod_mask) % 2 ^ 32
    { s with x := x, y := y })
    n { x := x, y := y, round_key := 0 }
  s

/-- The locals `x` and `y` of `decrypt_speck_128_64` after `n` passes of its loop, before the
two stores. The statements are those of `decrypt_speck_128_64`, with the bound `n` in place
of `rounds`; with `n = rounds` it is the routine. -/
def decrypt_speck_128_64_locals (key_schedule ciphertext : Buf) (n : Nat) : Regs :=
  let mod_mask := ULLONG_MAX >>> (64 - word_size)
  let y := loadLE ciphertext 0 4
  let x := loadLE ciphertext 4 4
  let s := forUp (fun i (s : Regs) =>
    let y := ((s.y ^^^ s.x) &&& mod_mask) % 2 ^ 32
    let y := (rotate_right 32 y rotation_beta &&& mod_mask) % 2 ^ 32
    let x := ((s.x ^^^ loadLE key_schedule (4 * (rounds - 1 - i)) 4) &&& mod_mask) % 2 ^ 32
    let x := (sub 32 x y &&& mod_mask) % 2 ^ 32
    let x := (rotate_left 32 x rotation_alpha &&& mod_mask) % 2 ^ 32
    { s with x := x, y := y })
    n { x := x, y := y, round_key := 0 }
  s

end speck128_64

namespace speck128_128

/-- The locals `x` and `y` of `encrypt_speck_128_128` after `n` passes of its loop, before the
two stores. The statements are those of `encrypt_speck_128_128`, with the bound `n` in place
of `rounds`; with `n = rounds` it is the routine. -/
def encrypt_speck_128_128_locals (key_schedule plaintext : Buf) (n : Nat) : Regs :=
  let mod_mask := ULLONG_MAX >>> (64 - word_size)
  let y := loadLE plaintext 0 8
  let x := loadLE plaintext 8 8
  let s := forUp (fun i (s : Regs) =>
    let x := rotate_right 64 s.x rotation_alpha &&& mod_mask
    let x := add 64 x s.y &&& mod_mask
    let x := (x ^^^ loadLE key_schedule (8 * i) 8) &&& mod_mask
    let y := rotate_left 64 s.y rotation_beta &&& mod_mask
    let y := (y ^^^ x) &&& mod_mask
    { s with x := x, y := y })
    n { x := x, y := y, round_key := 0 }
  s

/-- The locals `x` and `y` of `decrypt_speck_128_128` after `n` passes of its loop, before the
two stores. The statements are those of `decrypt_speck_128_128`, with the bound `n` in place
of `rounds`; with `n = rounds` it is the routine. -/
def decrypt_speck_128_128_locals (key_schedule ciphertext : Buf) (n : Nat) : Regs :=
  let mod_mask := ULLONG_MAX >>> (64 - word_size)
  let y := loadLE ciphertext 0 8
  let x := loadLE ciphertext 8 8
  let s := forUp (fun i (s : Regs) =>
    let y := (s.y ^^^ s.x) &&& mod_mask
    let y := rotate_right 64 y rotation_beta &&& mod_mask
    let x := (s.x ^^^ loadLE key_schedule (8 * (rounds - 1 - i)) 8) &&& mod_mask
    let x := sub 64 x y &&& mod_mask
    let x := rotate_left 64 x rotation_alpha &&& mod_mask
    { s with x := x, y := y })
    n { x := x, y := y, round_key := 0 }
  s

end speck128_128

namespace speck256_128

/-- The locals `x` and `y` of `encrypt_speck_256_128` after `n` passes of its loop, before the
two stores. The statements are those of `encrypt_speck_256_128`, with the bound `n` in place
of `rounds`; with `n = rounds` it is the routine. -/
def encrypt_speck_256_128_locals (key_schedule plaintext : Buf) (n : Nat) : Regs :=
  let mod_mask := ULLONG_MAX >>> (64 - word_size)
  let y := loadLE plaintext 0 8
  let x := loadLE plaintext 8 8
  let s := forUp (fun i (s : Regs) =>
    let x := rotate_right 64 s.x rotation_alpha &&& mod_mask
    let x := add 64 x s.y &&& mod_mask
    let x := (x ^^^ loadLE key_schedule (8 * i) 8) &&& mod_mask
    let y := rotate_left 64 s.y rotation_beta &&& mod_mask
    let y := (y ^^^ x) &&& mod_mask
    { s with x := x, y := y })
    n { x := x, y := y, round_key := 0 }
  s

/-- The locals `x` and `y` of `decrypt_speck_256_128` after `n` passes of its loop, before the
two stores. The statements are those of `decrypt_speck_256_128`, with the bound `n` in place
of `rounds`; with `n = rounds` it is the routine. -/
def decrypt_speck_256_128_locals (key_schedule ciphertext : Buf) (n : Nat) : Regs :=
  let mod_mask := ULLONG_MAX >>> (64 - word_size)
  let y := loadLE ciphertext 0 8
  let x := loadLE ciphertext 8 8
  let s := forUp (fun i (s : Regs) =>
    let y := (s.y ^^^ s.x) &&& mod_mask
    let y := rotate_right 64 y rotation_beta &&& mod_mask
    let x := (s.x ^^^ loadLE key_schedule (8 * (rounds - 1 - i)) 8) &&& mod_mask
    let x := sub 64 x y &&& mod_mask
    let x := rotate_left 64 x rotation_alpha &&& mod_mask
    { s with x := x, y := y })
    n { x := x, y := y, round_key := 0 }
  s

end speck256_128

namespace simon64_32

/-- The locals `x` and `y` of `encrypt_simon_64_32` after `n` passes of its loop, before the
two stores. The statements are those of `encrypt_simon_64_32`, with the bound `n` in place
of `rounds`; with `n = rounds` it is the routine. -/
def encrypt_simon_64_32_locals (key_schedule plaintext : Buf) (n : Nat) : Regs :=
  let y := loadLE plaintext 0 2
  let x := loadLE plaintext 2 2
  let s := forUp (fun i (s : Regs) =>
    let tmp := shift_left 32 s.x 1 % 2 ^ 16
    let tmp := (tmp &&& shift_left 32 s.x 8) % 2 ^ 16
    let tmp := (tmp ^^^ s.y) % 2 ^ 16
    let tmp := (tmp ^^^ shift_left 32 s.x 2) % 2 ^ 16
    let y := s.x
    let x := (tmp ^^^ loadLE key_schedule (2 * i) 2) % 2 ^ 16
    { s with x := x, y := y })
    n { x := x, y := y, round_key := 0 }
  s

/-- The locals `x` and `y` of `decrypt_simon_64_32` when its loop ends, before the two
stores, for a loop that starts at `i = n - 1` instead of `i = rounds - 1`. The
statements are those of `decrypt_simon_64_32`; with `n = rounds` it is the routine. -/
def decrypt_simon_64_32_locals (key_schedule ciphertext : Buf) (n : Nat) : Regs :=
  let x := loadLE ciphertext 0 2
  let y := loadLE ciphertext 2 2
  let s := forDown (fun i (s : Regs) =>
    let tmp := shift_left 32 s.x 1 % 2 ^ 16
    let tmp := (tmp &&& shift_left 32 s.x 8) % 2 ^ 16
    let tmp := (tmp ^^^ s.y) % 2 ^ 16
    let tmp := (tmp ^^^ shift_left 32 s.x 2) % 2 ^ 16
    let y := s.x
    let x := (tmp ^^^ loadLE key_schedule (2 * i) 2) % 2 ^ 16
    { s with x := x, y := y })
    n { x := x, y := y, round_key := 0 }
  s

end simon64_32

namespace simon72_48

/-- The locals `x` and `y` of `encrypt_simon_72_48` after `n` passes of its loop, before the
two stores. The statements are those of `encrypt_simon_72_48`, with the bound `n` in place
of `rounds`; with `n = rounds` it is the routine. -/
def encrypt_simon_72_48_locals (key_schedule plaintext : Buf) (u : Locals) (n : Nat) : Regs :=
  let y := memcpyWord 64 u.y plaintext 0 bytes
  let x := memcpyWord 64 u.x plaintext bytes bytes
  let x := x &&& mod_mask
  let y := y &&& mod_mask
  let s := forUp (fun i (s : Regs) =>
    let round_key := memcpyWord 64 s.round_key key_schedule (bytes * i) bytes
    let round_key := round_key &&& mod_mask
    let tmp := shift_left 64 s.x 1 &&& mod_mask
    let tmp := (tmp &&& shift_left 64 s.x 8) &&& mod_mask
    let tmp := (tmp ^^^ s.y) &&& mod_mask
    let tmp := (tmp ^^^ shift_left 64 s.x 2) &&& mod_mask
    let y := s.x
    let x := (tmp ^^^ round_key) &&& mod_mask
    { x := x, y := y, round_key := round_key })
    n { x := x, y := y, round_key := u.round_key % 2 ^ 64 }
  s

/-- The locals `x` and `y` of `decrypt_simon_72_48` after `n` passes of its loop, before the
two stores. The statements are those of `decrypt_simon_72_48`, with the bound `n` in place
of `rounds`; with `n = rounds` it is the routine. -/
def decrypt_simon_72_48_locals (key_schedule ciphertext : Buf) (u : Locals) (n : Nat) : Regs :=
  let x := memcpyWord 64 u.x ciphertext 0 bytes
  let y := memcpyWord 64 u.y ciphertext bytes bytes
  let x := x &&& mod_mask
  let y := y &&& mod_mask
  let s := forUp (fun i (s : Regs) =>
    let round_key := memcpyWord 64 s.round_key key_schedule (bytes * (rounds - 1 - i)) bytes
    let round_key := round_key &&& mod_mask
    let tmp := shift_left 64 s.x 1 &&& mod_mask
    let tmp := (tmp &&& shift_left 64 s.x 8) &&& mod_mask
    let tmp := (tmp ^^^ s.y) &&& mod_mask
    let tmp := (tmp ^^^ shift_left 64 s.x 2) &&& mod_mask
    let y := s.x
    let x := (tmp ^^^ round_key) &&& mod_mask
    { x := x, y := y, round_key := round_key })
    n { x := x, y := y, round_key := u.round_key % 2 ^ 64 }
  s

end simon72_48

namespace simon128_64

/-- The locals `x` and `y` of `encrypt_simon_128_64` after `n` passes of its loop, before the
two stores. The statements are those of `encrypt_simon_128_64`, with the bound `n` in place
of `rounds`; with `n = rounds` it is the routine. -/
def encrypt_simon_128_64_locals (key_schedule plaintext : Buf) (n : Nat) : Regs :=
  let mod_mask := ULLONG_MAX >>> (64 - word_size)
  let y := loadLE plaintext 0 4
  let x := loadLE plaintext 4 4
  let s := forUp (fun i (s : Regs) =>
    let tmp := (shift_left 32 s.x 1 &&& mod_mask) % 2 ^ 32
    let tmp := ((tmp &&& shift_left 32 s.x 8) &&& mod_mask) % 2 ^ 32
    let tmp := ((tmp ^^^ s.y) &&& mod_mask) % 2 ^ 32
    let tmp := ((tmp ^^^ shift_left 32 s.x 2) &&& mod_mask) % 2 ^ 32
    let y := (s.x &&& mod_mask) % 2 ^ 32
    let x := ((tmp ^^^ loadLE key_schedule (4 * i) 4) &&& mod_mask) % 2 ^ 32
    { s with x := x, y := y })
    n { x := x, y := y, round_key := 0 }
  s

/-- The locals `x` and `y` of `decrypt_simon_128_64` when its loop ends, before the two
stores, for a loop that starts at `i = n - 1` instead of `i = rounds - 1`. The
statements are those of `decrypt_simon_128_64`; with `n = rounds` it is the routine. -/
def decrypt_simon_128_64_locals (key_schedule ciphertext : Buf) (n : Nat) : Regs :=
  let mod_mask := ULLONG_MAX >>> (64 - word_size)
  let x := loadLE ciphertext 0 4
  let y := loadLE ciphertext 4 4
  let s := forDown (fun i (s : Regs) =>
    let tmp := shift_left 32 s.x 1
    let tmp := ((tmp &&& shift_left 32 s.x 8) &&& mod_mask) % 2 ^ 32
    let tmp := ((tmp ^^^ s.y) &&& mod_mask) % 2 ^ 32
    let tmp := ((tmp ^^^ shift_left 32 s.x 2) &&& mod_mask) % 2 ^ 32
    let y := (s.x &&& mod_mask) % 2 ^ 32
    let x := ((tmp ^^^ loadLE key_schedule (4 * i) 4) &&& mod_mask) % 2 ^ 32
    { s with x := x, y := y })
    n { x := x, y := y, round_key := 0 }
  s

end simon128_64

namespace simon144_96

/-- The locals `x` and `y` of `encrypt_simon_144_96` after `n` passes of its loop, before the
two stores. The statements are those of `encrypt_simon_144_96`, with the bound `n` in place
of `rounds`; with `n = rounds` it is the routine. -/
def encrypt_simon_144_96_locals (key_schedule plaintext : Buf) (u : Locals) (n : Nat) : Regs :=
  let y := memcpyWord 64 u.y plaintext 0 bytes
  let x := memcpyWord 64 u.x plaintext bytes bytes
  let x := x &&& mod_mask
  let y := y &&& mod_mask
  let s := forUp (fun i (s : Regs) =>
    let round_key := memcpyWord 64 s.round_key key_schedule (bytes * i) bytes
    let round_key := round_key &&& mod_mask
    let tmp := shift_left 64 s.x 1 &&& mod_mask
    let tmp := (tmp &&& shift_left 64 s.x 8) &&& mod_mask
    let tmp := (tmp ^^^ s.y) &&& mod_mask
    let tmp := (tmp ^^^ shift_left 64 s.x 2) &&& mod_mask
    let y := s.x &&& mod_mask
    let x := (tmp ^^^ round_key) &&& mod_mask
    { x := x, y := y, round_key := round_key })
    n { x := x, y := y, round_key := u.round_key % 2 ^ 64 }
  s

/-- The locals `x` and `y` of `decrypt_simon_144_96` after `n` passes of its loop, before the
two stores. The statements are those of `decrypt_simon_144_96`, with the bound `n` in place
of `rounds`; with `n = rounds` it is the routine. -/
def decrypt_simon_144_96_locals (key_schedule ciphertext : Buf) (u : Locals) (n : Nat) : Regs :=
  let x := memcpyWord 64 u.x ciphertext 0 bytes
  let y := memcpyWord 64 u.y ciphertext bytes bytes
  let x := x &&& mod_mask
  let y := y &&& mod_mask
  let s := forUp (fun i (s : Regs) =>
    let round_key := memcpyWord 64 s.round_key key_schedule (bytes * (rounds - 1 - i)) bytes
    let round_key := round_key &&& mod_mask
    let tmp := shift_left 64 s.x 1
    let tmp := (tmp &&& shift_left 64 s.x 8) &&& mod_mask
    let tmp := (tmp ^^^ s.y) &&& mod_mask
    let tmp := (tmp ^^^ shift_left 64 s.x 2) &&& mod_mask
    let y := s.x &&& mod_mask
    let x := (tmp ^^^ round_key) &&& mod_mask
    { x := x, y := y, round_key := round_key })
    n { x := x, y := y, round_key := u.round_key % 2 ^ 64 }
  s

end simon144_96

namespace simon128_128

/-- The locals `x` and `y` of `encrypt_simon_128_128` after `n` passes of its loop, before the
two stores. The statements are those of `encrypt_simon_128_128`, with the bound `n` in place
of `rounds`; with `n = rounds` it is the routine. -/
def encrypt_simon_128_128_locals (key_schedule plaintext : Buf) (n : Nat) : Regs :=
  let mod_mask := ULLONG_MAX
  let y := loadLE plaintext 0 8
  let x := loadLE plaintext 8 8
  let s := forUp (fun i (s : Regs) =>
    let tmp := shift_left 64 s.x 1 &&& mod_mask
    let tmp := (tmp &&& shift_left 64 s.x 8) &&& mod_mask
    let tmp := (tmp ^^^ s.y) &&& mod_mask
    let tmp := (tmp ^^^ shift_left 64 s.x 2) &&& mod_mask
    let y := s.x
    let x := (tmp ^^^ loadLE key_schedule (8 * i) 8) &&& mod_mask
    { s with x := x, y := y })
    n { x := x, y := y, round_key := 0 }
  s

/-- The locals `x` and `y` of `decrypt_simon_128_128` when its loop ends, before the two
stores, for a loop that starts at `i = n - 1` instead of `i = rounds - 1`. The
statements are those of `decrypt_simon_128_128`; with `n = rounds` it is the routine. -/
def decrypt_simon_128_128_locals (key_schedule ciphertext : Buf) (n : Nat) : Regs :=
  let mod_mask := ULLONG_MAX
  let x := loadLE ciphertext 0 8
  let y := loadLE ciphertext 8 8
  let s := forDown (fun i (s : Regs) =>
    let tmp := shift_left 64 s.x 1 &&& mod_mask
    let tmp := (tmp &&& shift_left 64 s.x 8) &&& mod_mask
    let tmp := (tmp ^^^ s.y) &&& mod_mask
    let tmp := (tmp ^^^ shift_left 64 s.x 2) &&& mod_mask
    let y := s.x
    let x := (tmp ^^^ loadLE key_schedule (8 * i) 8) &&& mod_mask
    { s with x := x, y := y })
    n { x := x, y := y, round_key := 0 }
  s

end simon128_128

namespace simon192_128

/-- The locals `x` and `y` of `encrypt_simon_192_128` after `n` passes of its loop, before the
two stores. The statements are those of `encrypt_simon_192_128`, with the bound `n` in place
of `rounds`; with `n = rounds` it is the routine. -/
def encrypt_simon_192_128_locals (key_schedule plaintext : Buf) (n : Nat) : Regs :=
  let y := loadLE plaintext 0 8
  let x := loadLE plaintext 8 8
  let s := forUp (fun i (s : Regs) =>
    let tmp := shift_left 64 s.x 1
    let tmp := tmp &&& shift_left 64 s.x 8
    let tmp := tmp ^^^ s.y
    let tmp := tmp ^^^ shift_left 64 s.x 2
    let y := s.x
    let x := tmp ^^^ loadLE key_schedule (8 * i) 8
    { s with x := x, y := y })
    n { x := x, y := y, round_key := 0 }
  s

/-- The locals `x` and `y` of `decrypt_simon_192_128` when its loop ends, before the two
stores, for a loop that starts at `i = n - 1` instead of `i = rounds - 1`. The
statements are those of `decrypt_simon_192_128`; with `n = rounds` it is the routine. -/
def decrypt_simon_192_128_locals (key_schedule ciphertext : Buf) (n : Nat) : Regs :=
  let x := loadLE ciphertext 0 8
  let y := loadLE ciphertext 8 8
  let s := forDown (fun i (s : Regs) =>
    let tmp := shift_left 64 s.x 1
    let tmp := tmp &&& shift_left 64 s.x 8
    let tmp := tmp ^^^ s.y
    let tmp := tmp ^^^ shift_left 64 s.x 2
    let y := s.x
    let x := tmp ^^^ loadLE key_schedule (8 * i) 8
    { s with x := x, y := y })
    n { x := x, y := y, round_key := 0 }
  s

end simon192_128

/-! ## Lemmas on loops -/

theorem forUp_succ {σ : Type} (f : Nat → σ → σ) (n : Nat) (s : σ) :
    forUp f (n + 1) s = f n (forUp f n s) := rfl

theorem forDown_succ {σ : Type} (f : Nat → σ → σ) (n : Nat) (s : σ) :
    forDown f (n + 1) s = forDown f n (f n s) := rfl

/-- Two loops whose bodies preserve a relation between their states end in
related states. -/
theorem forUp_rel {σ τ : Type} (R : σ → τ → Prop) (f : Nat → σ → σ) (g : Nat → τ → τ)
    (n : Nat) (hstep : ∀ i s t, i < n → R s t → R (f i s) (g i t)) (s : σ) (t : τ)
    (h0 : R s t) : R (forUp f n s) (forUp g n t) := by
  induction n with
  | zero => exact h0
  | succ m ih =>
    exact hstep m _ _ (Nat.lt_succ_self m)
      (ih (fun i s t hi hr => hstep i s t (Nat.lt_succ_of_lt hi) hr))

/-- An invariant of the body is an invariant of the loop. -/
theorem forUp_inv {σ : Type} (P : σ → Prop) (f : Nat → σ → σ) (n : Nat)
    (hstep : ∀ i s, i < n → P s → P (f i s)) (s : σ) (h0 : P s) : P (forUp f n s) := by
  induction n with
  | zero => exact h0
  | succ m ih =>
    exact hstep m _ (Nat.lt_succ_self m) (ih (fun i s hi hp => hstep i s (Nat.lt_succ_of_lt hi) hp))

/-- A loop that counts up while using index `n - 1 - i` is the loop that
counts down. -/
theorem forUp_reverse {σ : Type} (f : Nat → σ → σ) (n : Nat) (s : σ) :
    forUp (fun i => f (n - 1 - i)) n s = forDown f n s := by
  induction n generalizing s with
  | zero => rfl
  | succ m ih =>
    have key : ∀ (k : Nat) (t : σ), k ≤ m →
        forUp (fun i => f (m + 1 - 1 - i)) (k + 1) t
          = forUp (fun i => f (m - 1 - i)) k (f m t) := by
      intro k
      induction k with
      | zero => intro t _; simp [forUp]
      | succ j ihj =>
        intro t hj
        rw [forUp_succ, ihj t (by omega), forUp_succ]
        have e : m + 1 - 1 - (j + 1) = m - 1 - j := by omega
        rw [e]
    rw [key m s (Nat.le_refl m), ih, forDown_succ]

/-- Undoing a loop: if `d i` undoes `e i` up to a map `g` on states that
satisfy the invariant `P` of the forward loop, the downward loop of `d`
undoes the upward loop of `e`. -/
theorem forDown_forUp {σ τ : Type} (P : σ → Prop) (g : σ → τ) (e : Nat → σ → σ)
    (d : Nat → τ → τ) (n : Nat)
    (hP : ∀ i s, i < n → P s → P (e i s))
    (hinv : ∀ i s, i < n → P s → d i (g (e i s)) = g s) (s : σ) (h0 : P s) :
    forDown d n (g (forUp e n s)) = g s := by
  induction n with
  | zero => rfl
  | succ m ih =>
    have hPm : P (forUp e m s) :=
      forUp_inv P e m (fun i s hi hp => hP i s (Nat.lt_succ_of_lt hi) hp) s h0
    rw [forUp_succ, forDown_succ, hinv m _ (Nat.lt_succ_self m) hPm]
    exact ih (fun i s hi hp => hP i s (Nat.lt_succ_of_lt hi) hp)
      (fun i s hi hp => hinv i s (Nat.lt_succ_of_lt hi) hp)

/-! ## Lemmas on buffers -/

theorem loadLE_lt (b : Buf) (off n : Nat) : loadLE b off n < 256 ^ n := by
  induction n generalizing off with
  | zero => simp [loadLE]
  | succ m ih =>
    have h1 := ih (off + 1)
    have h2 : b off % 256 < 256 := Nat.mod_lt _ (by decide)
    simp only [loadLE, Nat.pow_succ]
    omega

theorem loadLE_congr (b c : Buf) (off n : Nat)
    (h : ∀ j, off ≤ j → j < off + n → b j % 256 = c j % 256) :
    loadLE b off n = loadLE c off n := by
  induction n generalizing off with
  | zero => rfl
  | succ m ih =>
    simp only [loadLE]
    rw [h off (Nat.le_refl _) (by omega), ih (off + 1) (fun j h1 h2 => h j (by omega) (by omega))]

/-- Byte `j` of a little-endian load is the byte of the buffer at `off + j`. -/
theorem loadLE_byte (b : Buf) (off n j : Nat) (hj : j < n) :
    loadLE b off n / 256 ^ j % 256 = b (off + j) % 256 := by
  induction n generalizing off j with
  | zero => omega
  | succ m ih =>
    simp only [loadLE]
    cases j with
    | zero =>
      simp only [Nat.pow_zero, Nat.div_one, Nat.add_zero]
      omega
    | succ k =>
      have h2 : b off % 256 < 256 := Nat.mod_lt _ (by decide)
      have e : (b off % 256 + 256 * loadLE b (off + 1) m) / 256 ^ (k + 1)
          = loadLE b (off + 1) m / 256 ^ k := by
        rw [Nat.pow_succ, Nat.mul_comm (256 ^ k) 256, ← Nat.div_div_eq_div_mul]
        congr 1
        omega
      rw [e, ih (off + 1) k (by omega)]
      congr 2
      omega

theorem storeLE_apply_in (b : Buf) (off n v j : Nat) (h1 : off ≤ j) (h2 : j < off + n) :
    storeLE b off n v j = v / 256 ^ (j - off) % 256 := by
  simp [storeLE, h1, h2]

theorem storeLE_apply_out (b : Buf) (off n v j : Nat) (h : j < off ∨ off + n ≤ j) :
    storeLE b off n v j = b j := by
  have : ¬ (off ≤ j ∧ j < off + n) := by omega
  simp [storeLE, this]

/-- Loading the `n` bytes just stored gives the stored value modulo `256 ^ n`. -/
theorem loadLE_storeLE (b : Buf) (off n v : Nat) :
    loadLE (storeLE b off n v) off n = v % 256 ^ n := by
  induction n generalizing off v b with
  | zero => simp [loadLE, Nat.mod_one]
  | succ m ih =>
    simp only [loadLE]
    have h0 : storeLE b off (m + 1) v off = v % 256 := by
      rw [storeLE_apply_in b off (m + 1) v off (Nat.le_refl _) (by omega)]
      simp
    have h1 : loadLE (storeLE b off (m + 1) v) (off + 1) m
        = loadLE (storeLE b (off + 1) m (v / 256)) (off + 1) m := by
      apply loadLE_congr
      intro j hj1 hj2
      rw [storeLE_apply_in b off (m + 1) v j (by omega) (by omega),
        storeLE_apply_in b (off + 1) m (v / 256) j hj1 hj2]
      have e : j - off = (j - (off + 1)) + 1 := by omega
      rw [e, Nat.pow_succ, Nat.mul_comm, Nat.div_div_eq_div_mul]
    rw [h0, h1, ih, Nat.mod_mod, Nat.pow_succ, Nat.mul_comm (256 ^ m) 256, Nat.mod_mul]

theorem loadLE_storeLE_other (b : Buf) (off n v off2 n2 : Nat)
    (h : off2 + n2 ≤ off ∨ off + n ≤ off2) :
    loadLE (storeLE b off n v) off2 n2 = loadLE b off2 n2 := by
  apply loadLE_congr
  intro j h1 h2
  rw [storeLE_apply_out b off n v j (by omega)]

/-! ## Lemmas on words -/

theorem testBit_eq_false_of_lt {x w j : Nat} (hx : x < 2 ^ w) (hj : w ≤ j) :
    x.testBit j = false :=
  Nat.testBit_lt_two_pow (Nat.lt_of_lt_of_le hx (Nat.pow_le_pow_right (by decide) hj))

theorem and_mod_two_pow (a b n : Nat) : (a &&& b) % 2 ^ n = a % 2 ^ n &&& b % 2 ^ n := by
  apply Nat.eq_of_testBit_eq
  intro i
  simp only [Nat.testBit_mod_two_pow, Nat.testBit_and]
  cases decide (i < n) <;> simp

theorem or_mod_two_pow (a b n : Nat) : (a ||| b) % 2 ^ n = a % 2 ^ n ||| b % 2 ^ n := by
  apply Nat.eq_of_testBit_eq
  intro i
  simp only [Nat.testBit_mod_two_pow, Nat.testBit_or]
  cases decide (i < n) <;> simp

theorem xor_mod_two_pow (a b n : Nat) : (a ^^^ b) % 2 ^ n = a % 2 ^ n ^^^ b % 2 ^ n := by
  apply Nat.eq_of_testBit_eq
  intro i
  simp only [Nat.testBit_mod_two_pow, Nat.testBit_xor]
  cases decide (i < n) <;> simp

theorem mod_two_pow_mod_of_le (v : Nat) {a b : Nat} (h : a ≤ b) :
    v % 2 ^ a % 2 ^ b = v % 2 ^ a :=
  Nat.mod_eq_of_lt (Nat.lt_of_lt_of_le (Nat.mod_lt _ (Nat.two_pow_pos a))
    (Nat.pow_le_pow_right (by decide) h))

theorem mod_two_pow_mod_of_ge (v : Nat) {a b : Nat} (h : b ≤ a) :
    v % 2 ^ a % 2 ^ b = v % 2 ^ b :=
  Nat.mod_mod_of_dvd v (Nat.pow_dvd_pow 2 h)

theorem rotl_lt (w x r : Nat) : rotl w x r < 2 ^ w := Nat.mod_lt _ (Nat.two_pow_pos w)

theorem rotr_lt (w x r : Nat) : rotr w x r < 2 ^ w := Nat.mod_lt _ (Nat.two_pow_pos w)

theorem testBit_rotl (w x r i : Nat) :
    (rotl w x r).testBit i
      = (decide (i < w) && ((decide (r ≤ i) && x.testBit (i - r)) || x.testBit (w - r + i))) := by
  simp only [rotl, Nat.testBit_mod_two_pow, Nat.testBit_or, Nat.testBit_shiftLeft,
    Nat.testBit_shiftRight, ge_iff_le]

theorem testBit_rotr (w x r i : Nat) :
    (rotr w x r).testBit i
      = (decide (i < w) && (x.testBit (r + i) || (decide (w - r ≤ i) && x.testBit (i - (w - r))))) := by
  simp only [rotr, Nat.testBit_mod_two_pow, Nat.testBit_or, Nat.testBit_shiftLeft,
    Nat.testBit_shiftRight, ge_iff_le]

/-- Rotating left undoes rotating right. -/
theorem rotl_rotr (w x r : Nat) (hx : x < 2 ^ w) (hr : r ≤ w) : rotl w (rotr w x r) r = x := by
  apply Nat.eq_of_testBit_eq
  intro i
  rw [testBit_rotl, testBit_rotr, testBit_rotr]
  by_cases hi : i < w
  · by_cases hri : r ≤ i
    · have e1 : r + (i - r) = i := by omega
      have h1 : i - r < w := by omega
      have h2 : ¬ (w - r ≤ i - r) := by omega
      have h3 : ¬ (w - r + i < w) := by omega
      simp [hi, hri, e1, h1, h2, h3]
    · have h1 : w - r + i < w := by omega
      have h2 : w - r ≤ w - r + i := by omega
      have e1 : w - r + i - (w - r) = i := by omega
      have h3 : x.testBit (r + (w - r + i)) = false :=
        testBit_eq_false_of_lt hx (by omega)
      simp [hi, hri, h1, h2, e1, h3]
  · have h0 : x.testBit i = false := testBit_eq_false_of_lt hx (by omega)
    simp [hi, h0]

/-- Rotating right undoes rotating left. -/
theorem rotr_rotl (w x r : Nat) (hx : x < 2 ^ w) (hr : r ≤ w) : rotr w (rotl w x r) r = x := by
  apply Nat.eq_of_testBit_eq
  intro i
  rw [testBit_rotr, testBit_rotl, testBit_rotl]
  by_cases hi : i < w
  · by_cases hri : w - r ≤ i
    · have h1 : ¬ (r + i < w) := by omega
      have h2 : i - (w - r) < w := by omega
      have h3 : ¬ (r ≤ i - (w - r)) := by omega
      have e1 : w - r + (i - (w - r)) = i := by omega
      simp [hi, hri, h1, h2, h3, e1]
    · have h1 : r + i < w := by omega
      have h2 : r ≤ r + i := by omega
      have e1 : r + i - r = i := by omega
      have h3 : x.testBit (w - r + (r + i)) = false :=
        testBit_eq_false_of_lt hx (by omega)
      simp [hi, hri, h1, h2, e1, h3]
  · have h0 : x.testBit i = false := testBit_eq_false_of_lt hx (by omega)
    simp [hi, h0]

/-- The C expression `(x >> r) | (x << (w - r))`, shifted in an `h`-bit type
and reduced to `w` bits, is the rotation to the right. -/
theorem c_rotr (h w x r : Nat) (hwh : w ≤ h) :
    ((x >>> r) ||| shl h x (w - r)) % 2 ^ w = rotr w x r := by
  unfold shl rotr
  rw [or_mod_two_pow, mod_two_pow_mod_of_ge _ hwh, ← or_mod_two_pow]

/-- The C expression `(x << r) | (x >> (w - r))`, shifted in an `h`-bit type
and reduced to `w` bits, is the rotation to the left. -/
theorem c_rotl (h w x r : Nat) (hwh : w ≤ h) :
    (shl h x r ||| (x >>> (w - r))) % 2 ^ w = rotl w x r := by
  unfold shl rotl
  rw [or_mod_two_pow, mod_two_pow_mod_of_ge _ hwh, ← or_mod_two_pow]

theorem add_mod_two_pow (h w x y : Nat) (hwh : w ≤ h) :
    add h x y % 2 ^ w = (x + y) % 2 ^ w := by
  unfold add
  exact mod_two_pow_mod_of_ge _ hwh

theorem sub_lt (w x y : Nat) : sub w x y < 2 ^ w := by
  unfold sub
  have hpos : (0 : Int) < (2 : Int) ^ w := by positivity
  have h1 := Int.emod_nonneg ((x : Int) - (y : Int)) (ne_of_gt hpos)
  have h2 := Int.emod_lt_of_pos ((x : Int) - (y : Int)) hpos
  have h3 : (((((x : Int) - (y : Int)) % (2 : Int) ^ w).toNat : Nat) : Int) < ((2 ^ w : Nat) : Int) := by
    rw [Int.toNat_of_nonneg h1]
    push_cast
    exact h2
  exact_mod_cast h3

theorem sub_mod_two_pow (h w x y : Nat) (hwh : w ≤ h) : sub h x y % 2 ^ w = sub w x y := by
  unfold sub
  have hposh : (0 : Int) < (2 : Int) ^ h := by positivity
  have hposw : (0 : Int) < (2 : Int) ^ w := by positivity
  have h1 := Int.emod_nonneg ((x : Int) - (y : Int)) (ne_of_gt hposh)
  have h2 := Int.emod_nonneg ((x : Int) - (y : Int)) (ne_of_gt hposw)
  apply Int.ofNat.inj
  show (((((x : Int) - (y : Int)) % (2 : Int) ^ h).toNat % 2 ^ w : Nat) : Int)
      = (((((x : Int) - (y : Int)) % (2 : Int) ^ w).toNat : Nat) : Int)
  rw [Int.toNat_of_nonneg h2]
  push_cast
  rw [Int.toNat_of_nonneg h1]
  exact Int.emod_emod_of_dvd _ (pow_dvd_pow 2 hwh)

/-- Subtracting what was added modulo `2 ^ w` gives the first summand back. -/
theorem sub_add_cancel (w a b : Nat) (ha : a < 2 ^ w) : sub w ((a + b) % 2 ^ w) b = a := by
  unfold sub
  have hposw : (0 : Int) < (2 : Int) ^ w := by positivity
  have hd := Nat.mod_add_div (a + b) (2 ^ w)
  have hd2 : (((a + b) % 2 ^ w : Nat) : Int) + (2 : Int) ^ w * (((a + b) / 2 ^ w : Nat) : Int)
      = (a : Int) + (b : Int) := by exact_mod_cast hd
  have e : (((a + b) % 2 ^ w : Nat) : Int) - (b : Int)
      = (a : Int) + (2 : Int) ^ w * (-(((a + b) / 2 ^ w : Nat) : Int)) := by linarith
  rw [e, Int.add_mul_emod_self_left, Int.emod_eq_of_lt (by omega) (by exact_mod_cast ha)]
  simp

theorem xor_cancel_right (a b : Nat) : (a ^^^ b) ^^^ b = a := by
  rw [Nat.xor_assoc, Nat.xor_self, Nat.xor_zero]

/-- A Speck round keeps both words below `2 ^ w`. -/
theorem speckRound_lt (w a b k : Nat) (p : Nat × Nat) (hk : k < 2 ^ w) :
    (speckRound w a b k p).1 < 2 ^ w ∧ (speckRound w a b k p).2 < 2 ^ w := by
  have h1 : ((rotr w p.1 a + p.2) % 2 ^ w) ^^^ k < 2 ^ w :=
    Nat.xor_lt_two_pow (Nat.mod_lt _ (Nat.two_pow_pos w)) hk
  exact ⟨h1, Nat.xor_lt_two_pow (rotl_lt w p.2 b) h1⟩

/-- The Speck decryption step undoes the Speck encryption round. -/
theorem speckRoundInv_speckRound (w a b k : Nat) (p : Nat × Nat) (ha : a ≤ w) (hb : b ≤ w)
    (hx : p.1 < 2 ^ w) (hy : p.2 < 2 ^ w) :
    speckRoundInv w a b k (speckRound w a b k p) = p := by
  obtain ⟨x, y⟩ := p
  simp only [speckRound, speckRoundInv] at *
  have e1 : (rotl w y b ^^^ ((rotr w x a + y) % 2 ^ w ^^^ k)) ^^^ ((rotr w x a + y) % 2 ^ w ^^^ k)
      = rotl w y b := xor_cancel_right _ _
  rw [e1, rotr_rotl w y b hy hb, xor_cancel_right, sub_add_cancel w _ y (rotr_lt w x a),
    rotl_rotr w x a hx ha]

/-- A Simon round keeps both words below `2 ^ w`. -/
theorem simonRound_lt (w k : Nat) (p : Nat × Nat) (hk : k < 2 ^ w)
    (hx : p.1 < 2 ^ w) (hy : p.2 < 2 ^ w) :
    (simonRound w k p).1 < 2 ^ w ∧ (simonRound w k p).2 < 2 ^ w := by
  refine ⟨?_, hx⟩
  exact Nat.xor_lt_two_pow (Nat.xor_lt_two_pow (Nat.xor_lt_two_pow
    (Nat.and_lt_two_pow _ (rotl_lt w p.1 8)) hy) (rotl_lt w p.1 2)) hk

/-- A Simon round applied to the swapped result of the same round gives the
swapped input back. -/
theorem simonRound_swap_simonRound (w k : Nat) (p : Nat × Nat) :
    simonRound w k (Prod.swap (simonRound w k p)) = Prod.swap p := by
  obtain ⟨x, y⟩ := p
  simp only [simonRound, Prod.swap]
  congr 1
  apply Nat.eq_of_testBit_eq
  intro i
  simp only [Nat.testBit_xor]
  cases ((rotl w x 1 &&& rotl w x 8).testBit i) <;> cases y.testBit i <;>
    cases (rotl w x 2).testBit i <;> cases k.testBit i <;> rfl

/-- For a word below `2 ^ w`, the C rotation in a `w`-bit type needs no mask. -/
theorem c_rotl_full (w x r : Nat) (hx : x < 2 ^ w) :
    shl w x r ||| (x >>> (w - r)) = rotl w x r := by
  rw [← c_rotl w w x r (Nat.le_refl w)]
  refine (Nat.mod_eq_of_lt (Nat.or_lt_two_pow (Nat.mod_lt _ (Nat.two_pow_pos w)) ?_)).symm
  exact Nat.lt_of_le_of_lt (Nat.shiftRight_eq_div_pow x (w - r) ▸ Nat.div_le_self _ _) hx

/-- For a word below `2 ^ w`, the C rotation in a `w`-bit type needs no mask. -/
theorem c_rotr_full (w x r : Nat) (hx : x < 2 ^ w) :
    (x >>> r) ||| shl w x (w - r) = rotr w x r := by
  rw [← c_rotr w w x r (Nat.le_refl w)]
  refine (Nat.mod_eq_of_lt (Nat.or_lt_two_pow ?_ (Nat.mod_lt _ (Nat.two_pow_pos w)))).symm
  exact Nat.lt_of_le_of_lt (Nat.shiftRight_eq_div_pow x r ▸ Nat.div_le_self _ _) hx

/-! ## Lemmas on the reference ciphers -/

theorem speckEncrypt_lt (w a b : Nat) (K : Nat → Nat) (n : Nat) (p : Nat × Nat)
    (hK : ∀ i, K i < 2 ^ w) (hx : p.1 < 2 ^ w) (hy : p.2 < 2 ^ w) :
    (speckEncrypt w a b K n p).1 < 2 ^ w ∧ (speckEncrypt w a b K n p).2 < 2 ^ w :=
  forUp_inv (fun q : Nat × Nat => q.1 < 2 ^ w ∧ q.2 < 2 ^ w) _ n
    (fun i q _ _ => speckRound_lt w a b (K i) q (hK i)) p ⟨hx, hy⟩

theorem speckDecrypt_speckEncrypt (w a b : Nat) (K : Nat → Nat) (n : Nat) (p : Nat × Nat)
    (ha : a ≤ w) (hb : b ≤ w) (hK : ∀ i, K i < 2 ^ w) (hx : p.1 < 2 ^ w) (hy : p.2 < 2 ^ w) :
    speckDecrypt w a b K n (speckEncrypt w a b K n p) = p := by
  unfold speckDecrypt speckEncrypt
  refine (forUp_reverse (fun j => speckRoundInv w a b (K j)) n _).trans ?_
  exact forDown_forUp (fun q : Nat × Nat => q.1 < 2 ^ w ∧ q.2 < 2 ^ w) id
    (fun i => speckRound w a b (K i)) (fun j => speckRoundInv w a b (K j)) n
    (fun i q _ _ => speckRound_lt w a b (K i) q (hK i))
    (fun i q _ hq => speckRoundInv_speckRound w a b (K i) q ha hb hq.1 hq.2) p ⟨hx, hy⟩

theorem simonEncrypt_lt (w : Nat) (K : Nat → Nat) (n : Nat) (p : Nat × Nat)
    (hK : ∀ i, K i < 2 ^ w) (hx : p.1 < 2 ^ w) (hy : p.2 < 2 ^ w) :
    (simonEncrypt w K n p).1 < 2 ^ w ∧ (simonEncrypt w K n p).2 < 2 ^ w :=
  forUp_inv (fun q : Nat × Nat => q.1 < 2 ^ w ∧ q.2 < 2 ^ w) _ n
    (fun i q _ hq => simonRound_lt w (K i) q (hK i) hq.1 hq.2) p ⟨hx, hy⟩

theorem simonDecrypt_simonEncrypt (w : Nat) (K : Nat → Nat) (n : Nat) (p : Nat × Nat) :
    simonDecrypt w K n (Prod.swap (simonEncrypt w K n p)) = Prod.swap p := by
  unfold simonDecrypt simonEncrypt
  exact forDown_forUp (fun _ : Nat × Nat => True) Prod.swap
    (fun i => simonRound w (K i)) (fun j => simonRound w (K j)) n
    (fun _ _ _ _ => trivial)
    (fun i q _ _ => simonRound_swap_simonRound w (K i) q) p trivial

/-- A loop on the variables `x`, `y` of a routine computes what a loop on
pairs of `w`-bit words computes, when each pass of its body does. -/
theorem regs_forUp (w : Nat) (body : Nat → Regs → Regs) (g : Nat → Nat × Nat → Nat × Nat)
    (n : Nat)
    (hg : ∀ i p, i < n → p.1 < 2 ^ w → p.2 < 2 ^ w → (g i p).1 < 2 ^ w ∧ (g i p).2 < 2 ^ w)
    (hstep : ∀ i s, i < n → s.x < 2 ^ w → s.y < 2 ^ w →
      ((body i s).x, (body i s).y) = g i (s.x, s.y))
    (s : Regs) (hx : s.x < 2 ^ w) (hy : s.y < 2 ^ w) :
    ((forUp body n s).x, (forUp body n s).y) = forUp g n (s.x, s.y) := by
  have h := forUp_rel (fun (s : Regs) (t : Nat × Nat) => (s.x, s.y) = t ∧ t.1 < 2 ^ w ∧ t.2 < 2 ^ w)
    body g n
    (fun i s t hi hr => by
      obtain ⟨e, h1, h2⟩ := hr
      subst e
      refine ⟨hstep i s hi h1 h2, hg i _ hi h1 h2⟩)
    s (s.x, s.y) ⟨rfl, hx, hy⟩
  exact h.1

theorem regs_forDown (w : Nat) (body : Nat → Regs → Regs) (g : Nat → Nat × Nat → Nat × Nat)
    (n : Nat)
    (hg : ∀ i p, i < n → p.1 < 2 ^ w → p.2 < 2 ^ w → (g i p).1 < 2 ^ w ∧ (g i p).2 < 2 ^ w)
    (hstep : ∀ i s, i < n → s.x < 2 ^ w → s.y < 2 ^ w →
      ((body i s).x, (body i s).y) = g i (s.x, s.y))
    (s : Regs) (hx : s.x < 2 ^ w) (hy : s.y < 2 ^ w) :
    ((forDown body n s).x, (forDown body n s).y) = forDown g n (s.x, s.y) := by
  rw [← forUp_reverse body n s, ← forUp_reverse g n (s.x, s.y)]
  exact regs_forUp w (fun i => body (n - 1 - i)) (fun i => g (n - 1 - i)) n
    (fun i p hi => hg (n - 1 - i) p (by omega))
    (fun i s hi => hstep (n - 1 - i) s (by omega)) s hx hy

/-- The block a routine stores after a loop on `x`, `y` is the block that the
loop on pairs of `w`-bit words gives. -/
theorem regs_forUp_store (w : Nat) (body : Nat → Regs → Regs)
    (g : Nat → Nat × Nat → Nat × Nat) (n : Nat) (s : Regs) (p : Nat × Nat)
    (hg : ∀ i p, i < n → p.1 < 2 ^ w → p.2 < 2 ^ w → (g i p).1 < 2 ^ w ∧ (g i p).2 < 2 ^ w)
    (hs : s.x = p.1 ∧ s.y = p.2) (hp : p.1 < 2 ^ w ∧ p.2 < 2 ^ w)
    (hstep : ∀ i s, i < n → s.x < 2 ^ w → s.y < 2 ^ w →
      ((body i s).x, (body i s).y) = g i (s.x, s.y)) :
    (forUp body n s).x = (forUp g n p).1 ∧ (forUp body n s).y = (forUp g n p).2 := by
  obtain ⟨p1, p2⟩ := p
  obtain ⟨h1, h2⟩ := hs
  simp only at h1 h2 hp
  have h := regs_forUp w body g n hg hstep s (h1 ▸ hp.1) (h2 ▸ hp.2)
  rw [h1, h2] at h
  exact ⟨congrArg Prod.fst h, congrArg Prod.snd h⟩

theorem regs_forDown_store (w : Nat) (body : Nat → Regs → Regs)
    (g : Nat → Nat × Nat → Nat × Nat) (n : Nat) (s : Regs) (p : Nat × Nat)
    (hg : ∀ i p, i < n → p.1 < 2 ^ w → p.2 < 2 ^ w → (g i p).1 < 2 ^ w ∧ (g i p).2 < 2 ^ w)
    (hs : s.x = p.1 ∧ s.y = p.2) (hp : p.1 < 2 ^ w ∧ p.2 < 2 ^ w)
    (hstep : ∀ i s, i < n → s.x < 2 ^ w → s.y < 2 ^ w →
      ((body i s).x, (body i s).y) = g i (s.x, s.y)) :
    (forDown body n s).x = (forDown g n p).1 ∧ (forDown body n s).y = (forDown g n p).2 := by
  obtain ⟨p1, p2⟩ := p
  obtain ⟨h1, h2⟩ := hs
  simp only at h1 h2 hp
  have h := regs_forDown w body g n hg hstep s (h1 ▸ hp.1) (h2 ▸ hp.2)
  rw [h1, h2] at h
  exact ⟨congrArg Prod.fst h, congrArg Prod.snd h⟩

theorem store_congr_yx (ct : Buf) (m x y c d : Nat) (h : x = c ∧ y = d) :
    storeLE (storeLE ct 0 m y) m m x = storeLE (storeLE ct 0 m d) m m c := by
  rw [h.1, h.2]

theorem store_congr_xy (ct : Buf) (m x y c d : Nat) (h : x = c ∧ y = d) :
    storeLE (storeLE ct 0 m x) m m y = storeLE (storeLE ct 0 m c) m m d := by
  rw [h.1, h.2]

/-! ## Masks, loads and stores of whole words -/

theorem memcpyWord_mod (h old : Nat) (src : Buf) (off n : Nat) :
    memcpyWord h old src off n % 256 ^ n = loadLE src off n := by
  unfold memcpyWord
  rw [Nat.add_mul_mod_self_left]
  exact Nat.mod_eq_of_lt (loadLE_lt src off n)

theorem and_mask24 (v : Nat) : v &&& 0x00FFFFFF = v % 2 ^ 24 :=
  Nat.and_pow_two_sub_one_eq_mod v 24

theorem and_mask48 (v : Nat) : v &&& 0x00FFFFFFFFFFFF = v % 2 ^ 48 :=
  Nat.and_pow_two_sub_one_eq_mod v 48

theorem and_mask (v w : Nat) (hw : w ≤ 64) : v &&& (ULLONG_MAX >>> (64 - w)) = v % 2 ^ w := by
  have e : ULLONG_MAX >>> (64 - w) = 2 ^ w - 1 := by
    unfold ULLONG_MAX
    interval_cases w <;> rfl
  rw [e]
  exact Nat.and_pow_two_sub_one_eq_mod v w

theorem and_ullong_max (v : Nat) : v &&& ULLONG_MAX = v % 2 ^ 64 :=
  Nat.and_pow_two_sub_one_eq_mod v 64

theorem loadLE_lt_two_pow (b : Buf) (off n : Nat) : loadLE b off n < 2 ^ (8 * n) := by
  have h := loadLE_lt b off n
  rwa [show (256 : Nat) = 2 ^ 8 from rfl, ← Nat.pow_mul] at h

/-- The bytes written by a routine that stores `y` then `x`, at offsets below
`2 * n`, when the two words were loaded from `src` in the same order. -/
theorem store_load_block (dst src : Buf) (n j : Nat) (hj : j < 2 * n) :
    storeLE (storeLE dst 0 n (loadLE src 0 n)) n n (loadLE src n n) j = src j % 256 := by
  by_cases h : j < n
  · rw [storeLE_apply_out _ n n _ j (Or.inl h), storeLE_apply_in _ 0 n _ j (Nat.zero_le _) (by omega),
      Nat.sub_zero, loadLE_byte src 0 n j h, Nat.zero_add]
  · rw [storeLE_apply_in _ n n _ j (by omega) (by omega), loadLE_byte src n n (j - n) (by omega)]
    congr 2
    omega

/-- Loading the two words of a block that a routine has just stored. -/
theorem load_store_block (dst : Buf) (n a b : Nat) (ha : a < 256 ^ n) (hb : b < 256 ^ n) :
    loadLE (storeLE (storeLE dst 0 n a) n n b) 0 n = a
      ∧ loadLE (storeLE (storeLE dst 0 n a) n n b) n n = b := by
  constructor
  · rw [loadLE_storeLE_other _ n n b 0 n (Or.inl (by omega)), loadLE_storeLE,
      Nat.mod_eq_of_lt ha]
  · rw [loadLE_storeLE, Nat.mod_eq_of_lt hb]

theorem rotr_mod (w x r : Nat) : rotr w x r % 2 ^ w = rotr w x r :=
  Nat.mod_eq_of_lt (rotr_lt w x r)

theorem rotl_mod (w x r : Nat) : rotl w x r % 2 ^ w = rotl w x r :=
  Nat.mod_eq_of_lt (rotl_lt w x r)

theorem sub_mod (w x y : Nat) : sub w x y % 2 ^ w = sub w x y :=
  Nat.mod_eq_of_lt (sub_lt w x y)

theorem memcpyWord_mod3 (h old : Nat) (src : Buf) (off : Nat) :
    memcpyWord h old src off 3 % 2 ^ 24 = loadLE src off 3 :=
  memcpyWord_mod h old src off 3

theorem memcpyWord_mod6 (h old : Nat) (src : Buf) (off : Nat) :
    memcpyWord h old src off 6 % 2 ^ 48 = loadLE src off 6 :=
  memcpyWord_mod h old src off 6

theorem mod_eq_of_lt_two_pow {v w : Nat} (h : Nat) (hv : v < 2 ^ w) (hwh : w ≤ h) :
    v % 2 ^ h = v :=
  Nat.mod_eq_of_lt (Nat.lt_of_lt_of_le hv (Nat.pow_le_pow_right (by decide) hwh))

theorem rotr_mod_of_le (w h x r : Nat) (hwh : w ≤ h) : rotr w x r % 2 ^ h = rotr w x r :=
  mod_eq_of_lt_two_pow h (rotr_lt w x r) hwh

theorem rotl_mod_of_le (w h x r : Nat) (hwh : w ≤ h) : rotl w x r % 2 ^ h = rotl w x r :=
  mod_eq_of_lt_two_pow h (rotl_lt w x r) hwh

theorem sub_mod_of_le (w h x y : Nat) (hwh : w ≤ h) : sub w x y % 2 ^ h = sub w x y :=
  mod_eq_of_lt_two_pow h (sub_lt w x y) hwh

theorem loadLE_mod_of_le (b : Buf) (off n h : Nat) (hn : 8 * n ≤ h) :
    loadLE b off n % 2 ^ h = loadLE b off n :=
  mod_eq_of_lt_two_pow h (loadLE_lt_two_pow b off n) hn

/-! ## The routines compute the reference ciphers -/

/-- The routine `encrypt_speck_64_32` stores the Speck encryption, with 16-bit words,
rotations 7 and 2 and 22 rounds, of the block loaded from the plaintext,
the subkey of round `i` being the word at byte offset `2 * i` of the schedule. -/
theorem speck64_32_encrypt_eq (ks pt ct : Buf) :
    speck64_32.encrypt_speck_64_32 ks pt ct =
      storeLE (storeLE ct 0 2
        (speckEncrypt 16 7 2 (fun i => loadLE ks (2 * i) 2) 22 (loadLE pt 2 2, loadLE pt 0 2)).2) 2 2
        (speckEncrypt 16 7 2 (fun i => loadLE ks (2 * i) 2) 22 (loadLE pt 2 2, loadLE pt 0 2)).1 := by
  unfold speck64_32.encrypt_speck_64_32 speckEncrypt
  refine store_congr_yx ct 2 _ _ _ _ (regs_forUp_store 16 _
    (fun i => speckRound 16 7 2 (loadLE ks (2 * i) 2)) 22 _ (loadLE pt 2 2, loadLE pt 0 2)
    (fun i p _ _ _ => speckRound_lt 16 7 2 _ p (loadLE_lt ks (2 * i) 2))
    ?_ ⟨loadLE_lt pt 2 2, loadLE_lt pt 0 2⟩ ?_)
  · simp only [speck64_32.rotate_right, speck64_32.rotate_left, speck64_32.word_size, speck64_32.bytes, speck64_32.rounds,
      speck64_32.rotation_alpha, speck64_32.rotation_beta,
      and_mask24, and_mask48, and_mask _ 16 (by decide), memcpyWord_mod3, memcpyWord_mod6,
      c_rotr 32 16 _ _ (by decide), c_rotl 32 16 _ _ (by decide),
      add_mod_two_pow 32 16 _ _ (by decide), sub_mod_two_pow 32 16 _ _ (by decide),
      xor_mod_two_pow, Nat.mod_mod, rotr_mod, rotl_mod, sub_mod,
      rotr_mod_of_le 16 32 _ _ (by decide), rotl_mod_of_le 16 32 _ _ (by decide),
      sub_mod_of_le 16 32 _ _ (by decide), loadLE_mod_of_le _ _ 2 32 (by decide),
      loadLE_mod_of_le _ _ 2 16 (by decide), mod_two_pow_mod_of_le _ (by decide : 16 ≤ 32), and_self]
  · intro i s _ hx hy
    simp only [speckRound, speck64_32.rotate_right, speck64_32.rotate_left, speck64_32.word_size, speck64_32.bytes, speck64_32.rounds,
      speck64_32.rotation_alpha, speck64_32.rotation_beta,
      and_mask24, and_mask48, and_mask _ 16 (by decide), memcpyWord_mod3, memcpyWord_mod6,
      c_rotr 32 16 _ _ (by decide), c_rotl 32 16 _ _ (by decide),
      add_mod_two_pow 32 16 _ _ (by decide), sub_mod_two_pow 32 16 _ _ (by decide),
      xor_mod_two_pow, Nat.mod_mod, rotr_mod, rotl_mod, sub_mod,
      rotr_mod_of_le 16 32 _ _ (by decide), rotl_mod_of_le 16 32 _ _ (by decide),
      sub_mod_of_le 16 32 _ _ (by decide), loadLE_mod_of_le _ _ 2 32 (by decide),
      loadLE_mod_of_le _ _ 2 16 (by decide), mod_two_pow_mod_of_le _ (by decide : 16 ≤ 32)]

/-- The routine `decrypt_speck_64_32` stores the Speck decryption of the block loaded from
the ciphertext (`y` first, as in encryption). -/
theorem speck64_32_decrypt_eq (ks pt ct : Buf) :
    speck64_32.decrypt_speck_64_32 ks pt ct =
      storeLE (storeLE pt 0 2
        (speckDecrypt 16 7 2 (fun i => loadLE ks (2 * i) 2) 22 (loadLE ct 2 2, loadLE ct 0 2)).2) 2 2
        (speckDecrypt 16 7 2 (fun i => loadLE ks (2 * i) 2) 22 (loadLE ct 2 2, loadLE ct 0 2)).1 := by
  unfold speck64_32.decrypt_speck_64_32 speckDecrypt
  refine store_congr_yx pt 2 _ _ _ _ (regs_forUp_store 16 _
    (fun i => speckRoundInv 16 7 2 (loadLE ks (2 * (22 - 1 - i)) 2)) 22 _
    (loadLE ct 2 2, loadLE ct 0 2)
    (fun i p _ _ _ => ⟨rotl_lt _ _ _, rotr_lt _ _ _⟩)
    ?_ ⟨loadLE_lt ct 2 2, loadLE_lt ct 0 2⟩ ?_)
  · simp only [speck64_32.rotate_right, speck64_32.rotate_left, speck64_32.word_size, speck64_32.bytes, speck64_32.rounds,
      speck64_32.rotation_alpha, speck64_32.rotation_beta,
      and_mask24, and_mask48, and_mask _ 16 (by decide), memcpyWord_mod3, memcpyWord_mod6,
      c_rotr 32 16 _ _ (by decide), c_rotl 32 16 _ _ (by decide),
      add_mod_two_pow 32 16 _ _ (by decide), sub_mod_two_pow 32 16 _ _ (by decide),
      xor_mod_two_pow, Nat.mod_mod, rotr_mod, rotl_mod, sub_mod,
      rotr_mod_of_le 16 32 _ _ (by decide), rotl_mod_of_le 16 32 _ _ (by decide),
      sub_mod_of_le 16 32 _ _ (by decide), loadLE_mod_of_le _ _ 2 32 (by decide),
      loadLE_mod_of_le _ _ 2 16 (by decide), mod_two_pow_mod_of_le _ (by decide : 16 ≤ 32), and_self]
  · intro i s _ hx hy
    simp only [speckRoundInv, speck64_32.rotate_right, speck64_32.rotate_left, speck64_32.word_size, speck64_32.bytes, speck64_32.rounds,
      speck64_32.rotation_alpha, speck64_32.rotation_beta,
      and_mask24, and_mask48, and_mask _ 16 (by decide), memcpyWord_mod3, memcpyWord_mod6,
      c_rotr 32 16 _ _ (by decide), c_rotl 32 16 _ _ (by decide),
      add_mod_two_pow 32 16 _ _ (by decide), sub_mod_two_pow 32 16 _ _ (by decide),
      xor_mod_two_pow, Nat.mod_mod, rotr_mod, rotl_mod, sub_mod,
      rotr_mod_of_le 16 32 _ _ (by decide), rotl_mod_of_le 16 32 _ _ (by decide),
      sub_mod_of_le 16 32 _ _ (by decide), loadLE_mod_of_le _ _ 2 32 (by decide),
      loadLE_mod_of_le _ _ 2 16 (by decide), mod_two_pow_mod_of_le _ (by decide : 16 ≤ 32),
      Nat.mod_eq_of_lt hx, Nat.mod_eq_of_lt hy, mod_eq_of_lt_two_pow 32 hx (by decide),
      mod_eq_of_lt_two_pow 32 hy (by decide)]

/-- The routine `encrypt_speck_72_48` stores the Speck encryption, with 24-bit words,
rotations 8 and 3 and 3 rounds, of the block loaded from the plaintext,
the subkey of round `i` being the word at byte offset `3 * i` of the schedule. -/
theorem speck72_48_encrypt_eq (ks pt ct : Buf) (u : Locals) :
    speck72_48.encrypt_speck_72_48 ks pt ct u =
      storeLE (storeLE ct 0 3
        (speckEncrypt 24 8 3 (fun i => loadLE ks (3 * i) 3) 3 (loadLE pt 3 3, loadLE pt 0 3)).2) 3 3
        (speckEncrypt 24 8 3 (fun i => loadLE ks (3 * i) 3) 3 (loadLE pt 3 3, loadLE pt 0 3)).1 := by
  unfold speck72_48.encrypt_speck_72_48 speckEncrypt
  refine store_congr_yx ct 3 _ _ _ _ (regs_forUp_store 24 _
    (fun i => speckRound 24 8 3 (loadLE ks (3 * i) 3)) 3 _ (loadLE pt 3 3, loadLE pt 0 3)
    (fun i p _ _ _ => speckRound_lt 24 8 3 _ p (loadLE_lt ks (3 * i) 3))
    ?_ ⟨loadLE_lt pt 3 3, loadLE_lt pt 0 3⟩ ?_)
  · simp only [speck72_48.rotate_right, speck72_48.rotate_left, speck72_48.word_size, speck72_48.bytes, speck72_48.rounds,
      speck72_48.rotation_alpha, speck72_48.rotation_beta, speck72_48.mod_mask, sizeof_bytes3_t,
      and_mask24, and_mask48, and_mask _ 24 (by decide), memcpyWord_mod3, memcpyWord_mod6,
      c_rotr 32 24 _ _ (by decide), c_rotl 32 24 _ _ (by decide),
      add_mod_two_pow 32 24 _ _ (by decide), sub_mod_two_pow 32 24 _ _ (by decide),
      xor_mod_two_pow, Nat.mod_mod, rotr_mod, rotl_mod, sub_mod,
      rotr_mod_of_le 24 32 _ _ (by decide), rotl_mod_of_le 24 32 _ _ (by decide),
      sub_mod_of_le 24 32 _ _ (by decide), loadLE_mod_of_le _ _ 3 32 (by decide),
      loadLE_mod_of_le _ _ 3 24 (by decide), mod_two_pow_mod_of_le _ (by decide : 24 ≤ 32), and_self]
  · intro i s _ hx hy
    simp only [speckRound, speck72_48.rotate_right, speck72_48.rotate_left, speck72_48.word_size, speck72_48.bytes, speck72_48.rounds,
      speck72_48.rotation_alpha, speck72_48.rotation_beta, speck72_48.mod_mask, sizeof_bytes3_t,
      and_mask24, and_mask48, and_mask _ 24 (by decide), memcpyWord_mod3, memcpyWord_mod6,
      c_rotr 32 24 _ _ (by decide), c_rotl 32 24 _ _ (by decide),
      add_mod_two_pow 32 24 _ _ (by decide), sub_mod_two_pow 32 24 _ _ (by decide),
      xor_mod_two_pow, Nat.mod_mod, rotr_mod, rotl_mod, sub_mod,
      rotr_mod_of_le 24 32 _ _ (by decide), rotl_mod_of_le 24 32 _ _ (by decide),
      sub_mod_of_le 24 32 _ _ (by decide), loadLE_mod_of_le _ _ 3 32 (by decide),
      loadLE_mod_of_le _ _ 3 24 (by decide), mod_two_pow_mod_of_le _ (by decide : 24 ≤ 32)]

/-- The routine `decrypt_speck_72_48` stores the Speck decryption of the block loaded from
the ciphertext (`y` first, as in encryption). -/
theorem speck72_48_decrypt_eq (ks pt ct : Buf) (u : Locals) :
    speck72_48.decrypt_speck_72_48 ks pt ct u =
      storeLE (storeLE pt 0 3
        (speckDecrypt 24 8 3 (fun i => loadLE ks (3 * i) 3) 3 (loadLE ct 3 3, loadLE ct 0 3)).2) 3 3
        (speckDecrypt 24 8 3 (fun i => loadLE ks (3 * i) 3) 3 (loadLE ct 3 3, loadLE ct 0 3)).1 := by
  unfold speck72_48.decrypt_speck_72_48 speckDecrypt
  refine store_congr_yx pt 3 _ _ _ _ (regs_forUp_store 24 _
    (fun i => speckRoundInv 24 8 3 (loadLE ks (3 * (3 - 1 - i)) 3)) 3 _
    (loadLE ct 3 3, loadLE ct 0 3)
    (fun i p _ _ _ => ⟨rotl_lt _ _ _, rotr_lt _ _ _⟩)
    ?_ ⟨loadLE_lt ct 3 3, loadLE_lt ct 0 3⟩ ?_)
  · simp only [speck72_48.rotate_right, speck72_48.rotate_left, speck72_48.word_size, speck72_48.bytes, speck72_48.rounds,
      speck72_48.rotation_alpha, speck72_48.rotation_beta, speck72_48.mod_mask, sizeof_bytes3_t,
      and_mask24, and_mask48, and_mask _ 24 (by decide), memcpyWord_mod3, memcpyWord_mod6,
      c_rotr 32 24 _ _ (by decide), c_rotl 32 24 _ _ (by decide),
      add_mod_two_pow 32 24 _ _ (by decide), sub_mod_two_pow 32 24 _ _ (by decide),
      xor_mod_two_pow, Nat.mod_mod, rotr_mod, rotl_mod, sub_mod,
      rotr_mod_of_le 24 32 _ _ (by decide), rotl_mod_of_le 24 32 _ _ (by decide),
      sub_mod_of_le 24 32 _ _ (by decide), loadLE_mod_of_le _ _ 3 32 (by decide),
      loadLE_mod_of_le _ _ 3 24 (by decide), mod_two_pow_mod_of_le _ (by decide : 24 ≤ 32), and_self]
  · intro i s _ hx hy
    simp only [speckRoundInv, speck72_48.rotate_right, speck72_48.rotate_left, speck72_48.word_size, speck72_48.bytes, speck72_48.rounds,
      speck72_48.rotation_alpha, speck72_48.rotation_beta, speck72_48.mod_mask, sizeof_bytes3_t,
      and_mask24, and_mask48, and_mask _ 24 (by decide), memcpyWord_mod3, memcpyWord_mod6,
      c_rotr 32 24 _ _ (by decide), c_rotl 32 24 _ _ (by decide),
      add_mod_two_pow 32 24 _ _ (by decide), sub_mod_two_pow 32 24 _ _ (by decide),
      xor_mod_two_pow, Nat.mod_mod, rotr_mod, rotl_mod, sub_mod,
      rotr_mod_of_le 24 32 _ _ (by decide), rotl_mod_of_le 24 32 _ _ (by decide),
      sub_mod_of_le 24 32 _ _ (by decide), loadLE_mod_of_le _ _ 3 32 (by decide),
      loadLE_mod_of_le _ _ 3 24 (by decide), mod_two_pow_mod_of_le _ (by decide : 24 ≤ 32),
      Nat.mod_eq_of_lt hx, Nat.mod_eq_of_lt hy, mod_eq_of_lt_two_pow 32 hx (by decide),
      mod_eq_of_lt_two_pow 32 hy (by decide)]

/-- The routine `encrypt_speck_96_48` stores the Speck encryption, with 24-bit words,
rotations 8 and 3 and 23 rounds, of the block loaded from the plaintext,
the subkey of round `i` being the word at byte offset `3 * i` of the schedule. -/
theorem speck96_48_encrypt_eq (ks pt ct : Buf) (u : Locals) :
    speck96_48.encrypt_speck_96_48 ks pt ct u =
      storeLE (storeLE ct 0 3
        (speckEncrypt 24 8 3 (fun i => loadLE ks (3 * i) 3) 23 (loadLE pt 3 3, loadLE pt 0 3)).2) 3 3
        (speckEncrypt 24 8 3 (fun i => loadLE ks (3 * i) 3) 23 (loadLE pt 3 3, loadLE pt 0 3)).1 := by
  unfold speck96_48.encrypt_speck_96_48 speckEncrypt
  refine store_congr_yx ct 3 _ _ _ _ (regs_forUp_store 24 _
    (fun i => speckRound 24 8 3 (loadLE ks (3 * i) 3)) 23 _ (loadLE pt 3 3, loadLE pt 0 3)
    (fun i p _ _ _ => speckRound_lt 24 8 3 _ p (loadLE_lt ks (3 * i) 3))
    ?_ ⟨loadLE_lt pt 3 3, loadLE_lt pt 0 3⟩ ?_)
  · simp only [speck96_48.rotate_right, speck96_48.rotate_left, speck96_48.word_size, speck96_48.bytes, speck96_48.rounds,
      speck96_48.rotation_alpha, speck96_48.rotation_beta, speck96_48.mod_mask, sizeof_bytes3_t,
      and_mask24, and_mask48, and_mask _ 24 (by decide), memcpyWord_mod3, memcpyWord_mod6,
      c_rotr 32 24 _ _ (by decide), c_rotl 32 24 _ _ (by decide),
      add_mod_two_pow 32 24 _ _ (by decide), sub_mod_two_pow 32 24 _ _ (by decide),
      xor_mod_two_pow, Nat.mod_mod, rotr_mod, rotl_mod, sub_mod,
      rotr_mod_of_le 24 32 _ _ (by decide), rotl_mod_of_le 24 32 _ _ (by decide),
      sub_mod_of_le 24 32 _ _ (by decide), loadLE_mod_of_le _ _ 3 32 (by decide),
      loadLE_mod_of_le _ _ 3 24 (by decide), mod_two_pow_mod_of_le _ (by decide : 24 ≤ 32), and_self]
  · intro i s _ hx hy
    simp only [speckRound, speck96_48.rotate_right, speck96_48.rotate_left, speck96_48.word_size, speck96_48.bytes, speck96_48.rounds,
      speck96_48.rotation_alpha, speck96_48.rotation_beta, speck96_48.mod_mask, sizeof_bytes3_t,
      and_mask24, and_mask48, and_mask _ 24 (by decide), memcpyWord_mod3, memcpyWord_mod6,
      c_rotr 32 24 _ _ (by decide), c_rotl 32 24 _ _ (by decide),
      add_mod_two_pow 32 24 _ _ (by decide), sub_mod_two_pow 32 24 _ _ (by decide),
      xor_mod_two_pow, Nat.mod_mod, rotr_mod, rotl_mod, sub_mod,
      rotr_mod_of_le 24 32 _ _ (by decide), rotl_mod_of_le 24 32 _ _ (by decide),
      sub_mod_of_le 24 32 _ _ (by decide), loadLE_mod_of_le _ _ 3 32 (by decide),
      loadLE_mod_of_le _ _ 3 24 (by decide), mod_two_pow_mod_of_le _ (by decide : 24 ≤ 32)]

/-- The routine `decrypt_speck_96_48` stores the Speck decryption of the block loaded from
the ciphertext (`y` first, as in encryption). -/
theorem speck96_48_decrypt_eq (ks pt ct : Buf) (u : Locals) :
    speck96_48.decrypt_speck_96_48 ks pt ct u =
      storeLE (storeLE pt 0 3
        (speckDecrypt 24 8 3 (fun i => loadLE ks (3 * i) 3) 23 (loadLE ct 3 3, loadLE ct 0 3)).2) 3 3
        (speckDecrypt 24 8 3 (fun i => loadLE ks (3 * i) 3) 23 (loadLE ct 3 3, loadLE ct 0 3)).1 := by
  unfold speck96_48.decrypt_speck_96_48 speckDecrypt
  refine store_congr_yx pt 3 _ _ _ _ (regs_forUp_store 24 _
    (fun i => speckRoundInv 24 8 3 (loadLE ks (3 * (23 - 1 - i)) 3)) 23 _
    (loadLE ct 3 3, loadLE ct 0 3)
    (fun i p _ _ _ => ⟨rotl_lt _ _ _, rotr_lt _ _ _⟩)
    ?_ ⟨loadLE_lt ct 3 3, loadLE_lt ct 0 3⟩ ?_)
  · simp only [speck96_48.rotate_right, speck96_48.rotate_left, speck96_48.word_size, speck96_48.bytes, speck96_48.rounds,
      speck96_48.rotation_alpha, speck96_48.rotation_beta, speck96_48.mod_mask, sizeof_bytes3_t,
      and_mask24, and_mask48, and_mask _ 24 (by decide), memcpyWord_mod3, memcpyWord_mod6,
      c_rotr 32 24 _ _ (by decide), c_rotl 32 24 _ _ (by decide),
      add_mod_two_pow 32 24 _ _ (by decide), sub_mod_two_pow 32 24 _ _ (by decide),
      xor_mod_two_pow, Nat.mod_mod, rotr_mod, rotl_mod, sub_mod,
      rotr_mod_of_le 24 32 _ _ (by decide), rotl_mod_of_le 24 32 _ _ (by decide),
      sub_mod_of_le 24 32 _ _ (by decide), loadLE_mod_of_le _ _ 3 32 (by decide),
      loadLE_mod_of_le _ _ 3 24 (by decide), mod_two_pow_mod_of_le _ (by decide : 24 ≤ 32), and_self]
  · intro i s _ hx hy
    simp only [speckRoundInv, speck96_48.rotate_right, speck96_48.rotate_left, speck96_48.word_size, speck96_48.bytes, speck96_48.rounds,
      speck96_48.rotation_alpha, speck96_48.rotation_beta, speck96_48.mod_mask, sizeof_bytes3_t,
      and_mask24, and_mask48, and_mask _ 24 (by decide), memcpyWord_mod3, memcpyWord_mod6,
      c_rotr 32 24 _ _ (by decide), c_rotl 32 24 _ _ (by decide),
      add_mod_two_pow 32 24 _ _ (by decide), sub_mod_two_pow 32 24 _ _ (by decide),
      xor_mod_two_pow, Nat.mod_mod, rotr_mod, rotl_mod, sub_mod,
      rotr_mod_of_le 24 32 _ _ (by decide), rotl_mod_of_le 24 32 _ _ (by decide),
      sub_mod_of_le 24 32 _ _ (by decide), loadLE_mod_of_le _ _ 3 32 (by decide),
      loadLE_mod_of_le _ _ 3 24 (by decide), mod_two_pow_mod_of_le _ (by decide : 24 ≤ 32),
      Nat.mod_eq_of_lt hx, Nat.mod_eq_of_lt hy, mod_eq_of_lt_two_pow 32 hx (by decide),
      mod_eq_of_lt_two_pow 32 hy (by decide)]

/-- The routine `encrypt_speck_96_96` stores the Speck encryption, with 48-bit words,
rotations 8 and 3 and 28 rounds, of the block loaded from the plaintext,
the subkey of round `i` being the word at byte offset `6 * i` of the schedule. -/
theorem speck96_96_encrypt_eq (ks pt ct : Buf) (u : Locals) :
    speck96_96.encrypt_speck_96_96 ks pt ct u =
      storeLE (storeLE ct 0 6
        (speckEncrypt 48 8 3 (fun i => loadLE ks (6 * i) 6) 28 (loadLE pt 6 6, loadLE pt 0 6)).2) 6 6
        (speckEncrypt 48 8 3 (fun i => loadLE ks (6 * i) 6) 28 (loadLE pt 6 6, loadLE pt 0 6)).1 := by
  unfold speck96_96.encrypt_speck_96_96 speckEncrypt
  refine store_congr_yx ct 6 _ _ _ _ (regs_forUp_store 48 _
    (fun i => speckRound 48 8 3 (loadLE ks (6 * i) 6)) 28 _ (loadLE pt 6 6, loadLE pt 0 6)
    (fun i p _ _ _ => speckRound_lt 48 8 3 _ p (loadLE_lt ks (6 * i) 6))
    ?_ ⟨loadLE_lt pt 6 6, loadLE_lt pt 0 6⟩ ?_)
  · simp only [speck96_96.rotate_right, speck96_96.rotate_left, speck96_96.word_size, speck96_96.bytes, speck96_96.rounds,
      speck96_96.rotation_alpha, speck96_96.rotation_beta, speck96_96.mod_mask, sizeof_bytes6_t,
      and_mask24, and_mask48, and_mask _ 48 (by decide), memcpyWord_mod3, memcpyWord_mod6,
      c_rotr 64 48 _ _ (by decide), c_rotl 64 48 _ _ (by decide),
      add_mod_two_pow 64 48 _ _ (by decide), sub_mod_two_pow 64 48 _ _ (by decide),
      xor_mod_two_pow, Nat.mod_mod, rotr_mod, rotl_mod, sub_mod,
      rotr_mod_of_le 48 64 _ _ (by decide), rotl_mod_of_le 48 64 _ _ (by decide),
      sub_mod_of_le 48 64 _ _ (by decide), loadLE_mod_of_le _ _ 6 64 (by decide),
      loadLE_mod_of_le _ _ 6 48 (by decide), mod_two_pow_mod_of_le _ (by decide : 48 ≤ 64), and_self]
  · intro i s _ hx hy
    simp only [speckRound, speck96_96.rotate_right, speck96_96.rotate_left, speck96_96.word_size, speck96_96.bytes, speck96_96.rounds,
      speck96_96.rotation_alpha, speck96_96.rotation_beta, speck96_96.mod_mask, sizeof_bytes6_t,
      and_mask24, and_mask48, and_mask _ 48 (by decide), memcpyWord_mod3, memcpyWord_mod6,
      c_rotr 64 48 _ _ (by decide), c_rotl 64 48 _ _ (by decide),
      add_mod_two_pow 64 48 _ _ (by decide), sub_mod_two_pow 64 48 _ _ (by decide),
      xor_mod_two_pow, Nat.mod_mod, rotr_mod, rotl_mod, sub_mod,
      rotr_mod_of_le 48 64 _ _ (by decide), rotl_mod_of_le 48 64 _ _ (by decide),
      sub_mod_of_le 48 64 _ _ (by decide), loadLE_mod_of_le _ _ 6 64 (by decide),
      loadLE_mod_of_le _ _ 6 48 (by decide), mod_two_pow_mod_of_le _ (by decide : 48 ≤ 64)]

/-- The routine `decrypt_speck_96_96` stores the Speck decryption of the block loaded from
the ciphertext (`y` first, as in encryption). -/
theorem speck96_96_decrypt_eq (ks pt ct : Buf) (u : Locals) :
    speck96_96.decrypt_speck_96_96 ks pt ct u =
      storeLE (storeLE pt 0 6
        (speckDecrypt 48 8 3 (fun i => loadLE ks (6 * i) 6) 28 (loadLE ct 6 6, loadLE ct 0 6)).2) 6 6
        (speckDecrypt 48 8 3 (fun i => loadLE ks (6 * i) 6) 28 (loadLE ct 6 6, loadLE ct 0 6)).1 := by
  unfold speck96_96.decrypt_speck_96_96 speckDecrypt
  refine store_congr_yx pt 6 _ _ _ _ (regs_forUp_store 48 _
    (fun i => speckRoundInv 48 8 3 (loadLE ks (6 * (28 - 1 - i)) 6)) 28 _
    (loadLE ct 6 6, loadLE ct 0 6)
    (fun i p _ _ _ => ⟨rotl_lt _ _ _, rotr_lt _ _ _⟩)
    ?_ ⟨loadLE_lt ct 6 6, loadLE_lt ct 0 6⟩ ?_)
  · simp only [speck96_96.rotate_right, speck96_96.rotate_left, speck96_96.word_size, speck96_96.bytes, speck96_96.rounds,
      speck96_96.rotation_alpha, speck96_96.rotation_beta, speck96_96.mod_mask, sizeof_bytes6_t,
      and_mask24, and_mask48, and_mask _ 48 (by decide), memcpyWord_mod3, memcpyWord_mod6,
      c_rotr 64 48 _ _ (by decide), c_rotl 64 48 _ _ (by decide),
      add_mod_two_pow 64 48 _ _ (by decide), sub_mod_two_pow 64 48 _ _ (by decide),
      xor_mod_two_pow, Nat.mod_mod, rotr_mod, rotl_mod, sub_mod,
      rotr_mod_of_le 48 64 _ _ (by decide), rotl_mod_of_le 48 64 _ _ (by decide),
      sub_mod_of_le 48 64 _ _ (by decide), loadLE_mod_of_le _ _ 6 64 (by decide),
      loadLE_mod_of_le _ _ 6 48 (by decide), mod_two_pow_mod_of_le _ (by decide : 48 ≤ 64), and_self]
  · intro i s _ hx hy
    simp only [speckRoundInv, speck96_96.rotate_right, speck96_96.rotate_left, speck96_96.word_size, speck96_96.bytes, speck96_96.rounds,
      speck96_96.rotation_alpha, speck96_96.rotation_beta, speck96_96.mod_mask, sizeof_bytes6_t,
      and_mask24, and_mask48, and_mask _ 48 (by decide), memcpyWord_mod3, memcpyWord_mod6,
      c_rotr 64 48 _ _ (by decide), c_rotl 64 48 _ _ (by decide),
      add_mod_two_pow 64 48 _ _ (by decide), sub_mod_two_pow 64 48 _ _ (by decide),
      xor_mod_two_pow, Nat.mod_mod, rotr_mod, rotl_mod, sub_mod,
      rotr_mod_of_le 48 64 _ _ (by decide), rotl_mod_of_le 48 64 _ _ (by decide),
      sub_mod_of_le 48 64 _ _ (by decide), loadLE_mod_of_le _ _ 6 64 (by decide),
      loadLE_mod_of_le _ _ 6 48 (by decide), mod_two_pow_mod_of_le _ (by decide : 48 ≤ 64),
      Nat.mod_eq_of_lt hx, Nat.mod_eq_of_lt hy, mod_eq_of_lt_two_pow 64 hx (by decide),
      mod_eq_of_lt_two_pow 64 hy (by decide)]

/-- The routine `encrypt_speck_128_64` stores the Speck encryption, with 32-bit words,
rotations 8 and 3 and 27 rounds, of the block loaded from the plaintext,
the subkey of round `i` being the word at byte offset `4 * i` of the schedule. -/
theorem speck128_64_encrypt_eq (ks pt ct : Buf) :
    speck128_64.encrypt_speck_128_64 ks pt ct =
      storeLE (storeLE ct 0 4
        (speckEncrypt 32 8 3 (fun i => loadLE ks (4 * i) 4) 27 (loadLE pt 4 4, loadLE pt 0 4)).2) 4 4
        (speckEncrypt 32 8 3 (fun i => loadLE ks (4 * i) 4) 27 (loadLE pt 4 4, loadLE pt 0 4)).1 := by
  unfold speck128_64.encrypt_speck_128_64 speckEncrypt
  refine store_congr_yx ct 4 _ _ _ _ (regs_forUp_store 32 _
    (fun i => speckRound 32 8 3 (loadLE ks (4 * i) 4)) 27 _ (loadLE pt 4 4, loadLE pt 0 4)
    (fun i p _ _ _ => speckRound_lt 32 8 3 _ p (loadLE_lt ks (4 * i) 4))
    ?_ ⟨loadLE_lt pt 4 4, loadLE_lt pt 0 4⟩ ?_)
  · simp only [speck128_64.rotate_right, speck128_64.rotate_left, speck128_64.word_size, speck128_64.bytes, speck128_64.rounds,
      speck128_64.rotation_alpha, speck128_64.rotation_beta,
      and_mask24, and_mask48, and_mask _ 32 (by decide), memcpyWord_mod3, memcpyWord_mod6,
      c_rotr 32 32 _ _ (by decide), c_rotl 32 32 _ _ (by decide),
      add_mod_two_pow 32 32 _ _ (by decide), sub_mod_two_pow 32 32 _ _ (by decide),
      xor_mod_two_pow, Nat.mod_mod, rotr_mod, rotl_mod, sub_mod,
      rotr_mod_of_le 32 32 _ _ (by decide), rotl_mod_of_le 32 32 _ _ (by decide),
      sub_mod_of_le 32 32 _ _ (by decide), loadLE_mod_of_le _ _ 4 32 (by decide),
      loadLE_mod_of_le _ _ 4 32 (by decide), mod_two_pow_mod_of_le _ (by decide : 32 ≤ 32), and_self]
  · intro i s _ hx hy
    simp only [speckRound, speck128_64.rotate_right, speck128_64.rotate_left, speck128_64.word_size, speck128_64.bytes, speck128_64.rounds,
      speck128_64.rotation_alpha, speck128_64.rotation_beta,
      and_mask24, and_mask48, and_mask _ 32 (by decide), memcpyWord_mod3, memcpyWord_mod6,
      c_rotr 32 32 _ _ (by decide), c_rotl 32 32 _ _ (by decide),
      add_mod_two_pow 32 32 _ _ (by decide), sub_mod_two_pow 32 32 _ _ (by decide),
      xor_mod_two_pow, Nat.mod_mod, rotr_mod, rotl_mod, sub_mod,
      rotr_mod_of_le 32 32 _ _ (by decide), rotl_mod_of_le 32 32 _ _ (by decide),
      sub_mod_of_le 32 32 _ _ (by decide), loadLE_mod_of_le _ _ 4 32 (by decide),
      loadLE_mod_of_le _ _ 4 32 (by decide), mod_two_pow_mod_of_le _ (by decide : 32 ≤ 32)]

/-- The routine `decrypt_speck_128_64` stores the Speck decryption of the block loaded from
the ciphertext (`y` first, as in encryption). -/
theorem speck128_64_decrypt_eq (ks pt ct : Buf) :
    speck128_64.decrypt_speck_128_64 ks pt ct =
      storeLE (storeLE pt 0 4
        (speckDecrypt 32 8 3 (fun i => loadLE ks (4 * i) 4) 27 (loadLE ct 4 4, loadLE ct 0 4)).2) 4 4
        (speckDecrypt 32 8 3 (fun i => loadLE ks (4 * i) 4) 27 (loadLE ct 4 4, loadLE ct 0 4)).1 := by
  unfold speck128_64.decrypt_speck_128_64 speckDecrypt
  refine store_congr_yx pt 4 _ _ _ _ (regs_forUp_store 32 _
    (fun i => speckRoundInv 32 8 3 (loadLE ks (4 * (27 - 1 - i)) 4)) 27 _
    (loadLE ct 4 4, loadLE ct 0 4)
    (fun i p _ _ _ => ⟨rotl_lt _ _ _, rotr_lt _ _ _⟩)
    ?_ ⟨loadLE_lt ct 4 4, loadLE_lt ct 0 4⟩ ?_)
  · simp only [speck128_64.rotate_right, speck128_64.rotate_left, speck128_64.word_size, speck128_64.bytes, speck128_64.rounds,
      speck128_64.rotation_alpha, speck128_64.rotation_beta,
      and_mask24, and_mask48, and_mask _ 32 (by decide), memcpyWord_mod3, memcpyWord_mod6,
      c_rotr 32 32 _ _ (by decide), c_rotl 32 32 _ _ (by decide),
      add_mod_two_pow 32 32 _ _ (by decide), sub_mod_two_pow 32 32 _ _ (by decide),
      xor_mod_two_pow, Nat.mod_mod, rotr_mod, rotl_mod, sub_mod,
      rotr_mod_of_le 32 32 _ _ (by decide), rotl_mod_of_le 32 32 _ _ (by decide),
      sub_mod_of_le 32 32 _ _ (by decide), loadLE_mod_of_le _ _ 4 32 (by decide),
      loadLE_mod_of_le _ _ 4 32 (by decide), mod_two_pow_mod_of_le _ (by decide : 32 ≤ 32), and_self]
  · intro i s _ hx hy
    simp only [speckRoundInv, speck128_64.rotate_right, speck128_64.rotate_left, speck128_64.word_size, speck128_64.bytes, speck128_64.rounds,
      speck128_64.rotation_alpha, speck128_64.rotation_beta,
      and_mask24, and_mask48, and_mask _ 32 (by decide), memcpyWord_mod3, memcpyWord_mod6,
      c_rotr 32 32 _ _ (by decide), c_rotl 32 32 _ _ (by decide),
      add_mod_two_pow 32 32 _ _ (by decide), sub_mod_two_pow 32 32 _ _ (by decide),
      xor_mod_two_pow, Nat.mod_mod, rotr_mod, rotl_mod, sub_mod,
      rotr_mod_of_le 32 32 _ _ (by decide), rotl_mod_of_le 32 32 _ _ (by decide),
      sub_mod_of_le 32 32 _ _ (by decide), loadLE_mod_of_le _ _ 4 32 (by decide),
      loadLE_mod_of_le _ _ 4 32 (by decide), mod_two_pow_mod_of_le _ (by decide : 32 ≤ 32),
      Nat.mod_eq_of_lt hx, Nat.mod_eq_of_lt hy, mod_eq_of_lt_two_pow 32 hx (by decide),
      mod_eq_of_lt_two_pow 32 hy (by decide)]

/-- The routine `encrypt_speck_128_128` stores the Speck encryption, with 64-bit words,
rotations 8 and 3 and 32 rounds, of the block loaded from the plaintext,
the subkey of round `i` being the word at byte offset `8 * i` of the schedule. -/
theorem speck128_128_encrypt_eq (ks pt ct : Buf) :
    speck128_128.encrypt_speck_128_128 ks pt ct =
      storeLE (storeLE ct 0 8
        (speckEncrypt 64 8 3 (fun i => loadLE ks (8 * i) 8) 32 (loadLE pt 8 8, loadLE pt 0 8)).2) 8 8
        (speckEncrypt 64 8 3 (fun i => loadLE ks (8 * i) 8) 32 (loadLE pt 8 8, loadLE pt 0 8)).1 := by
  unfold speck128_128.encrypt_speck_128_128 speckEncrypt
  refine store_congr_yx ct 8 _ _ _ _ (regs_forUp_store 64 _
    (fun i => speckRound 64 8 3 (loadLE ks (8 * i) 8)) 32 _ (loadLE pt 8 8, loadLE pt 0 8)
    (fun i p _ _ _ => speckRound_lt 64 8 3 _ p (loadLE_lt ks (8 * i) 8))
    ?_ ⟨loadLE_lt pt 8 8, loadLE_lt pt 0 8⟩ ?_)
  · simp only [speck128_128.rotate_right, speck128_128.rotate_left, speck128_128.word_size, speck128_128.bytes, speck128_128.rounds,
      speck128_128.rotation_alpha, speck128_128.rotation_beta,
      and_mask24, and_mask48, and_mask _ 64 (by decide), memcpyWord_mod3, memcpyWord_mod6,
      c_rotr 64 64 _ _ (by decide), c_rotl 64 64 _ _ (by decide),
      add_mod_two_pow 64 64 _ _ (by decide), sub_mod_two_pow 64 64 _ _ (by decide),
      xor_mod_two_pow, Nat.mod_mod, rotr_mod, rotl_mod, sub_mod,
      rotr_mod_of_le 64 64 _ _ (by decide), rotl_mod_of_le 64 64 _ _ (by decide),
      sub_mod_of_le 64 64 _ _ (by decide), loadLE_mod_of_le _ _ 8 64 (by decide),
      loadLE_mod_of_le _ _ 8 64 (by decide), mod_two_pow_mod_of_le _ (by decide : 64 ≤ 64), and_self]
  · intro i s _ hx hy
    simp only [speckRound, speck128_128.rotate_right, speck128_128.rotate_left, speck128_128.word_size, speck128_128.bytes, speck128_128.rounds,
      speck128_128.rotation_alpha, speck128_128.rotation_beta,
      and_mask24, and_mask48, and_mask _ 64 (by decide), memcpyWord_mod3, memcpyWord_mod6,
      c_rotr 64 64 _ _ (by decide), c_rotl 64 64 _ _ (by decide),
      add_mod_two_pow 64 64 _ _ (by decide), sub_mod_two_pow 64 64 _ _ (by decide),
      xor_mod_two_pow, Nat.mod_mod, rotr_mod, rotl_mod, sub_mod,
      rotr_mod_of_le 64 64 _ _ (by decide), rotl_mod_of_le 64 64 _ _ (by decide),
      sub_mod_of_le 64 64 _ _ (by decide), loadLE_mod_of_le _ _ 8 64 (by decide),
      loadLE_mod_of_le _ _ 8 64 (by decide), mod_two_pow_mod_of_le _ (by decide : 64 ≤ 64)]

/-- The routine `decrypt_speck_128_128` stores the Speck decryption of the block loaded from
the ciphertext (`y` first, as in encryption). -/
theorem speck128_128_decrypt_eq (ks pt ct : Buf) :
    speck128_128.decrypt_speck_128_128 ks pt ct =
      storeLE (storeLE pt 0 8
        (speckDecrypt 64 8 3 (fun i => loadLE ks (8 * i) 8) 32 (loadLE ct 8 8, loadLE ct 0 8)).2) 8 8
        (speckDecrypt 64 8 3 (fun i => loadLE ks (8 * i) 8) 32 (loadLE ct 8 8, loadLE ct 0 8)).1 := by
  unfold speck128_128.decrypt_speck_128_128 speckDecrypt
  refine store_congr_yx pt 8 _ _ _ _ (regs_forUp_store 64 _
    (fun i => speckRoundInv 64 8 3 (loadLE ks (8 * (32 - 1 - i)) 8)) 32 _
    (loadLE ct 8 8, loadLE ct 0 8)
    (fun i p _ _ _ => ⟨rotl_lt _ _ _, rotr_lt _ _ _⟩)
    ?_ ⟨loadLE_lt ct 8 8, loadLE_lt ct 0 8⟩ ?_)
  · simp only [speck128_128.rotate_right, speck128_128.rotate_left, speck128_128.word_size, speck128_128.bytes, speck128_128.rounds,
      speck128_128.rotation_alpha, speck128_128.rotation_beta,
      and_mask24, and_mask48, and_mask _ 64 (by decide), memcpyWord_mod3, memcpyWord_mod6,
      c_rotr 64 64 _ _ (by decide), c_rotl 64 64 _ _ (by decide),
      add_mod_two_pow 64 64 _ _ (by decide), sub_mod_two_pow 64 64 _ _ (by decide),
      xor_mod_two_pow, Nat.mod_mod, rotr_mod, rotl_mod, sub_mod,
      rotr_mod_of_le 64 64 _ _ (by decide), rotl_mod_of_le 64 64 _ _ (by decide),
      sub_mod_of_le 64 64 _ _ (by decide), loadLE_mod_of_le _ _ 8 64 (by decide),
      loadLE_mod_of_le _ _ 8 64 (by decide), mod_two_pow_mod_of_le _ (by decide : 64 ≤ 64), and_self]
  · intro i s _ hx hy
    simp only [speckRoundInv, speck128_128.rotate_right, speck128_128.rotate_left, speck128_128.word_size, speck128_128.bytes, speck128_128.rounds,
      speck128_128.rotation_alpha, speck128_128.rotation_beta,
      and_mask24, and_mask48, and_mask _ 64 (by decide), memcpyWord_mod3, memcpyWord_mod6,
      c_rotr 64 64 _ _ (by decide), c_rotl 64 64 _ _ (by decide),
      add_mod_two_pow 64 64 _ _ (by decide), sub_mod_two_pow 64 64 _ _ (by decide),
      xor_mod_two_pow, Nat.mod_mod, rotr_mod, rotl_mod, sub_mod,
      rotr_mod_of_le 64 64 _ _ (by decide), rotl_mod_of_le 64 64 _ _ (by decide),
      sub_mod_of_le 64 64 _ _ (by decide), loadLE_mod_of_le _ _ 8 64 (by decide),
      loadLE_mod_of_le _ _ 8 64 (by decide), mod_two_pow_mod_of_le _ (by decide : 64 ≤ 64),
      Nat.mod_eq_of_lt hx, Nat.mod_eq_of_lt hy, mod_eq_of_lt_two_pow 64 hx (by decide),
      mod_eq_of_lt_two_pow 64 hy (by decide)]

/-- The routine `encrypt_speck_256_128` stores the Speck encryption, with 64-bit words,
rotations 8 and 3 and 34 rounds, of the block loaded from the plaintext,
the subkey of round `i` being the word at byte offset `8 * i` of the schedule. -/
theorem speck256_128_encrypt_eq (ks pt ct : Buf) :
    speck256_128.encrypt_speck_256_128 ks pt ct =
      storeLE (storeLE ct 0 8
        (speckEncrypt 64 8 3 (fun i => loadLE ks (8 * i) 8) 34 (loadLE pt 8 8, loadLE pt 0 8)).2) 8 8
        (speckEncrypt 64 8 3 (fun i => loadLE ks (8 * i) 8) 34 (loadLE pt 8 8, loadLE pt 0 8)).1 := by
  unfold speck256_128.encrypt_speck_256_128 speckEncrypt
  refine store_congr_yx ct 8 _ _ _ _ (regs_forUp_store 64 _
    (fun i => speckRound 64 8 3 (loadLE ks (8 * i) 8)) 34 _ (loadLE pt 8 8, loadLE pt 0 8)
    (fun i p _ _ _ => speckRound_lt 64 8 3 _ p (loadLE_lt ks (8 * i) 8))
    ?_ ⟨loadLE_lt pt 8 8, loadLE_lt pt 0 8⟩ ?_)
  · simp only [speck256_128.rotate_right, speck256_128.rotate_left, speck256_128.word_size, speck256_128.bytes, speck256_128.rounds,
      speck256_128.rotation_alpha, speck256_128.rotation_beta,
      and_mask24, and_mask48, and_mask _ 64 (by decide), memcpyWord_mod3, memcpyWord_mod6,
      c_rotr 64 64 _ _ (by decide), c_rotl 64 64 _ _ (by decide),
      add_mod_two_pow 64 64 _ _ (by decide), sub_mod_two_pow 64 64 _ _ (by decide),
      xor_mod_two_pow, Nat.mod_mod, rotr_mod, rotl_mod, sub_mod,
      rotr_mod_of_le 64 64 _ _ (by decide), rotl_mod_of_le 64 64 _ _ (by decide),
      sub_mod_of_le 64 64 _ _ (by decide), loadLE_mod_of_le _ _ 8 64 (by decide),
      loadLE_mod_of_le _ _ 8 64 (by decide), mod_two_pow_mod_of_le _ (by decide : 64 ≤ 64), and_self]
  · intro i s _ hx hy
    simp only [speckRound, speck256_128.rotate_right, speck256_128.rotate_left, speck256_128.word_size, speck256_128.bytes, speck256_128.rounds,
      speck256_128.rotation_alpha, speck256_128.rotation_beta,
      and_mask24, and_mask48, and_mask _ 64 (by decide), memcpyWord_mod3, memcpyWord_mod6,
      c_rotr 64 64 _ _ (by decide), c_rotl 64 64 _ _ (by decide),
      add_mod_two_pow 64 64 _ _ (by decide), sub_mod_two_pow 64 64 _ _ (by decide),
      xor_mod_two_pow, Nat.mod_mod, rotr_mod, rotl_mod, sub_mod,
      rotr_mod_of_le 64 64 _ _ (by decide), rotl_mod_of_le 64 64 _ _ (by decide),
      sub_mod_of_le 64 64 _ _ (by decide), loadLE_mod_of_le _ _ 8 64 (by decide),
      loadLE_mod_of_le _ _ 8 64 (by decide), mod_two_pow_mod_of_le _ (by decide : 64 ≤ 64)]

/-- The routine `decrypt_speck_256_128` stores the Speck decryption of the block loaded from
the ciphertext (`y` first, as in encryption). -/
theorem speck256_128_decrypt_eq (ks pt ct : Buf) :
    speck256_128.decrypt_speck_256_128 ks pt ct =
      storeLE (storeLE pt 0 8
        (speckDecrypt 64 8 3 (fun i => loadLE ks (8 * i) 8) 34 (loadLE ct 8 8, loadLE ct 0 8)).2) 8 8
        (speckDecrypt 64 8 3 (fun i => loadLE ks (8 * i) 8) 34 (loadLE ct 8 8, loadLE ct 0 8)).1 := by
  unfold speck256_128.decrypt_speck_256_128 speckDecrypt
  refine store_congr_yx pt 8 _ _ _ _ (regs_forUp_store 64 _
    (fun i => speckRoundInv 64 8 3 (loadLE ks (8 * (34 - 1 - i)) 8)) 34 _
    (loadLE ct 8 8, loadLE ct 0 8)
    (fun i p _ _ _ => ⟨rotl_lt _ _ _, rotr_lt _ _ _⟩)
    ?_ ⟨loadLE_lt ct 8 8, loadLE_lt ct 0 8⟩ ?_)
  · simp only [speck256_128.rotate_right, speck256_128.rotate_left, speck256_128.word_size, speck256_128.bytes, speck256_128.rounds,
      speck256_128.rotation_alpha, speck256_128.rotation_beta,
      and_mask24, and_mask48, and_mask _ 64 (by decide), memcpyWord_mod3, memcpyWord_mod6,
      c_rotr 64 64 _ _ (by decide), c_rotl 64 64 _ _ (by decide),
      add_mod_two_pow 64 64 _ _ (by decide), sub_mod_two_pow 64 64 _ _ (by decide),
      xor_mod_two_pow, Nat.mod_mod, rotr_mod, rotl_mod, sub_mod,
      rotr_mod_of_le 64 64 _ _ (by decide), rotl_mod_of_le 64 64 _ _ (by decide),
      sub_mod_of_le 64 64 _ _ (by decide), loadLE_mod_of_le _ _ 8 64 (by decide),
      loadLE_mod_of_le _ _ 8 64 (by decide), mod_two_pow_mod_of_le _ (by decide : 64 ≤ 64), and_self]
  · intro i s _ hx hy
    simp only [speckRoundInv, speck256_128.rotate_right, speck256_128.rotate_left, speck256_128.word_size, speck256_128.bytes, speck256_128.rounds,
      speck256_128.rotation_alpha, speck256_128.rotation_beta,
      and_mask24, and_mask48, and_mask _ 64 (by decide), memcpyWord_mod3, memcpyWord_mod6,
      c_rotr 64 64 _ _ (by decide), c_rotl 64 64 _ _ (by decide),
      add_mod_two_pow 64 64 _ _ (by decide), sub_mod_two_pow 64 64 _ _ (by decide),
      xor_mod_two_pow, Nat.mod_mod, rotr_mod, rotl_mod, sub_mod,
      rotr_mod_of_le 64 64 _ _ (by decide), rotl_mod_of_le 64 64 _ _ (by decide),
      sub_mod_of_le 64 64 _ _ (by decide), loadLE_mod_of_le _ _ 8 64 (by decide),
      loadLE_mod_of_le _ _ 8 64 (by decide), mod_two_pow_mod_of_le _ (by decide : 64 ≤ 64),
      Nat.mod_eq_of_lt hx, Nat.mod_eq_of_lt hy, mod_eq_of_lt_two_pow 64 hx (by decide),
      mod_eq_of_lt_two_pow 64 hy (by decide)]

/-- The routine `encrypt_simon_64_32` stores the Simon encryption, with 16-bit words and
32 rounds, of the block loaded from the plaintext, the subkey of round `i`
being the word at byte offset `2 * i` of the schedule. -/
theorem simon64_32_encrypt_eq (ks pt ct : Buf) :
    simon64_32.encrypt_simon_64_32 ks pt ct =
      storeLE (storeLE ct 0 2
        (simonEncrypt 16 (fun i => loadLE ks (2 * i) 2) 32 (loadLE pt 2 2, loadLE pt 0 2)).2) 2 2
        (simonEncrypt 16 (fun i => loadLE ks (2 * i) 2) 32 (loadLE pt 2 2, loadLE pt 0 2)).1 := by
  unfold simon64_32.encrypt_simon_64_32 simonEncrypt
  refine store_congr_yx ct 2 _ _ _ _ (regs_forUp_store 16 _
    (fun i => simonRound 16 (loadLE ks (2 * i) 2)) 32 _ (loadLE pt 2 2, loadLE pt 0 2)
    (fun i p _ h1 h2 => simonRound_lt 16 _ p (loadLE_lt ks (2 * i) 2) h1 h2)
    ?_ ⟨loadLE_lt pt 2 2, loadLE_lt pt 0 2⟩ ?_)
  · simp only [simon64_32.shift_left, simon64_32.word_size, simon64_32.bytes, simon64_32.rounds,
      and_mask24, and_mask48, and_mask _ 16 (by decide), and_ullong_max, memcpyWord_mod3,
      memcpyWord_mod6, c_rotl 32 16 _ _ (by decide),
      xor_mod_two_pow, and_mod_two_pow, Nat.mod_mod, rotl_mod,
      rotl_mod_of_le 16 32 _ _ (by decide), loadLE_mod_of_le _ _ 2 32 (by decide),
      loadLE_mod_of_le _ _ 2 16 (by decide), mod_two_pow_mod_of_le _ (by decide : 16 ≤ 32), and_self]
  · intro i s _ hx hy
    simp only [simonRound, simon64_32.shift_left, simon64_32.word_size, simon64_32.bytes, simon64_32.rounds,
      and_mask24, and_mask48, and_mask _ 16 (by decide), and_ullong_max, memcpyWord_mod3,
      memcpyWord_mod6, c_rotl 32 16 _ _ (by decide),
      xor_mod_two_pow, and_mod_two_pow, Nat.mod_mod, rotl_mod,
      rotl_mod_of_le 16 32 _ _ (by decide), loadLE_mod_of_le _ _ 2 32 (by decide),
      loadLE_mod_of_le _ _ 2 16 (by decide), mod_two_pow_mod_of_le _ (by decide : 16 ≤ 32),
      Nat.mod_eq_of_lt hx, Nat.mod_eq_of_lt hy, mod_eq_of_lt_two_pow 32 hx (by decide),
      mod_eq_of_lt_two_pow 32 hy (by decide)]

/-- The routine `decrypt_simon_64_32` runs the same Simon round with the subkeys in
reverse order on the block loaded from the ciphertext with `x` first, and
stores `x` first. -/
theorem simon64_32_decrypt_eq (ks pt ct : Buf) :
    simon64_32.decrypt_simon_64_32 ks pt ct =
      storeLE (storeLE pt 0 2
        (simonDecrypt 16 (fun i => loadLE ks (2 * i) 2) 32 (loadLE ct 0 2, loadLE ct 2 2)).1) 2 2
        (simonDecrypt 16 (fun i => loadLE ks (2 * i) 2) 32 (loadLE ct 0 2, loadLE ct 2 2)).2 := by
  unfold simon64_32.decrypt_simon_64_32 simonDecrypt
  refine store_congr_xy pt 2 _ _ _ _ (regs_forDown_store 16 _
    (fun i => simonRound 16 (loadLE ks (2 * i) 2)) 32 _ (loadLE ct 0 2, loadLE ct 2 2)
    (fun i p _ h1 h2 => simonRound_lt 16 _ p (loadLE_lt ks _ 2) h1 h2)
    ?_ ⟨loadLE_lt ct 0 2, loadLE_lt ct 2 2⟩ ?_)
  · simp only [simon64_32.shift_left, simon64_32.word_size, simon64_32.bytes, simon64_32.rounds,
      and_mask24, and_mask48, and_mask _ 16 (by decide), and_ullong_max, memcpyWord_mod3,
      memcpyWord_mod6, c_rotl 32 16 _ _ (by decide),
      xor_mod_two_pow, and_mod_two_pow, Nat.mod_mod, rotl_mod,
      rotl_mod_of_le 16 32 _ _ (by decide), loadLE_mod_of_le _ _ 2 32 (by decide),
      loadLE_mod_of_le _ _ 2 16 (by decide), mod_two_pow_mod_of_le _ (by decide : 16 ≤ 32), and_self]
  · intro i s _ hx hy
    simp only [simonRound, simon64_32.shift_left, simon64_32.word_size, simon64_32.bytes, simon64_32.rounds,
      and_mask24, and_mask48, and_mask _ 16 (by decide), and_ullong_max, memcpyWord_mod3,
      memcpyWord_mod6, c_rotl 32 16 _ _ (by decide),
      xor_mod_two_pow, and_mod_two_pow, Nat.mod_mod, rotl_mod,
      rotl_mod_of_le 16 32 _ _ (by decide), loadLE_mod_of_le _ _ 2 32 (by decide),
      loadLE_mod_of_le _ _ 2 16 (by decide), mod_two_pow_mod_of_le _ (by decide : 16 ≤ 32),
      Nat.mod_eq_of_lt hx, Nat.mod_eq_of_lt hy, mod_eq_of_lt_two_pow 32 hx (by decide),
      mod_eq_of_lt_two_pow 32 hy (by decide)]

/-- The routine `encrypt_simon_72_48` stores the Simon encryption, with 24-bit words and
36 rounds, of the block loaded from the plaintext, the subkey of round `i`
being the word at byte offset `3 * i` of the schedule. -/
theorem simon72_48_encrypt_eq (ks pt ct : Buf) (u : Locals) :
    simon72_48.encrypt_simon_72_48 ks pt ct u =
      storeLE (storeLE ct 0 3
        (simonEncrypt 24 (fun i => loadLE ks (3 * i) 3) 36 (loadLE pt 3 3, loadLE pt 0 3)).2) 3 3
        (simonEncrypt 24 (fun i => loadLE ks (3 * i) 3) 36 (loadLE pt 3 3, loadLE pt 0 3)).1 := by
  unfold simon72_48.encrypt_simon_72_48 simonEncrypt
  refine store_congr_yx ct 3 _ _ _ _ (regs_forUp_store 24 _
    (fun i => simonRound 24 (loadLE ks (3 * i) 3)) 36 _ (loadLE pt 3 3, loadLE pt 0 3)
    (fun i p _ h1 h2 => simonRound_lt 24 _ p (loadLE_lt ks (3 * i) 3) h1 h2)
    ?_ ⟨loadLE_lt pt 3 3, loadLE_lt pt 0 3⟩ ?_)
  · simp only [simon72_48.shift_left, simon72_48.word_size, simon72_48.bytes, simon72_48.rounds, simon72_48.mod_mask, sizeof_bytes3_t,
      and_mask24, and_mask48, and_mask _ 24 (by decide), and_ullong_max, memcpyWord_mod3,
      memcpyWord_mod6, c_rotl 64 24 _ _ (by decide),
      xor_mod_two_pow, and_mod_two_pow, Nat.mod_mod, rotl_mod,
      rotl_mod_of_le 24 64 _ _ (by decide), loadLE_mod_of_le _ _ 3 64 (by decide),
      loadLE_mod_of_le _ _ 3 24 (by decide), mod_two_pow_mod_of_le _ (by decide : 24 ≤ 64), and_self]
  · intro i s _ hx hy
    simp only [simonRound, simon72_48.shift_left, simon72_48.word_size, simon72_48.bytes, simon72_48.rounds, simon72_48.mod_mask, sizeof_bytes3_t,
      and_mask24, and_mask48, and_mask _ 24 (by decide), and_ullong_max, memcpyWord_mod3,
      memcpyWord_mod6, c_rotl 64 24 _ _ (by decide),
      xor_mod_two_pow, and_mod_two_pow, Nat.mod_mod, rotl_mod,
      rotl_mod_of_le 24 64 _ _ (by decide), loadLE_mod_of_le _ _ 3 64 (by decide),
      loadLE_mod_of_le _ _ 3 24 (by decide), mod_two_pow_mod_of_le _ (by decide : 24 ≤ 64),
      Nat.mod_eq_of_lt hx, Nat.mod_eq_of_lt hy, mod_eq_of_lt_two_pow 64 hx (by decide),
      mod_eq_of_lt_two_pow 64 hy (by decide)]

/-- The routine `decrypt_simon_72_48` runs the same Simon round with the subkeys in
reverse order on the block loaded from the ciphertext with `x` first, and
stores `x` first. -/
theorem simon72_48_decrypt_eq (ks pt ct : Buf) (u : Locals) :
    simon72_48.decrypt_simon_72_48 ks pt ct u =
      storeLE (storeLE pt 0 3
        (simonDecrypt 24 (fun i => loadLE ks (3 * i) 3) 36 (loadLE ct 0 3, loadLE ct 3 3)).1) 3 3
        (simonDecrypt 24 (fun i => loadLE ks (3 * i) 3) 36 (loadLE ct 0 3, loadLE ct 3 3)).2 := by
  unfold simon72_48.decrypt_simon_72_48 simonDecrypt
  rw [← forUp_reverse (fun i => simonRound 24 (loadLE ks (3 * i) 3)) 36]
  refine store_congr_xy pt 3 _ _ _ _ (regs_forUp_store 24 _
    (fun i => simonRound 24 (loadLE ks (3 * (36 - 1 - i)) 3)) 36 _ (loadLE ct 0 3, loadLE ct 3 3)
    (fun i p _ h1 h2 => simonRound_lt 24 _ p (loadLE_lt ks _ 3) h1 h2)
    ?_ ⟨loadLE_lt ct 0 3, loadLE_lt ct 3 3⟩ ?_)
  · simp only [simon72_48.shift_left, simon72_48.word_size, simon72_48.bytes, simon72_48.rounds, simon72_48.mod_mask, sizeof_bytes3_t,
      and_mask24, and_mask48, and_mask _ 24 (by decide), and_ullong_max, memcpyWord_mod3,
      memcpyWord_mod6, c_rotl 64 24 _ _ (by decide),
      xor_mod_two_pow, and_mod_two_pow, Nat.mod_mod, rotl_mod,
      rotl_mod_of_le 24 64 _ _ (by decide), loadLE_mod_of_le _ _ 3 64 (by decide),
      loadLE_mod_of_le _ _ 3 24 (by decide), mod_two_pow_mod_of_le _ (by decide : 24 ≤ 64), and_self]
  · intro i s _ hx hy
    simp only [simonRound, simon72_48.shift_left, simon72_48.word_size, simon72_48.bytes, simon72_48.rounds, simon72_48.mod_mask, sizeof_bytes3_t,
      and_mask24, and_mask48, and_mask _ 24 (by decide), and_ullong_max, memcpyWord_mod3,
      memcpyWord_mod6, c_rotl 64 24 _ _ (by decide),
      xor_mod_two_pow, and_mod_two_pow, Nat.mod_mod, rotl_mod,
      rotl_mod_of_le 24 64 _ _ (by decide), loadLE_mod_of_le _ _ 3 64 (by decide),
      loadLE_mod_of_le _ _ 3 24 (by decide), mod_two_pow_mod_of_le _ (by decide : 24 ≤ 64),
      Nat.mod_eq_of_lt hx, Nat.mod_eq_of_lt hy, mod_eq_of_lt_two_pow 64 hx (by decide),
      mod_eq_of_lt_two_pow 64 hy (by decide)]

/-- The routine `encrypt_simon_128_64` stores the Simon encryption, with 32-bit words and
44 rounds, of the block loaded from the plaintext, the subkey of round `i`
being the word at byte offset `4 * i` of the schedule. -/
theorem simon128_64_encrypt_eq (ks pt ct : Buf) :
    simon128_64.encrypt_simon_128_64 ks pt ct =
      storeLE (storeLE ct 0 4
        (simonEncrypt 32 (fun i => loadLE ks (4 * i) 4) 44 (loadLE pt 4 4, loadLE pt 0 4)).2) 4 4
        (simonEncrypt 32 (fun i => loadLE ks (4 * i) 4) 44 (loadLE pt 4 4, loadLE pt 0 4)).1 := by
  unfold simon128_64.encrypt_simon_128_64 simonEncrypt
  refine store_congr_yx ct 4 _ _ _ _ (regs_forUp_store 32 _
    (fun i => simonRound 32 (loadLE ks (4 * i) 4)) 44 _ (loadLE pt 4 4, loadLE pt 0 4)
    (fun i p _ h1 h2 => simonRound_lt 32 _ p (loadLE_lt ks (4 * i) 4) h1 h2)
    ?_ ⟨loadLE_lt pt 4 4, loadLE_lt pt 0 4⟩ ?_)
  · simp only [simon128_64.shift_left, simon128_64.word_size, simon128_64.bytes, simon128_64.rounds,
      and_mask24, and_mask48, and_mask _ 32 (by decide), and_ullong_max, memcpyWord_mod3,
      memcpyWord_mod6, c_rotl 32 32 _ _ (by decide),
      xor_mod_two_pow, and_mod_two_pow, Nat.mod_mod, rotl_mod,
      rotl_mod_of_le 32 32 _ _ (by decide), loadLE_mod_of_le _ _ 4 32 (by decide),
      loadLE_mod_of_le _ _ 4 32 (by decide), mod_two_pow_mod_of_le _ (by decide : 32 ≤ 32), and_self]
  · intro i s _ hx hy
    simp only [simonRound, simon128_64.shift_left, simon128_64.word_size, simon128_64.bytes, simon128_64.rounds,
      and_mask24, and_mask48, and_mask _ 32 (by decide), and_ullong_max, memcpyWord_mod3,
      memcpyWord_mod6, c_rotl 32 32 _ _ (by decide),
      xor_mod_two_pow, and_mod_two_pow, Nat.mod_mod, rotl_mod,
      rotl_mod_of_le 32 32 _ _ (by decide), loadLE_mod_of_le _ _ 4 32 (by decide),
      loadLE_mod_of_le _ _ 4 32 (by decide), mod_two_pow_mod_of_le _ (by decide : 32 ≤ 32),
      Nat.mod_eq_of_lt hx, Nat.mod_eq_of_lt hy, mod_eq_of_lt_two_pow 32 hx (by decide),
      mod_eq_of_lt_two_pow 32 hy (by decide), c_rotl_full 32 s.x _ hx]

/-- The routine `decrypt_simon_128_64` runs the same Simon round with the subkeys in
reverse order on the block loaded from the ciphertext with `x` first, and
stores `x` first. -/
theorem simon128_64_decrypt_eq (ks pt ct : Buf) :
    simon128_64.decrypt_simon_128_64 ks pt ct =
      storeLE (storeLE pt 0 4
        (simonDecrypt 32 (fun i => loadLE ks (4 * i) 4) 44 (loadLE ct 0 4, loadLE ct 4 4)).1) 4 4
        (simonDecrypt 32 (fun i => loadLE ks (4 * i) 4) 44 (loadLE ct 0 4, loadLE ct 4 4)).2 := by
  unfold simon128_64.decrypt_simon_128_64 simonDecrypt
  refine store_congr_xy pt 4 _ _ _ _ (regs_forDown_store 32 _
    (fun i => simonRound 32 (loadLE ks (4 * i) 4)) 44 _ (loadLE ct 0 4, loadLE ct 4 4)
    (fun i p _ h1 h2 => simonRound_lt 32 _ p (loadLE_lt ks _ 4) h1 h2)
    ?_ ⟨loadLE_lt ct 0 4, loadLE_lt ct 4 4⟩ ?_)
  · simp only [simon128_64.shift_left, simon128_64.word_size, simon128_64.bytes, simon128_64.rounds,
      and_mask24, and_mask48, and_mask _ 32 (by decide), and_ullong_max, memcpyWord_mod3,
      memcpyWord_mod6, c_rotl 32 32 _ _ (by decide),
      xor_mod_two_pow, and_mod_two_pow, Nat.mod_mod, rotl_mod,
      rotl_mod_of_le 32 32 _ _ (by decide), loadLE_mod_of_le _ _ 4 32 (by decide),
      loadLE_mod_of_le _ _ 4 32 (by decide), mod_two_pow_mod_of_le _ (by decide : 32 ≤ 32), and_self]
  · intro i s _ hx hy
    simp only [simonRound, simon128_64.shift_left, simon128_64.word_size, simon128_64.bytes, simon128_64.rounds,
      and_mask24, and_mask48, and_mask _ 32 (by decide), and_ullong_max, memcpyWord_mod3,
      memcpyWord_mod6, c_rotl 32 32 _ _ (by decide),
      xor_mod_two_pow, and_mod_two_pow, Nat.mod_mod, rotl_mod,
      rotl_mod_of_le 32 32 _ _ (by decide), loadLE_mod_of_le _ _ 4 32 (by decide),
      loadLE_mod_of_le _ _ 4 32 (by decide), mod_two_pow_mod_of_le _ (by decide : 32 ≤ 32),
      Nat.mod_eq_of_lt hx, Nat.mod_eq_of_lt hy, mod_eq_of_lt_two_pow 32 hx (by decide),
      mod_eq_of_lt_two_pow 32 hy (by decide), c_rotl_full 32 s.x _ hx]

/-- The routine `encrypt_simon_144_96` stores the Simon encryption, with 48-bit words and
54 rounds, of the block loaded from the plaintext, the subkey of round `i`
being the word at byte offset `6 * i` of the schedule. -/
theorem simon144_96_encrypt_eq (ks pt ct : Buf) (u : Locals) :
    simon144_96.encrypt_simon_144_96 ks pt ct u =
      storeLE (storeLE ct 0 6
        (simonEncrypt 48 (fun i => loadLE ks (6 * i) 6) 54 (loadLE pt 6 6, loadLE pt 0 6)).2) 6 6
        (simonEncrypt 48 (fun i => loadLE ks (6 * i) 6) 54 (loadLE pt 6 6, loadLE pt 0 6)).1 := by
  unfold simon144_96.encrypt_simon_144_96 simonEncrypt
  refine store_congr_yx ct 6 _ _ _ _ (regs_forUp_store 48 _
    (fun i => simonRound 48 (loadLE ks (6 * i) 6)) 54 _ (loadLE pt 6 6, loadLE pt 0 6)
    (fun i p _ h1 h2 => simonRound_lt 48 _ p (loadLE_lt ks (6 * i) 6) h1 h2)
    ?_ ⟨loadLE_lt pt 6 6, loadLE_lt pt 0 6⟩ ?_)
  · simp only [simon144_96.shift_left, simon144_96.word_size, simon144_96.bytes, simon144_96.rounds, simon144_96.mod_mask, sizeof_bytes6_t,
      and_mask24, and_mask48, and_mask _ 48 (by decide), and_ullong_max, memcpyWord_mod3,
      memcpyWord_mod6, c_rotl 64 48 _ _ (by decide),
      xor_mod_two_pow, and_mod_two_pow, Nat.mod_mod, rotl_mod,
      rotl_mod_of_le 48 64 _ _ (by decide), loadLE_mod_of_le _ _ 6 64 (by decide),
      loadLE_mod_of_le _ _ 6 48 (by decide), mod_two_pow_mod_of_le _ (by decide : 48 ≤ 64), and_self]
  · intro i s _ hx hy
    simp only [simonRound, simon144_96.shift_left, simon144_96.word_size, simon144_96.bytes, simon144_96.rounds, simon144_96.mod_mask, sizeof_bytes6_t,
      and_mask24, and_mask48, and_mask _ 48 (by decide), and_ullong_max, memcpyWord_mod3,
      memcpyWord_mod6, c_rotl 64 48 _ _ (by decide),
      xor_mod_two_pow, and_mod_two_pow, Nat.mod_mod, rotl_mod,
      rotl_mod_of_le 48 64 _ _ (by decide), loadLE_mod_of_le _ _ 6 64 (by decide),
      loadLE_mod_of_le _ _ 6 48 (by decide), mod_two_pow_mod_of_le _ (by decide : 48 ≤ 64),
      Nat.mod_eq_of_lt hx, Nat.mod_eq_of_lt hy, mod_eq_of_lt_two_pow 64 hx (by decide),
      mod_eq_of_lt_two_pow 64 hy (by decide)]

/-- The routine `decrypt_simon_144_96` runs the same Simon round with the subkeys in
reverse order on the block loaded from the ciphertext with `x` first, and
stores `x` first. -/
theorem simon144_96_decrypt_eq (ks pt ct : Buf) (u : Locals) :
    simon144_96.decrypt_simon_144_96 ks pt ct u =
      storeLE (storeLE pt 0 6
        (simonDecrypt 48 (fun i => loadLE ks (6 * i) 6) 54 (loadLE ct 0 6, loadLE ct 6 6)).1) 6 6
        (simonDecrypt 48 (fun i => loadLE ks (6 * i) 6) 54 (loadLE ct 0 6, loadLE ct 6 6)).2 := by
  unfold simon144_96.decrypt_simon_144_96 simonDecrypt
  rw [← forUp_reverse (fun i => simonRound 48 (loadLE ks (6 * i) 6)) 54]
  refine store_congr_xy pt 6 _ _ _ _ (regs_forUp_store 48 _
    (fun i => simonRound 48 (loadLE ks (6 * (54 - 1 - i)) 6)) 54 _ (loadLE ct 0 6, loadLE ct 6 6)
    (fun i p _ h1 h2 => simonRound_lt 48 _ p (loadLE_lt ks _ 6) h1 h2)
    ?_ ⟨loadLE_lt ct 0 6, loadLE_lt ct 6 6⟩ ?_)
  · simp only [simon144_96.shift_left, simon144_96.word_size, simon144_96.bytes, simon144_96.rounds, simon144_96.mod_mask, sizeof_bytes6_t,
      and_mask24, and_mask48, and_mask _ 48 (by decide), and_ullong_max, memcpyWord_mod3,
      memcpyWord_mod6, c_rotl 64 48 _ _ (by decide),
      xor_mod_two_pow, and_mod_two_pow, Nat.mod_mod, rotl_mod,
      rotl_mod_of_le 48 64 _ _ (by decide), loadLE_mod_of_le _ _ 6 64 (by decide),
      loadLE_mod_of_le _ _ 6 48 (by decide), mod_two_pow_mod_of_le _ (by decide : 48 ≤ 64), and_self]
  · intro i s _ hx hy
    simp only [simonRound, simon144_96.shift_left, simon144_96.word_size, simon144_96.bytes, simon144_96.rounds, simon144_96.mod_mask, sizeof_bytes6_t,
      and_mask24, and_mask48, and_mask _ 48 (by decide), and_ullong_max, memcpyWord_mod3,
      memcpyWord_mod6, c_rotl 64 48 _ _ (by decide),
      xor_mod_two_pow, and_mod_two_pow, Nat.mod_mod, rotl_mod,
      rotl_mod_of_le 48 64 _ _ (by decide), loadLE_mod_of_le _ _ 6 64 (by decide),
      loadLE_mod_of_le _ _ 6 48 (by decide), mod_two_pow_mod_of_le _ (by decide : 48 ≤ 64),
      Nat.mod_eq_of_lt hx, Nat.mod_eq_of_lt hy, mod_eq_of_lt_two_pow 64 hx (by decide),
      mod_eq_of_lt_two_pow 64 hy (by decide)]

/-- The routine `encrypt_simon_128_128` stores the Simon encryption, with 64-bit words and
68 rounds, of the block loaded from the plaintext, the subkey of round `i`
being the word at byte offset `8 * i` of the schedule. -/
theorem simon128_128_encrypt_eq (ks pt ct : Buf) :
    simon128_128.encrypt_simon_128_128 ks pt ct =
      storeLE (storeLE ct 0 8
        (simonEncrypt 64 (fun i => loadLE ks (8 * i) 8) 68 (loadLE pt 8 8, loadLE pt 0 8)).2) 8 8
        (simonEncrypt 64 (fun i => loadLE ks (8 * i) 8) 68 (loadLE pt 8 8, loadLE pt 0 8)).1 := by
  unfold simon128_128.encrypt_simon_128_128 simonEncrypt
  refine store_congr_yx ct 8 _ _ _ _ (regs_forUp_store 64 _
    (fun i => simonRound 64 (loadLE ks (8 * i) 8)) 68 _ (loadLE pt 8 8, loadLE pt 0 8)
    (fun i p _ h1 h2 => simonRound_lt 64 _ p (loadLE_lt ks (8 * i) 8) h1 h2)
    ?_ ⟨loadLE_lt pt 8 8, loadLE_lt pt 0 8⟩ ?_)
  · simp only [simon128_128.shift_left, simon128_128.word_size, simon128_128.bytes, simon128_128.rounds,
      and_mask24, and_mask48, and_mask _ 64 (by decide), and_ullong_max, memcpyWord_mod3,
      memcpyWord_mod6, c_rotl 64 64 _ _ (by decide),
      xor_mod_two_pow, and_mod_two_pow, Nat.mod_mod, rotl_mod,
      rotl_mod_of_le 64 64 _ _ (by decide), loadLE_mod_of_le _ _ 8 64 (by decide),
      loadLE_mod_of_le _ _ 8 64 (by decide), mod_two_pow_mod_of_le _ (by decide : 64 ≤ 64), and_self]
  · intro i s _ hx hy
    simp only [simonRound, simon128_128.shift_left, simon128_128.word_size, simon128_128.bytes, simon128_128.rounds,
      and_mask24, and_mask48, and_mask _ 64 (by decide), and_ullong_max, memcpyWord_mod3,
      memcpyWord_mod6, c_rotl 64 64 _ _ (by decide),
      xor_mod_two_pow, and_mod_two_pow, Nat.mod_mod, rotl_mod,
      rotl_mod_of_le 64 64 _ _ (by decide), loadLE_mod_of_le _ _ 8 64 (by decide),
      loadLE_mod_of_le _ _ 8 64 (by decide), mod_two_pow_mod_of_le _ (by decide : 64 ≤ 64),
      Nat.mod_eq_of_lt hx, Nat.mod_eq_of_lt hy, mod_eq_of_lt_two_pow 64 hx (by decide),
      mod_eq_of_lt_two_pow 64 hy (by decide), c_rotl_full 64 s.x _ hx]

/-- The routine `decrypt_simon_128_128` runs the same Simon round with the subkeys in
reverse order on the block loaded from the ciphertext with `x` first, and
stores `x` first. -/
theorem simon128_128_decrypt_eq (ks pt ct : Buf) :
    simon128_128.decrypt_simon_128_128 ks pt ct =
      storeLE (storeLE pt 0 8
        (simonDecrypt 64 (fun i => loadLE ks (8 * i) 8) 68 (loadLE ct 0 8, loadLE ct 8 8)).1) 8 8
        (simonDecrypt 64 (fun i => loadLE ks (8 * i) 8) 68 (loadLE ct 0 8, loadLE ct 8 8)).2 := by
  unfold simon128_128.decrypt_simon_128_128 simonDecrypt
  refine store_congr_xy pt 8 _ _ _ _ (regs_forDown_store 64 _
    (fun i => simonRound 64 (loadLE ks (8 * i) 8)) 68 _ (loadLE ct 0 8, loadLE ct 8 8)
    (fun i p _ h1 h2 => simonRound_lt 64 _ p (loadLE_lt ks _ 8) h1 h2)
    ?_ ⟨loadLE_lt ct 0 8, loadLE_lt ct 8 8⟩ ?_)
  · simp only [simon128_128.shift_left, simon128_128.word_size, simon128_128.bytes, simon128_128.rounds,
      and_mask24, and_mask48, and_mask _ 64 (by decide), and_ullong_max, memcpyWord_mod3,
      memcpyWord_mod6, c_rotl 64 64 _ _ (by decide),
      xor_mod_two_pow, and_mod_two_pow, Nat.mod_mod, rotl_mod,
      rotl_mod_of_le 64 64 _ _ (by decide), loadLE_mod_of_le _ _ 8 64 (by decide),
      loadLE_mod_of_le _ _ 8 64 (by decide), mod_two_pow_mod_of_le _ (by decide : 64 ≤ 64), and_self]
  · intro i s _ hx hy
    simp only [simonRound, simon128_128.shift_left, simon128_128.word_size, simon128_128.bytes, simon128_128.rounds,
      and_mask24, and_mask48, and_mask _ 64 (by decide), and_ullong_max, memcpyWord_mod3,
      memcpyWord_mod6, c_rotl 64 64 _ _ (by decide),
      xor_mod_two_pow, and_mod_two_pow, Nat.mod_mod, rotl_mod,
      rotl_mod_of_le 64 64 _ _ (by decide), loadLE_mod_of_le _ _ 8 64 (by decide),
      loadLE_mod_of_le _ _ 8 64 (by decide), mod_two_pow_mod_of_le _ (by decide : 64 ≤ 64),
      Nat.mod_eq_of_lt hx, Nat.mod_eq_of_lt hy, mod_eq_of_lt_two_pow 64 hx (by decide),
      mod_eq_of_lt_two_pow 64 hy (by decide), c_rotl_full 64 s.x _ hx]

/-- The routine `encrypt_simon_192_128` stores the Simon encryption, with 64-bit words and
69 rounds, of the block loaded from the plaintext, the subkey of round `i`
being the word at byte offset `8 * i` of the schedule. -/
theorem simon192_128_encrypt_eq (ks pt ct : Buf) :
    simon192_128.encrypt_simon_192_128 ks pt ct =
      storeLE (storeLE ct 0 8
        (simonEncrypt 64 (fun i => loadLE ks (8 * i) 8) 69 (loadLE pt 8 8, loadLE pt 0 8)).2) 8 8
        (simonEncrypt 64 (fun i => loadLE ks (8 * i) 8) 69 (loadLE pt 8 8, loadLE pt 0 8)).1 := by
  unfold simon192_128.encrypt_simon_192_128 simonEncrypt
  refine store_congr_yx ct 8 _ _ _ _ (regs_forUp_store 64 _
    (fun i => simonRound 64 (loadLE ks (8 * i) 8)) 69 _ (loadLE pt 8 8, loadLE pt 0 8)
    (fun i p _ h1 h2 => simonRound_lt 64 _ p (loadLE_lt ks (8 * i) 8) h1 h2)
    ?_ ⟨loadLE_lt pt 8 8, loadLE_lt pt 0 8⟩ ?_)
  · simp only [simon192_128.shift_left, simon192_128.word_size, simon192_128.bytes, simon192_128.rounds,
      and_mask24, and_mask48, and_mask _ 64 (by decide), and_ullong_max, memcpyWord_mod3,
      memcpyWord_mod6, c_rotl 64 64 _ _ (by decide),
      xor_mod_two_pow, and_mod_two_pow, Nat.mod_mod, rotl_mod,
      rotl_mod_of_le 64 64 _ _ (by decide), loadLE_mod_of_le _ _ 8 64 (by decide),
      loadLE_mod_of_le _ _ 8 64 (by decide), mod_two_pow_mod_of_le _ (by decide : 64 ≤ 64), and_self]
  · intro i s _ hx hy
    simp only [simonRound, simon192_128.shift_left, simon192_128.word_size, simon192_128.bytes, simon192_128.rounds,
      and_mask24, and_mask48, and_mask _ 64 (by decide), and_ullong_max, memcpyWord_mod3,
      memcpyWord_mod6, c_rotl 64 64 _ _ (by decide),
      xor_mod_two_pow, and_mod_two_pow, Nat.mod_mod, rotl_mod,
      rotl_mod_of_le 64 64 _ _ (by decide), loadLE_mod_of_le _ _ 8 64 (by decide),
      loadLE_mod_of_le _ _ 8 64 (by decide), mod_two_pow_mod_of_le _ (by decide : 64 ≤ 64),
      Nat.mod_eq_of_lt hx, Nat.mod_eq_of_lt hy, mod_eq_of_lt_two_pow 64 hx (by decide),
      mod_eq_of_lt_two_pow 64 hy (by decide), c_rotl_full 64 s.x _ hx]

/-- The routine `decrypt_simon_192_128` runs the same Simon round with the subkeys in
reverse order on the block loaded from the ciphertext with `x` first, and
stores `x` first. -/
theorem simon192_128_decrypt_eq (ks pt ct : Buf) :
    simon192_128.decrypt_simon_192_128 ks pt ct =
      storeLE (storeLE pt 0 8
        (simonDecrypt 64 (fun i => loadLE ks (8 * i) 8) 69 (loadLE ct 0 8, loadLE ct 8 8)).1) 8 8
        (simonDecrypt 64 (fun i => loadLE ks (8 * i) 8) 69 (loadLE ct 0 8, loadLE ct 8 8)).2 := by
  unfold simon192_128.decrypt_simon_192_128 simonDecrypt
  refine store_congr_xy pt 8 _ _ _ _ (regs_forDown_store 64 _
    (fun i => simonRound 64 (loadLE ks (8 * i) 8)) 69 _ (loadLE ct 0 8, loadLE ct 8 8)
    (fun i p _ h1 h2 => simonRound_lt 64 _ p (loadLE_lt ks _ 8) h1 h2)
    ?_ ⟨loadLE_lt ct 0 8, loadLE_lt ct 8 8⟩ ?_)
  · simp only [simon192_128.shift_left, simon192_128.word_size, simon192_128.bytes, simon192_128.rounds,
      and_mask24, and_mask48, and_mask _ 64 (by decide), and_ullong_max, memcpyWord_mod3,
      memcpyWord_mod6, c_rotl 64 64 _ _ (by decide),
      xor_mod_two_pow, and_mod_two_pow, Nat.mod_mod, rotl_mod,
      rotl_mod_of_le 64 64 _ _ (by decide), loadLE_mod_of_le _ _ 8 64 (by decide),
      loadLE_mod_of_le _ _ 8 64 (by decide), mod_two_pow_mod_of_le _ (by decide : 64 ≤ 64), and_self]
  · intro i s _ hx hy
    simp only [simonRound, simon192_128.shift_left, simon192_128.word_size, simon192_128.bytes, simon192_128.rounds,
      and_mask24, and_mask48, and_mask _ 64 (by decide), and_ullong_max, memcpyWord_mod3,
      memcpyWord_mod6, c_rotl 64 64 _ _ (by decide),
      xor_mod_two_pow, and_mod_two_pow, Nat.mod_mod, rotl_mod,
      rotl_mod_of_le 64 64 _ _ (by decide), loadLE_mod_of_le _ _ 8 64 (by decide),
      loadLE_mod_of_le _ _ 8 64 (by decide), mod_two_pow_mod_of_le _ (by decide : 64 ≤ 64),
      Nat.mod_eq_of_lt hx, Nat.mod_eq_of_lt hy, mod_eq_of_lt_two_pow 64 hx (by decide),
      mod_eq_of_lt_two_pow 64 hy (by decide), c_rotl_full 64 s.x _ hx]

/-! ## The key schedule does not depend on the initial content of its buffer -/

theorem forUp_congr {σ : Type} (f g : Nat → σ → σ) (n : Nat)
    (h : ∀ i, i < n → ∀ s, f i s = g i s) (s : σ) : forUp f n s = forUp g n s := by
  induction n with
  | zero => rfl
  | succ m ih =>
    rw [forUp_succ, forUp_succ, ih (fun i hi => h i (Nat.lt_succ_of_lt hi)),
      h m (Nat.lt_succ_self m)]

theorem expand_loop_succ (step : Nat → Keys → Keys) (b n : Nat) (s : ExpandState) :
    expand_loop step b (n + 1) s =
      { keys := step n (expand_loop step b n s).keys
        key_schedule := memcpy (expand_loop step b n s).key_schedule (b * (n + 1))
          (step n (expand_loop step b n s).keys).mem 0 b } := rfl

/-- The array `keys` evolves by the steps alone. -/
theorem expand_loop_keys (step : Nat → Keys → Keys) (b n : Nat) (s : ExpandState) :
    (expand_loop step b n s).keys = forUp step n s.keys := by
  induction n with
  | zero => rfl
  | succ m ih => rw [expand_loop_succ, forUp_succ, ← ih]

/-- Bytes `0 .. b * (n + 1) - 1` of the schedule after `n` passes do not
depend on what the buffer held before. -/
theorem expand_loop_frame (step : Nat → Keys → Keys) (b n : Nat) (s t : ExpandState)
    (hk : s.keys = t.keys) (hs : ∀ j, j < b → s.key_schedule j = t.key_schedule j) :
    ∀ j, j < b * (n + 1) →
      (expand_loop step b n s).key_schedule j = (expand_loop step b n t).key_schedule j := by
  induction n with
  | zero =>
    intro j hj
    exact hs j (by simpa using hj)
  | succ m ih =>
    intro j hj
    rw [expand_loop_succ, expand_loop_succ]
    simp only [memcpy]
    rw [expand_loop_keys, expand_loop_keys, hk]
    by_cases hin : b * (m + 1) ≤ j ∧ j < b * (m + 1) + b
    · rw [if_pos hin, if_pos hin]
    · rw [if_neg hin, if_neg hin]
      apply ih
      have e : b * (m + 1 + 1) = b * (m + 1) + b := by ring
      omega

theorem load_keys_frame (key ks ks2 : Buf) (b m : Nat) :
    (load_keys key ks b m).keys = (load_keys key ks2 b m).keys
      ∧ ∀ j, j < b → (load_keys key ks b m).key_schedule j
          = (load_keys key ks2 b m).key_schedule j := by
  refine ⟨rfl, ?_⟩
  intro j hj
  simp only [load_keys, memcpy]
  have h : 0 ≤ j ∧ j < 0 + b := ⟨Nat.zero_le j, by omega⟩
  rw [if_pos h, if_pos h]

/-- The words that a routine reads from the first `b * (n + 1)` bytes of an
expanded schedule are the same whatever the schedule buffer held before. -/
theorem expand_load_frame (step : Nat → Keys → Keys) (b n m : Nat) (key ks ks2 : Buf)
    (off len : Nat) (h : off + len ≤ b * (n + 1)) :
    loadLE (expand_loop step b n (load_keys key ks b m)).key_schedule off len
      = loadLE (expand_loop step b n (load_keys key ks2 b m)).key_schedule off len := by
  apply loadLE_congr
  intro j _ h2
  rw [expand_loop_frame step b n _ _ (load_keys_frame key ks ks2 b m).1
    (load_keys_frame key ks ks2 b m).2 j (by omega)]

theorem speckEncrypt_congr (w a b : Nat) (K K2 : Nat → Nat) (n : Nat) (p : Nat × Nat)
    (h : ∀ i, i < n → K i = K2 i) : speckEncrypt w a b K n p = speckEncrypt w a b K2 n p :=
  forUp_congr _ _ n (fun i hi s => by rw [h i hi]) p

theorem simonEncrypt_congr (w : Nat) (K K2 : Nat → Nat) (n : Nat) (p : Nat × Nat)
    (h : ∀ i, i < n → K i = K2 i) : simonEncrypt w K n p = simonEncrypt w K2 n p :=
  forUp_congr _ _ n (fun i hi s => by rw [h i hi]) p

/-! ## Round trips of the reference ciphers on stored blocks -/

/-- Decrypting the stored Speck encryption of a block gives the bytes of the
plaintext back. -/
theorem speck_block_round_trip (w a b n m : Nat) (hm : 256 ^ m = 2 ^ w) (ha : a ≤ w)
    (hb : b ≤ w) (K : Nat → Nat) (hK : ∀ i, K i < 2 ^ w) (pt ct0 pt0 : Buf) (j : Nat)
    (hj : j < 2 * m) :
    storeLE (storeLE pt0 0 m
      (speckDecrypt w a b K n
        (loadLE (storeLE (storeLE ct0 0 m
            (speckEncrypt w a b K n (loadLE pt m m, loadLE pt 0 m)).2) m m
            (speckEncrypt w a b K n (loadLE pt m m, loadLE pt 0 m)).1) m m,
         loadLE (storeLE (storeLE ct0 0 m
            (speckEncrypt w a b K n (loadLE pt m m, loadLE pt 0 m)).2) m m
            (speckEncrypt w a b K n (loadLE pt m m, loadLE pt 0 m)).1) 0 m)).2) m m
      (speckDecrypt w a b K n
        (loadLE (storeLE (storeLE ct0 0 m
            (speckEncrypt w a b K n (loadLE pt m m, loadLE pt 0 m)).2) m m
            (speckEncrypt w a b K n (loadLE pt m m, loadLE pt 0 m)).1) m m,
         loadLE (storeLE (storeLE ct0 0 m
            (speckEncrypt w a b K n (loadLE pt m m, loadLE pt 0 m)).2) m m
            (speckEncrypt w a b K n (loadLE pt m m, loadLE pt 0 m)).1) 0 m)).1 j
      = pt j % 256 := by
  have hx : loadLE pt m m < 2 ^ w := hm ▸ loadLE_lt pt m m
  have hy : loadLE pt 0 m < 2 ^ w := hm ▸ loadLE_lt pt 0 m
  have hE := speckEncrypt_lt w a b K n (loadLE pt m m, loadLE pt 0 m) hK hx hy
  obtain ⟨l1, l2⟩ := load_store_block ct0 m
    (speckEncrypt w a b K n (loadLE pt m m, loadLE pt 0 m)).2
    (speckEncrypt w a b K n (loadLE pt m m, loadLE pt 0 m)).1 (hm ▸ hE.2) (hm ▸ hE.1)
  rw [l1, l2, speckDecrypt_speckEncrypt w a b K n _ ha hb hK hx hy]
  exact store_load_block pt0 pt m j hj

/-- Decrypting the stored Simon encryption of a block gives the bytes of the
plaintext back. -/
theorem simon_block_round_trip (w n m : Nat) (hm : 256 ^ m = 2 ^ w)
    (K : Nat → Nat) (hK : ∀ i, K i < 2 ^ w) (pt ct0 pt0 : Buf) (j : Nat)
    (hj : j < 2 * m) :
    storeLE (storeLE pt0 0 m
      (simonDecrypt w K n
        (loadLE (storeLE (storeLE ct0 0 m
            (simonEncrypt w K n (loadLE pt m m, loadLE pt 0 m)).2) m m
            (simonEncrypt w K n (loadLE pt m m, loadLE pt 0 m)).1) 0 m,
         loadLE (storeLE (storeLE ct0 0 m
            (simonEncrypt w K n (loadLE pt m m, loadLE pt 0 m)).2) m m
            (simonEncrypt w K n (loadLE pt m m, loadLE pt 0 m)).1) m m)).1) m m
      (simonDecrypt w K n
        (loadLE (storeLE (storeLE ct0 0 m
            (simonEncrypt w K n (loadLE pt m m, loadLE pt 0 m)).2) m m
            (simonEncrypt w K n (loadLE pt m m, loadLE pt 0 m)).1) 0 m,
         loadLE (storeLE (storeLE ct0 0 m
            (simonEncrypt w K n (loadLE pt m m, loadLE pt 0 m)).2) m m
            (simonEncrypt w K n (loadLE pt m m, loadLE pt 0 m)).1) m m)).2 j
      = pt j % 256 := by
  have hx : loadLE pt m m < 2 ^ w := hm ▸ loadLE_lt pt m m
  have hy : loadLE pt 0 m < 2 ^ w := hm ▸ loadLE_lt pt 0 m
  have hE := simonEncrypt_lt w K n (loadLE pt m m, loadLE pt 0 m) hK hx hy
  obtain ⟨l1, l2⟩ := load_store_block ct0 m
    (simonEncrypt w K n (loadLE pt m m, loadLE pt 0 m)).2
    (simonEncrypt w K n (loadLE pt m m, loadLE pt 0 m)).1 (hm ▸ hE.2) (hm ▸ hE.1)
  rw [l1, l2]
  have e := simonDecrypt_simonEncrypt w K n (loadLE pt m m, loadLE pt 0 m)
  simp only [Prod.swap] at e
  rw [e]
  exact store_load_block pt0 pt m j hj

theorem ofBytes_lt (l : List Nat) (h : ∀ x ∈ l, x < 256) (j : Nat) : ofBytes l j < 256 := by
  unfold ofBytes
  induction l generalizing j with
  | nil => simp
  | cons a t ih =>
    cases j with
    | zero => simpa using h a (List.mem_cons_self a t)
    | succ k =>
      simpa using ih (fun x hx => h x (List.mem_cons_of_mem a hx)) k

/-! ## Round trips (claims C1 and C2) -/

/-- Claim C1. For each of the seven Speck files, for every schedule buffer
(arbitrary subkey bytes), every plaintext buffer of bytes, whatever the output
buffers and the uninitialised locals held before: decrypting the encryption
gives back exactly the `2 * word_bytes` bytes of the plaintext block. -/
theorem speck_decrypt_encrypt (ks pt ct0 pt0 : Buf) (u u2 : Locals)
    (hpt : ∀ j, pt j < 256) :
    (∀ j, j < 4 →
        speck64_32.decrypt_speck_64_32 ks pt0 (speck64_32.encrypt_speck_64_32 ks pt ct0) j = pt j)
      ∧ (∀ j, j < 6 →
        speck72_48.decrypt_speck_72_48 ks pt0 (speck72_48.encrypt_speck_72_48 ks pt ct0 u) u2 j = pt j)
      ∧ (∀ j, j < 6 →
        speck96_48.decrypt_speck_96_48 ks pt0 (speck96_48.encrypt_speck_96_48 ks pt ct0 u) u2 j = pt j)
      ∧ (∀ j, j < 12 →
        speck96_96.decrypt_speck_96_96 ks pt0 (speck96_96.encrypt_speck_96_96 ks pt ct0 u) u2 j = pt j)
      ∧ (∀ j, j < 8 →
        speck128_64.decrypt_speck_128_64 ks pt0 (speck128_64.encrypt_speck_128_64 ks pt ct0) j = pt j)
      ∧ (∀ j, j < 16 →
        speck128_128.decrypt_speck_128_128 ks pt0 (speck128_128.encrypt_speck_128_128 ks pt ct0) j = pt j)
      ∧ (∀ j, j < 16 →
        speck256_128.decrypt_speck_256_128 ks pt0 (speck256_128.encrypt_speck_256_128 ks pt ct0) j = pt j) := by
  refine ⟨?_, ?_, ?_, ?_, ?_, ?_, ?_⟩
  · intro j hj
    rw [speck64_32_decrypt_eq, speck64_32_encrypt_eq]
    exact (speck_block_round_trip 16 7 2 22 2 rfl (by decide) (by decide) _
      (fun i => loadLE_lt ks (2 * i) 2) pt ct0 pt0 j hj).trans
      (Nat.mod_eq_of_lt (hpt j))
  · intro j hj
    rw [speck72_48_decrypt_eq, speck72_48_encrypt_eq]
    exact (speck_block_round_trip 24 8 3 3 3 rfl (by decide) (by decide) _
      (fun i => loadLE_lt ks (3 * i) 3) pt ct0 pt0 j hj).trans
      (Nat.mod_eq_of_lt (hpt j))
  · intro j hj
    rw [speck96_48_decrypt_eq, speck96_48_encrypt_eq]
    exact (speck_block_round_trip 24 8 3 23 3 rfl (by decide) (by decide) _
      (fun i => loadLE_lt ks (3 * i) 3) pt ct0 pt0 j hj).trans
      (Nat.mod_eq_of_lt (hpt j))
  · intro j hj
    rw [speck96_96_decrypt_eq, speck96_96_encrypt_eq]
    exact (speck_block_round_trip 48 8 3 28 6 rfl (by decide) (by decide) _
      (fun i => loadLE_lt ks (6 * i) 6) pt ct0 pt0 j hj).trans
      (Nat.mod_eq_of_lt (hpt j))
  · intro j hj
    rw [speck128_64_decrypt_eq, speck128_64_encrypt_eq]
    exact (speck_block_round_trip 32 8 3 27 4 rfl (by decide) (by decide) _
      (fun i => loadLE_lt ks (4 * i) 4) pt ct0 pt0 j hj).trans
      (Nat.mod_eq_of_lt (hpt j))
  · intro j hj
    rw [speck128_128_decrypt_eq, speck128_128_encrypt_eq]
    exact (speck_block_round_trip 64 8 3 32 8 rfl (by decide) (by decide) _
      (fun i => loadLE_lt ks (8 * i) 8) pt ct0 pt0 j hj).trans
      (Nat.mod_eq_of_lt (hpt j))
  · intro j hj
    rw [speck256_128_decrypt_eq, speck256_128_encrypt_eq]
    exact (speck_block_round_trip 64 8 3 34 8 rfl (by decide) (by decide) _
      (fun i => loadLE_lt ks (8 * i) 8) pt ct0 pt0 j hj).trans
      (Nat.mod_eq_of_lt (hpt j))

/-- Witness of C1: the all-zero schedule and the plaintext of the Speck
128/128 demonstration. -/
theorem speck_decrypt_encrypt_witness :
    (∀ j, speck128_128.main_plaintext j < 256)
      ∧ (∀ j, j < 4 →
        speck64_32.decrypt_speck_64_32 zeroBuf zeroBuf (speck64_32.encrypt_speck_64_32 zeroBuf speck128_128.main_plaintext zeroBuf) j = speck128_128.main_plaintext j)
      ∧ (∀ j, j < 6 →
        speck72_48.decrypt_speck_72_48 zeroBuf zeroBuf (speck72_48.encrypt_speck_72_48 zeroBuf speck128_128.main_plaintext zeroBuf ⟨0, 0, 0⟩) ⟨0, 0, 0⟩ j = speck128_128.main_plaintext j)
      ∧ (∀ j, j < 6 →
        speck96_48.decrypt_speck_96_48 zeroBuf zeroBuf (speck96_48.encrypt_speck_96_48 zeroBuf speck128_128.main_plaintext zeroBuf ⟨0, 0, 0⟩) ⟨0, 0, 0⟩ j = speck128_128.main_plaintext j)
      ∧ (∀ j, j < 12 →
        speck96_96.decrypt_speck_96_96 zeroBuf zeroBuf (speck96_96.encrypt_speck_96_96 zeroBuf speck128_128.main_plaintext zeroBuf ⟨0, 0, 0⟩) ⟨0, 0, 0⟩ j = speck128_128.main_plaintext j)
      ∧ (∀ j, j < 8 →
        speck128_64.decrypt_speck_128_64 zeroBuf zeroBuf (speck128_64.encrypt_speck_128_64 zeroBuf speck128_128.main_plaintext zeroBuf) j = speck128_128.main_plaintext j)
      ∧ (∀ j, j < 16 →
        speck128_128.decrypt_speck_128_128 zeroBuf zeroBuf (speck128_128.encrypt_speck_128_128 zeroBuf speck128_128.main_plaintext zeroBuf) j = speck128_128.main_plaintext j)
      ∧ (∀ j, j < 16 →
        speck256_128.decrypt_speck_256_128 zeroBuf zeroBuf (speck256_128.encrypt_speck_256_128 zeroBuf speck128_128.main_plaintext zeroBuf) j = speck128_128.main_plaintext j) :=
  ⟨ofBytes_lt _ (by decide),
    speck_decrypt_encrypt zeroBuf speck128_128.main_plaintext zeroBuf zeroBuf ⟨0, 0, 0⟩ ⟨0, 0, 0⟩
      (ofBytes_lt _ (by decide))⟩

/-- Claim C2. For each of the six Simon files, for every schedule buffer
(arbitrary subkey bytes, the all-zero schedule of the 72/48 demonstration
included), every plaintext buffer of bytes, whatever the output buffers and
the uninitialised locals held before: decrypting the encryption gives back
exactly the `2 * word_bytes` bytes of the plaintext block. -/
theorem simon_decrypt_encrypt (ks pt ct0 pt0 : Buf) (u u2 : Locals)
    (hpt : ∀ j, pt j < 256) :
    (∀ j, j < 4 →
        simon64_32.decrypt_simon_64_32 ks pt0 (simon64_32.encrypt_simon_64_32 ks pt ct0) j = pt j)
      ∧ (∀ j, j < 6 →
        simon72_48.decrypt_simon_72_48 ks pt0 (simon72_48.encrypt_simon_72_48 ks pt ct0 u) u2 j = pt j)
      ∧ (∀ j, j < 8 →
        simon128_64.decrypt_simon_128_64 ks pt0 (simon128_64.encrypt_simon_128_64 ks pt ct0) j = pt j)
      ∧ (∀ j, j < 12 →
        simon144_96.decrypt_simon_144_96 ks pt0 (simon144_96.encrypt_simon_144_96 ks pt ct0 u) u2 j = pt j)
      ∧ (∀ j, j < 16 →
        simon128_128.decrypt_simon_128_128 ks pt0 (simon128_128.encrypt_simon_128_128 ks pt ct0) j = pt j)
      ∧ (∀ j, j < 16 →
        simon192_128.decrypt_simon_192_128 ks pt0 (simon192_128.encrypt_simon_192_128 ks pt ct0) j = pt j) := by
  refine ⟨?_, ?_, ?_, ?_, ?_, ?_⟩
  · intro j hj
    rw [simon64_32_decrypt_eq, simon64_32_encrypt_eq]
    exact (simon_block_round_trip 16 32 2 rfl _
      (fun i => loadLE_lt ks (2 * i) 2) pt ct0 pt0 j hj).trans
      (Nat.mod_eq_of_lt (hpt j))
  · intro j hj
    rw [simon72_48_decrypt_eq, simon72_48_encrypt_eq]
    exact (simon_block_round_trip 24 36 3 rfl _
      (fun i => loadLE_lt ks (3 * i) 3) pt ct0 pt0 j hj).trans
      (Nat.mod_eq_of_lt (hpt j))
  · intro j hj
    rw [simon128_64_decrypt_eq, simon128_64_encrypt_eq]
    exact (simon_block_round_trip 32 44 4 rfl _
      (fun i => loadLE_lt ks (4 * i) 4) pt ct0 pt0 j hj).trans
      (Nat.mod_eq_of_lt (hpt j))
  · intro j hj
    rw [simon144_96_decrypt_eq, simon144_96_encrypt_eq]
    exact (simon_block_round_trip 48 54 6 rfl _
      (fun i => loadLE_lt ks (6 * i) 6) pt ct0 pt0 j hj).trans
      (Nat.mod_eq_of_lt (hpt j))
  · intro j hj
    rw [simon128_128_decrypt_eq, simon128_128_encrypt_eq]
    exact (simon_block_round_trip 64 68 8 rfl _
      (fun i => loadLE_lt ks (8 * i) 8) pt ct0 pt0 j hj).trans
      (Nat.mod_eq_of_lt (hpt j))
  · intro j hj
    rw [simon192_128_decrypt_eq, simon192_128_encrypt_eq]
    exact (simon_block_round_trip 64 69 8 rfl _
      (fun i => loadLE_lt ks (8 * i) 8) pt ct0 pt0 j hj).trans
      (Nat.mod_eq_of_lt (hpt j))

/-- Witness of C2: the all-zero schedule of the Simon 72/48 demonstration and
the plaintext of the Simon 128/128 demonstration. -/
theorem simon_decrypt_encrypt_witness :
    (∀ j, simon128_128.main_plaintext j < 256)
      ∧ (∀ j, j < 4 →
        simon64_32.decrypt_simon_64_32 zeroBuf zeroBuf (simon64_32.encrypt_simon_64_32 zeroBuf simon128_128.main_plaintext zeroBuf) j = simon128_128.main_plaintext j)
      ∧ (∀ j, j < 6 →
        simon72_48.decrypt_simon_72_48 zeroBuf zeroBuf (simon72_48.encrypt_simon_72_48 zeroBuf simon128_128.main_plaintext zeroBuf ⟨0, 0, 0⟩) ⟨0, 0, 0⟩ j = simon128_128.main_plaintext j)
      ∧ (∀ j, j < 8 →
        simon128_64.decrypt_simon_128_64 zeroBuf zeroBuf (simon128_64.encrypt_simon_128_64 zeroBuf simon128_128.main_plaintext zeroBuf) j = simon128_128.main_plaintext j)
      ∧ (∀ j, j < 12 →
        simon144_96.decrypt_simon_144_96 zeroBuf zeroBuf (simon144_96.encrypt_simon_144_96 zeroBuf simon128_128.main_plaintext zeroBuf ⟨0, 0, 0⟩) ⟨0, 0, 0⟩ j = simon128_128.main_plaintext j)
      ∧ (∀ j, j < 16 →
        simon128_128.decrypt_simon_128_128 zeroBuf zeroBuf (simon128_128.encrypt_simon_128_128 zeroBuf simon128_128.main_plaintext zeroBuf) j = simon128_128.main_plaintext j)
      ∧ (∀ j, j < 16 →
        simon192_128.decrypt_simon_192_128 zeroBuf zeroBuf (simon192_128.encrypt_simon_192_128 zeroBuf simon128_128.main_plaintext zeroBuf) j = simon128_128.main_plaintext j) :=
  ⟨ofBytes_lt _ (by decide),
    simon_decrypt_encrypt zeroBuf simon128_128.main_plaintext zeroBuf zeroBuf ⟨0, 0, 0⟩ ⟨0, 0, 0⟩
      (ofBytes_lt _ (by decide))⟩

/-! ## Known answers (claims C3 to C10) -/

set_option maxRecDepth 1000000 in
/-- The Speck 64/32 cipher of the file's demonstration key and plaintext, on a
schedule expanded into a zeroed buffer, evaluated. -/
theorem speck64_32_demo_words :
    speckEncrypt 16 7 2
      (fun i => loadLE (speck64_32.expand_speck_64_32 speck64_32.main_encryption_key zeroBuf) (2 * i) 2) 22
      (loadLE speck64_32.main_plaintext 2 2, loadLE speck64_32.main_plaintext 0 2)
      = (0x9771, 0xa087) := by
  decide

/-- Claim C3 (fails on the code). Speck 64/32: expanding the demonstration
key and encrypting the demonstration plaintext gives
`x = 0x9771` and `y = 0xa087`, not the published
`x = 0xa868` and `y = 0x42f2`, whatever the
schedule and ciphertext buffers held before. -/
theorem known_answer_speck_64_32_fails (ks0 ct0 : Buf) :
    takeBytes (speck64_32.main_ciphertext ks0 ct0) 4
        = [0x87, 0xa0, 0x71, 0x97]
      ∧ takeBytes (speck64_32.main_ciphertext ks0 ct0) 4
        ≠ [0xf2, 0x42, 0x68, 0xa8]
      ∧ loadLE (speck64_32.main_ciphertext ks0 ct0) 2 2 = 0x9771
      ∧ loadLE (speck64_32.main_ciphertext ks0 ct0) 0 2 = 0xa087 := by
  have hK : ∀ i, i < 22 →
      loadLE (speck64_32.expand_speck_64_32 speck64_32.main_encryption_key ks0) (2 * i) 2
        = loadLE (speck64_32.expand_speck_64_32 speck64_32.main_encryption_key zeroBuf) (2 * i) 2 :=
    fun i hi => expand_load_frame speck64_32.expand_step speck64_32.bytes (speck64_32.rounds - 1) speck64_32.key_size
      speck64_32.main_encryption_key ks0 zeroBuf (2 * i) 2 (by simp only [speck64_32.bytes, speck64_32.rounds]; omega)
  have hE := (speckEncrypt_congr 16 7 2 _ _ 22
    (loadLE speck64_32.main_plaintext 2 2, loadLE speck64_32.main_plaintext 0 2) hK).trans speck64_32_demo_words
  unfold speck64_32.main_ciphertext
  rw [speck64_32_encrypt_eq, hE]
  have hb : takeBytes (storeLE (storeLE ct0 0 2 0xa087) 2 2 0x9771) 4
      = [0x87, 0xa0, 0x71, 0x97] := rfl
  refine ⟨hb, ?_, ?_, ?_⟩
  · rw [hb]
    decide
  · exact (load_store_block ct0 2 0xa087 0x9771 (by decide) (by decide)).2
  · exact (load_store_block ct0 2 0xa087 0x9771 (by decide) (by decide)).1

set_option maxRecDepth 1000000 in
/-- The Simon 64/32 cipher of the file's demonstration key and plaintext, on a
schedule expanded into a zeroed buffer, evaluated. -/
theorem simon64_32_demo_words :
    simonEncrypt 16
      (fun i => loadLE (simon64_32.expand_simon_64_32 simon64_32.main_encryption_key zeroBuf) (2 * i) 2) 32
      (loadLE simon64_32.main_plaintext 2 2, loadLE simon64_32.main_plaintext 0 2)
      = (0xc69b, 0xe9bb) := by
  decide

/-- Claim C4. Simon 64/32: expanding the demonstration key and encrypting the
demonstration plaintext gives the published ciphertext,
`x = 0xc69b` and `y = 0xe9bb`, stored as the
little-endian bytes of `y` followed by those of `x`, whatever the schedule
buffer, the ciphertext buffer held before. -/
theorem known_answer_simon_64_32 (ks0 ct0 : Buf) :
    takeBytes (simon64_32.main_ciphertext ks0 ct0) 4
        = [0xbb, 0xe9, 0x9b, 0xc6]
      ∧ loadLE (simon64_32.main_ciphertext ks0 ct0) 2 2 = 0xc69b
      ∧ loadLE (simon64_32.main_ciphertext ks0 ct0) 0 2 = 0xe9bb := by
  have hK : ∀ i, i < 32 →
      loadLE (simon64_32.expand_simon_64_32 simon64_32.main_encryption_key ks0) (2 * i) 2
        = loadLE (simon64_32.expand_simon_64_32 simon64_32.main_encryption_key zeroBuf) (2 * i) 2 :=
    fun i hi => expand_load_frame simon64_32.expand_step simon64_32.bytes (simon64_32.rounds) simon64_32.key_size
      simon64_32.main_encryption_key ks0 zeroBuf (2 * i) 2 (by simp only [simon64_32.bytes, simon64_32.rounds]; omega)
  have hE := (simonEncrypt_congr 16 _ _ 32
    (loadLE simon64_32.main_plaintext 2 2, loadLE simon64_32.main_plaintext 0 2) hK).trans simon64_32_demo_words
  unfold simon64_32.main_ciphertext
  rw [simon64_32_encrypt_eq, hE]
  refine ⟨rfl, ?_, ?_⟩
  · exact (load_store_block ct0 2 0xe9bb 0xc69b (by decide) (by decide)).2
  · exact (load_store_block ct0 2 0xe9bb 0xc69b (by decide) (by decide)).1

set_option maxRecDepth 1000000 in
/-- The Speck 128/128 cipher of the file's demonstration key and plaintext, on a
schedule expanded into a zeroed buffer, evaluated. -/
theorem speck128_128_demo_words :
    speckEncrypt 64 8 3
      (fun i => loadLE (speck128_128.expand_speck speck128_128.main_encryption_key zeroBuf) (8 * i) 8) 32
      (loadLE speck128_128.main_plaintext 8 8, loadLE speck128_128.main_plaintext 0 8)
      = (0xa65d985179783265, 0x7860fedf5c570d18) := by
  decide

/-- Claim C5. Speck 128/128: expanding the demonstration key and encrypting the
demonstration plaintext gives the published ciphertext,
`x = 0xa65d985179783265` and `y = 0x7860fedf5c570d18`, stored as the
little-endian bytes of `y` followed by those of `x`, whatever the schedule
buffer, the ciphertext buffer held before. -/
theorem known_answer_speck_128_128 (ks0 ct0 : Buf) :
    takeBytes (speck128_128.main_ciphertext ks0 ct0) 16
        = [0x18, 0x0d, 0x57, 0x5c, 0xdf, 0xfe, 0x60, 0x78, 0x65, 0x32, 0x78, 0x79, 0x51, 0x98, 0x5d, 0xa6]
      ∧ loadLE (speck128_128.main_ciphertext ks0 ct0) 8 8 = 0xa65d985179783265
      ∧ loadLE (speck128_128.main_ciphertext ks0 ct0) 0 8 = 0x7860fedf5c570d18 := by
  have hK : ∀ i, i < 32 →
      loadLE (speck128_128.expand_speck speck128_128.main_encryption_key ks0) (8 * i) 8
        = loadLE (speck128_128.expand_speck speck128_128.main_encryption_key zeroBuf) (8 * i) 8 :=
    fun i hi => expand_load_frame speck128_128.expand_step speck128_128.bytes (speck128_128.rounds - 1) speck128_128.key_size
      speck128_128.main_encryption_key ks0 zeroBuf (8 * i) 8 (by simp only [speck128_128.bytes, speck128_128.rounds]; omega)
  have hE := (speckEncrypt_congr 64 8 3 _ _ 32
    (loadLE speck128_128.main_plaintext 8 8, loadLE speck128_128.main_plaintext 0 8) hK).trans speck128_128_demo_words
  unfold speck128_128.main_ciphertext
  rw [speck128_128_encrypt_eq, hE]
  refine ⟨rfl, ?_, ?_⟩
  · exact (load_store_block ct0 8 0x7860fedf5c570d18 0xa65d985179783265 (by decide) (by decide)).2
  · exact (load_store_block ct0 8 0x7860fedf5c570d18 0xa65d985179783265 (by decide) (by decide)).1

set_option maxRecDepth 1000000 in
/-- The Simon 128/128 cipher of the file's demonstration key and plaintext, on a
schedule expanded into a zeroed buffer, evaluated. -/
theorem simon128_128_demo_words :
    simonEncrypt 64
      (fun i => loadLE (simon128_128.expand_simon_128_128 simon128_128.main_encryption_key zeroBuf) (8 * i) 8) 68
      (loadLE simon128_128.main_plaintext 8 8, loadLE simon128_128.main_plaintext 0 8)
      = (0x49681b1e1e54fe3f, 0x65aa832af84e0bbc) := by
  decide

/-- Claim C6. Simon 128/128: expanding the demonstration key and encrypting the
demonstration plaintext gives the published ciphertext,
`x = 0x49681b1e1e54fe3f` and `y = 0x65aa832af84e0bbc`, stored as the
little-endian bytes of `y` followed by those of `x`, whatever the schedule
buffer, the ciphertext buffer held before. -/
theorem known_answer_simon_128_128 (ks0 ct0 : Buf) :
    takeBytes (simon128_128.main_ciphertext ks0 ct0) 16
        = [0xbc, 0x0b, 0x4e, 0xf8, 0x2a, 0x83, 0xaa, 0x65, 0x3f, 0xfe, 0x54, 0x1e, 0x1e, 0x1b, 0x68, 0x49]
      ∧ loadLE (simon128_128.main_ciphertext ks0 ct0) 8 8 = 0x49681b1e1e54fe3f
      ∧ loadLE (simon128_128.main_ciphertext ks0 ct0) 0 8 = 0x65aa832af84e0bbc := by
  have hK : ∀ i, i < 68 →
      loadLE (simon128_128.expand_simon_128_128 simon128_128.main_encryption_key ks0) (8 * i) 8
        = loadLE (simon128_128.expand_simon_128_128 simon128_128.main_encryption_key zeroBuf) (8 * i) 8 :=
    fun i hi => expand_load_frame simon128_128.expand_step simon128_128.bytes (simon128_128.rounds) simon128_128.key_size
      simon128_128.main_encryption_key ks0 zeroBuf (8 * i) 8 (by simp only [simon128_128.bytes, simon128_128.rounds]; omega)
  have hE := (simonEncrypt_congr 64 _ _ 68
    (loadLE simon128_128.main_plaintext 8 8, loadLE simon128_128.main_plaintext 0 8) hK).trans simon128_128_demo_words
  unfold simon128_128.main_ciphertext
  rw [simon128_128_encrypt_eq, hE]
  refine ⟨rfl, ?_, ?_⟩
  · exact (load_store_block ct0 8 0x65aa832af84e0bbc 0x49681b1e1e54fe3f (by decide) (by decide)).2
  · exact (load_store_block ct0 8 0x65aa832af84e0bbc 0x49681b1e1e54fe3f (by decide) (by decide)).1

set_option maxRecDepth 1000000 in
/-- The Speck 256/128 cipher of the file's demonstration key and plaintext, on a
schedule expanded into a zeroed buffer, evaluated. -/
theorem speck256_128_demo_words :
    speckEncrypt 64 8 3
      (fun i => loadLE (speck256_128.expand_speck speck256_128.main_encryption_key zeroBuf) (8 * i) 8) 34
      (loadLE speck256_128.main_plaintext 8 8, loadLE speck256_128.main_plaintext 0 8)
      = (0xa926e46af9bfc56b, 0xdbb8f015372d057d) := by
  decide

/-- Claim C7 (fails on the code). Speck 256/128: expanding the demonstration
key and encrypting the demonstration plaintext gives
`x = 0xa926e46af9bfc56b` and `y = 0xdbb8f015372d057d`, not the published
`x = 0x4109010405c0f53e` and `y = 0x4eeeb48d9c188f43`, whatever the
schedule and ciphertext buffers held before. -/
theorem known_answer_speck_256_128_fails (ks0 ct0 : Buf) :
    takeBytes (speck256_128.main_ciphertext ks0 ct0) 16
        = [0x7d, 0x05, 0x2d, 0x37, 0x15, 0xf0, 0xb8, 0xdb, 0x6b, 0xc5, 0xbf, 0xf9, 0x6a, 0xe4, 0x26, 0xa9]
      ∧ takeBytes (speck256_128.main_ciphertext ks0 ct0) 16
        ≠ [0x43, 0x8f, 0x18, 0x9c, 0x8d, 0xb4, 0xee, 0x4e, 0x3e, 0xf5, 0xc0, 0x05, 0x04, 0x01, 0x09, 0x41]
      ∧ loadLE (speck256_128.main_ciphertext ks0 ct0) 8 8 = 0xa926e46af9bfc56b
      ∧ loadLE (speck256_128.main_ciphertext ks0 ct0) 0 8 = 0xdbb8f015372d057d := by
  have hK : ∀ i, i < 34 →
      loadLE (speck256_128.expand_speck speck256_128.main_encryption_key ks0) (8 * i) 8
        = loadLE (speck256_128.expand_speck speck256_128.main_encryption_key zeroBuf) (8 * i) 8 :=
    fun i hi => expand_load_frame speck256_128.expand_step speck256_128.bytes (speck256_128.rounds) speck256_128.key_size
      speck256_128.main_encryption_key ks0 zeroBuf (8 * i) 8 (by simp only [speck256_128.bytes, speck256_128.rounds]; omega)
  have hE := (speckEncrypt_congr 64 8 3 _ _ 34
    (loadLE speck256_128.main_plaintext 8 8, loadLE speck256_128.main_plaintext 0 8) hK).trans speck256_128_demo_words
  unfold speck256_128.main_ciphertext
  rw [speck256_128_encrypt_eq, hE]
  have hb : takeBytes (storeLE (storeLE ct0 0 8 0xdbb8f015372d057d) 8 8 0xa926e46af9bfc56b) 16
      = [0x7d, 0x05, 0x2d, 0x37, 0x15, 0xf0, 0xb8, 0xdb, 0x6b, 0xc5, 0xbf, 0xf9, 0x6a, 0xe4, 0x26, 0xa9] := rfl
  refine ⟨hb, ?_, ?_, ?_⟩
  · rw [hb]
    decide
  · exact (load_store_block ct0 8 0xdbb8f015372d057d 0xa926e46af9bfc56b (by decide) (by decide)).2
  · exact (load_store_block ct0 8 0xdbb8f015372d057d 0xa926e46af9bfc56b (by decide) (by decide)).1

set_option maxRecDepth 1000000 in
/-- The Speck 128/64 cipher of the file's demonstration key and plaintext, on a
schedule expanded into a zeroed buffer, evaluated. -/
theorem speck128_64_demo_words :
    speckEncrypt 32 8 3
      (fun i => loadLE (speck128_64.expand_speck_128_64 speck128_64.main_encryption_key zeroBuf) (4 * i) 4) 27
      (loadLE speck128_64.main_plaintext 4 4, loadLE speck128_64.main_plaintext 0 4)
      = (0x8c6fa548, 0x454e028b) := by
  decide

/-- Claim C8. Speck 128/64: expanding the demonstration key and encrypting the
demonstration plaintext gives the published ciphertext,
`x = 0x8c6fa548` and `y = 0x454e028b`, stored as the
little-endian bytes of `y` followed by those of `x`, whatever the schedule
buffer, the ciphertext buffer held before. -/
theorem known_answer_speck_128_64 (ks0 ct0 : Buf) :
    takeBytes (speck128_64.main_ciphertext ks0 ct0) 8
        = [0x8b, 0x02, 0x4e, 0x45, 0x48, 0xa5, 0x6f, 0x8c]
      ∧ loadLE (speck128_64.main_ciphertext ks0 ct0) 4 4 = 0x8c6fa548
      ∧ loadLE (speck128_64.main_ciphertext ks0 ct0) 0 4 = 0x454e028b := by
  have hK : ∀ i, i < 27 →
      loadLE (speck128_64.expand_speck_128_64 speck128_64.main_encryption_key ks0) (4 * i) 4
        = loadLE (speck128_64.expand_speck_128_64 speck128_64.main_encryption_key zeroBuf) (4 * i) 4 :=
    fun i hi => expand_load_frame speck128_64.expand_step speck128_64.bytes (speck128_64.rounds) speck128_64.key_size
      speck128_64.main_encryption_key ks0 zeroBuf (4 * i) 4 (by simp only [speck128_64.bytes, speck128_64.rounds]; omega)
  have hE := (speckEncrypt_congr 32 8 3 _ _ 27
    (loadLE speck128_64.main_plaintext 4 4, loadLE speck128_64.main_plaintext 0 4) hK).trans speck128_64_demo_words
  unfold speck128_64.main_ciphertext
  rw [speck128_64_encrypt_eq, hE]
  refine ⟨rfl, ?_, ?_⟩
  · exact (load_store_block ct0 4 0x454e028b 0x8c6fa548 (by decide) (by decide)).2
  · exact (load_store_block ct0 4 0x454e028b 0x8c6fa548 (by decide) (by decide)).1

set_option maxRecDepth 1000000 in
/-- The Speck 96/48 cipher of the file's demonstration key and plaintext, on a
schedule expanded into a zeroed buffer, evaluated. -/
theorem speck96_48_demo_words :
    speckEncrypt 24 8 3
      (fun i => loadLE (speck96_48.expand_speck speck96_48.main_encryption_key zeroBuf) (3 * i) 3) 23
      (loadLE speck96_48.main_plaintext 3 3, loadLE speck96_48.main_plaintext 0 3)
      = (0x735e10, 0xb6445d) := by
  decide

/-- Claim C9. Speck 96/48: expanding the demonstration key and encrypting the
demonstration plaintext gives the published ciphertext,
`x = 0x735e10` and `y = 0xb6445d`, stored as the
little-endian bytes of `y` followed by those of `x`, whatever the schedule
buffer, the ciphertext buffer and the uninitialised locals held before. -/
theorem known_answer_speck_96_48 (ks0 ct0 : Buf) (u : Locals) :
    takeBytes (speck96_48.main_ciphertext ks0 ct0 u) 6
        = [0x5d, 0x44, 0xb6, 0x10, 0x5e, 0x73]
      ∧ loadLE (speck96_48.main_ciphertext ks0 ct0 u) 3 3 = 0x735e10
      ∧ loadLE (speck96_48.main_ciphertext ks0 ct0 u) 0 3 = 0xb6445d := by
  have hK : ∀ i, i < 23 →
      loadLE (speck96_48.expand_speck speck96_48.main_encryption_key ks0) (3 * i) 3
        = loadLE (speck96_48.expand_speck speck96_48.main_encryption_key zeroBuf) (3 * i) 3 :=
    fun i hi => expand_load_frame speck96_48.expand_step speck96_48.bytes (speck96_48.rounds - 1) speck96_48.key_size
      speck96_48.main_encryption_key ks0 zeroBuf (3 * i) 3 (by simp only [speck96_48.bytes, speck96_48.rounds]; omega)
  have hE := (speckEncrypt_congr 24 8 3 _ _ 23
    (loadLE speck96_48.main_plaintext 3 3, loadLE speck96_48.main_plaintext 0 3) hK).trans speck96_48_demo_words
  unfold speck96_48.main_ciphertext
  rw [speck96_48_encrypt_eq, hE]
  refine ⟨rfl, ?_, ?_⟩
  · exact (load_store_block ct0 3 0xb6445d 0x735e10 (by decide) (by decide)).2
  · exact (load_store_block ct0 3 0xb6445d 0x735e10 (by decide) (by decide)).1

set_option maxRecDepth 1000000 in
/-- The Simon 144/96 cipher of the file's demonstration key and plaintext, on a
schedule expanded into a zeroed buffer, evaluated. -/
theorem simon144_96_demo_words :
    simonEncrypt 48
      (fun i => loadLE (simon144_96.expand_simon_144_96 simon144_96.main_encryption_key zeroBuf) (6 * i) 6) 54
      (loadLE simon144_96.main_plaintext 6 6, loadLE simon144_96.main_plaintext 0 6)
      = (0xecad1c6c451e, 0x3f59c5db1ae9) := by
  decide

/-- Claim C10. Simon 144/96: expanding the demonstration key and encrypting the
demonstration plaintext gives the published ciphertext,
`x = 0xecad1c6c451e` and `y = 0x3f59c5db1ae9`, stored as the
little-endian bytes of `y` followed by those of `x`, whatever the schedule
buffer, the ciphertext buffer and the uninitialised locals held before. -/
theorem known_answer_simon_144_96 (ks0 ct0 : Buf) (u : Locals) :
    takeBytes (simon144_96.main_ciphertext ks0 ct0 u) 12
        = [0xe9, 0x1a, 0xdb, 0xc5, 0x59, 0x3f, 0x1e, 0x45, 0x6c, 0x1c, 0xad, 0xec]
      ∧ loadLE (simon144_96.main_ciphertext ks0 ct0 u) 6 6 = 0xecad1c6c451e
      ∧ loadLE (simon144_96.main_ciphertext ks0 ct0 u) 0 6 = 0x3f59c5db1ae9 := by
  have hK : ∀ i, i < 54 →
      loadLE (simon144_96.expand_simon_144_96 simon144_96.main_encryption_key ks0) (6 * i) 6
        = loadLE (simon144_96.expand_simon_144_96 simon144_96.main_encryption_key zeroBuf) (6 * i) 6 :=
    fun i hi => expand_load_frame simon144_96.expand_step simon144_96.bytes (simon144_96.rounds - 1) simon144_96.key_size
      simon144_96.main_encryption_key ks0 zeroBuf (6 * i) 6 (by simp only [simon144_96.bytes, simon144_96.rounds]; omega)
  have hE := (simonEncrypt_congr 48 _ _ 54
    (loadLE simon144_96.main_plaintext 6 6, loadLE simon144_96.main_plaintext 0 6) hK).trans simon144_96_demo_words
  unfold simon144_96.main_ciphertext
  rw [simon144_96_encrypt_eq, hE]
  refine ⟨rfl, ?_, ?_⟩
  · exact (load_store_block ct0 6 0x3f59c5db1ae9 0xecad1c6c451e (by decide) (by decide)).2
  · exact (load_store_block ct0 6 0x3f59c5db1ae9 0xecad1c6c451e (by decide) (by decide)).1

/-! ## What the key expansion leaves in the schedule buffer -/

/-- Bytes at or beyond `b * (n + 1)` are not written by `n` passes of the loop. -/
theorem expand_loop_outside (step : Nat → Keys → Keys) (b n : Nat) (s : ExpandState)
    (j : Nat) (hj : b * (n + 1) ≤ j) :
    (expand_loop step b n s).key_schedule j = s.key_schedule j := by
  induction n with
  | zero => rfl
  | succ m ih =>
    rw [expand_loop_succ]
    simp only [memcpy]
    have e : b * (m + 1 + 1) = b * (m + 1) + b := by ring
    have hout : ¬ (b * (m + 1) ≤ j ∧ j < b * (m + 1) + b) := by omega
    rw [if_neg hout]
    exact ih (by omega)

/-- Bytes at or beyond `b` are not written by the first `memcpy` into the schedule. -/
theorem load_keys_outside (key ks : Buf) (b m j : Nat) (hj : b ≤ j) :
    (load_keys key ks b m).key_schedule j = ks j := by
  simp only [load_keys, memcpy]
  have hout : ¬ (0 ≤ j ∧ j < 0 + b) := by omega
  rw [if_neg hout]

/-- The first `b` bytes of the schedule after the first `memcpy` are the first
bytes of the array `keys`. -/
theorem load_keys_byte (key ks : Buf) (b m j : Nat) (hj : j < b) :
    (load_keys key ks b m).key_schedule j = (load_keys key ks b m).keys.mem j % 256 := by
  simp only [load_keys, memcpy]
  have hin : 0 ≤ j ∧ j < 0 + b := ⟨Nat.zero_le j, by omega⟩
  rw [if_pos hin]
  simp

/-- Byte `j` of schedule position `i`, after `n ≥ i` passes, is byte `j` of the
array `keys` as it was after `i` passes. -/
theorem expand_loop_byte (step : Nat → Keys → Keys) (b n : Nat) (s : ExpandState)
    (i j : Nat) (hi : i ≤ n) (hi1 : 1 ≤ i) (hj : j < b) :
    (expand_loop step b n s).key_schedule (b * i + j) = (forUp step i s.keys).mem j % 256 := by
  induction n with
  | zero => omega
  | succ m ih =>
    rw [expand_loop_succ]
    simp only [memcpy]
    by_cases him : i = m + 1
    · subst him
      have hin : b * (m + 1) ≤ b * (m + 1) + j ∧ b * (m + 1) + j < b * (m + 1) + b := by omega
      rw [if_pos hin, expand_loop_keys, forUp_succ]
      simp
    · have hle : i ≤ m := by omega
      have h1 : b * i + b ≤ b * (m + 1) := by
        have := Nat.mul_le_mul_left b (Nat.succ_le_of_lt (Nat.lt_succ_of_le hle))
        simpa [Nat.mul_succ] using this
      have hout : ¬ (b * (m + 1) ≤ b * i + j ∧ b * i + j < b * (m + 1) + b) := by omega
      rw [if_neg hout]
      exact ih hle

/-- The first `b` bytes of the schedule, schedule position 0, are not written
by the loop. -/
theorem expand_loop_low (step : Nat → Keys → Keys) (b n : Nat) (s : ExpandState)
    (j : Nat) (hj : j < b) :
    (expand_loop step b n s).key_schedule j = s.key_schedule j := by
  induction n with
  | zero => rfl
  | succ m ih =>
    rw [expand_loop_succ]
    simp only [memcpy]
    have h1 : b ≤ b * (m + 1) := Nat.le_mul_of_pos_right b (Nat.succ_pos m)
    have hout : ¬ (b * (m + 1) ≤ j ∧ j < b * (m + 1) + b) := by omega
    rw [if_neg hout]
    exact ih

/-- The same for an expansion that starts with `load_keys`, position 0 included. -/
theorem expand_byte (step : Nat → Keys → Keys) (b n m : Nat) (key ks : Buf)
    (i j : Nat) (hi : i ≤ n) (hj : j < b) :
    (expand_loop step b n (load_keys key ks b m)).key_schedule (b * i + j)
      = (forUp step i (load_keys key ks b m).keys).mem j % 256 := by
  by_cases h0 : i = 0
  · subst h0
    rw [Nat.mul_zero, Nat.zero_add, expand_loop_low step b n _ j hj, load_keys_byte key ks b m j hj]
    rfl
  · exact expand_loop_byte step b n _ i j hi (by omega) hj

theorem loadLE_shift (b c : Buf) (off off2 n : Nat)
    (h : ∀ j, j < n → b (off + j) % 256 = c (off2 + j) % 256) :
    loadLE b off n = loadLE c off2 n := by
  induction n generalizing off off2 with
  | zero => rfl
  | succ m ih =>
    simp only [loadLE]
    have h0 := h 0 (Nat.succ_pos m)
    simp only [Nat.add_zero] at h0
    rw [h0, ih (off + 1) (off2 + 1) (fun j hj => by
      have := h (j + 1) (by omega)
      rwa [show off + (j + 1) = off + 1 + j by omega,
        show off2 + (j + 1) = off2 + 1 + j by omega] at this)]

/-- The low `n ≤ 8` bytes of the array `keys` hold the low bytes of `keys[0]`. -/
theorem loadLE_keys_mem (k : Keys) (n : Nat) (hn : n ≤ 8) :
    loadLE k.mem 0 n = k.keys0 % 256 ^ n := by
  rw [← loadLE_storeLE zeroBuf 0 n k.keys0]
  apply loadLE_congr
  intro j _ h2
  rw [storeLE_apply_in zeroBuf 0 n k.keys0 j (Nat.zero_le j) h2]
  have hj : j < 8 := by omega
  simp [Keys.mem, hj]

/-- The word of `len` bytes at schedule position `i`, after `n ≥ i` passes, is
`keys[0]` as it was after `i` passes, cut to `len` bytes. -/
theorem expand_word (step : Nat → Keys → Keys) (b n m : Nat) (key ks : Buf)
    (i len : Nat) (hi : i ≤ n) (hlen : len ≤ b) (h8 : len ≤ 8) :
    loadLE (expand_loop step b n (load_keys key ks b m)).key_schedule (b * i) len
      = (forUp step i (load_keys key ks b m).keys).keys0 % 256 ^ len := by
  rw [← loadLE_keys_mem _ len h8]
  apply loadLE_shift
  intro j hj
  rw [expand_byte step b n m key ks i j hi (by omega), Nat.zero_add, Nat.mod_mod]

/-! ## What the key expansion loads from the key -/

theorem loadLE_zero_ext (B C : Buf) (off off2 n b : Nat) (hb : b ≤ n)
    (h1 : ∀ t, t < b → B (off + t) % 256 = C (off2 + t) % 256)
    (h2 : ∀ t, b ≤ t → t < n → B (off + t) % 256 = 0) :
    loadLE B off n = loadLE C off2 b := by
  induction n generalizing off off2 b with
  | zero =>
    have : b = 0 := by omega
    subst this
    rfl
  | succ m ih =>
    cases b with
    | zero =>
      have h0 := h2 0 (Nat.le_refl 0) (Nat.succ_pos m)
      simp only [Nat.add_zero] at h0
      have hr := ih (off + 1) off2 0 (Nat.zero_le m) (fun t ht => by omega)
        (fun t _ ht => by
          have := h2 (t + 1) (Nat.zero_le _) (by omega)
          rwa [show off + (t + 1) = off + 1 + t by omega] at this)
      simp only [loadLE] at hr ⊢
      rw [h0, hr]
    | succ c =>
      have h0 := h1 0 (Nat.succ_pos c)
      simp only [Nat.add_zero] at h0
      have hr := ih (off + 1) (off2 + 1) c (by omega)
        (fun t ht => by
          have := h1 (t + 1) (by omega)
          rwa [show off + (t + 1) = off + 1 + t by omega,
            show off2 + (t + 1) = off2 + 1 + t by omega] at this)
        (fun t ht1 ht2 => by
          have := h2 (t + 1) (by omega) (by omega)
          rwa [show off + (t + 1) = off + 1 + t by omega] at this)
      simp only [loadLE]
      rw [h0, hr]

/-- The bytes of the array `keys` after `n` copies of at most 8 bytes each:
element `i < n` holds `b` bytes of the key from offset `b * i` and zeros. -/
theorem load_mem_byte (key : Buf) (b n i t : Nat) (hb : b ≤ 8) (ht : t < 8) :
    forUp (fun i m => memcpy m (8 * i) key (b * i) b) n (fun _ => 0) (8 * i + t)
      = if i < n ∧ t < b then key (b * i + t) % 256 else 0 := by
  induction n with
  | zero => simp [forUp]
  | succ m ih =>
    rw [forUp_succ]
    simp only [memcpy]
    by_cases hin : 8 * m ≤ 8 * i + t ∧ 8 * i + t < 8 * m + b
    · have him : i = m := by omega
      subst him
      have htb : t < b := by omega
      rw [if_pos hin, if_pos ⟨Nat.lt_succ_self i, htb⟩]
      congr 2
      omega
    · rw [if_neg hin, ih]
      by_cases hc : i < m ∧ t < b
      · rw [if_pos hc, if_pos ⟨Nat.lt_succ_of_lt hc.1, hc.2⟩]
      · have hc2 : ¬ (i < m + 1 ∧ t < b) := by omega
        rw [if_neg hc, if_neg hc2]

/-- With `bytes ≤ 8`, element `i` of `keys` is loaded with the little-endian
value of the `b` key bytes at offset `b * i`, zero-extended, when `i` is below
`key_size`, and stays zero otherwise. -/
theorem load_keys_get (key ks : Buf) (b m i : Nat) (hb : b ≤ 8) (hi : i < 4) :
    (load_keys key ks b m).keys.get i = if i < m then loadLE key (b * i) b else 0 := by
  have hw : (load_keys key ks b m).keys.get i
      = loadLE (forUp (fun i m => memcpy m (8 * i) key (b * i) b) m (fun _ => 0)) (8 * i) 8 := by
    have h4 : i = 0 ∨ i = 1 ∨ i = 2 ∨ i = 3 := by omega
    rcases h4 with h | h | h | h <;> subst h <;> rfl
  rw [hw]
  by_cases him : i < m
  · rw [if_pos him]
    apply loadLE_zero_ext _ _ _ _ 8 b hb
    · intro t ht
      rw [load_mem_byte key b m i t hb (by omega), if_pos ⟨him, ht⟩, Nat.mod_mod]
    · intro t ht1 ht2
      have hn : ¬ (i < m ∧ t < b) := by omega
      rw [load_mem_byte key b m i t hb ht2, if_neg hn]
  · rw [if_neg him]
    have h0 := loadLE_zero_ext
      (forUp (fun i m => memcpy m (8 * i) key (b * i) b) m (fun _ => 0)) zeroBuf (8 * i) 0 8 0
      (Nat.zero_le 8) (fun t ht => by omega)
      (fun t _ ht2 => by
        have hn : ¬ (i < m ∧ t < b) := by omega
        rw [load_mem_byte key b m i t hb ht2, if_neg hn])
    rw [h0]
    rfl

/-- The low `len` bytes of a longer little-endian load. -/
theorem loadLE_take (B : Buf) (off n len : Nat) (h : len ≤ n) :
    loadLE B off n % 256 ^ len = loadLE B off len := by
  induction len generalizing off n with
  | zero => simp [loadLE, Nat.mod_one]
  | succ c ih =>
    cases n with
    | zero => omega
    | succ m =>
      have hr := ih (off + 1) m (by omega)
      simp only [loadLE, Nat.pow_succ]
      rw [← hr]
      have hb : B off % 256 < 256 := Nat.mod_lt _ (by decide)
      rw [Nat.mul_comm (256 ^ c) 256, Nat.mod_mul, Nat.add_mul_mod_self_left,
        Nat.mod_mod, Nat.add_mul_div_left _ _ (by decide : 0 < 256),
        Nat.div_eq_of_lt hb, Nat.zero_add]

/-- The first bytes of the array `keys` come from the first copy alone, whatever
`bytes` is: later copies start at offset 8 or beyond. -/
theorem load_mem_low (key : Buf) (b n t : Nat) (hn : 0 < n) (ht : t < 8) (htb : t < b) :
    forUp (fun i m => memcpy m (8 * i) key (b * i) b) n (fun _ => 0) t = key t % 256 := by
  induction n with
  | zero => omega
  | succ m ih =>
    rw [forUp_succ]
    simp only [memcpy]
    cases m with
    | zero =>
      have hin : 8 * 0 ≤ t ∧ t < 8 * 0 + b := by omega
      rw [if_pos hin]
      simp
    | succ c =>
      have hout : ¬ (8 * (c + 1) ≤ t ∧ t < 8 * (c + 1) + b) := by omega
      rw [if_neg hout]
      exact ih (Nat.succ_pos c)

/-- The low `len` bytes of `keys[0]` after the loading loop, for `len` at most
`bytes` and at most 8, are the first `len` bytes of the key. -/
theorem load_keys_keys0_mod (key ks : Buf) (b m len : Nat) (hm : 0 < m)
    (h8 : len ≤ 8) (hb : len ≤ b) :
    (load_keys key ks b m).keys.keys0 % 256 ^ len = loadLE key 0 len := by
  have hw : (load_keys key ks b m).keys.keys0
      = loadLE (forUp (fun i m => memcpy m (8 * i) key (b * i) b) m (fun _ => 0)) 0 8 := rfl
  rw [hw, loadLE_take _ 0 8 len h8]
  apply loadLE_shift
  intro j hj
  rw [Nat.zero_add, load_mem_low key b m j hm (by omega) (by omega), Nat.mod_mod]

/-- Schedule position 0 holds the first bytes of the key after any number of
passes of the expansion loop. -/
theorem expand_subkey0 (step : Nat → Keys → Keys) (b n m : Nat) (key ks : Buf)
    (len : Nat) (hm : 0 < m) (hlen : len ≤ b) (h8 : len ≤ 8) :
    loadLE (expand_loop step b n (load_keys key ks b m)).key_schedule 0 len
      = loadLE key 0 len := by
  have h := expand_word step b n m key ks 0 len (Nat.zero_le n) hlen h8
  rw [Nat.mul_zero] at h
  rw [h]
  exact load_keys_keys0_mod key ks b m len hm h8 hlen

/-- What the loading loop of `speck256_128.c` leaves in `keys`: with `bytes = 12`
the four copies read the key at offsets 0, 12, 24 and 36. -/
theorem load_keys_stride12 (key ks : Buf) :
    (load_keys key ks 12 4).keys
      = { keys0 := loadLE key 0 8, keys1 := loadLE key 12 8,
          keys2 := loadLE key 24 8, keys3 := loadLE key 36 8 } := by
  simp [load_keys, forUp, memcpy, loadLE]

/-! ## Claims on the constants, the key loading and the layout of the schedule -/

/-- Bytes at or beyond `b * (n + 1)` of the schedule buffer are left as they were
by an expansion of `n` passes. -/
theorem expand_beyond (step : Nat → Keys → Keys) (b n m : Nat) (key ks : Buf) (j : Nat)
    (hj : b * (n + 1) ≤ j) :
    (expand_loop step b n (load_keys key ks b m)).key_schedule j = ks j := by
  rw [expand_loop_outside step b n _ j hj]
  exact load_keys_outside key ks b m j
    (Nat.le_trans (Nat.le_mul_of_pos_right b (Nat.succ_pos n)) hj)

set_option maxRecDepth 1000000 in
/-- Claim C11 (fails on the code). The expansions of `speck96_96.c`,
`speck128_64.c`, `speck256_128.c`, `simon64_32.c` and `simon128_128.c` run
their loop while `i < rounds` and so write schedule position `rounds` as well,
`rounds + 1` subkeys in all: whatever the buffer held, position `rounds` ends
up holding `keys[0]` as it is after `rounds` passes. For the key of
`speck128_64.c` and a zeroed buffer that word is `0xc2c2cd9a`, not the zero
that was there. The other eight expansions, whose loop runs while
`i < rounds - 1`, leave every byte at or beyond position `rounds` as it was. -/
theorem expand_writes_position_rounds :
    (∀ key ks : Buf, loadLE (speck96_96.expand_speck key ks) (speck96_96.bytes * speck96_96.rounds) 6
        = (forUp speck96_96.expand_step speck96_96.rounds (load_keys key ks speck96_96.bytes speck96_96.key_size).keys).keys0 % 256 ^ 6)
    ∧ (∀ key ks : Buf, loadLE (speck128_64.expand_speck_128_64 key ks) (speck128_64.bytes * speck128_64.rounds) 4
        = (forUp speck128_64.expand_step speck128_64.rounds (load_keys key ks speck128_64.bytes speck128_64.key_size).keys).keys0 % 256 ^ 4)
    ∧ (∀ key ks : Buf, loadLE (speck256_128.expand_speck key ks) (speck256_128.bytes * speck256_128.rounds) 8
        = (forUp speck256_128.expand_step speck256_128.rounds (load_keys key ks speck256_128.bytes speck256_128.key_size).keys).keys0 % 256 ^ 8)
    ∧ (∀ key ks : Buf, loadLE (simon64_32.expand_simon_64_32 key ks) (simon64_32.bytes * simon64_32.rounds) 2
        = (forUp simon64_32.expand_step simon64_32.rounds (load_keys key ks simon64_32.bytes simon64_32.key_size).keys).keys0 % 256 ^ 2)
    ∧ (∀ key ks : Buf, loadLE (simon128_128.expand_simon_128_128 key ks) (simon128_128.bytes * simon128_128.rounds) 8
        = (forUp simon128_128.expand_step simon128_128.rounds (load_keys key ks simon128_128.bytes simon128_128.key_size).keys).keys0 % 256 ^ 8)
    ∧ loadLE (speck128_64.expand_speck_128_64 speck128_64.main_encryption_key zeroBuf)
        (speck128_64.bytes * speck128_64.rounds) 4 = 0xc2c2cd9a
    ∧ loadLE zeroBuf (speck128_64.bytes * speck128_64.rounds) 4 = 0
    ∧ (∀ (key ks : Buf) (j : Nat), speck64_32.expand_speck_64_32 key ks (speck64_32.bytes * speck64_32.rounds + j) = ks (speck64_32.bytes * speck64_32.rounds + j))
    ∧ (∀ (key ks : Buf) (j : Nat), speck72_48.expand_speck key ks (speck72_48.bytes * speck72_48.rounds + j) = ks (speck72_48.bytes * speck72_48.rounds + j))
    ∧ (∀ (key ks : Buf) (j : Nat), speck96_48.expand_speck key ks (speck96_48.bytes * speck96_48.rounds + j) = ks (speck96_48.bytes * speck96_48.rounds + j))
    ∧ (∀ (key ks : Buf) (j : Nat), speck128_128.expand_speck key ks (speck128_128.bytes * speck128_128.rounds + j) = ks (speck128_128.bytes * speck128_128.rounds + j))
    ∧ (∀ (key ks : Buf) (j : Nat), simon72_48.expand_simon_72_48 key ks (simon72_48.bytes * simon72_48.rounds + j) = ks (simon72_48.bytes * simon72_48.rounds + j))
    ∧ (∀ (key ks : Buf) (j : Nat), simon128_64.expand_simon_128_64 key ks (simon128_64.bytes * simon128_64.rounds + j) = ks (simon128_64.bytes * simon128_64.rounds + j))
    ∧ (∀ (key ks : Buf) (j : Nat), simon144_96.expand_simon_144_96 key ks (simon144_96.bytes * simon144_96.rounds + j) = ks (simon144_96.bytes * simon144_96.rounds + j))
    ∧ (∀ (key ks : Buf) (j : Nat), simon192_128.expand_simon_192_128 key ks (simon192_128.bytes * simon192_128.rounds + j) = ks (simon192_128.bytes * simon192_128.rounds + j)) :=
  ⟨fun key ks => expand_word speck96_96.expand_step speck96_96.bytes speck96_96.rounds speck96_96.key_size key ks
      speck96_96.rounds 6 (Nat.le_refl _) (by decide) (by decide),
    fun key ks => expand_word speck128_64.expand_step speck128_64.bytes speck128_64.rounds speck128_64.key_size key ks
      speck128_64.rounds 4 (Nat.le_refl _) (by decide) (by decide),
    fun key ks => expand_word speck256_128.expand_step speck256_128.bytes speck256_128.rounds speck256_128.key_size key ks
      speck256_128.rounds 8 (Nat.le_refl _) (by decide) (by decide),
    fun key ks => expand_word simon64_32.expand_step simon64_32.bytes simon64_32.rounds simon64_32.key_size key ks
      simon64_32.rounds 2 (Nat.le_refl _) (by decide) (by decide),
    fun key ks => expand_word simon128_128.expand_step simon128_128.bytes simon128_128.rounds simon128_128.key_size key ks
      simon128_128.rounds 8 (Nat.le_refl _) (by decide) (by decide),
    by decide,
    by decide,
    fun key ks j => expand_beyond speck64_32.expand_step speck64_32.bytes (speck64_32.rounds - 1) speck64_32.key_size key ks _
      (by simp only [speck64_32.bytes, speck64_32.rounds]; omega),
    fun key ks j => expand_beyond speck72_48.expand_step speck72_48.bytes (speck72_48.rounds - 1) speck72_48.key_size key ks _
      (by simp only [speck72_48.bytes, speck72_48.rounds]; omega),
    fun key ks j => expand_beyond speck96_48.expand_step speck96_48.bytes (speck96_48.rounds - 1) speck96_48.key_size key ks _
      (by simp only [speck96_48.bytes, speck96_48.rounds]; omega),
    fun key ks j => expand_beyond speck128_128.expand_step speck128_128.bytes (speck128_128.rounds - 1) speck128_128.key_size key ks _
      (by simp only [speck128_128.bytes, speck128_128.rounds]; omega),
    fun key ks j => expand_beyond simon72_48.expand_step simon72_48.bytes (simon72_48.rounds - 1) simon72_48.key_size key ks _
      (by simp only [simon72_48.bytes, simon72_48.rounds]; omega),
    fun key ks j => expand_beyond simon128_64.expand_step simon128_64.bytes (simon128_64.rounds - 1) simon128_64.key_size key ks _
      (by simp only [simon128_64.bytes, simon128_64.rounds]; omega),
    fun key ks j => expand_beyond simon144_96.expand_step simon144_96.bytes (simon144_96.rounds - 1) simon144_96.key_size key ks _
      (by simp only [simon144_96.bytes, simon144_96.rounds]; omega),
    fun key ks j => expand_beyond simon192_128.expand_step simon192_128.bytes (simon192_128.rounds - 1) simon192_128.key_size key ks _
      (by simp only [simon192_128.bytes, simon192_128.rounds]; omega)⟩

/-- Claim C12. In each of the thirteen files, for every key and every previous
content of the schedule buffer, the word of `word_size / 8` bytes at schedule
position 0 is the little-endian value of the first `word_size / 8` bytes of
the key: after any number `n` of passes of the expansion loop (so no pass
alters it), and in particular after the file's expansion function. -/
theorem subkey0_is_master_word0 (key ks : Buf) (n : Nat) :
    (loadLE (expand_loop speck64_32.expand_step speck64_32.bytes n (load_keys key ks speck64_32.bytes speck64_32.key_size)).key_schedule 0 (speck64_32.word_size / 8)
        = loadLE key 0 (speck64_32.word_size / 8)
      ∧ loadLE (speck64_32.expand_speck_64_32 key ks) 0 (speck64_32.word_size / 8) = loadLE key 0 (speck64_32.word_size / 8))
    ∧ (loadLE (expand_loop speck72_48.expand_step speck72_48.bytes n (load_keys key ks speck72_48.bytes speck72_48.key_size)).key_schedule 0 (speck72_48.word_size / 8)
        = loadLE key 0 (speck72_48.word_size / 8)
      ∧ loadLE (speck72_48.expand_speck key ks) 0 (speck72_48.word_size / 8) = loadLE key 0 (speck72_48.word_size / 8))
    ∧ (loadLE (expand_loop speck96_48.expand_step speck96_48.bytes n (load_keys key ks speck96_48.bytes speck96_48.key_size)).key_schedule 0 (speck96_48.word_size / 8)
        = loadLE key 0 (speck96_48.word_size / 8)
      ∧ loadLE (speck96_48.expand_speck key ks) 0 (speck96_48.word_size / 8) = loadLE key 0 (speck96_48.word_size / 8))
    ∧ (loadLE (expand_loop speck96_96.expand_step speck96_96.bytes n (load_keys key ks speck96_96.bytes speck96_96.key_size)).key_schedule 0 (speck96_96.word_size / 8)
        = loadLE key 0 (speck96_96.word_size / 8)
      ∧ loadLE (speck96_96.expand_speck key ks) 0 (speck96_96.word_size / 8) = loadLE key 0 (speck96_96.word_size / 8))
    ∧ (loadLE (expand_loop speck128_64.expand_step speck128_64.bytes n (load_keys key ks speck128_64.bytes speck128_64.key_size)).key_schedule 0 (speck128_64.word_size / 8)
        = loadLE key 0 (speck128_64.word_size / 8)
      ∧ loadLE (speck128_64.expand_speck_128_64 key ks) 0 (speck128_64.word_size / 8) = loadLE key 0 (speck128_64.word_size / 8))
    ∧ (loadLE (expand_loop speck128_128.expand_step speck128_128.bytes n (load_keys key ks speck128_128.bytes speck128_128.key_size)).key_schedule 0 (speck128_128.word_size / 8)
        = loadLE key 0 (speck128_128.word_size / 8)
      ∧ loadLE (speck128_128.expand_speck key ks) 0 (speck128_128.word_size / 8) = loadLE key 0 (speck128_128.word_size / 8))
    ∧ (loadLE (expand_loop speck256_128.expand_step speck256_128.bytes n (load_keys key ks speck256_128.bytes speck256_128.key_size)).key_schedule 0 (speck256_128.word_size / 8)
        = loadLE key 0 (speck256_128.word_size / 8)
      ∧ loadLE (speck256_128.expand_speck key ks) 0 (speck256_128.word_size / 8) = loadLE key 0 (speck256_128.word_size / 8))
    ∧ (loadLE (expand_loop simon64_32.expand_step simon64_32.bytes n (load_keys key ks simon64_32.bytes simon64_32.key_size)).key_schedule 0 (simon64_32.word_size / 8)
        = loadLE key 0 (simon64_32.word_size / 8)
      ∧ loadLE (simon64_32.expand_simon_64_32 key ks) 0 (simon64_32.word_size / 8) = loadLE key 0 (simon64_32.word_size / 8))
    ∧ (loadLE (expand_loop simon72_48.expand_step simon72_48.bytes n (load_keys key ks simon72_48.bytes simon72_48.key_size)).key_schedule 0 (simon72_48.word_size / 8)
        = loadLE key 0 (simon72_48.word_size / 8)
      ∧ loadLE (simon72_48.expand_simon_72_48 key ks) 0 (simon72_48.word_size / 8) = loadLE key 0 (simon72_48.word_size / 8))
    ∧ (loadLE (expand_loop simon128_64.expand_step simon128_64.bytes n (load_keys key ks simon128_64.bytes simon128_64.key_size)).key_schedule 0 (simon128_64.word_size / 8)
        = loadLE key 0 (simon128_64.word_size / 8)
      ∧ loadLE (simon128_64.expand_simon_128_64 key ks) 0 (simon128_64.word_size / 8) = loadLE key 0 (simon128_64.word_size / 8))
    ∧ (loadLE (expand_loop simon144_96.expand_step simon144_96.bytes n (load_keys key ks simon144_96.bytes simon144_96.key_size)).key_schedule 0 (simon144_96.word_size / 8)
        = loadLE key 0 (simon144_96.word_size / 8)
      ∧ loadLE (simon144_96.expand_simon_144_96 key ks) 0 (simon144_96.word_size / 8) = loadLE key 0 (simon144_96.word_size / 8))
    ∧ (loadLE (expand_loop simon128_128.expand_step simon128_128.bytes n (load_keys key ks simon128_128.bytes simon128_128.key_size)).key_schedule 0 (simon128_128.word_size / 8)
        = loadLE key 0 (simon128_128.word_size / 8)
      ∧ loadLE (simon128_128.expand_simon_128_128 key ks) 0 (simon128_128.word_size / 8) = loadLE key 0 (simon128_128.word_size / 8))
    ∧ (loadLE (expand_loop simon192_128.expand_step simon192_128.bytes n (load_keys key ks simon192_128.bytes simon192_128.key_size)).key_schedule 0 (simon192_128.word_size / 8)
        = loadLE key 0 (simon192_128.word_size / 8)
      ∧ loadLE (simon192_128.expand_simon_192_128 key ks) 0 (simon192_128.word_size / 8) = loadLE key 0 (simon192_128.word_size / 8)) :=
  ⟨⟨expand_subkey0 speck64_32.expand_step speck64_32.bytes n speck64_32.key_size key ks (speck64_32.word_size / 8)
        (by decide) (by decide) (by decide),
      expand_subkey0 speck64_32.expand_step speck64_32.bytes (speck64_32.rounds - 1) speck64_32.key_size key ks (speck64_32.word_size / 8)
        (by decide) (by decide) (by decide)⟩,
    ⟨expand_subkey0 speck72_48.expand_step speck72_48.bytes n speck72_48.key_size key ks (speck72_48.word_size / 8)
        (by decide) (by decide) (by decide),
      expand_subkey0 speck72_48.expand_step speck72_48.bytes (speck72_48.rounds - 1) speck72_48.key_size key ks (speck72_48.word_size / 8)
        (by decide) (by decide) (by decide)⟩,
    ⟨expand_subkey0 speck96_48.expand_step speck96_48.bytes n speck96_48.key_size key ks (speck96_48.word_size / 8)
        (by decide) (by decide) (by decide),
      expand_subkey0 speck96_48.expand_step speck96_48.bytes (speck96_48.rounds - 1) speck96_48.key_size key ks (speck96_48.word_size / 8)
        (by decide) (by decide) (by decide)⟩,
    ⟨expand_subkey0 speck96_96.expand_step speck96_96.bytes n speck96_96.key_size key ks (speck96_96.word_size / 8)
        (by decide) (by decide) (by decide),
      expand_subkey0 speck96_96.expand_step speck96_96.bytes (speck96_96.rounds) speck96_96.key_size key ks (speck96_96.word_size / 8)
        (by decide) (by decide) (by decide)⟩,
    ⟨expand_subkey0 speck128_64.expand_step speck128_64.bytes n speck128_64.key_size key ks (speck128_64.word_size / 8)
        (by decide) (by decide) (by decide),
      expand_subkey0 speck128_64.expand_step speck128_64.bytes (speck128_64.rounds) speck128_64.key_size key ks (speck128_64.word_size / 8)
        (by decide) (by decide) (by decide)⟩,
    ⟨expand_subkey0 speck128_128.expand_step speck128_128.bytes n speck128_128.key_size key ks (speck128_128.word_size / 8)
        (by decide) (by decide) (by decide),
      expand_subkey0 speck128_128.expand_step speck128_128.bytes (speck128_128.rounds - 1) speck128_128.key_size key ks (speck128_128.word_size / 8)
        (by decide) (by decide) (by decide)⟩,
    ⟨expand_subkey0 speck256_128.expand_step speck256_128.bytes n speck256_128.key_size key ks (speck256_128.word_size / 8)
        (by decide) (by decide) (by decide),
      expand_subkey0 speck256_128.expand_step speck256_128.bytes (speck256_128.rounds) speck256_128.key_size key ks (speck256_128.word_size / 8)
        (by decide) (by decide) (by decide)⟩,
    ⟨expand_subkey0 simon64_32.expand_step simon64_32.bytes n simon64_32.key_size key ks (simon64_32.word_size / 8)
        (by decide) (by decide) (by decide),
      expand_subkey0 simon64_32.expand_step simon64_32.bytes (simon64_32.rounds) simon64_32.key_size key ks (simon64_32.word_size / 8)
        (by decide) (by decide) (by decide)⟩,
    ⟨expand_subkey0 simon72_48.expand_step simon72_48.bytes n simon72_48.key_size key ks (simon72_48.word_size / 8)
        (by decide) (by decide) (by decide),
      expand_subkey0 simon72_48.expand_step simon72_48.bytes (simon72_48.rounds - 1) simon72_48.key_size key ks (simon72_48.word_size / 8)
        (by decide) (by decide) (by decide)⟩,
    ⟨expand_subkey0 simon128_64.expand_step simon128_64.bytes n simon128_64.key_size key ks (simon128_64.word_size / 8)
        (by decide) (by decide) (by decide),
      expand_subkey0 simon128_64.expand_step simon128_64.bytes (simon128_64.rounds - 1) simon128_64.key_size key ks (simon128_64.word_size / 8)
        (by decide) (by decide) (by decide)⟩,
    ⟨expand_subkey0 simon144_96.expand_step simon144_96.bytes n simon144_96.key_size key ks (simon144_96.word_size / 8)
        (by decide) (by decide) (by decide),
      expand_subkey0 simon144_96.expand_step simon144_96.bytes (simon144_96.rounds - 1) simon144_96.key_size key ks (simon144_96.word_size / 8)
        (by decide) (by decide) (by decide)⟩,
    ⟨expand_subkey0 simon128_128.expand_step simon128_128.bytes n simon128_128.key_size key ks (simon128_128.word_size / 8)
        (by decide) (by decide) (by decide),
      expand_subkey0 simon128_128.expand_step simon128_128.bytes (simon128_128.rounds) simon128_128.key_size key ks (simon128_128.word_size / 8)
        (by decide) (by decide) (by decide)⟩,
    ⟨expand_subkey0 simon192_128.expand_step simon192_128.bytes n simon192_128.key_size key ks (simon192_128.word_size / 8)
        (by decide) (by decide) (by decide),
      expand_subkey0 simon192_128.expand_step simon192_128.bytes (simon192_128.rounds - 1) simon192_128.key_size key ks (simon192_128.word_size / 8)
        (by decide) (by decide) (by decide)⟩⟩

/-- Claim C17 (fails on the code). The loading loop of `speck256_128.c` copies
`bytes = 12` bytes per element: `keys[1]`, `keys[2]` and `keys[3]` are read
from key offsets 12, 24 and 36 instead of 8, 16 and 24. Key bytes 8 to 11 and
20 to 23 reach no word, and `keys[3]` comes from bytes 36 to 43, beyond the 32
bytes of the key. For the key of the file, `keys[1]` is `0x131211100f0e0d0c`
where master word 1 is `0x0f0e0d0c0b0a0908`. -/
theorem speck256_128_key_words (key ks : Buf) :
    (load_keys key ks speck256_128.bytes speck256_128.key_size).keys
        = { keys0 := loadLE key 0 8, keys1 := loadLE key 12 8,
            keys2 := loadLE key 24 8, keys3 := loadLE key 36 8 }
    ∧ (load_keys speck256_128.main_encryption_key ks speck256_128.bytes
          speck256_128.key_size).keys.get 1 = 0x131211100f0e0d0c
    ∧ loadLE speck256_128.main_encryption_key (1 * (speck256_128.word_size / 8))
          (speck256_128.word_size / 8) = 0x0f0e0d0c0b0a0908 := by
  refine ⟨load_keys_stride12 key ks, ?_, by decide⟩
  show (load_keys speck256_128.main_encryption_key zeroBuf 12 4).keys.get 1 = _
  decide

/-- Claim C18 (fails on the code). The constant `bytes` of `speck256_128.c` is 12
while its `word_size` is 64, whose byte count is 8. In the other twelve files
`bytes` is the byte count of `word_size`, rounded up. -/
theorem bytes_constant_speck_256_128 :
    speck256_128.bytes = 12
    ∧ (speck256_128.word_size + 7) / 8 = 8
    ∧ speck256_128.bytes ≠ (speck256_128.word_size + 7) / 8
    ∧ speck64_32.bytes = (speck64_32.word_size + 7) / 8
    ∧ speck72_48.bytes = (speck72_48.word_size + 7) / 8
    ∧ speck96_48.bytes = (speck96_48.word_size + 7) / 8
    ∧ speck96_96.bytes = (speck96_96.word_size + 7) / 8
    ∧ speck128_64.bytes = (speck128_64.word_size + 7) / 8
    ∧ speck128_128.bytes = (speck128_128.word_size + 7) / 8
    ∧ simon64_32.bytes = (simon64_32.word_size + 7) / 8
    ∧ simon72_48.bytes = (simon72_48.word_size + 7) / 8
    ∧ simon128_64.bytes = (simon128_64.word_size + 7) / 8
    ∧ simon144_96.bytes = (simon144_96.word_size + 7) / 8
    ∧ simon128_128.bytes = (simon128_128.word_size + 7) / 8
    ∧ simon192_128.bytes = (simon192_128.word_size + 7) / 8 := by
  decide

/-- Claim C19 (fails on the code). The constant `rounds` of `speck72_48-2.c` is
3, below 22, and `encrypt_speck_72_48` applies that many rounds of the cipher,
three. In the other twelve files `rounds` lies between 22 and 69. -/
theorem rounds_constant_speck_72_48 (ks pt ct : Buf) (u : Locals) :
    speck72_48.rounds = 3
    ∧ ¬ (22 ≤ speck72_48.rounds ∧ speck72_48.rounds ≤ 69)
    ∧ speck72_48.encrypt_speck_72_48 ks pt ct u =
        storeLE (storeLE ct 0 3
          (speckEncrypt 24 8 3 (fun i => loadLE ks (3 * i) 3) speck72_48.rounds
            (loadLE pt 3 3, loadLE pt 0 3)).2) 3 3
          (speckEncrypt 24 8 3 (fun i => loadLE ks (3 * i) 3) speck72_48.rounds
            (loadLE pt 3 3, loadLE pt 0 3)).1
    ∧ (22 ≤ speck64_32.rounds ∧ speck64_32.rounds ≤ 69)
    ∧ (22 ≤ speck96_48.rounds ∧ speck96_48.rounds ≤ 69)
    ∧ (22 ≤ speck96_96.rounds ∧ speck96_96.rounds ≤ 69)
    ∧ (22 ≤ speck128_64.rounds ∧ speck128_64.rounds ≤ 69)
    ∧ (22 ≤ speck128_128.rounds ∧ speck128_128.rounds ≤ 69)
    ∧ (22 ≤ speck256_128.rounds ∧ speck256_128.rounds ≤ 69)
    ∧ (22 ≤ simon64_32.rounds ∧ simon64_32.rounds ≤ 69)
    ∧ (22 ≤ simon72_48.rounds ∧ simon72_48.rounds ≤ 69)
    ∧ (22 ≤ simon128_64.rounds ∧ simon128_64.rounds ≤ 69)
    ∧ (22 ≤ simon144_96.rounds ∧ simon144_96.rounds ≤ 69)
    ∧ (22 ≤ simon128_128.rounds ∧ simon128_128.rounds ≤ 69)
    ∧ (22 ≤ simon192_128.rounds ∧ simon192_128.rounds ≤ 69) :=
  ⟨rfl, by decide, speck72_48_encrypt_eq ks pt ct u, by decide, by decide, by decide, by decide, by decide, by decide, by decide, by decide, by decide, by decide, by decide, by decide⟩

set_option maxRecDepth 1000000 in
/-- The word that `encrypt_speck_256_128` reads for round 1 and the word that
`expand_speck` stored as subkey 1, for the key of the file and a zeroed
schedule buffer. -/
theorem speck256_128_round1_words :
    loadLE (speck256_128.expand_speck speck256_128.main_encryption_key zeroBuf) (8 * 1) 8
        = 0x0b01070d0f0e0d0c
    ∧ loadLE (speck256_128.expand_speck speck256_128.main_encryption_key zeroBuf)
        (speck256_128.bytes * 1) 8 = 0x2b293f350b01070d := by
  decide

/-- Claim C20 (fails on the code). In `speck256_128.c` the expansion stores
subkey `i` at byte offset `12 * i` of the schedule, while
`encrypt_speck_256_128` reads its round key `i` at byte offset `8 * i`. For
the key of the file, whatever the buffer held, the word read for round 1 is
`0x0b01070d0f0e0d0c` (four bytes of the key followed by the low half of
subkey 1) where the subkey stored for round 1 is `0x2b293f350b01070d`. -/
theorem speck256_128_schedule_stride (key ks pt ct : Buf) :
    (∀ i : Fin (speck256_128.rounds + 1),
        loadLE (speck256_128.expand_speck key ks) (speck256_128.bytes * i.val) 8
          = (forUp speck256_128.expand_step i.val
              (load_keys key ks speck256_128.bytes speck256_128.key_size).keys).keys0 % 256 ^ 8)
    ∧ speck256_128.encrypt_speck_256_128 ks pt ct =
        storeLE (storeLE ct 0 8
          (speckEncrypt 64 8 3 (fun i => loadLE ks (8 * i) 8) speck256_128.rounds
            (loadLE pt 8 8, loadLE pt 0 8)).2) 8 8
          (speckEncrypt 64 8 3 (fun i => loadLE ks (8 * i) 8) speck256_128.rounds
            (loadLE pt 8 8, loadLE pt 0 8)).1
    ∧ loadLE (speck256_128.expand_speck speck256_128.main_encryption_key ks) (8 * 1) 8
        = 0x0b01070d0f0e0d0c
    ∧ loadLE (speck256_128.expand_speck speck256_128.main_encryption_key ks)
        (speck256_128.bytes * 1) 8 = 0x2b293f350b01070d := by
  refine ⟨fun i => expand_word speck256_128.expand_step speck256_128.bytes speck256_128.rounds
      speck256_128.key_size key ks i.val 8 (Nat.le_of_lt_succ i.isLt) (by decide) (by decide),
    speck256_128_encrypt_eq ks pt ct, ?_, ?_⟩
  · rw [← speck256_128_round1_words.1]
    exact expand_load_frame speck256_128.expand_step speck256_128.bytes speck256_128.rounds
      speck256_128.key_size speck256_128.main_encryption_key ks zeroBuf (8 * 1) 8 (by decide)
  · rw [← speck256_128_round1_words.2]
    exact expand_load_frame speck256_128.expand_step speck256_128.bytes speck256_128.rounds
      speck256_128.key_size speck256_128.main_encryption_key ks zeroBuf (speck256_128.bytes * 1) 8
      (by decide)

/-! ## The Speck key schedule -/

/-- The word `k_n` of the schedule of the specification is below `2 ^ w`. -/
theorem speckSchedule_lt (w a b m : Nat) (K : Nat → Nat) (n : Nat)
    (hK : K 0 < 2 ^ w) (hn : n ≤ 2 ^ w) : (speckSchedule w a b m K n).1 < 2 ^ w := by
  cases n with
  | zero => exact hK
  | succ c =>
    unfold speckSchedule
    rw [forUp_succ]
    exact Nat.xor_lt_two_pow (rotl_lt w _ b)
      (Nat.xor_lt_two_pow (Nat.mod_lt _ (Nat.two_pow_pos w)) (by omega))

/-- A loop body that computes `L = ((rotr(keys[1]) + keys[0]) mod 2^w xor i) mod 2^w`,
puts `rotl(keys[0]) xor L` in `keys[0]`, moves `keys[2 .. m-1]` one place down and
puts `L` in `keys[m-1]` keeps `keys` equal to the window
`k_n, l_n, ..., l_(n+m-2)` of the schedule of the specification. -/
theorem speck_window (w a b m : Nat) (step : Nat → Keys → Keys) (K : Nat → Nat) (keys : Keys)
    (hm : 2 ≤ m)
    (hstep : ∀ i keys,
      (step i keys).get 0
          = rotl w (keys.get 0) b
              ^^^ ((((rotr w (keys.get 1) a + keys.get 0) % 2 ^ w) ^^^ i) % 2 ^ w)
      ∧ (∀ j, j + 2 < m → (step i keys).get (j + 1) = keys.get (j + 2))
      ∧ (step i keys).get (m - 1)
          = (((rotr w (keys.get 1) a + keys.get 0) % 2 ^ w) ^^^ i) % 2 ^ w)
    (h0 : ∀ j, j < m → keys.get j = K j) (n : Nat) (hn : n ≤ 2 ^ w) :
    (forUp step n keys).get 0 = (speckSchedule w a b m K n).1
      ∧ ∀ j, j + 1 < m → (forUp step n keys).get (j + 1) = (speckSchedule w a b m K n).2 (n + j) := by
  induction n with
  | zero =>
    refine ⟨h0 0 (by omega), ?_⟩
    intro j hj
    have hj2 : j < m - 1 := by omega
    simp only [speckSchedule, forUp, Nat.zero_add, if_pos hj2]
    exact h0 (j + 1) hj
  | succ c ih =>
    obtain ⟨ih0, ih1⟩ := ih (by omega)
    have hc : c < 2 ^ w := by omega
    have h1 := ih1 0 (by omega)
    rw [Nat.zero_add, Nat.add_zero] at h1
    obtain ⟨s0, s1, s2⟩ := hstep c (forUp step c keys)
    have hL : (((rotr w ((forUp step c keys).get 1) a + (forUp step c keys).get 0) % 2 ^ w) ^^^ c)
          % 2 ^ w
        = (((speckSchedule w a b m K c).1 + rotr w ((speckSchedule w a b m K c).2 c) a) % 2 ^ w)
          ^^^ c := by
      rw [ih0, h1, Nat.add_comm]
      exact Nat.mod_eq_of_lt (Nat.xor_lt_two_pow (Nat.mod_lt _ (Nat.two_pow_pos w)) hc)
    rw [hL] at s0 s2
    have e1 : forUp step (c + 1) keys = step c (forUp step c keys) := rfl
    have e2 : speckSchedule w a b m K (c + 1)
        = speckScheduleStep w a b m c (speckSchedule w a b m K c) := rfl
    rw [e1, e2]
    refine ⟨?_, ?_⟩
    · rw [s0, ih0]
      rfl
    · intro j hj
      by_cases hlast : j + 2 < m
      · rw [s1 j hlast]
        have hne : ¬ (c + 1 + j = c + m - 1) := by omega
        simp only [speckScheduleStep, if_neg hne]
        rw [ih1 (j + 1) (by omega), show c + 1 + j = c + (j + 1) by omega]
      · have hj1 : j + 1 = m - 1 := by omega
        have he : c + 1 + j = c + m - 1 := by omega
        rw [hj1, s2]
        simp only [speckScheduleStep, if_pos he]

/-- The word stored at schedule position `i` is the word `k_i` of the schedule
of the specification, for an expansion whose loop body is as in `speck_window`. -/
theorem speck_expand_schedule (w a b m bs : Nat) (step : Nat → Keys → Keys) (n : Nat)
    (key ks : Buf) (hm : 2 ≤ m) (hm4 : m ≤ 4) (hbs : bs ≤ 8) (hw : w = 8 * bs)
    (hstep : ∀ i keys,
      (step i keys).get 0
          = rotl w (keys.get 0) b
              ^^^ ((((rotr w (keys.get 1) a + keys.get 0) % 2 ^ w) ^^^ i) % 2 ^ w)
      ∧ (∀ j, j + 2 < m → (step i keys).get (j + 1) = keys.get (j + 2))
      ∧ (step i keys).get (m - 1)
          = (((rotr w (keys.get 1) a + keys.get 0) % 2 ^ w) ^^^ i) % 2 ^ w)
    (i : Nat) (hi : i ≤ n) (hi2 : i ≤ 2 ^ w) :
    loadLE (expand_loop step bs n (load_keys key ks bs m)).key_schedule (bs * i) bs
      = (speckSchedule w a b m (fun j => loadLE key (bs * j) bs) i).1 := by
  have h256 : 256 ^ bs = 2 ^ w := by
    rw [hw, show (256 : Nat) = 2 ^ 8 from rfl, ← Nat.pow_mul]
  have h0 : ∀ j, j < m → (load_keys key ks bs m).keys.get j
      = (fun j => loadLE key (bs * j) bs) j := by
    intro j hj
    rw [load_keys_get key ks bs m j hbs (by omega), if_pos hj]
  have hK0 : (fun j => loadLE key (bs * j) bs) 0 < 2 ^ w := by
    rw [← h256]
    exact loadLE_lt key (bs * 0) bs
  rw [expand_word step bs n m key ks i bs hi (Nat.le_refl bs) hbs, h256]
  have hwin := (speck_window w a b m step _ _ hm hstep h0 i hi2).1
  have hget : (forUp step i (load_keys key ks bs m).keys).keys0
      = (forUp step i (load_keys key ks bs m).keys).get 0 := rfl
  rw [hget, hwin]
  exact Nat.mod_eq_of_lt (speckSchedule_lt w a b m _ i hK0 hi2)

/-! ## The loop bodies of the Speck expansions -/

/-- The loop body of `expand_speck_64_32` on words: `keys[1]` and `keys[2]` are left as they are. -/
theorem speck64_32_step_keys (i : Nat) (keys : Keys) :
    speck64_32.expand_step i keys
      = { keys0 := rotl 16 keys.keys0 2 ^^^ (((rotr 16 keys.keys1 7 + keys.keys0) % 2 ^ 16) ^^^ i), keys1 := keys.keys1,
          keys2 := keys.keys2, keys3 := ((rotr 16 keys.keys1 7 + keys.keys0) % 2 ^ 16) ^^^ i } := by
  simp only [speck64_32.expand_step, speck64_32.rotate_right, speck64_32.rotate_left,
    speck64_32.word_size, speck64_32.key_size, speck64_32.rotation_alpha, speck64_32.rotation_beta,
    and_mask _ 16 (by decide), c_rotr 64 16 _ _ (by decide), c_rotl 64 16 _ _ (by decide),
    add_mod_two_pow 64 16 _ _ (by decide), forUp, Keys.get, Keys.set]

/-- The loop body of the expansion of `speck72_48` on words. -/
theorem speck72_48_step_keys (i : Nat) (keys : Keys) :
    speck72_48.expand_step i keys
      = { keys0 := rotl 24 keys.keys0 3 ^^^ ((((rotr 24 keys.keys1 8 + keys.keys0) % 2 ^ 24) ^^^ i) % 2 ^ 24),
          keys1 := keys.keys2, keys2 := (((rotr 24 keys.keys1 8 + keys.keys0) % 2 ^ 24) ^^^ i) % 2 ^ 24, keys3 := keys.keys3 } := by
  simp only [speck72_48.expand_step, speck72_48.rotate_right, speck72_48.rotate_left,
    speck72_48.word_size, speck72_48.key_size, speck72_48.rotation_alpha, speck72_48.rotation_beta,
    speck72_48.mod_mask, and_mask24, c_rotr 64 24 _ _ (by decide), c_rotl 64 24 _ _ (by decide),
    add_mod_two_pow 64 24 _ _ (by decide), forUp, Keys.get, Keys.set]

/-- The loop body of the expansion of `speck96_48` on words. -/
theorem speck96_48_step_keys (i : Nat) (keys : Keys) :
    speck96_48.expand_step i keys
      = { keys0 := rotl 24 keys.keys0 3 ^^^ ((((rotr 24 keys.keys1 8 + keys.keys0) % 2 ^ 24) ^^^ i) % 2 ^ 24),
          keys1 := keys.keys2, keys2 := keys.keys3, keys3 := (((rotr 24 keys.keys1 8 + keys.keys0) % 2 ^ 24) ^^^ i) % 2 ^ 24 } := by
  simp only [speck96_48.expand_step, speck96_48.rotate_right, speck96_48.rotate_left,
    speck96_48.word_size, speck96_48.key_size, speck96_48.rotation_alpha, speck96_48.rotation_beta,
    speck96_48.mod_mask, and_mask24, c_rotr 64 24 _ _ (by decide), c_rotl 64 24 _ _ (by decide),
    add_mod_two_pow 64 24 _ _ (by decide), forUp, Keys.get, Keys.set]

/-- The loop body of the expansion of `speck96_96` on words. -/
theorem speck96_96_step_keys (i : Nat) (keys : Keys) :
    speck96_96.expand_step i keys
      = { keys0 := rotl 48 keys.keys0 3 ^^^ ((((rotr 48 keys.keys1 8 + keys.keys0) % 2 ^ 48) ^^^ i) % 2 ^ 48),
          keys1 := (((rotr 48 keys.keys1 8 + keys.keys0) % 2 ^ 48) ^^^ i) % 2 ^ 48, keys2 := keys.keys2, keys3 := keys.keys3 } := by
  simp only [speck96_96.expand_step, speck96_96.rotate_right, speck96_96.rotate_left,
    speck96_96.word_size, speck96_96.key_size, speck96_96.rotation_alpha, speck96_96.rotation_beta,
    speck96_96.mod_mask, and_mask48, c_rotr 64 48 _ _ (by decide), c_rotl 64 48 _ _ (by decide),
    add_mod_two_pow 64 48 _ _ (by decide), forUp, Keys.get, Keys.set]

/-- The loop body of the expansion of `speck128_64` on words. -/
theorem speck128_64_step_keys (i : Nat) (keys : Keys) :
    speck128_64.expand_step i keys
      = { keys0 := rotl 32 keys.keys0 3 ^^^ ((((rotr 32 keys.keys1 8 + keys.keys0) % 2 ^ 32) ^^^ i) % 2 ^ 32),
          keys1 := keys.keys2, keys2 := keys.keys3, keys3 := (((rotr 32 keys.keys1 8 + keys.keys0) % 2 ^ 32) ^^^ i) % 2 ^ 32 } := by
  simp only [speck128_64.expand_step, speck128_64.rotate_right, speck128_64.rotate_left,
    speck128_64.word_size, speck128_64.key_size, speck128_64.rotation_alpha, speck128_64.rotation_beta,
    and_mask _ 32 (by decide), c_rotr 64 32 _ _ (by decide), c_rotl 64 32 _ _ (by decide),
    add_mod_two_pow 64 32 _ _ (by decide), forUp, Keys.get, Keys.set]

/-- The loop body of the expansion of `speck128_128` on words. -/
theorem speck128_128_step_keys (i : Nat) (keys : Keys) :
    speck128_128.expand_step i keys
      = { keys0 := rotl 64 keys.keys0 3 ^^^ ((((rotr 64 keys.keys1 8 + keys.keys0) % 2 ^ 64) ^^^ i) % 2 ^ 64),
          keys1 := (((rotr 64 keys.keys1 8 + keys.keys0) % 2 ^ 64) ^^^ i) % 2 ^ 64, keys2 := keys.keys2, keys3 := keys.keys3 } := by
  simp only [speck128_128.expand_step, speck128_128.rotate_right, speck128_128.rotate_left,
    speck128_128.word_size, speck128_128.key_size, speck128_128.rotation_alpha, speck128_128.rotation_beta,
    and_mask _ 64 (by decide), c_rotr 64 64 _ _ (by decide), c_rotl 64 64 _ _ (by decide),
    add_mod_two_pow 64 64 _ _ (by decide), forUp, Keys.get, Keys.set]

/-- The loop body of the expansion of `speck256_128` on words. -/
theorem speck256_128_step_keys (i : Nat) (keys : Keys) :
    speck256_128.expand_step i keys
      = { keys0 := rotl 64 keys.keys0 3 ^^^ ((((rotr 64 keys.keys1 8 + keys.keys0) % 2 ^ 64) ^^^ i) % 2 ^ 64),
          keys1 := keys.keys2, keys2 := keys.keys3, keys3 := (((rotr 64 keys.keys1 8 + keys.keys0) % 2 ^ 64) ^^^ i) % 2 ^ 64 } := by
  simp only [speck256_128.expand_step, speck256_128.rotate_right, speck256_128.rotate_left,
    speck256_128.word_size, speck256_128.key_size, speck256_128.rotation_alpha, speck256_128.rotation_beta,
    and_mask _ 64 (by decide), c_rotr 64 64 _ _ (by decide), c_rotl 64 64 _ _ (by decide),
    add_mod_two_pow 64 64 _ _ (by decide), forUp, Keys.get, Keys.set]

/-! ## Claims on the Speck key schedule -/

/-- Claim C13. For Speck 72/48, 96/48, 96/96, 128/64 and 128/128, every key and
every previous content of the schedule buffer: the word stored at schedule
position `i`, for each `i` below `rounds`, is the word `k_i` of the recurrence
of the specification (`alpha = 8`, `beta = 3`) started from the master words,
which are the little-endian values of the successive `bytes`-byte groups of
the key. -/
theorem speck_schedule_recurrence (key ks : Buf) :
    (∀ i : Fin speck72_48.rounds,
        loadLE (speck72_48.expand_speck key ks) (speck72_48.bytes * i.val) speck72_48.bytes
          = (speckSchedule speck72_48.word_size 8 3 speck72_48.key_size
              (fun j => loadLE key (speck72_48.bytes * j) speck72_48.bytes) i.val).1)
    ∧ (∀ i : Fin speck96_48.rounds,
        loadLE (speck96_48.expand_speck key ks) (speck96_48.bytes * i.val) speck96_48.bytes
          = (speckSchedule speck96_48.word_size 8 3 speck96_48.key_size
              (fun j => loadLE key (speck96_48.bytes * j) speck96_48.bytes) i.val).1)
    ∧ (∀ i : Fin speck96_96.rounds,
        loadLE (speck96_96.expand_speck key ks) (speck96_96.bytes * i.val) speck96_96.bytes
          = (speckSchedule speck96_96.word_size 8 3 speck96_96.key_size
              (fun j => loadLE key (speck96_96.bytes * j) speck96_96.bytes) i.val).1)
    ∧ (∀ i : Fin speck128_64.rounds,
        loadLE (speck128_64.expand_speck_128_64 key ks) (speck128_64.bytes * i.val) speck128_64.bytes
          = (speckSchedule speck128_64.word_size 8 3 speck128_64.key_size
              (fun j => loadLE key (speck128_64.bytes * j) speck128_64.bytes) i.val).1)
    ∧ (∀ i : Fin speck128_128.rounds,
        loadLE (speck128_128.expand_speck key ks) (speck128_128.bytes * i.val) speck128_128.bytes
          = (speckSchedule speck128_128.word_size 8 3 speck128_128.key_size
              (fun j => loadLE key (speck128_128.bytes * j) speck128_128.bytes) i.val).1) :=
  ⟨fun i => speck_expand_schedule speck72_48.word_size 8 3 speck72_48.key_size speck72_48.bytes speck72_48.expand_step
      (speck72_48.rounds - 1) key ks (by decide) (by decide) (by decide) (by decide)
      (fun i keys => by
        rw [speck72_48_step_keys]
        exact ⟨rfl, fun j hj => by
          have h : j = 0 := by simp only [speck72_48.key_size] at hj; omega
          subst h
          rfl, rfl⟩)
      i.val (Nat.le_pred_of_lt i.isLt) (Nat.le_of_lt (Nat.lt_of_lt_of_le i.isLt (by decide))),
    fun i => speck_expand_schedule speck96_48.word_size 8 3 speck96_48.key_size speck96_48.bytes speck96_48.expand_step
      (speck96_48.rounds - 1) key ks (by decide) (by decide) (by decide) (by decide)
      (fun i keys => by
        rw [speck96_48_step_keys]
        exact ⟨rfl, fun j hj => by
          have h : j = 0 ∨ j = 1 := by simp only [speck96_48.key_size] at hj; omega
          rcases h with h | h <;> subst h <;> rfl, rfl⟩)
      i.val (Nat.le_pred_of_lt i.isLt) (Nat.le_of_lt (Nat.lt_of_lt_of_le i.isLt (by decide))),
    fun i => speck_expand_schedule speck96_96.word_size 8 3 speck96_96.key_size speck96_96.bytes speck96_96.expand_step
      (speck96_96.rounds) key ks (by decide) (by decide) (by decide) (by decide)
      (fun i keys => by
        rw [speck96_96_step_keys]
        exact ⟨rfl, fun j hj => absurd hj (by simp only [speck96_96.key_size]; omega), rfl⟩)
      i.val (Nat.le_of_lt i.isLt) (Nat.le_of_lt (Nat.lt_of_lt_of_le i.isLt (by decide))),
    fun i => speck_expand_schedule speck128_64.word_size 8 3 speck128_64.key_size speck128_64.bytes speck128_64.expand_step
      (speck128_64.rounds) key ks (by decide) (by decide) (by decide) (by decide)
      (fun i keys => by
        rw [speck128_64_step_keys]
        exact ⟨rfl, fun j hj => by
          have h : j = 0 ∨ j = 1 := by simp only [speck128_64.key_size] at hj; omega
          rcases h with h | h <;> subst h <;> rfl, rfl⟩)
      i.val (Nat.le_of_lt i.isLt) (Nat.le_of_lt (Nat.lt_of_lt_of_le i.isLt (by decide))),
    fun i => speck_expand_schedule speck128_128.word_size 8 3 speck128_128.key_size speck128_128.bytes speck128_128.expand_step
      (speck128_128.rounds - 1) key ks (by decide) (by decide) (by decide) (by decide)
      (fun i keys => by
        rw [speck128_128_step_keys]
        exact ⟨rfl, fun j hj => absurd hj (by simp only [speck128_128.key_size]; omega), rfl⟩)
      i.val (Nat.le_pred_of_lt i.isLt) (Nat.le_of_lt (Nat.lt_of_lt_of_le i.isLt (by decide)))⟩

set_option maxRecDepth 1000000 in
/-- The first three words of the schedule that `expand_speck_64_32` stores for
the key of the file, in a zeroed buffer, and the first three words of the
recurrence of the specification for the same master words. -/
theorem speck64_32_first_subkeys :
    (loadLE (speck64_32.expand_speck_64_32 speck64_32.main_encryption_key zeroBuf) (2 * 1) 2 = 0x1512
      ∧ loadLE (speck64_32.expand_speck_64_32 speck64_32.main_encryption_key zeroBuf) (2 * 2) 2 = 0x716d)
    ∧ (speckSchedule 16 7 2 4 (fun j => loadLE speck64_32.main_encryption_key (2 * j) 2) 1).1 = 0x1512
    ∧ (speckSchedule 16 7 2 4 (fun j => loadLE speck64_32.main_encryption_key (2 * j) 2) 2).1 = 0x617d := by
  decide

/-- Claim C14 (fails on the code). The loop body of `expand_speck_64_32` has no
shift of the key window: each pass leaves `keys[1]` and `keys[2]` as they
were, so every step consumes master word 1 and master words 2 and 3 are never
used. For the key of the file, whatever the buffer held, the word stored at
position 1 is `k_1 = 0x1512` of the recurrence of the specification, but the
word stored at position 2 is `0x716d` where the recurrence gives
`k_2 = 0x617d`. -/
theorem speck64_32_window_not_shifted (i : Nat) (keys : Keys) (ks : Buf) :
    (speck64_32.expand_step i keys).get 1 = keys.get 1
    ∧ (speck64_32.expand_step i keys).get 2 = keys.get 2
    ∧ loadLE (speck64_32.expand_speck_64_32 speck64_32.main_encryption_key ks) (2 * 1) 2 = 0x1512
    ∧ (speckSchedule 16 7 2 4 (fun j => loadLE speck64_32.main_encryption_key (2 * j) 2) 1).1 = 0x1512
    ∧ loadLE (speck64_32.expand_speck_64_32 speck64_32.main_encryption_key ks) (2 * 2) 2 = 0x716d
    ∧ (speckSchedule 16 7 2 4 (fun j => loadLE speck64_32.main_encryption_key (2 * j) 2) 2).1 = 0x617d := by
  have hf : ∀ off, off + 2 ≤ 44 →
      loadLE (speck64_32.expand_speck_64_32 speck64_32.main_encryption_key ks) off 2
        = loadLE (speck64_32.expand_speck_64_32 speck64_32.main_encryption_key zeroBuf) off 2 :=
    fun off h => expand_load_frame speck64_32.expand_step speck64_32.bytes (speck64_32.rounds - 1)
      speck64_32.key_size speck64_32.main_encryption_key ks zeroBuf off 2 h
  rw [speck64_32_step_keys]
  refine ⟨rfl, rfl, ?_, speck64_32_first_subkeys.2.1, ?_, speck64_32_first_subkeys.2.2⟩
  · rw [hf (2 * 1) (by decide)]
    exact speck64_32_first_subkeys.1.1
  · rw [hf (2 * 2) (by decide)]
    exact speck64_32_first_subkeys.1.2

/-! ## The Simon key schedule -/

/-- The macro `shift_right` of the Simon files, on a word below `2 ^ w`, is the
rotation to the right: its second operand is the low `r` bits moved to the top
of the word. -/
theorem c_shift_right (w x r : Nat) (hx : x < 2 ^ w) (hw : w ≤ 64) (hr : r ≤ w) :
    (x >>> r) ||| shl 64 (x &&& ((1 <<< r) - 1)) (w - r) = rotr w x r := by
  apply Nat.eq_of_testBit_eq
  intro i
  rw [testBit_rotr]
  simp only [shl, Nat.testBit_or, Nat.testBit_shiftRight, Nat.testBit_mod_two_pow,
    Nat.testBit_shiftLeft, Nat.testBit_and, Nat.one_shiftLeft, Nat.testBit_two_pow_sub_one,
    ge_iff_le]
  by_cases hi : i < w
  · have h64 : i < 64 := by omega
    by_cases hri : w - r ≤ i
    · have h1 : i - (w - r) < r := by omega
      simp [hi, h64, hri, h1]
    · simp [hi, h64, hri]
  · have h0 : x.testBit (r + i) = false := testBit_eq_false_of_lt hx (by omega)
    by_cases hri : w - r ≤ i
    · have h1 : ¬ (i - (w - r) < r) := by omega
      simp [hi, hri, h0, h1]
    · simp [hi, hri, h0]

/-- The same with the mask of the word applied to the second operand. -/
theorem c_shift_right_and (w x r : Nat) (hx : x < 2 ^ w) (hw : w ≤ 64) (hr : r ≤ w) :
    (x >>> r) ||| (shl 64 (x &&& ((1 <<< r) - 1)) (w - r) % 2 ^ w) = rotr w x r := by
  have h := c_shift_right w x r hx hw hr
  have hm : ((x >>> r) ||| shl 64 (x &&& ((1 <<< r) - 1)) (w - r)) % 2 ^ w = rotr w x r := by
    rw [h, rotr_mod]
  rw [or_mod_two_pow] at hm
  have hs : (x >>> r) % 2 ^ w = x >>> r :=
    Nat.mod_eq_of_lt (Nat.lt_of_le_of_lt
      (Nat.shiftRight_eq_div_pow x r ▸ Nat.div_le_self _ _) hx)
  rwa [hs] at hm

/-- The constant `c = 0xfffffffffffffffc`, cut to `w` bits, is `2 ^ w - 4`. -/
theorem c_mod (w : Nat) (h2 : 2 ≤ w) (hw : w ≤ 64) :
    0xfffffffffffffffc % 2 ^ w = 2 ^ w - 4 := by
  interval_cases w <;> rfl

theorem zbit_lt (z i w : Nat) (h1 : 1 ≤ w) : (z >>> (i % 62)) &&& 1 < 2 ^ w :=
  Nat.lt_of_lt_of_le (Nat.lt_of_le_of_lt Nat.and_le_right (by decide : 1 < 2 ^ 1))
    (Nat.pow_le_pow_right (by decide) h1)

/-- The new word of the Simon schedule, from the order in which the C code
accumulates it to the order of the specification. -/
theorem simon_new_word (w c z k t r : Nat) (hz : z < 2 ^ w) (hk : k < 2 ^ w)
    (ht : t < 2 ^ w) (hr : r < 2 ^ w) :
    (((t ^^^ k) ^^^ r) ^^^ (c ^^^ z)) % 2 ^ w = ((((c % 2 ^ w) ^^^ z) ^^^ k) ^^^ t) ^^^ r := by
  simp only [xor_mod_two_pow, Nat.mod_eq_of_lt hz, Nat.mod_eq_of_lt hk, Nat.mod_eq_of_lt ht,
    Nat.mod_eq_of_lt hr]
  ac_rfl

/-- A loop body that moves `keys[1 .. m-1]` one place down and puts a new word
below `2 ^ w` in `keys[m-1]` keeps every element of the window below `2 ^ w`. -/
theorem simon_window_lt (w m : Nat) (step : Nat → Keys → Keys) (G : Nat → Nat → Nat → Nat → Nat)
    (hm : 2 ≤ m)
    (hstep : ∀ i keys, (∀ j, j < m → keys.get j < 2 ^ w) →
      (∀ j, j + 1 < m → (step i keys).get j = keys.get (j + 1))
      ∧ (step i keys).get (m - 1) = G i (keys.get 0) (keys.get 1) (keys.get (m - 1)))
    (hG : ∀ i a b c, a < 2 ^ w → b < 2 ^ w → c < 2 ^ w → G i a b c < 2 ^ w)
    (keys : Keys) (h0 : ∀ j, j < m → keys.get j < 2 ^ w) (n : Nat) :
    ∀ j, j < m → (forUp step n keys).get j < 2 ^ w := by
  induction n with
  | zero => exact h0
  | succ c ih =>
    intro j hj
    obtain ⟨s1, s2⟩ := hstep c (forUp step c keys) ih
    rw [forUp_succ]
    by_cases hlast : j + 1 < m
    · rw [s1 j hlast]
      exact ih (j + 1) hlast
    · have e : j = m - 1 := by omega
      rw [e, s2]
      exact hG c _ _ _ (ih 0 (by omega)) (ih 1 (by omega)) (ih (m - 1) (by omega))

/-- With such a loop body, element `j` of the window after `n` passes is
element 0 after `n + j` passes. -/
theorem simon_window_shift (w m : Nat) (step : Nat → Keys → Keys)
    (G : Nat → Nat → Nat → Nat → Nat) (hm : 2 ≤ m)
    (hstep : ∀ i keys, (∀ j, j < m → keys.get j < 2 ^ w) →
      (∀ j, j + 1 < m → (step i keys).get j = keys.get (j + 1))
      ∧ (step i keys).get (m - 1) = G i (keys.get 0) (keys.get 1) (keys.get (m - 1)))
    (hG : ∀ i a b c, a < 2 ^ w → b < 2 ^ w → c < 2 ^ w → G i a b c < 2 ^ w)
    (keys : Keys) (h0 : ∀ j, j < m → keys.get j < 2 ^ w) (j : Nat) :
    ∀ n, j < m → (forUp step (n + j) keys).get 0 = (forUp step n keys).get j := by
  induction j with
  | zero => intro n _; rfl
  | succ c ih =>
    intro n hj
    rw [show n + (c + 1) = (n + 1) + c by omega, ih (n + 1) (by omega), forUp_succ]
    exact (hstep n (forUp step n keys)
      (simon_window_lt w m step G hm hstep hG keys h0 n)).1 c hj

/-- The words stored in the schedule by an expansion with such a loop body
satisfy the recurrence `k (i + m) = G i (k i) (k (i + 1)) (k (i + m - 1))`. -/
theorem simon_expand_recurrence (w m bs : Nat) (step : Nat → Keys → Keys)
    (G : Nat → Nat → Nat → Nat → Nat) (n : Nat) (key ks : Buf)
    (hm : 2 ≤ m) (hm4 : m ≤ 4) (hbs : bs ≤ 8) (hw : w = 8 * bs)
    (hstep : ∀ i keys, (∀ j, j < m → keys.get j < 2 ^ w) →
      (∀ j, j + 1 < m → (step i keys).get j = keys.get (j + 1))
      ∧ (step i keys).get (m - 1) = G i (keys.get 0) (keys.get 1) (keys.get (m - 1)))
    (hG : ∀ i a b c, a < 2 ^ w → b < 2 ^ w → c < 2 ^ w → G i a b c < 2 ^ w)
    (i : Nat) (hi : i + m ≤ n) :
    loadLE (expand_loop step bs n (load_keys key ks bs m)).key_schedule (bs * (i + m)) bs
      = G i (loadLE (expand_loop step bs n (load_keys key ks bs m)).key_schedule (bs * i) bs)
          (loadLE (expand_loop step bs n (load_keys key ks bs m)).key_schedule (bs * (i + 1)) bs)
          (loadLE (expand_loop step bs n (load_keys key ks bs m)).key_schedule
            (bs * (i + m - 1)) bs) := by
  have h256 : 256 ^ bs = 2 ^ w := by
    rw [hw, show (256 : Nat) = 2 ^ 8 from rfl, ← Nat.pow_mul]
  have h0 : ∀ j, j < m → (load_keys key ks bs m).keys.get j < 2 ^ w := by
    intro j hj
    rw [load_keys_get key ks bs m j hbs (by omega), if_pos hj, ← h256]
    exact loadLE_lt key (bs * j) bs
  have hlt := simon_window_lt w m step G hm hstep hG _ h0
  have hsh := simon_window_shift w m step G hm hstep hG _ h0
  have hword : ∀ p, p ≤ n →
      loadLE (expand_loop step bs n (load_keys key ks bs m)).key_schedule (bs * p) bs
        = (forUp step p (load_keys key ks bs m).keys).get 0 := by
    intro p hp
    rw [expand_word step bs n m key ks p bs hp (Nat.le_refl bs) hbs, h256]
    exact Nat.mod_eq_of_lt (hlt p 0 (by omega))
  rw [hword (i + m) hi, hword i (by omega), hword (i + 1) (by omega),
    hword (i + m - 1) (by omega)]
  have e1 : (forUp step (i + m) (load_keys key ks bs m).keys).get 0
      = (forUp step (i + 1) (load_keys key ks bs m).keys).get (m - 1) := by
    rw [show i + m = (i + 1) + (m - 1) by omega]
    exact hsh (m - 1) (i + 1) (by omega)
  have e2 := hsh 1 i (by omega)
  have e3 : (forUp step (i + m - 1) (load_keys key ks bs m).keys).get 0
      = (forUp step i (load_keys key ks bs m).keys).get (m - 1) := by
    rw [show i + m - 1 = i + (m - 1) by omega]
    exact hsh (m - 1) i (by omega)
  rw [e1, e2, e3, forUp_succ]
  exact (hstep i _ (hlt i)).2

/-! ## The loop bodies of the Simon expansions -/

/-- The loop body of `expand_simon_64_32` on a window of words below `2 ^ 16`:
the window moves one place down and the new word is the one of the
specification. -/
theorem simon64_32_step_keys (i : Nat) (keys : Keys)
    (h0 : keys.keys0 < 2 ^ 16) (h1 : keys.keys1 < 2 ^ 16) (hl : keys.keys3 < 2 ^ 16) :
    simon64_32.expand_step i keys
      = { keys0 := keys.keys1, keys1 := keys.keys2,
          keys2 := keys.keys3,
          keys3 := ((((2 ^ 16 - 4) ^^^ ((simon64_32.z_sequence >>> (i % 62)) &&& 1)) ^^^ keys.keys0)
            ^^^ (rotr 16 keys.keys3 3 ^^^ keys.keys1)) ^^^ rotr 16 (rotr 16 keys.keys3 3 ^^^ keys.keys1) 1 } := by
  have ht : rotr 16 keys.keys3 3 ^^^ keys.keys1 < 2 ^ 16 :=
    Nat.xor_lt_two_pow (rotr_lt 16 _ 3) h1
  simp only [simon64_32.expand_step, simon64_32.shift_right, simon64_32.word_size,
    simon64_32.key_size, forUp, Keys.get, Keys.set, and_mask _ 16 (by decide)]
  rw [c_shift_right 16 keys.keys3 3 hl (by decide) (by decide),
    c_shift_right 16 _ 1 ht (by decide) (by decide)]
  congr 1
  simp only [xor_mod_two_pow, Nat.mod_mod, Nat.mod_eq_of_lt h0, Nat.mod_eq_of_lt h1,
    Nat.mod_eq_of_lt (zbit_lt _ i 16 (by decide)), rotr_mod, c_mod 16 (by decide) (by decide)]
  ac_rfl

/-- The same in the form used for the recurrence on the stored words. -/
theorem simon64_32_step_window (i : Nat) (keys : Keys)
    (hk : ∀ j, j < 4 → keys.get j < 2 ^ simon64_32.word_size) :
    (∀ j, j + 1 < 4 → (simon64_32.expand_step i keys).get j = keys.get (j + 1))
      ∧ (simon64_32.expand_step i keys).get (4 - 1)
        = (fun i a b c => ((((2 ^ simon64_32.word_size - 4) ^^^ ((simon64_32.z_sequence >>> (i % 62)) &&& 1)) ^^^ a)
          ^^^ (rotr simon64_32.word_size c 3 ^^^ b)) ^^^ rotr simon64_32.word_size (rotr simon64_32.word_size c 3 ^^^ b) 1)
          i (keys.get 0) (keys.get 1) (keys.get (4 - 1)) := by
  rw [simon64_32_step_keys i keys (hk 0 (by decide)) (hk 1 (by decide)) (hk 3 (by decide))]
  refine ⟨?_, rfl⟩
  intro j hj
  have h : j = 0 ∨ j = 1 ∨ j = 2 := by omega
  rcases h with h | h | h <;> subst h <;> rfl

theorem simon64_32_new_word_lt : ∀ i a b c : Nat, a < 2 ^ simon64_32.word_size → b < 2 ^ simon64_32.word_size →
    c < 2 ^ simon64_32.word_size →
    (fun i a b c => ((((2 ^ simon64_32.word_size - 4) ^^^ ((simon64_32.z_sequence >>> (i % 62)) &&& 1)) ^^^ a)
          ^^^ (rotr simon64_32.word_size c 3 ^^^ b)) ^^^ rotr simon64_32.word_size (rotr simon64_32.word_size c 3 ^^^ b) 1)
      i a b c < 2 ^ simon64_32.word_size :=
  fun i a b c ha hb hc => Nat.xor_lt_two_pow (Nat.xor_lt_two_pow (Nat.xor_lt_two_pow
        (Nat.xor_lt_two_pow (Nat.sub_lt (Nat.two_pow_pos _) (by decide)) (zbit_lt _ i _ (by decide))) ha)
        (Nat.xor_lt_two_pow (rotr_lt _ _ 3) hb)) (rotr_lt _ _ 1)

/-- The loop body of `expand_simon_72_48` on a window of words below `2 ^ 24`:
the window moves one place down and the new word is the one of the
specification. -/
theorem simon72_48_step_keys (i : Nat) (keys : Keys)
    (h0 : keys.keys0 < 2 ^ 24) (hl : keys.keys2 < 2 ^ 24) :
    simon72_48.expand_step i keys
      = { keys0 := keys.keys1, keys1 := keys.keys2,
          keys2 := ((((2 ^ 24 - 4) ^^^ ((simon72_48.z_sequence >>> (i % 62)) &&& 1)) ^^^ keys.keys0)
            ^^^ (rotr 24 keys.keys2 3)) ^^^ rotr 24 (rotr 24 keys.keys2 3) 1,
          keys3 := keys.keys3 } := by
  simp only [simon72_48.expand_step, simon72_48.shift_right_and, simon72_48.word_size,
    simon72_48.key_size, forUp, Keys.get, Keys.set, simon72_48.mod_mask, and_mask24]
  rw [c_shift_right_and 24 keys.keys2 3 hl (by decide) (by decide),
    c_shift_right_and 24 _ 1 (rotr_lt 24 _ 3) (by decide) (by decide)]
  congr 1
  simp only [xor_mod_two_pow, Nat.mod_mod, Nat.mod_eq_of_lt h0,
    Nat.mod_eq_of_lt (zbit_lt _ i 24 (by decide)), rotr_mod, c_mod 24 (by decide) (by decide)]
  ac_rfl

/-- The same in the form used for the recurrence on the stored words. -/
theorem simon72_48_step_window (i : Nat) (keys : Keys)
    (hk : ∀ j, j < 3 → keys.get j < 2 ^ simon72_48.word_size) :
    (∀ j, j + 1 < 3 → (simon72_48.expand_step i keys).get j = keys.get (j + 1))
      ∧ (simon72_48.expand_step i keys).get (3 - 1)
        = (fun i a _ c => ((((2 ^ simon72_48.word_size - 4) ^^^ ((simon72_48.z_sequence >>> (i % 62)) &&& 1)) ^^^ a)
          ^^^ rotr simon72_48.word_size c 3) ^^^ rotr simon72_48.word_size (rotr simon72_48.word_size c 3) 1)
          i (keys.get 0) (keys.get 1) (keys.get (3 - 1)) := by
  rw [simon72_48_step_keys i keys (hk 0 (by decide)) (hk 2 (by decide))]
  refine ⟨?_, rfl⟩
  intro j hj
  have h : j = 0 ∨ j = 1 := by omega
  rcases h with h | h <;> subst h <;> rfl

theorem simon72_48_new_word_lt : ∀ i a b c : Nat, a < 2 ^ simon72_48.word_size → b < 2 ^ simon72_48.word_size →
    c < 2 ^ simon72_48.word_size →
    (fun i a _ c => ((((2 ^ simon72_48.word_size - 4) ^^^ ((simon72_48.z_sequence >>> (i % 62)) &&& 1)) ^^^ a)
          ^^^ rotr simon72_48.word_size c 3) ^^^ rotr simon72_48.word_size (rotr simon72_48.word_size c 3) 1)
      i a b c < 2 ^ simon72_48.word_size :=
  fun i a b c ha _ _ => Nat.xor_lt_two_pow (Nat.xor_lt_two_pow (Nat.xor_lt_two_pow
        (Nat.xor_lt_two_pow (Nat.sub_lt (Nat.two_pow_pos _) (by decide)) (zbit_lt _ i _ (by decide))) ha)
        (rotr_lt _ _ 3)) (rotr_lt _ _ 1)

/-- The loop body of `expand_simon_128_64` on a window of words below `2 ^ 32`:
the window moves one place down and the new word is the one of the
specification. -/
theorem simon128_64_step_keys (i : Nat) (keys : Keys)
    (h0 : keys.keys0 < 2 ^ 32) (h1 : keys.keys1 < 2 ^ 32) (hl : keys.keys3 < 2 ^ 32) :
    simon128_64.expand_step i keys
      = { keys0 := keys.keys1, keys1 := keys.keys2,
          keys2 := keys.keys3,
          keys3 := ((((2 ^ 32 - 4) ^^^ ((simon128_64.z_sequence >>> (i % 62)) &&& 1)) ^^^ keys.keys0)
            ^^^ (rotr 32 keys.keys3 3 ^^^ keys.keys1)) ^^^ rotr 32 (rotr 32 keys.keys3 3 ^^^ keys.keys1) 1 } := by
  have ht : rotr 32 keys.keys3 3 ^^^ keys.keys1 < 2 ^ 32 :=
    Nat.xor_lt_two_pow (rotr_lt 32 _ 3) h1
  simp only [simon128_64.expand_step, simon128_64.shift_right, simon128_64.word_size,
    simon128_64.key_size, forUp, Keys.get, Keys.set, and_mask _ 32 (by decide)]
  rw [c_shift_right 32 keys.keys3 3 hl (by decide) (by decide),
    c_shift_right 32 _ 1 ht (by decide) (by decide)]
  congr 1
  simp only [xor_mod_two_pow, Nat.mod_mod, Nat.mod_eq_of_lt h0, Nat.mod_eq_of_lt h1,
    Nat.mod_eq_of_lt (zbit_lt _ i 32 (by decide)), rotr_mod, c_mod 32 (by decide) (by decide)]
  ac_rfl

/-- The same in the form used for the recurrence on the stored words. -/
theorem simon128_64_step_window (i : Nat) (keys : Keys)
    (hk : ∀ j, j < 4 → keys.get j < 2 ^ simon128_64.word_size) :
    (∀ j, j + 1 < 4 → (simon128_64.expand_step i keys).get j = keys.get (j + 1))
      ∧ (simon128_64.expand_step i keys).get (4 - 1)
        = (fun i a b c => ((((2 ^ simon128_64.word_size - 4) ^^^ ((simon128_64.z_sequence >>> (i % 62)) &&& 1)) ^^^ a)
          ^^^ (rotr simon128_64.word_size c 3 ^^^ b)) ^^^ rotr simon128_64.word_size (rotr simon128_64.word_size c 3 ^^^ b) 1)
          i (keys.get 0) (keys.get 1) (keys.get (4 - 1)) := by
  rw [simon128_64_step_keys i keys (hk 0 (by decide)) (hk 1 (by decide)) (hk 3 (by decide))]
  refine ⟨?_, rfl⟩
  intro j hj
  have h : j = 0 ∨ j = 1 ∨ j = 2 := by omega
  rcases h with h | h | h <;> subst h <;> rfl

theorem simon128_64_new_word_lt : ∀ i a b c : Nat, a < 2 ^ simon128_64.word_size → b < 2 ^ simon128_64.word_size →
    c < 2 ^ simon128_64.word_size →
    (fun i a b c => ((((2 ^ simon128_64.word_size - 4) ^^^ ((simon128_64.z_sequence >>> (i % 62)) &&& 1)) ^^^ a)
          ^^^ (rotr simon128_64.word_size c 3 ^^^ b)) ^^^ rotr simon128_64.word_size (rotr simon128_64.word_size c 3 ^^^ b) 1)
      i a b c < 2 ^ simon128_64.word_size :=
  fun i a b c ha hb hc => Nat.xor_lt_two_pow (Nat.xor_lt_two_pow (Nat.xor_lt_two_pow
        (Nat.xor_lt_two_pow (Nat.sub_lt (Nat.two_pow_pos _) (by decide)) (zbit_lt _ i _ (by decide))) ha)
        (Nat.xor_lt_two_pow (rotr_lt _ _ 3) hb)) (rotr_lt _ _ 1)

/-- The loop body of `expand_simon_144_96` on a window of words below `2 ^ 48`:
the window moves one place down and the new word is the one of the
specification. -/
theorem simon144_96_step_keys (i : Nat) (keys : Keys)
    (h0 : keys.keys0 < 2 ^ 48) (hl : keys.keys2 < 2 ^ 48) :
    simon144_96.expand_step i keys
      = { keys0 := keys.keys1, keys1 := keys.keys2,
          keys2 := ((((2 ^ 48 - 4) ^^^ ((simon144_96.z_sequence >>> (i % 62)) &&& 1)) ^^^ keys.keys0)
            ^^^ (rotr 48 keys.keys2 3)) ^^^ rotr 48 (rotr 48 keys.keys2 3) 1,
          keys3 := keys.keys3 } := by
  simp only [simon144_96.expand_step, simon144_96.shift_right_and, simon144_96.word_size,
    simon144_96.key_size, forUp, Keys.get, Keys.set, simon144_96.mod_mask, and_mask48]
  rw [c_shift_right_and 48 keys.keys2 3 hl (by decide) (by decide),
    c_shift_right_and 48 _ 1 (rotr_lt 48 _ 3) (by decide) (by decide)]
  congr 1
  simp only [xor_mod_two_pow, Nat.mod_mod, Nat.mod_eq_of_lt h0,
    Nat.mod_eq_of_lt (zbit_lt _ i 48 (by decide)), rotr_mod, c_mod 48 (by decide) (by decide)]
  ac_rfl

/-- The same in the form used for the recurrence on the stored words. -/
theorem simon144_96_step_window (i : Nat) (keys : Keys)
    (hk : ∀ j, j < 3 → keys.get j < 2 ^ simon144_96.word_size) :
    (∀ j, j + 1 < 3 → (simon144_96.expand_step i keys).get j = keys.get (j + 1))
      ∧ (simon144_96.expand_step i keys).get (3 - 1)
        = (fun i a _ c => ((((2 ^ simon144_96.word_size - 4) ^^^ ((simon144_96.z_sequence >>> (i % 62)) &&& 1)) ^^^ a)
          ^^^ rotr simon144_96.word_size c 3) ^^^ rotr simon144_96.word_size (rotr simon144_96.word_size c 3) 1)
          i (keys.get 0) (keys.get 1) (keys.get (3 - 1)) := by
  rw [simon144_96_step_keys i keys (hk 0 (by decide)) (hk 2 (by decide))]
  refine ⟨?_, rfl⟩
  intro j hj
  have h : j = 0 ∨ j = 1 := by omega
  rcases h with h | h <;> subst h <;> rfl

theorem simon144_96_new_word_lt : ∀ i a b c : Nat, a < 2 ^ simon144_96.word_size → b < 2 ^ simon144_96.word_size →
    c < 2 ^ simon144_96.word_size →
    (fun i a _ c => ((((2 ^ simon144_96.word_size - 4) ^^^ ((simon144_96.z_sequence >>> (i % 62)) &&& 1)) ^^^ a)
          ^^^ rotr simon144_96.word_size c 3) ^^^ rotr simon144_96.word_size (rotr simon144_96.word_size c 3) 1)
      i a b c < 2 ^ simon144_96.word_size :=
  fun i a b c ha _ _ => Nat.xor_lt_two_pow (Nat.xor_lt_two_pow (Nat.xor_lt_two_pow
        (Nat.xor_lt_two_pow (Nat.sub_lt (Nat.two_pow_pos _) (by decide)) (zbit_lt _ i _ (by decide))) ha)
        (rotr_lt _ _ 3)) (rotr_lt _ _ 1)

/-- The loop body of `expand_simon_128_128` on a window of words below `2 ^ 64`:
the window moves one place down and the new word is the one of the
specification. -/
theorem simon128_128_step_keys (i : Nat) (keys : Keys)
    (h0 : keys.keys0 < 2 ^ 64) (hl : keys.keys1 < 2 ^ 64) :
    simon128_128.expand_step i keys
      = { keys0 := keys.keys1, keys1 := ((((2 ^ 64 - 4) ^^^ ((simon128_128.z_sequence >>> (i % 62)) &&& 1)) ^^^ keys.keys0)
            ^^^ (rotr 64 keys.keys1 3)) ^^^ rotr 64 (rotr 64 keys.keys1 3) 1,
          keys2 := keys.keys2,
          keys3 := keys.keys3 } := by
  simp only [simon128_128.expand_step, simon128_128.shift_right_and, simon128_128.word_size,
    simon128_128.key_size, forUp, Keys.get, Keys.set, and_mask _ 64 (by decide), and_ullong_max]
  rw [c_shift_right_and 64 keys.keys1 3 hl (by decide) (by decide),
    c_shift_right_and 64 _ 1 (rotr_lt 64 _ 3) (by decide) (by decide)]
  congr 1
  simp only [xor_mod_two_pow, Nat.mod_mod, Nat.mod_eq_of_lt h0,
    Nat.mod_eq_of_lt (zbit_lt _ i 64 (by decide)), rotr_mod, c_mod 64 (by decide) (by decide)]
  ac_rfl

/-- The same in the form used for the recurrence on the stored words. -/
theorem simon128_128_step_window (i : Nat) (keys : Keys)
    (hk : ∀ j, j < 2 → keys.get j < 2 ^ simon128_128.word_size) :
    (∀ j, j + 1 < 2 → (simon128_128.expand_step i keys).get j = keys.get (j + 1))
      ∧ (simon128_128.expand_step i keys).get (2 - 1)
        = (fun i a _ c => ((((2 ^ simon128_128.word_size - 4) ^^^ ((simon128_128.z_sequence >>> (i % 62)) &&& 1)) ^^^ a)
          ^^^ rotr simon128_128.word_size c 3) ^^^ rotr simon128_128.word_size (rotr simon128_128.word_size c 3) 1)
          i (keys.get 0) (keys.get 1) (keys.get (2 - 1)) := by
  rw [simon128_128_step_keys i keys (hk 0 (by decide)) (hk 1 (by decide))]
  refine ⟨?_, rfl⟩
  intro j hj
  have h : j = 0 := by omega
  subst h
  rfl

theorem simon128_128_new_word_lt : ∀ i a b c : Nat, a < 2 ^ simon128_128.word_size → b < 2 ^ simon128_128.word_size →
    c < 2 ^ simon128_128.word_size →
    (fun i a _ c => ((((2 ^ simon128_128.word_size - 4) ^^^ ((simon128_128.z_sequence >>> (i % 62)) &&& 1)) ^^^ a)
          ^^^ rotr simon128_128.word_size c 3) ^^^ rotr simon128_128.word_size (rotr simon128_128.word_size c 3) 1)
      i a b c < 2 ^ simon128_128.word_size :=
  fun i a b c ha _ _ => Nat.xor_lt_two_pow (Nat.xor_lt_two_pow (Nat.xor_lt_two_pow
        (Nat.xor_lt_two_pow (Nat.sub_lt (Nat.two_pow_pos _) (by decide)) (zbit_lt _ i _ (by decide))) ha)
        (rotr_lt _ _ 3)) (rotr_lt _ _ 1)

/-- The loop body of `expand_simon_192_128` on a window of words below `2 ^ 64`:
the window moves one place down and the new word is the one of the
specification. -/
theorem simon192_128_step_keys (i : Nat) (keys : Keys)
    (h0 : keys.keys0 < 2 ^ 64) (hl : keys.keys2 < 2 ^ 64) :
    simon192_128.expand_step i keys
      = { keys0 := keys.keys1, keys1 := keys.keys2,
          keys2 := ((((2 ^ 64 - 4) ^^^ ((simon192_128.z_sequence >>> (i % 62)) &&& 1)) ^^^ keys.keys0)
            ^^^ (rotr 64 keys.keys2 3)) ^^^ rotr 64 (rotr 64 keys.keys2 3) 1,
          keys3 := keys.keys3 } := by
  simp only [simon192_128.expand_step, simon192_128.shift_right, simon192_128.word_size,
    simon192_128.key_size, forUp, Keys.get, Keys.set, and_mask _ 64 (by decide)]
  rw [c_shift_right 64 keys.keys2 3 hl (by decide) (by decide),
    c_shift_right 64 _ 1 (rotr_lt 64 _ 3) (by decide) (by decide)]
  congr 1
  simp only [xor_mod_two_pow, Nat.mod_mod, Nat.mod_eq_of_lt h0,
    Nat.mod_eq_of_lt (zbit_lt _ i 64 (by decide)), rotr_mod, c_mod 64 (by decide) (by decide)]
  ac_rfl

/-- The same in the form used for the recurrence on the stored words. -/
theorem simon192_128_step_window (i : Nat) (keys : Keys)
    (hk : ∀ j, j < 3 → keys.get j < 2 ^ simon192_128.word_size) :
    (∀ j, j + 1 < 3 → (simon192_128.expand_step i keys).get j = keys.get (j + 1))
      ∧ (simon192_128.expand_step i keys).get (3 - 1)
        = (fun i a _ c => ((((2 ^ simon192_128.word_size - 4) ^^^ ((simon192_128.z_sequence >>> (i % 62)) &&& 1)) ^^^ a)
          ^^^ rotr simon192_128.word_size c 3) ^^^ rotr simon192_128.word_size (rotr simon192_128.word_size c 3) 1)
          i (keys.get 0) (keys.get 1) (keys.get (3 - 1)) := by
  rw [simon192_128_step_keys i keys (hk 0 (by decide)) (hk 2 (by decide))]
  refine ⟨?_, rfl⟩
  intro j hj
  have h : j = 0 ∨ j = 1 := by omega
  rcases h with h | h <;> subst h <;> rfl

theorem simon192_128_new_word_lt : ∀ i a b c : Nat, a < 2 ^ simon192_128.word_size → b < 2 ^ simon192_128.word_size →
    c < 2 ^ simon192_128.word_size →
    (fun i a _ c => ((((2 ^ simon192_128.word_size - 4) ^^^ ((simon192_128.z_sequence >>> (i % 62)) &&& 1)) ^^^ a)
          ^^^ rotr simon192_128.word_size c 3) ^^^ rotr simon192_128.word_size (rotr simon192_128.word_size c 3) 1)
      i a b c < 2 ^ simon192_128.word_size :=
  fun i a b c ha _ _ => Nat.xor_lt_two_pow (Nat.xor_lt_two_pow (Nat.xor_lt_two_pow
        (Nat.xor_lt_two_pow (Nat.sub_lt (Nat.two_pow_pos _) (by decide)) (zbit_lt _ i _ (by decide))) ha)
        (rotr_lt _ _ 3)) (rotr_lt _ _ 1)

/-! ## Claim on the Simon key schedule -/

/-- Claim C15. For each of the six Simon files, every key and every previous
content of the schedule buffer, the words `k[p]` stored at the schedule
positions satisfy, for every `i` with `i + m ≤ rounds - 1`:
`k[i+m] = (2^w - 4) xor ((z >> (i mod 62)) & 1) xor k[i] xor t xor rotr_w(t, 1)`
with `t = rotr_w(k[i+m-1], 3)`, xored with `k[i+1]` in the two files with
four key words and in no other. -/
theorem simon_schedule_recurrence (key ks : Buf) :
    (∀ i : Fin (simon64_32.rounds - simon64_32.key_size),
        loadLE (simon64_32.expand_simon_64_32 key ks) (simon64_32.bytes * (i.val + simon64_32.key_size)) simon64_32.bytes
          = ((((2 ^ simon64_32.word_size - 4) ^^^ ((simon64_32.z_sequence >>> (i.val % 62)) &&& 1))
              ^^^ loadLE (simon64_32.expand_simon_64_32 key ks) (simon64_32.bytes * i.val) simon64_32.bytes)
              ^^^ (rotr simon64_32.word_size (loadLE (simon64_32.expand_simon_64_32 key ks) (simon64_32.bytes * (i.val + simon64_32.key_size - 1)) simon64_32.bytes) 3
                ^^^ loadLE (simon64_32.expand_simon_64_32 key ks) (simon64_32.bytes * (i.val + 1)) simon64_32.bytes))
              ^^^ rotr simon64_32.word_size
                ((rotr simon64_32.word_size (loadLE (simon64_32.expand_simon_64_32 key ks) (simon64_32.bytes * (i.val + simon64_32.key_size - 1)) simon64_32.bytes) 3
                ^^^ loadLE (simon64_32.expand_simon_64_32 key ks) (simon64_32.bytes * (i.val + 1)) simon64_32.bytes)) 1)
    ∧ (∀ i : Fin (simon72_48.rounds - simon72_48.key_size),
        loadLE (simon72_48.expand_simon_72_48 key ks) (simon72_48.bytes * (i.val + simon72_48.key_size)) simon72_48.bytes
          = ((((2 ^ simon72_48.word_size - 4) ^^^ ((simon72_48.z_sequence >>> (i.val % 62)) &&& 1))
              ^^^ loadLE (simon72_48.expand_simon_72_48 key ks) (simon72_48.bytes * i.val) simon72_48.bytes)
              ^^^ rotr simon72_48.word_size (loadLE (simon72_48.expand_simon_72_48 key ks) (simon72_48.bytes * (i.val + simon72_48.key_size - 1)) simon72_48.bytes) 3)
              ^^^ rotr simon72_48.word_size
                (rotr simon72_48.word_size (loadLE (simon72_48.expand_simon_72_48 key ks) (simon72_48.bytes * (i.val + simon72_48.key_size - 1)) simon72_48.bytes) 3) 1)
    ∧ (∀ i : Fin (simon128_64.rounds - simon128_64.key_size),
        loadLE (simon128_64.expand_simon_128_64 key ks) (simon128_64.bytes * (i.val + simon128_64.key_size)) simon128_64.bytes
          = ((((2 ^ simon128_64.word_size - 4) ^^^ ((simon128_64.z_sequence >>> (i.val % 62)) &&& 1))
              ^^^ loadLE (simon128_64.expand_simon_128_64 key ks) (simon128_64.bytes * i.val) simon128_64.bytes)
              ^^^ (rotr simon128_64.word_size (loadLE (simon128_64.expand_simon_128_64 key ks) (simon128_64.bytes * (i.val + simon128_64.key_size - 1)) simon128_64.bytes) 3
                ^^^ loadLE (simon128_64.expand_simon_128_64 key ks) (simon128_64.bytes * (i.val + 1)) simon128_64.bytes))
              ^^^ rotr simon128_64.word_size
                ((rotr simon128_64.word_size (loadLE (simon128_64.expand_simon_128_64 key ks) (simon128_64.bytes * (i.val + simon128_64.key_size - 1)) simon128_64.bytes) 3
                ^^^ loadLE (simon128_64.expand_simon_128_64 key ks) (simon128_64.bytes * (i.val + 1)) simon128_64.bytes)) 1)
    ∧ (∀ i : Fin (simon144_96.rounds - simon144_96.key_size),
        loadLE (simon144_96.expand_simon_144_96 key ks) (simon144_96.bytes * (i.val + simon144_96.key_size)) simon144_96.bytes
          = ((((2 ^ simon144_96.word_size - 4) ^^^ ((simon144_96.z_sequence >>> (i.val % 62)) &&& 1))
              ^^^ loadLE (simon144_96.expand_simon_144_96 key ks) (simon144_96.bytes * i.val) simon144_96.bytes)
              ^^^ rotr simon144_96.word_size (loadLE (simon144_96.expand_simon_144_96 key ks) (simon144_96.bytes * (i.val + simon144_96.key_size - 1)) simon144_96.bytes) 3)
              ^^^ rotr simon144_96.word_size
                (rotr simon144_96.word_size (loadLE (simon144_96.expand_simon_144_96 key ks) (simon144_96.bytes * (i.val + simon144_96.key_size - 1)) simon144_96.bytes) 3) 1)
    ∧ (∀ i : Fin (simon128_128.rounds - simon128_128.key_size),
        loadLE (simon128_128.expand_simon_128_128 key ks) (simon128_128.bytes * (i.val + simon128_128.key_size)) simon128_128.bytes
          = ((((2 ^ simon128_128.word_size - 4) ^^^ ((simon128_128.z_sequence >>> (i.val % 62)) &&& 1))
              ^^^ loadLE (simon128_128.expand_simon_128_128 key ks) (simon128_128.bytes * i.val) simon128_128.bytes)
              ^^^ rotr simon128_128.word_size (loadLE (simon128_128.expand_simon_128_128 key ks) (simon128_128.bytes * (i.val + simon128_128.key_size - 1)) simon128_128.bytes) 3)
              ^^^ rotr simon128_128.word_size
                (rotr simon128_128.word_size (loadLE (simon128_128.expand_simon_128_128 key ks) (simon128_128.bytes * (i.val + simon128_128.key_size - 1)) simon128_128.bytes) 3) 1)
    ∧ (∀ i : Fin (simon192_128.rounds - simon192_128.key_size),
        loadLE (simon192_128.expand_simon_192_128 key ks) (simon192_128.bytes * (i.val + simon192_128.key_size)) simon192_128.bytes
          = ((((2 ^ simon192_128.word_size - 4) ^^^ ((simon192_128.z_sequence >>> (i.val % 62)) &&& 1))
              ^^^ loadLE (simon192_128.expand_simon_192_128 key ks) (simon192_128.bytes * i.val) simon192_128.bytes)
              ^^^ rotr simon192_128.word_size (loadLE (simon192_128.expand_simon_192_128 key ks) (simon192_128.bytes * (i.val + simon192_128.key_size - 1)) simon192_128.bytes) 3)
              ^^^ rotr simon192_128.word_size
                (rotr simon192_128.word_size (loadLE (simon192_128.expand_simon_192_128 key ks) (simon192_128.bytes * (i.val + simon192_128.key_size - 1)) simon192_128.bytes) 3) 1) :=
  ⟨fun i => simon_expand_recurrence simon64_32.word_size simon64_32.key_size simon64_32.bytes simon64_32.expand_step
      (fun i a b c => ((((2 ^ simon64_32.word_size - 4) ^^^ ((simon64_32.z_sequence >>> (i % 62)) &&& 1)) ^^^ a)
          ^^^ (rotr simon64_32.word_size c 3 ^^^ b)) ^^^ rotr simon64_32.word_size (rotr simon64_32.word_size c 3 ^^^ b) 1)
      (simon64_32.rounds) key ks (by decide) (by decide) (by decide) (by decide)
      simon64_32_step_window simon64_32_new_word_lt i.val
      (by
        have h := i.isLt
        simp only [simon64_32.rounds, simon64_32.key_size] at h ⊢
        omega),
    fun i => simon_expand_recurrence simon72_48.word_size simon72_48.key_size simon72_48.bytes simon72_48.expand_step
      (fun i a _ c => ((((2 ^ simon72_48.word_size - 4) ^^^ ((simon72_48.z_sequence >>> (i % 62)) &&& 1)) ^^^ a)
          ^^^ rotr simon72_48.word_size c 3) ^^^ rotr simon72_48.word_size (rotr simon72_48.word_size c 3) 1)
      (simon72_48.rounds - 1) key ks (by decide) (by decide) (by decide) (by decide)
      simon72_48_step_window simon72_48_new_word_lt i.val
      (by
        have h := i.isLt
        simp only [simon72_48.rounds, simon72_48.key_size] at h ⊢
        omega),
    fun i => simon_expand_recurrence simon128_64.word_size simon128_64.key_size simon128_64.bytes simon128_64.expand_step
      (fun i a b c => ((((2 ^ simon128_64.word_size - 4) ^^^ ((simon128_64.z_sequence >>> (i % 62)) &&& 1)) ^^^ a)
          ^^^ (rotr simon128_64.word_size c 3 ^^^ b)) ^^^ rotr simon128_64.word_size (rotr simon128_64.word_size c 3 ^^^ b) 1)
      (simon128_64.rounds - 1) key ks (by decide) (by decide) (by decide) (by decide)
      simon128_64_step_window simon128_64_new_word_lt i.val
      (by
        have h := i.isLt
        simp only [simon128_64.rounds, simon128_64.key_size] at h ⊢
        omega),
    fun i => simon_expand_recurrence simon144_96.word_size simon144_96.key_size simon144_96.bytes simon144_96.expand_step
      (fun i a _ c => ((((2 ^ simon144_96.word_size - 4) ^^^ ((simon144_96.z_sequence >>> (i % 62)) &&& 1)) ^^^ a)
          ^^^ rotr simon144_96.word_size c 3) ^^^ rotr simon144_96.word_size (rotr simon144_96.word_size c 3) 1)
      (simon144_96.rounds - 1) key ks (by decide) (by decide) (by decide) (by decide)
      simon144_96_step_window simon144_96_new_word_lt i.val
      (by
        have h := i.isLt
        simp only [simon144_96.rounds, simon144_96.key_size] at h ⊢
        omega),
    fun i => simon_expand_recurrence simon128_128.word_size simon128_128.key_size simon128_128.bytes simon128_128.expand_step
      (fun i a _ c => ((((2 ^ simon128_128.word_size - 4) ^^^ ((simon128_128.z_sequence >>> (i % 62)) &&& 1)) ^^^ a)
          ^^^ rotr simon128_128.word_size c 3) ^^^ rotr simon128_128.word_size (rotr simon128_128.word_size c 3) 1)
      (simon128_128.rounds) key ks (by decide) (by decide) (by decide) (by decide)
      simon128_128_step_window simon128_128_new_word_lt i.val
      (by
        have h := i.isLt
        simp only [simon128_128.rounds, simon128_128.key_size] at h ⊢
        omega),
    fun i => simon_expand_recurrence simon192_128.word_size simon192_128.key_size simon192_128.bytes simon192_128.expand_step
      (fun i a _ c => ((((2 ^ simon192_128.word_size - 4) ^^^ ((simon192_128.z_sequence >>> (i % 62)) &&& 1)) ^^^ a)
          ^^^ rotr simon192_128.word_size c 3) ^^^ rotr simon192_128.word_size (rotr simon192_128.word_size c 3) 1)
      (simon192_128.rounds - 1) key ks (by decide) (by decide) (by decide) (by decide)
      simon192_128_step_window simon192_128_new_word_lt i.val
      (by
        have h := i.isLt
        simp only [simon192_128.rounds, simon192_128.key_size] at h ⊢
        omega)⟩

/-! ## Widths of the words -/

/-- A property kept by every pass of a downward loop holds at its end. -/
theorem forDown_inv {σ : Type} (P : σ → Prop) (f : Nat → σ → σ) (n : Nat)
    (hstep : ∀ i s, i < n → P s → P (f i s)) (s : σ) (h0 : P s) : P (forDown f n s) := by
  induction n generalizing s with
  | zero => exact h0
  | succ m ih =>
    exact ih (fun i s hi hp => hstep i s (Nat.lt_succ_of_lt hi) hp) _
      (hstep m s (Nat.lt_succ_self m) h0)

theorem speckDecrypt_lt (w a b : Nat) (K : Nat → Nat) (n : Nat) (p : Nat × Nat)
    (hx : p.1 < 2 ^ w) (hy : p.2 < 2 ^ w) :
    (speckDecrypt w a b K n p).1 < 2 ^ w ∧ (speckDecrypt w a b K n p).2 < 2 ^ w :=
  forUp_inv (fun q : Nat × Nat => q.1 < 2 ^ w ∧ q.2 < 2 ^ w) _ n
    (fun _ _ _ _ => ⟨rotl_lt w _ a, rotr_lt w _ b⟩) p ⟨hx, hy⟩

theorem simonDecrypt_lt (w : Nat) (K : Nat → Nat) (n : Nat) (p : Nat × Nat)
    (hK : ∀ i, K i < 2 ^ w) (hx : p.1 < 2 ^ w) (hy : p.2 < 2 ^ w) :
    (simonDecrypt w K n p).1 < 2 ^ w ∧ (simonDecrypt w K n p).2 < 2 ^ w :=
  forDown_inv (fun q : Nat × Nat => q.1 < 2 ^ w ∧ q.2 < 2 ^ w) _ n
    (fun i q _ hq => simonRound_lt w (K i) q (hK i) hq.1 hq.2) p ⟨hx, hy⟩

/-- A word loaded from `n` bytes is below `2 ^ w` when `w = 8 * n`. -/
theorem loadLE_lt_word (B : Buf) (off n w : Nat) (hw : w = 8 * n) : loadLE B off n < 2 ^ w := by
  rw [hw]
  exact loadLE_lt_two_pow B off n

/-- The window of key words is below `2 ^ w` after the loading loop, when
`bytes` is the byte count of the word. -/
theorem load_keys_lt (key ks : Buf) (bs m w : Nat) (hbs : bs ≤ 8) (hm4 : m ≤ 4)
    (hw : w = 8 * bs) : ∀ j, j < m → (load_keys key ks bs m).keys.get j < 2 ^ w := by
  intro j hj
  rw [load_keys_get key ks bs m j hbs (by omega), if_pos hj]
  exact loadLE_lt_word key (bs * j) bs w hw

/-- The four elements of `keys` are below `2 ^ 64` after the loading loop of
`speck256_128.c`. -/
theorem load_keys_stride12_lt (key ks : Buf) :
    ∀ j, j < 4 → (load_keys key ks 12 4).keys.get j < 2 ^ 64 := by
  intro j hj
  rw [load_keys_stride12]
  have h : j = 0 ∨ j = 1 ∨ j = 2 ∨ j = 3 := by omega
  rcases h with h | h | h | h <;> subst h <;> exact loadLE_lt_two_pow key _ 8

/-- When each pass keeps the window of key words below `2 ^ w`, the word
`keys[0]` is below `2 ^ w` after any number `i ≤ n` of passes, and the `len`
bytes stored at schedule position `i` hold exactly that word. -/
theorem expand_subkey_word (w bs m len : Nat) (step : Nat → Keys → Keys) (n : Nat)
    (key ks : Buf) (hm : 0 < m) (hlen : len ≤ bs) (h8 : len ≤ 8) (hw : w = 8 * len)
    (hstep : ∀ i keys, i < n → (∀ j, j < m → keys.get j < 2 ^ w) →
      ∀ j, j < m → (step i keys).get j < 2 ^ w)
    (h0 : ∀ j, j < m → (load_keys key ks bs m).keys.get j < 2 ^ w) (i : Nat) (hi : i ≤ n) :
    (forUp step i (load_keys key ks bs m).keys).keys0 < 2 ^ w
      ∧ loadLE (expand_loop step bs n (load_keys key ks bs m)).key_schedule (bs * i) len
          = (forUp step i (load_keys key ks bs m).keys).keys0 := by
  have h256 : 256 ^ len = 2 ^ w := by
    rw [hw, show (256 : Nat) = 2 ^ 8 from rfl, ← Nat.pow_mul]
  have hP := forUp_inv (fun k : Keys => ∀ j, j < m → k.get j < 2 ^ w) step i
    (fun t k ht hk => hstep t k (Nat.lt_of_lt_of_le ht hi) hk) _ h0
  have hk0 : (forUp step i (load_keys key ks bs m).keys).keys0 < 2 ^ w := hP 0 hm
  refine ⟨hk0, ?_⟩
  rw [expand_word step bs n m key ks i len hi hlen h8, h256]
  exact Nat.mod_eq_of_lt hk0

/-- A loop body of the Simon kind keeps the window below `2 ^ w`. -/
theorem simon_step_lt (w m : Nat) (step : Nat → Keys → Keys) (G : Nat → Nat → Nat → Nat → Nat)
    (hm : 2 ≤ m)
    (hstep : ∀ i keys, (∀ j, j < m → keys.get j < 2 ^ w) →
      (∀ j, j + 1 < m → (step i keys).get j = keys.get (j + 1))
      ∧ (step i keys).get (m - 1) = G i (keys.get 0) (keys.get 1) (keys.get (m - 1)))
    (hG : ∀ i a b c, a < 2 ^ w → b < 2 ^ w → c < 2 ^ w → G i a b c < 2 ^ w)
    (i : Nat) (keys : Keys) (hk : ∀ j, j < m → keys.get j < 2 ^ w) :
    ∀ j, j < m → (step i keys).get j < 2 ^ w := by
  intro j hj
  obtain ⟨s1, s2⟩ := hstep i keys hk
  by_cases hlast : j + 1 < m
  · rw [s1 j hlast]
    exact hk (j + 1) hlast
  · have e : j = m - 1 := by omega
    rw [e, s2]
    exact hG i _ _ _ (hk 0 (by omega)) (hk 1 (by omega)) (hk (m - 1) (by omega))

/-! ## The loop bodies keep the key words within the word size -/

/-- The loop body of the expansion of `speck64_32` keeps the 4 key words below `2 ^ 16`. -/
theorem speck64_32_step_lt (i : Nat) (keys : Keys) (hi : i < 2 ^ 16)
    (hk : ∀ j, j < 4 → keys.get j < 2 ^ speck64_32.word_size) :
    ∀ j, j < 4 → (speck64_32.expand_step i keys).get j < 2 ^ speck64_32.word_size := by
  intro j hj
  rw [speck64_32_step_keys]
  have h : j = 0 ∨ j = 1 ∨ j = 2 ∨ j = 3 := by omega
  rcases h with h | h | h | h <;> subst h
  · exact Nat.xor_lt_two_pow (rotl_lt 16 _ 2) (Nat.xor_lt_two_pow (Nat.mod_lt _ (Nat.two_pow_pos 16)) hi)
  · exact hk 1 (by decide)
  · exact hk 2 (by decide)
  · exact Nat.xor_lt_two_pow (Nat.mod_lt _ (Nat.two_pow_pos 16)) hi

/-- The loop body of the expansion of `speck72_48` keeps the 3 key words below `2 ^ 24`. -/
theorem speck72_48_step_lt (i : Nat) (keys : Keys)
    (hk : ∀ j, j < 3 → keys.get j < 2 ^ speck72_48.word_size) :
    ∀ j, j < 3 → (speck72_48.expand_step i keys).get j < 2 ^ speck72_48.word_size := by
  intro j hj
  rw [speck72_48_step_keys]
  have h : j = 0 ∨ j = 1 ∨ j = 2 := by omega
  rcases h with h | h | h <;> subst h
  · exact Nat.xor_lt_two_pow (rotl_lt 24 _ 3) (Nat.mod_lt _ (Nat.two_pow_pos 24))
  · exact hk 2 (by decide)
  · exact Nat.mod_lt _ (Nat.two_pow_pos 24)

/-- The loop body of the expansion of `speck96_48` keeps the 4 key words below `2 ^ 24`. -/
theorem speck96_48_step_lt (i : Nat) (keys : Keys)
    (hk : ∀ j, j < 4 → keys.get j < 2 ^ speck96_48.word_size) :
    ∀ j, j < 4 → (speck96_48.expand_step i keys).get j < 2 ^ speck96_48.word_size := by
  intro j hj
  rw [speck96_48_step_keys]
  have h : j = 0 ∨ j = 1 ∨ j = 2 ∨ j = 3 := by omega
  rcases h with h | h | h | h <;> subst h
  · exact Nat.xor_lt_two_pow (rotl_lt 24 _ 3) (Nat.mod_lt _ (Nat.two_pow_pos 24))
  · exact hk 2 (by decide)
  · exact hk 3 (by decide)
  · exact Nat.mod_lt _ (Nat.two_pow_pos 24)

/-- The loop body of the expansion of `speck96_96` keeps the 2 key words below `2 ^ 48`. -/
theorem speck96_96_step_lt (i : Nat) (keys : Keys)
    (_hk : ∀ j, j < 2 → keys.get j < 2 ^ speck96_96.word_size) :
    ∀ j, j < 2 → (speck96_96.expand_step i keys).get j < 2 ^ speck96_96.word_size := by
  intro j hj
  rw [speck96_96_step_keys]
  have h : j = 0 ∨ j = 1 := by omega
  rcases h with h | h <;> subst h
  · exact Nat.xor_lt_two_pow (rotl_lt 48 _ 3) (Nat.mod_lt _ (Nat.two_pow_pos 48))
  · exact Nat.mod_lt _ (Nat.two_pow_pos 48)

/-- The loop body of the expansion of `speck128_64` keeps the 4 key words below `2 ^ 32`. -/
theorem speck128_64_step_lt (i : Nat) (keys : Keys)
    (hk : ∀ j, j < 4 → keys.get j < 2 ^ speck128_64.word_size) :
    ∀ j, j < 4 → (speck128_64.expand_step i keys).get j < 2 ^ speck128_64.word_size := by
  intro j hj
  rw [speck128_64_step_keys]
  have h : j = 0 ∨ j = 1 ∨ j = 2 ∨ j = 3 := by omega
  rcases h with h | h | h | h <;> subst h
  · exact Nat.xor_lt_two_pow (rotl_lt 32 _ 3) (Nat.mod_lt _ (Nat.two_pow_pos 32))
  · exact hk 2 (by decide)
  · exact hk 3 (by decide)
  · exact Nat.mod_lt _ (Nat.two_pow_pos 32)

/-- The loop body of the expansion of `speck128_128` keeps the 2 key words below `2 ^ 64`. -/
theorem speck128_128_step_lt (i : Nat) (keys : Keys)
    (_hk : ∀ j, j < 2 → keys.get j < 2 ^ speck128_128.word_size) :
    ∀ j, j < 2 → (speck128_128.expand_step i keys).get j < 2 ^ speck128_128.word_size := by
  intro j hj
  rw [speck128_128_step_keys]
  have h : j = 0 ∨ j = 1 := by omega
  rcases h with h | h <;> subst h
  · exact Nat.xor_lt_two_pow (rotl_lt 64 _ 3) (Nat.mod_lt _ (Nat.two_pow_pos 64))
  · exact Nat.mod_lt _ (Nat.two_pow_pos 64)

/-- The loop body of the expansion of `speck256_128` keeps the 4 key words below `2 ^ 64`. -/
theorem speck256_128_step_lt (i : Nat) (keys : Keys)
    (hk : ∀ j, j < 4 → keys.get j < 2 ^ speck256_128.word_size) :
    ∀ j, j < 4 → (speck256_128.expand_step i keys).get j < 2 ^ speck256_128.word_size := by
  intro j hj
  rw [speck256_128_step_keys]
  have h : j = 0 ∨ j = 1 ∨ j = 2 ∨ j = 3 := by omega
  rcases h with h | h | h | h <;> subst h
  · exact Nat.xor_lt_two_pow (rotl_lt 64 _ 3) (Nat.mod_lt _ (Nat.two_pow_pos 64))
  · exact hk 2 (by decide)
  · exact hk 3 (by decide)
  · exact Nat.mod_lt _ (Nat.two_pow_pos 64)


/-! ## Blocks in byte buffers -/

/-- A routine whose whole effect is to store a word `a` at offset 0 and a word
`b` at offset `m`, both below `2 ^ w` with `w = 8 * m`: the two words can be
read back and no byte from offset `2 * m` on is changed. -/
theorem block_written (ct : Buf) (m w a b : Nat) (hw : w = 8 * m)
    (ha : a < 2 ^ w) (hb : b < 2 ^ w) :
    loadLE (storeLE (storeLE ct 0 m a) m m b) 0 m = a
      ∧ loadLE (storeLE (storeLE ct 0 m a) m m b) m m = b
      ∧ ∀ j, storeLE (storeLE ct 0 m a) m m b (2 * m + j) = ct (2 * m + j) := by
  have h256 : 256 ^ m = 2 ^ w := by
    rw [hw, show (256 : Nat) = 2 ^ 8 from rfl, ← Nat.pow_mul]
  rw [← h256] at ha hb
  obtain ⟨h1, h2⟩ := load_store_block ct m a b ha hb
  refine ⟨h1, h2, ?_⟩
  intro j
  rw [storeLE_apply_out _ m m b _ (Or.inr (by omega)),
    storeLE_apply_out _ 0 m a _ (Or.inr (by omega))]

/-- Rotating a word below `2 ^ w` by 0 leaves it as it is. -/
theorem rotl_zero (w v : Nat) (hv : v < 2 ^ w) : rotl w v 0 = v := by
  have h := rotl_rotr w v 0 hv (Nat.zero_le w)
  have e : rotr w v 0 = v := by
    apply Nat.eq_of_testBit_eq
    intro i
    rw [testBit_rotr]
    by_cases hi : i < w
    · have h2 : ¬ (w - 0 ≤ i) := by omega
      simp [hi, h2]
    · have h0 : v.testBit i = false := testBit_eq_false_of_lt hv (by omega)
      simp [hi, h0]
  rwa [e] at h

/-- The two rotation macros of the Speck files, computed in an `h`-bit type and
masked with `2 ^ w - 1`, undo each other on a word below `2 ^ w`. -/
theorem c_rotate_identity (h w v r : Nat) (hwh : w ≤ h) (hv : v < 2 ^ w) (hr : r ≤ w) :
    (shl h (((v >>> r) ||| shl h v (w - r)) &&& (2 ^ w - 1)) r
        ||| ((((v >>> r) ||| shl h v (w - r)) &&& (2 ^ w - 1)) >>> (w - r))) &&& (2 ^ w - 1)
      = v := by
  rw [Nat.and_pow_two_sub_one_eq_mod, Nat.and_pow_two_sub_one_eq_mod, c_rotr h w v r hwh,
    c_rotl h w _ r hwh]
  exact rotl_rotr w v r hv hr

/-- The macro `rotate_left` with `r = 0`, masked, leaves a word below `2 ^ w` as it is. -/
theorem c_rotate_left_zero (h w v : Nat) (hwh : w ≤ h) (hv : v < 2 ^ w) :
    (shl h v 0 ||| (v >>> (w - 0))) &&& (2 ^ w - 1) = v := by
  rw [Nat.and_pow_two_sub_one_eq_mod, c_rotl h w v 0 hwh]
  exact rotl_zero w v hv

/-! ## The key expansion reads a fixed number of key bytes -/

/-- With a loop body of the Simon kind, pass `i` stores at schedule position
`i + 1` the word that was `keys[1]` before the pass, and the word that pass `i`
puts in `keys[m - 1]` is stored at schedule position `i + m`. -/
theorem simon_expand_emit (w m bs : Nat) (step : Nat → Keys → Keys)
    (G : Nat → Nat → Nat → Nat → Nat) (n : Nat) (key ks : Buf)
    (hm : 2 ≤ m) (hm4 : m ≤ 4) (hbs : bs ≤ 8) (hw : w = 8 * bs)
    (hstep : ∀ i keys, (∀ j, j < m → keys.get j < 2 ^ w) →
      (∀ j, j + 1 < m → (step i keys).get j = keys.get (j + 1))
      ∧ (step i keys).get (m - 1) = G i (keys.get 0) (keys.get 1) (keys.get (m - 1)))
    (hG : ∀ i a b c, a < 2 ^ w → b < 2 ^ w → c < 2 ^ w → G i a b c < 2 ^ w)
    (i : Nat) :
    (i + 1 ≤ n →
      loadLE (expand_loop step bs n (load_keys key ks bs m)).key_schedule (bs * (i + 1)) bs
        = (forUp step i (load_keys key ks bs m).keys).get 1)
    ∧ (i + m ≤ n →
      loadLE (expand_loop step bs n (load_keys key ks bs m)).key_schedule (bs * (i + m)) bs
        = (step i (forUp step i (load_keys key ks bs m).keys)).get (m - 1)) := by
  have h256 : 256 ^ bs = 2 ^ w := by
    rw [hw, show (256 : Nat) = 2 ^ 8 from rfl, ← Nat.pow_mul]
  have h0 := load_keys_lt key ks bs m w hbs hm4 hw
  have hlt := simon_window_lt w m step G hm hstep hG _ h0
  have hsh := simon_window_shift w m step G hm hstep hG _ h0
  have hword : ∀ p, p ≤ n →
      loadLE (expand_loop step bs n (load_keys key ks bs m)).key_schedule (bs * p) bs
        = (forUp step p (load_keys key ks bs m).keys).get 0 := by
    intro p hp
    rw [expand_word step bs n m key ks p bs hp (Nat.le_refl bs) hbs, h256]
    exact Nat.mod_eq_of_lt (hlt p 0 (by omega))
  constructor
  · intro hi
    rw [hword (i + 1) hi]
    exact hsh 1 i (by omega)
  · intro hi
    rw [hword (i + m) hi, show i + m = (i + 1) + (m - 1) by omega]
    exact hsh (m - 1) (i + 1) (by omega)

/-- The macro `shift_right` followed by `& m`, where `m` is the mask of the
word: the mask applies to the second operand of `|` only, and the result is
still the rotation to the right. -/
theorem c_shift_right_mask (w x r M : Nat) (hM : ∀ t, t &&& M = t % 2 ^ w) (hx : x < 2 ^ w)
    (hw : w ≤ 64) (hr : r ≤ w) :
    (x >>> r) ||| (shl 64 (x &&& ((1 <<< r) - 1)) (w - r) &&& M) = rotr w x r := by
  rw [hM]
  exact c_shift_right_and w x r hx hw hr

/-! ## Claims on the layout of the blocks and on the rounds of the routines -/

/-- Claim C21. In each of the thirteen files, for every schedule, block and
previous content of the output buffer: the word that `encrypt` leaves in the
first `word_size / 8` bytes of the ciphertext is the final `y`, and the word
in the next `word_size / 8` bytes is the final `x`, of the rounds started from
`y` = the first `word_size / 8` bytes of the plaintext and `x` = the next
`word_size / 8` bytes (little-endian); no byte at offset `2 * (word_size / 8)`
or beyond is changed. -/
theorem encrypt_block_layout (ks pt ct : Buf) (u : Locals) :
    (loadLE (speck64_32.encrypt_speck_64_32 ks pt ct) 0 (speck64_32.word_size / 8)
          = (speckEncrypt speck64_32.word_size speck64_32.rotation_alpha speck64_32.rotation_beta
            (fun i => loadLE ks ((speck64_32.word_size / 8) * i) (speck64_32.word_size / 8)) speck64_32.rounds
            (loadLE pt (speck64_32.word_size / 8) (speck64_32.word_size / 8), loadLE pt 0 (speck64_32.word_size / 8))).2
      ∧ loadLE (speck64_32.encrypt_speck_64_32 ks pt ct) (speck64_32.word_size / 8) (speck64_32.word_size / 8)
          = (speckEncrypt speck64_32.word_size speck64_32.rotation_alpha speck64_32.rotation_beta
            (fun i => loadLE ks ((speck64_32.word_size / 8) * i) (speck64_32.word_size / 8)) speck64_32.rounds
            (loadLE pt (speck64_32.word_size / 8) (speck64_32.word_size / 8), loadLE pt 0 (speck64_32.word_size / 8))).1
      ∧ ∀ j, speck64_32.encrypt_speck_64_32 ks pt ct (2 * (speck64_32.word_size / 8) + j) = ct (2 * (speck64_32.word_size / 8) + j))
    ∧ (loadLE (speck72_48.encrypt_speck_72_48 ks pt ct u) 0 (speck72_48.word_size / 8)
          = (speckEncrypt speck72_48.word_size speck72_48.rotation_alpha speck72_48.rotation_beta
            (fun i => loadLE ks ((speck72_48.word_size / 8) * i) (speck72_48.word_size / 8)) speck72_48.rounds
            (loadLE pt (speck72_48.word_size / 8) (speck72_48.word_size / 8), loadLE pt 0 (speck72_48.word_size / 8))).2
      ∧ loadLE (speck72_48.encrypt_speck_72_48 ks pt ct u) (speck72_48.word_size / 8) (speck72_48.word_size / 8)
          = (speckEncrypt speck72_48.word_size speck72_48.rotation_alpha speck72_48.rotation_beta
            (fun i => loadLE ks ((speck72_48.word_size / 8) * i) (speck72_48.word_size / 8)) speck72_48.rounds
            (loadLE pt (speck72_48.word_size / 8) (speck72_48.word_size / 8), loadLE pt 0 (speck72_48.word_size / 8))).1
      ∧ ∀ j, speck72_48.encrypt_speck_72_48 ks pt ct u (2 * (speck72_48.word_size / 8) + j) = ct (2 * (speck72_48.word_size / 8) + j))
    ∧ (loadLE (speck96_48.encrypt_speck_96_48 ks pt ct u) 0 (speck96_48.word_size / 8)
          = (speckEncrypt speck96_48.word_size speck96_48.rotation_alpha speck96_48.rotation_beta
            (fun i => loadLE ks ((speck96_48.word_size / 8) * i) (speck96_48.word_size / 8)) speck96_48.rounds
            (loadLE pt (speck96_48.word_size / 8) (speck96_48.word_size / 8), loadLE pt 0 (speck96_48.word_size / 8))).2
      ∧ loadLE (speck96_48.encrypt_speck_96_48 ks pt ct u) (speck96_48.word_size / 8) (speck96_48.word_size / 8)
          = (speckEncrypt speck96_48.word_size speck96_48.rotation_alpha speck96_48.rotation_beta
            (fun i => loadLE ks ((speck96_48.word_size / 8) * i) (speck96_48.word_size / 8)) speck96_48.rounds
            (loadLE pt (speck96_48.word_size / 8) (speck96_48.word_size / 8), loadLE pt 0 (speck96_48.word_size / 8))).1
      ∧ ∀ j, speck96_48.encrypt_speck_96_48 ks pt ct u (2 * (speck96_48.word_size / 8) + j) = ct (2 * (speck96_48.word_size / 8) + j))
    ∧ (loadLE (speck96_96.encrypt_speck_96_96 ks pt ct u) 0 (speck96_96.word_size / 8)
          = (speckEncrypt speck96_96.word_size speck96_96.rotation_alpha speck96_96.rotation_beta
            (fun i => loadLE ks ((speck96_96.word_size / 8) * i) (speck96_96.word_size / 8)) speck96_96.rounds
            (loadLE pt (speck96_96.word_size / 8) (speck96_96.word_size / 8), loadLE pt 0 (speck96_96.word_size / 8))).2
      ∧ loadLE (speck96_96.encrypt_speck_96_96 ks pt ct u) (speck96_96.word_size / 8) (speck96_96.word_size / 8)
          = (speckEncrypt speck96_96.word_size speck96_96.rotation_alpha speck96_96.rotation_beta
            (fun i => loadLE ks ((speck96_96.word_size / 8) * i) (speck96_96.word_size / 8)) speck96_96.rounds
            (loadLE pt (speck96_96.word_size / 8) (speck96_96.word_size / 8), loadLE pt 0 (speck96_96.word_size / 8))).1
      ∧ ∀ j, speck96_96.encrypt_speck_96_96 ks pt ct u (2 * (speck96_96.word_size / 8) + j) = ct (2 * (speck96_96.word_size / 8) + j))
    ∧ (loadLE (speck128_64.encrypt_speck_128_64 ks pt ct) 0 (speck128_64.word_size / 8)
          = (speckEncrypt speck128_64.word_size speck128_64.rotation_alpha speck128_64.rotation_beta
            (fun i => loadLE ks ((speck128_64.word_size / 8) * i) (speck128_64.word_size / 8)) speck128_64.rounds
            (loadLE pt (speck128_64.word_size / 8) (speck128_64.word_size / 8), loadLE pt 0 (speck128_64.word_size / 8))).2
      ∧ loadLE (speck128_64.encrypt_speck_128_64 ks pt ct) (speck128_64.word_size / 8) (speck128_64.word_size / 8)
          = (speckEncrypt speck128_64.word_size speck128_64.rotation_alpha speck128_64.rotation_beta
            (fun i => loadLE ks ((speck128_64.word_size / 8) * i) (speck128_64.word_size / 8)) speck128_64.rounds
            (loadLE pt (speck128_64.word_size / 8) (speck128_64.word_size / 8), loadLE pt 0 (speck128_64.word_size / 8))).1
      ∧ ∀ j, speck128_64.encrypt_speck_128_64 ks pt ct (2 * (speck128_64.word_size / 8) + j) = ct (2 * (speck128_64.word_size / 8) + j))
    ∧ (loadLE (speck128_128.encrypt_speck_128_128 ks pt ct) 0 (speck128_128.word_size / 8)
          = (speckEncrypt speck128_128.word_size speck128_128.rotation_alpha speck128_128.rotation_beta
            (fun i => loadLE ks ((speck128_128.word_size / 8) * i) (speck128_128.word_size / 8)) speck128_128.rounds
            (loadLE pt (speck128_128.word_size / 8) (speck128_128.word_size / 8), loadLE pt 0 (speck128_128.word_size / 8))).2
      ∧ loadLE (speck128_128.encrypt_speck_128_128 ks pt ct) (speck128_128.word_size / 8) (speck128_128.word_size / 8)
          = (speckEncrypt speck128_128.word_size speck128_128.rotation_alpha speck128_128.rotation_beta
            (fun i => loadLE ks ((speck128_128.word_size / 8) * i) (speck128_128.word_size / 8)) speck128_128.rounds
            (loadLE pt (speck128_128.word_size / 8) (speck128_128.word_size / 8), loadLE pt 0 (speck128_128.word_size / 8))).1
      ∧ ∀ j, speck128_128.encrypt_speck_128_128 ks pt ct (2 * (speck128_128.word_size / 8) + j) = ct (2 * (speck128_128.word_size / 8) + j))
    ∧ (loadLE (speck256_128.encrypt_speck_256_128 ks pt ct) 0 (speck256_128.word_size / 8)
          = (speckEncrypt speck256_128.word_size speck256_128.rotation_alpha speck256_128.rotation_beta
            (fun i => loadLE ks ((speck256_128.word_size / 8) * i) (speck256_128.word_size / 8)) speck256_128.rounds
            (loadLE pt (speck256_128.word_size / 8) (speck256_128.word_size / 8), loadLE pt 0 (speck256_128.word_size / 8))).2
      ∧ loadLE (speck256_128.encrypt_speck_256_128 ks pt ct) (speck256_128.word_size / 8) (speck256_128.word_size / 8)
          = (speckEncrypt speck256_128.word_size speck256_128.rotation_alpha speck256_128.rotation_beta
            (fun i => loadLE ks ((speck256_128.word_size / 8) * i) (speck256_128.word_size / 8)) speck256_128.rounds
            (loadLE pt (speck256_128.word_size / 8) (speck256_128.word_size / 8), loadLE pt 0 (speck256_128.word_size / 8))).1
      ∧ ∀ j, speck256_128.encrypt_speck_256_128 ks pt ct (2 * (speck256_128.word_size / 8) + j) = ct (2 * (speck256_128.word_size / 8) + j))
    ∧ (loadLE (simon64_32.encrypt_simon_64_32 ks pt ct) 0 (simon64_32.word_size / 8)
          = (simonEncrypt simon64_32.word_size
            (fun i => loadLE ks ((simon64_32.word_size / 8) * i) (simon64_32.word_size / 8)) simon64_32.rounds
            (loadLE pt (simon64_32.word_size / 8) (simon64_32.word_size / 8), loadLE pt 0 (simon64_32.word_size / 8))).2
      ∧ loadLE (simon64_32.encrypt_simon_64_32 ks pt ct) (simon64_32.word_size / 8) (simon64_32.word_size / 8)
          = (simonEncrypt simon64_32.word_size
            (fun i => loadLE ks ((simon64_32.word_size / 8) * i) (simon64_32.word_size / 8)) simon64_32.rounds
            (loadLE pt (simon64_32.word_size / 8) (simon64_32.word_size / 8), loadLE pt 0 (simon64_32.word_size / 8))).1
      ∧ ∀ j, simon64_32.encrypt_simon_64_32 ks pt ct (2 * (simon64_32.word_size / 8) + j) = ct (2 * (simon64_32.word_size / 8) + j))
    ∧ (loadLE (simon72_48.encrypt_simon_72_48 ks pt ct u) 0 (simon72_48.word_size / 8)
          = (simonEncrypt simon72_48.word_size
            (fun i => loadLE ks ((simon72_48.word_size / 8) * i) (simon72_48.word_size / 8)) simon72_48.rounds
            (loadLE pt (simon72_48.word_size / 8) (simon72_48.word_size / 8), loadLE pt 0 (simon72_48.word_size / 8))).2
      ∧ loadLE (simon72_48.encrypt_simon_72_48 ks pt ct u) (simon72_48.word_size / 8) (simon72_48.word_size / 8)
          = (simonEncrypt simon72_48.word_size
            (fun i => loadLE ks ((simon72_48.word_size / 8) * i) (simon72_48.word_size / 8)) simon72_48.rounds
            (loadLE pt (simon72_48.word_size / 8) (simon72_48.word_size / 8), loadLE pt 0 (simon72_48.word_size / 8))).1
      ∧ ∀ j, simon72_48.encrypt_simon_72_48 ks pt ct u (2 * (simon72_48.word_size / 8) + j) = ct (2 * (simon72_48.word_size / 8) + j))
    ∧ (loadLE (simon128_64.encrypt_simon_128_64 ks pt ct) 0 (simon128_64.word_size / 8)
          = (simonEncrypt simon128_64.word_size
            (fun i => loadLE ks ((simon128_64.word_size / 8) * i) (simon128_64.word_size / 8)) simon128_64.rounds
            (loadLE pt (simon128_64.word_size / 8) (simon128_64.word_size / 8), loadLE pt 0 (simon128_64.word_size / 8))).2
      ∧ loadLE (simon128_64.encrypt_simon_128_64 ks pt ct) (simon128_64.word_size / 8) (simon128_64.word_size / 8)
          = (simonEncrypt simon128_64.word_size
            (fun i => loadLE ks ((simon128_64.word_size / 8) * i) (simon128_64.word_size / 8)) simon128_64.rounds
            (loadLE pt (simon128_64.word_size / 8) (simon128_64.word_size / 8), loadLE pt 0 (simon128_64.word_size / 8))).1
      ∧ ∀ j, simon128_64.encrypt_simon_128_64 ks pt ct (2 * (simon128_64.word_size / 8) + j) = ct (2 * (simon128_64.word_size / 8) + j))
    ∧ (loadLE (simon144_96.encrypt_simon_144_96 ks pt ct u) 0 (simon144_96.word_size / 8)
          = (simonEncrypt simon144_96.word_size
            (fun i => loadLE ks ((simon144_96.word_size / 8) * i) (simon144_96.word_size / 8)) simon144_96.rounds
            (loadLE pt (simon144_96.word_size / 8) (simon144_96.word_size / 8), loadLE pt 0 (simon144_96.word_size / 8))).2
      ∧ loadLE (simon144_96.encrypt_simon_144_96 ks pt ct u) (simon144_96.word_size / 8) (simon144_96.word_size / 8)
          = (simonEncrypt simon144_96.word_size
            (fun i => loadLE ks ((simon144_96.word_size / 8) * i) (simon144_96.word_size / 8)) simon144_96.rounds
            (loadLE pt (simon144_96.word_size / 8) (simon144_96.word_size / 8), loadLE pt 0 (simon144_96.word_size / 8))).1
      ∧ ∀ j, simon144_96.encrypt_simon_144_96 ks pt ct u (2 * (simon144_96.word_size / 8) + j) = ct (2 * (simon144_96.word_size / 8) + j))
    ∧ (loadLE (simon128_128.encrypt_simon_128_128 ks pt ct) 0 (simon128_128.word_size / 8)
          = (simonEncrypt simon128_128.word_size
            (fun i => loadLE ks ((simon128_128.word_size / 8) * i) (simon128_128.word_size / 8)) simon128_128.rounds
            (loadLE pt (simon128_128.word_size / 8) (simon128_128.word_size / 8), loadLE pt 0 (simon128_128.word_size / 8))).2
      ∧ loadLE (simon128_128.encrypt_simon_128_128 ks pt ct) (simon128_128.word_size / 8) (simon128_128.word_size / 8)
          = (simonEncrypt simon128_128.word_size
            (fun i => loadLE ks ((simon128_128.word_size / 8) * i) (simon128_128.word_size / 8)) simon128_128.rounds
            (loadLE pt (simon128_128.word_size / 8) (simon128_128.word_size / 8), loadLE pt 0 (simon128_128.word_size / 8))).1
      ∧ ∀ j, simon128_128.encrypt_simon_128_128 ks pt ct (2 * (simon128_128.word_size / 8) + j) = ct (2 * (simon128_128.word_size / 8) + j))
    ∧ (loadLE (simon192_128.encrypt_simon_192_128 ks pt ct) 0 (simon192_128.word_size / 8)
          = (simonEncrypt simon192_128.word_size
            (fun i => loadLE ks ((simon192_128.word_size / 8) * i) (simon192_128.word_size / 8)) simon192_128.rounds
            (loadLE pt (simon192_128.word_size / 8) (simon192_128.word_size / 8), loadLE pt 0 (simon192_128.word_size / 8))).2
      ∧ loadLE (simon192_128.encrypt_simon_192_128 ks pt ct) (simon192_128.word_size / 8) (simon192_128.word_size / 8)
          = (simonEncrypt simon192_128.word_size
            (fun i => loadLE ks ((simon192_128.word_size / 8) * i) (simon192_128.word_size / 8)) simon192_128.rounds
            (loadLE pt (simon192_128.word_size / 8) (simon192_128.word_size / 8), loadLE pt 0 (simon192_128.word_size / 8))).1
      ∧ ∀ j, simon192_128.encrypt_simon_192_128 ks pt ct (2 * (simon192_128.word_size / 8) + j) = ct (2 * (simon192_128.word_size / 8) + j)) :=
  ⟨by
      have hb := speckEncrypt_lt 16 7 2 (fun i => loadLE ks (2 * i) 2) 22 (loadLE pt 2 2, loadLE pt 0 2) (fun i => loadLE_lt_word ks (2 * i) 2 16 (by decide))
        (loadLE_lt_word pt 2 2 16 (by decide)) (loadLE_lt_word pt 0 2 16 (by decide))
      have hw := block_written ct 2 16 _ _ (by decide) hb.2 hb.1
      rw [← speck64_32_encrypt_eq ks pt ct] at hw
      exact hw,
    by
      have hb := speckEncrypt_lt 24 8 3 (fun i => loadLE ks (3 * i) 3) 3 (loadLE pt 3 3, loadLE pt 0 3) (fun i => loadLE_lt_word ks (3 * i) 3 24 (by decide))
        (loadLE_lt_word pt 3 3 24 (by decide)) (loadLE_lt_word pt 0 3 24 (by decide))
      have hw := block_written ct 3 24 _ _ (by decide) hb.2 hb.1
      rw [← speck72_48_encrypt_eq ks pt ct u] at hw
      exact hw,
    by
      have hb := speckEncrypt_lt 24 8 3 (fun i => loadLE ks (3 * i) 3) 23 (loadLE pt 3 3, loadLE pt 0 3) (fun i => loadLE_lt_word ks (3 * i) 3 24 (by decide))
        (loadLE_lt_word pt 3 3 24 (by decide)) (loadLE_lt_word pt 0 3 24 (by decide))
      have hw := block_written ct 3 24 _ _ (by decide) hb.2 hb.1
      rw [← speck96_48_encrypt_eq ks pt ct u] at hw
      exact hw,
    by
      have hb := speckEncrypt_lt 48 8 3 (fun i => loadLE ks (6 * i) 6) 28 (loadLE pt 6 6, loadLE pt 0 6) (fun i => loadLE_lt_word ks (6 * i) 6 48 (by decide))
        (loadLE_lt_word pt 6 6 48 (by decide)) (loadLE_lt_word pt 0 6 48 (by decide))
      have hw := block_written ct 6 48 _ _ (by decide) hb.2 hb.1
      rw [← speck96_96_encrypt_eq ks pt ct u] at hw
      exact hw,
    by
      have hb := speckEncrypt_lt 32 8 3 (fun i => loadLE ks (4 * i) 4) 27 (loadLE pt 4 4, loadLE pt 0 4) (fun i => loadLE_lt_word ks (4 * i) 4 32 (by decide))
        (loadLE_lt_word pt 4 4 32 (by decide)) (loadLE_lt_word pt 0 4 32 (by decide))
      have hw := block_written ct 4 32 _ _ (by decide) hb.2 hb.1
      rw [← speck128_64_encrypt_eq ks pt ct] at hw
      exact hw,
    by
      have hb := speckEncrypt_lt 64 8 3 (fun i => loadLE ks (8 * i) 8) 32 (loadLE pt 8 8, loadLE pt 0 8) (fun i => loadLE_lt_word ks (8 * i) 8 64 (by decide))
        (loadLE_lt_word pt 8 8 64 (by decide)) (loadLE_lt_word pt 0 8 64 (by decide))
      have hw := block_written ct 8 64 _ _ (by decide) hb.2 hb.1
      rw [← speck128_128_encrypt_eq ks pt ct] at hw
      exact hw,
    by
      have hb := speckEncrypt_lt 64 8 3 (fun i => loadLE ks (8 * i) 8) 34 (loadLE pt 8 8, loadLE pt 0 8) (fun i => loadLE_lt_word ks (8 * i) 8 64 (by decide))
        (loadLE_lt_word pt 8 8 64 (by decide)) (loadLE_lt_word pt 0 8 64 (by decide))
      have hw := block_written ct 8 64 _ _ (by decide) hb.2 hb.1
      rw [← speck256_128_encrypt_eq ks pt ct] at hw
      exact hw,
    by
      have hb := simonEncrypt_lt 16 (fun i => loadLE ks (2 * i) 2) 32 (loadLE pt 2 2, loadLE pt 0 2) (fun i => loadLE_lt_word ks (2 * i) 2 16 (by decide))
        (loadLE_lt_word pt 2 2 16 (by decide)) (loadLE_lt_word pt 0 2 16 (by decide))
      have hw := block_written ct 2 16 _ _ (by decide) hb.2 hb.1
      rw [← simon64_32_encrypt_eq ks pt ct] at hw
      exact hw,
    by
      have hb := simonEncrypt_lt 24 (fun i => loadLE ks (3 * i) 3) 36 (loadLE pt 3 3, loadLE pt 0 3) (fun i => loadLE_lt_word ks (3 * i) 3 24 (by decide))
        (loadLE_lt_word pt 3 3 24 (by decide)) (loadLE_lt_word pt 0 3 24 (by decide))
      have hw := block_written ct 3 24 _ _ (by decide) hb.2 hb.1
      rw [← simon72_48_encrypt_eq ks pt ct u] at hw
      exact hw,
    by
      have hb := simonEncrypt_lt 32 (fun i => loadLE ks (4 * i) 4) 44 (loadLE pt 4 4, loadLE pt 0 4) (fun i => loadLE_lt_word ks (4 * i) 4 32 (by decide))
        (loadLE_lt_word pt 4 4 32 (by decide)) (loadLE_lt_word pt 0 4 32 (by decide))
      have hw := block_written ct 4 32 _ _ (by decide) hb.2 hb.1
      rw [← simon128_64_encrypt_eq ks pt ct] at hw
      exact hw,
    by
      have hb := simonEncrypt_lt 48 (fun i => loadLE ks (6 * i) 6) 54 (loadLE pt 6 6, loadLE pt 0 6) (fun i => loadLE_lt_word ks (6 * i) 6 48 (by decide))
        (loadLE_lt_word pt 6 6 48 (by decide)) (loadLE_lt_word pt 0 6 48 (by decide))
      have hw := block_written ct 6 48 _ _ (by decide) hb.2 hb.1
      rw [← simon144_96_encrypt_eq ks pt ct u] at hw
      exact hw,
    by
      have hb := simonEncrypt_lt 64 (fun i => loadLE ks (8 * i) 8) 68 (loadLE pt 8 8, loadLE pt 0 8) (fun i => loadLE_lt_word ks (8 * i) 8 64 (by decide))
        (loadLE_lt_word pt 8 8 64 (by decide)) (loadLE_lt_word pt 0 8 64 (by decide))
      have hw := block_written ct 8 64 _ _ (by decide) hb.2 hb.1
      rw [← simon128_128_encrypt_eq ks pt ct] at hw
      exact hw,
    by
      have hb := simonEncrypt_lt 64 (fun i => loadLE ks (8 * i) 8) 69 (loadLE pt 8 8, loadLE pt 0 8) (fun i => loadLE_lt_word ks (8 * i) 8 64 (by decide))
        (loadLE_lt_word pt 8 8 64 (by decide)) (loadLE_lt_word pt 0 8 64 (by decide))
      have hw := block_written ct 8 64 _ _ (by decide) hb.2 hb.1
      rw [← simon192_128_encrypt_eq ks pt ct] at hw
      exact hw⟩

/-- Claim C25. In each of the seven Speck files, for every schedule, block and
output buffer, `encrypt` stores the result of the reference round
`x := ((rotr_w(x, alpha) + y) mod 2^w) xor k_i ; y := rotl_w(y, beta) xor x`
applied for `i = 0, ..., rounds - 1` in that order, with true `w`-bit
rotations, the file's `alpha`, `beta` and `rounds`, and `k_i` the word at byte
offset `(word_size / 8) * i` of the schedule. This includes the 16-bit file,
computed in `int`, and the 24-bit and 48-bit files, computed in wider locals
whose upper bytes are arbitrary at the start (`u`). -/
theorem speck_encrypt_reference_rounds (ks pt ct : Buf) (u : Locals) :
    (speck64_32.encrypt_speck_64_32 ks pt ct
        = storeLE (storeLE ct 0 (speck64_32.word_size / 8)
          (speckEncrypt speck64_32.word_size speck64_32.rotation_alpha speck64_32.rotation_beta
            (fun i => loadLE ks ((speck64_32.word_size / 8) * i) (speck64_32.word_size / 8)) speck64_32.rounds
            (loadLE pt (speck64_32.word_size / 8) (speck64_32.word_size / 8), loadLE pt 0 (speck64_32.word_size / 8))).2) (speck64_32.word_size / 8) (speck64_32.word_size / 8)
          (speckEncrypt speck64_32.word_size speck64_32.rotation_alpha speck64_32.rotation_beta
            (fun i => loadLE ks ((speck64_32.word_size / 8) * i) (speck64_32.word_size / 8)) speck64_32.rounds
            (loadLE pt (speck64_32.word_size / 8) (speck64_32.word_size / 8), loadLE pt 0 (speck64_32.word_size / 8))).1)
    ∧ (speck72_48.encrypt_speck_72_48 ks pt ct u
        = storeLE (storeLE ct 0 (speck72_48.word_size / 8)
          (speckEncrypt speck72_48.word_size speck72_48.rotation_alpha speck72_48.rotation_beta
            (fun i => loadLE ks ((speck72_48.word_size / 8) * i) (speck72_48.word_size / 8)) speck72_48.rounds
            (loadLE pt (speck72_48.word_size / 8) (speck72_48.word_size / 8), loadLE pt 0 (speck72_48.word_size / 8))).2) (speck72_48.word_size / 8) (speck72_48.word_size / 8)
          (speckEncrypt speck72_48.word_size speck72_48.rotation_alpha speck72_48.rotation_beta
            (fun i => loadLE ks ((speck72_48.word_size / 8) * i) (speck72_48.word_size / 8)) speck72_48.rounds
            (loadLE pt (speck72_48.word_size / 8) (speck72_48.word_size / 8), loadLE pt 0 (speck72_48.word_size / 8))).1)
    ∧ (speck96_48.encrypt_speck_96_48 ks pt ct u
        = storeLE (storeLE ct 0 (speck96_48.word_size / 8)
          (speckEncrypt speck96_48.word_size speck96_48.rotation_alpha speck96_48.rotation_beta
            (fun i => loadLE ks ((speck96_48.word_size / 8) * i) (speck96_48.word_size / 8)) speck96_48.rounds
            (loadLE pt (speck96_48.word_size / 8) (speck96_48.word_size / 8), loadLE pt 0 (speck96_48.word_size / 8))).2) (speck96_48.word_size / 8) (speck96_48.word_size / 8)
          (speckEncrypt speck96_48.word_size speck96_48.rotation_alpha speck96_48.rotation_beta
            (fun i => loadLE ks ((speck96_48.word_size / 8) * i) (speck96_48.word_size / 8)) speck96_48.rounds
            (loadLE pt (speck96_48.word_size / 8) (speck96_48.word_size / 8), loadLE pt 0 (speck96_48.word_size / 8))).1)
    ∧ (speck96_96.encrypt_speck_96_96 ks pt ct u
        = storeLE (storeLE ct 0 (speck96_96.word_size / 8)
          (speckEncrypt speck96_96.word_size speck96_96.rotation_alpha speck96_96.rotation_beta
            (fun i => loadLE ks ((speck96_96.word_size / 8) * i) (speck96_96.word_size / 8)) speck96_96.rounds
            (loadLE pt (speck96_96.word_size / 8) (speck96_96.word_size / 8), loadLE pt 0 (speck96_96.word_size / 8))).2) (speck96_96.word_size / 8) (speck96_96.word_size / 8)
          (speckEncrypt speck96_96.word_size speck96_96.rotation_alpha speck96_96.rotation_beta
            (fun i => loadLE ks ((speck96_96.word_size / 8) * i) (speck96_96.word_size / 8)) speck96_96.rounds
            (loadLE pt (speck96_96.word_size / 8) (speck96_96.word_size / 8), loadLE pt 0 (speck96_96.word_size / 8))).1)
    ∧ (speck128_64.encrypt_speck_128_64 ks pt ct
        = storeLE (storeLE ct 0 (speck128_64.word_size / 8)
          (speckEncrypt speck128_64.word_size speck128_64.rotation_alpha speck128_64.rotation_beta
            (fun i => loadLE ks ((speck128_64.word_size / 8) * i) (speck128_64.word_size / 8)) speck128_64.rounds
            (loadLE pt (speck128_64.word_size / 8) (speck128_64.word_size / 8), loadLE pt 0 (speck128_64.word_size / 8))).2) (speck128_64.word_size / 8) (speck128_64.word_size / 8)
          (speckEncrypt speck128_64.word_size speck128_64.rotation_alpha speck128_64.rotation_beta
            (fun i => loadLE ks ((speck128_64.word_size / 8) * i) (speck128_64.word_size / 8)) speck128_64.rounds
            (loadLE pt (speck128_64.word_size / 8) (speck128_64.word_size / 8), loadLE pt 0 (speck128_64.word_size / 8))).1)
    ∧ (speck128_128.encrypt_speck_128_128 ks pt ct
        = storeLE (storeLE ct 0 (speck128_128.word_size / 8)
          (speckEncrypt speck128_128.word_size speck128_128.rotation_alpha speck128_128.rotation_beta
            (fun i => loadLE ks ((speck128_128.word_size / 8) * i) (speck128_128.word_size / 8)) speck128_128.rounds
            (loadLE pt (speck128_128.word_size / 8) (speck128_128.word_size / 8), loadLE pt 0 (speck128_128.word_size / 8))).2) (speck128_128.word_size / 8) (speck128_128.word_size / 8)
          (speckEncrypt speck128_128.word_size speck128_128.rotation_alpha speck128_128.rotation_beta
            (fun i => loadLE ks ((speck128_128.word_size / 8) * i) (speck128_128.word_size / 8)) speck128_128.rounds
            (loadLE pt (speck128_128.word_size / 8) (speck128_128.word_size / 8), loadLE pt 0 (speck128_128.word_size / 8))).1)
    ∧ (speck256_128.encrypt_speck_256_128 ks pt ct
        = storeLE (storeLE ct 0 (speck256_128.word_size / 8)
          (speckEncrypt speck256_128.word_size speck256_128.rotation_alpha speck256_128.rotation_beta
            (fun i => loadLE ks ((speck256_128.word_size / 8) * i) (speck256_128.word_size / 8)) speck256_128.rounds
            (loadLE pt (speck256_128.word_size / 8) (speck256_128.word_size / 8), loadLE pt 0 (speck256_128.word_size / 8))).2) (speck256_128.word_size / 8) (speck256_128.word_size / 8)
          (speckEncrypt speck256_128.word_size speck256_128.rotation_alpha speck256_128.rotation_beta
            (fun i => loadLE ks ((speck256_128.word_size / 8) * i) (speck256_128.word_size / 8)) speck256_128.rounds
            (loadLE pt (speck256_128.word_size / 8) (speck256_128.word_size / 8), loadLE pt 0 (speck256_128.word_size / 8))).1) :=
  ⟨speck64_32_encrypt_eq ks pt ct,
    speck72_48_encrypt_eq ks pt ct u,
    speck96_48_encrypt_eq ks pt ct u,
    speck96_96_encrypt_eq ks pt ct u,
    speck128_64_encrypt_eq ks pt ct,
    speck128_128_encrypt_eq ks pt ct,
    speck256_128_encrypt_eq ks pt ct⟩

/-- Claim C26. In each of the six Simon files, for every schedule, block and
output buffer, `encrypt` stores the result of the reference round
`t := (rotl_w(x,1) and rotl_w(x,8)) xor y xor rotl_w(x,2) ; y := x ; x := t xor k_i`
applied for `i = 0, ..., rounds - 1` in that order, with true `w`-bit
rotations and `k_i` the word at byte offset `(word_size / 8) * i` of the
schedule. This includes the 16-bit file, computed in `int`, and the 24-bit and
48-bit files, computed in 64-bit locals whose upper bytes are arbitrary at the
start (`u`). -/
theorem simon_encrypt_reference_rounds (ks pt ct : Buf) (u : Locals) :
    (simon64_32.encrypt_simon_64_32 ks pt ct
        = storeLE (storeLE ct 0 (simon64_32.word_size / 8)
          (simonEncrypt simon64_32.word_size
            (fun i => loadLE ks ((simon64_32.word_size / 8) * i) (simon64_32.word_size / 8)) simon64_32.rounds
            (loadLE pt (simon64_32.word_size / 8) (simon64_32.word_size / 8), loadLE pt 0 (simon64_32.word_size / 8))).2) (simon64_32.word_size / 8) (simon64_32.word_size / 8)
          (simonEncrypt simon64_32.word_size
            (fun i => loadLE ks ((simon64_32.word_size / 8) * i) (simon64_32.word_size / 8)) simon64_32.rounds
            (loadLE pt (simon64_32.word_size / 8) (simon64_32.word_size / 8), loadLE pt 0 (simon64_32.word_size / 8))).1)
    ∧ (simon72_48.encrypt_simon_72_48 ks pt ct u
        = storeLE (storeLE ct 0 (simon72_48.word_size / 8)
          (simonEncrypt simon72_48.word_size
            (fun i => loadLE ks ((simon72_48.word_size / 8) * i) (simon72_48.word_size / 8)) simon72_48.rounds
            (loadLE pt (simon72_48.word_size / 8) (simon72_48.word_size / 8), loadLE pt 0 (simon72_48.word_size / 8))).2) (simon72_48.word_size / 8) (simon72_48.word_size / 8)
          (simonEncrypt simon72_48.word_size
            (fun i => loadLE ks ((simon72_48.word_size / 8) * i) (simon72_48.word_size / 8)) simon72_48.rounds
            (loadLE pt (simon72_48.word_size / 8) (simon72_48.word_size / 8), loadLE pt 0 (simon72_48.word_size / 8))).1)
    ∧ (simon128_64.encrypt_simon_128_64 ks pt ct
        = storeLE (storeLE ct 0 (simon128_64.word_size / 8)
          (simonEncrypt simon128_64.word_size
            (fun i => loadLE ks ((simon128_64.word_size / 8) * i) (simon128_64.word_size / 8)) simon128_64.rounds
            (loadLE pt (simon128_64.word_size / 8) (simon128_64.word_size / 8), loadLE pt 0 (simon128_64.word_size / 8))).2) (simon128_64.word_size / 8) (simon128_64.word_size / 8)
          (simonEncrypt simon128_64.word_size
            (fun i => loadLE ks ((simon128_64.word_size / 8) * i) (simon128_64.word_size / 8)) simon128_64.rounds
            (loadLE pt (simon128_64.word_size / 8) (simon128_64.word_size / 8), loadLE pt 0 (simon128_64.word_size / 8))).1)
    ∧ (simon144_96.encrypt_simon_144_96 ks pt ct u
        = storeLE (storeLE ct 0 (simon144_96.word_size / 8)
          (simonEncrypt simon144_96.word_size
            (fun i => loadLE ks ((simon144_96.word_size / 8) * i) (simon144_96.word_size / 8)) simon144_96.rounds
            (loadLE pt (simon144_96.word_size / 8) (simon144_96.word_size / 8), loadLE pt 0 (simon144_96.word_size / 8))).2) (simon144_96.word_size / 8) (simon144_96.word_size / 8)
          (simonEncrypt simon144_96.word_size
            (fun i => loadLE ks ((simon144_96.word_size / 8) * i) (simon144_96.word_size / 8)) simon144_96.rounds
            (loadLE pt (simon144_96.word_size / 8) (simon144_96.word_size / 8), loadLE pt 0 (simon144_96.word_size / 8))).1)
    ∧ (simon128_128.encrypt_simon_128_128 ks pt ct
        = storeLE (storeLE ct 0 (simon128_128.word_size / 8)
          (simonEncrypt simon128_128.word_size
            (fun i => loadLE ks ((simon128_128.word_size / 8) * i) (simon128_128.word_size / 8)) simon128_128.rounds
            (loadLE pt (simon128_128.word_size / 8) (simon128_128.word_size / 8), loadLE pt 0 (simon128_128.word_size / 8))).2) (simon128_128.word_size / 8) (simon128_128.word_size / 8)
          (simonEncrypt simon128_128.word_size
            (fun i => loadLE ks ((simon128_128.word_size / 8) * i) (simon128_128.word_size / 8)) simon128_128.rounds
            (loadLE pt (simon128_128.word_size / 8) (simon128_128.word_size / 8), loadLE pt 0 (simon128_128.word_size / 8))).1)
    ∧ (simon192_128.encrypt_simon_192_128 ks pt ct
        = storeLE (storeLE ct 0 (simon192_128.word_size / 8)
          (simonEncrypt simon192_128.word_size
            (fun i => loadLE ks ((simon192_128.word_size / 8) * i) (simon192_128.word_size / 8)) simon192_128.rounds
            (loadLE pt (simon192_128.word_size / 8) (simon192_128.word_size / 8), loadLE pt 0 (simon192_128.word_size / 8))).2) (simon192_128.word_size / 8) (simon192_128.word_size / 8)
          (simonEncrypt simon192_128.word_size
            (fun i => loadLE ks ((simon192_128.word_size / 8) * i) (simon192_128.word_size / 8)) simon192_128.rounds
            (loadLE pt (simon192_128.word_size / 8) (simon192_128.word_size / 8), loadLE pt 0 (simon192_128.word_size / 8))).1) :=
  ⟨simon64_32_encrypt_eq ks pt ct,
    simon72_48_encrypt_eq ks pt ct u,
    simon128_64_encrypt_eq ks pt ct,
    simon144_96_encrypt_eq ks pt ct u,
    simon128_128_encrypt_eq ks pt ct,
    simon192_128_encrypt_eq ks pt ct⟩

/-- Claim C27. In each of the seven Speck files, for every schedule, block and
output buffer, `decrypt` stores the result of the inverse step
`y := y xor x ; y := rotr_w(y, beta) ; x := x xor k_i ; x := (x - y) mod 2^w ; x := rotl_w(x, alpha)`
applied for `i = rounds - 1, ..., 0` in that order (`speckDecrypt` uses
subkey `rounds - 1 - j` at its step `j`); and that step undoes one encryption
round with the same subkey, for all words `x`, `y`, `k` below `2 ^ w`. -/
theorem speck_decrypt_inverse_rounds (ks pt ct : Buf) (u : Locals) :
    (speck64_32.decrypt_speck_64_32 ks pt ct
        = storeLE (storeLE pt 0 (speck64_32.word_size / 8)
          (speckDecrypt speck64_32.word_size speck64_32.rotation_alpha speck64_32.rotation_beta
            (fun i => loadLE ks ((speck64_32.word_size / 8) * i) (speck64_32.word_size / 8)) speck64_32.rounds
            (loadLE ct (speck64_32.word_size / 8) (speck64_32.word_size / 8), loadLE ct 0 (speck64_32.word_size / 8))).2) (speck64_32.word_size / 8) (speck64_32.word_size / 8)
          (speckDecrypt speck64_32.word_size speck64_32.rotation_alpha speck64_32.rotation_beta
            (fun i => loadLE ks ((speck64_32.word_size / 8) * i) (speck64_32.word_size / 8)) speck64_32.rounds
            (loadLE ct (speck64_32.word_size / 8) (speck64_32.word_size / 8), loadLE ct 0 (speck64_32.word_size / 8))).1
      ∧ ∀ x y k : Fin (2 ^ speck64_32.word_size),
          speckRoundInv speck64_32.word_size speck64_32.rotation_alpha speck64_32.rotation_beta k.val
            (speckRound speck64_32.word_size speck64_32.rotation_alpha speck64_32.rotation_beta k.val (x.val, y.val))
            = (x.val, y.val))
    ∧ (speck72_48.decrypt_speck_72_48 ks pt ct u
        = storeLE (storeLE pt 0 (speck72_48.word_size / 8)
          (speckDecrypt speck72_48.word_size speck72_48.rotation_alpha speck72_48.rotation_beta
            (fun i => loadLE ks ((speck72_48.word_size / 8) * i) (speck72_48.word_size / 8)) speck72_48.rounds
            (loadLE ct (speck72_48.word_size / 8) (speck72_48.word_size / 8), loadLE ct 0 (speck72_48.word_size / 8))).2) (speck72_48.word_size / 8) (speck72_48.word_size / 8)
          (speckDecrypt speck72_48.word_size speck72_48.rotation_alpha speck72_48.rotation_beta
            (fun i => loadLE ks ((speck72_48.word_size / 8) * i) (speck72_48.word_size / 8)) speck72_48.rounds
            (loadLE ct (speck72_48.word_size / 8) (speck72_48.word_size / 8), loadLE ct 0 (speck72_48.word_size / 8))).1
      ∧ ∀ x y k : Fin (2 ^ speck72_48.word_size),
          speckRoundInv speck72_48.word_size speck72_48.rotation_alpha speck72_48.rotation_beta k.val
            (speckRound speck72_48.word_size speck72_48.rotation_alpha speck72_48.rotation_beta k.val (x.val, y.val))
            = (x.val, y.val))
    ∧ (speck96_48.decrypt_speck_96_48 ks pt ct u
        = storeLE (storeLE pt 0 (speck96_48.word_size / 8)
          (speckDecrypt speck96_48.word_size speck96_48.rotation_alpha speck96_48.rotation_beta
            (fun i => loadLE ks ((speck96_48.word_size / 8) * i) (speck96_48.word_size / 8)) speck96_48.rounds
            (loadLE ct (speck96_48.word_size / 8) (speck96_48.word_size / 8), loadLE ct 0 (speck96_48.word_size / 8))).2) (speck96_48.word_size / 8) (speck96_48.word_size / 8)
          (speckDecrypt speck96_48.word_size speck96_48.rotation_alpha speck96_48.rotation_beta
            (fun i => loadLE ks ((speck96_48.word_size / 8) * i) (speck96_48.word_size / 8)) speck96_48.rounds
            (loadLE ct (speck96_48.word_size / 8) (speck96_48.word_size / 8), loadLE ct 0 (speck96_48.word_size / 8))).1
      ∧ ∀ x y k : Fin (2 ^ speck96_48.word_size),
          speckRoundInv speck96_48.word_size speck96_48.rotation_alpha speck96_48.rotation_beta k.val
            (speckRound speck96_48.word_size speck96_48.rotation_alpha speck96_48.rotation_beta k.val (x.val, y.val))
            = (x.val, y.val))
    ∧ (speck96_96.decrypt_speck_96_96 ks pt ct u
        = storeLE (storeLE pt 0 (speck96_96.word_size / 8)
          (speckDecrypt speck96_96.word_size speck96_96.rotation_alpha speck96_96.rotation_beta
            (fun i => loadLE ks ((speck96_96.word_size / 8) * i) (speck96_96.word_size / 8)) speck96_96.rounds
            (loadLE ct (speck96_96.word_size / 8) (speck96_96.word_size / 8), loadLE ct 0 (speck96_96.word_size / 8))).2) (speck96_96.word_size / 8) (speck96_96.word_size / 8)
          (speckDecrypt speck96_96.word_size speck96_96.rotation_alpha speck96_96.rotation_beta
            (fun i => loadLE ks ((speck96_96.word_size / 8) * i) (speck96_96.word_size / 8)) speck96_96.rounds
            (loadLE ct (speck96_96.word_size / 8) (speck96_96.word_size / 8), loadLE ct 0 (speck96_96.word_size / 8))).1
      ∧ ∀ x y k : Fin (2 ^ speck96_96.word_size),
          speckRoundInv speck96_96.word_size speck96_96.rotation_alpha speck96_96.rotation_beta k.val
            (speckRound speck96_96.word_size speck96_96.rotation_alpha speck96_96.rotation_beta k.val (x.val, y.val))
            = (x.val, y.val))
    ∧ (speck128_64.decrypt_speck_128_64 ks pt ct
        = storeLE (storeLE pt 0 (speck128_64.word_size / 8)
          (speckDecrypt speck128_64.word_size speck128_64.rotation_alpha speck128_64.rotation_beta
            (fun i => loadLE ks ((speck128_64.word_size / 8) * i) (speck128_64.word_size / 8)) speck128_64.rounds
            (loadLE ct (speck128_64.word_size / 8) (speck128_64.word_size / 8), loadLE ct 0 (speck128_64.word_size / 8))).2) (speck128_64.word_size / 8) (speck128_64.word_size / 8)
          (speckDecrypt speck128_64.word_size speck128_64.rotation_alpha speck128_64.rotation_beta
            (fun i => loadLE ks ((speck128_64.word_size / 8) * i) (speck128_64.word_size / 8)) speck128_64.rounds
            (loadLE ct (speck128_64.word_size / 8) (speck128_64.word_size / 8), loadLE ct 0 (speck128_64.word_size / 8))).1
      ∧ ∀ x y k : Fin (2 ^ speck128_64.word_size),
          speckRoundInv speck128_64.word_size speck128_64.rotation_alpha speck128_64.rotation_beta k.val
            (speckRound speck128_64.word_size speck128_64.rotation_alpha speck128_64.rotation_beta k.val (x.val, y.val))
            = (x.val, y.val))
    ∧ (speck128_128.decrypt_speck_128_128 ks pt ct
        = storeLE (storeLE pt 0 (speck128_128.word_size / 8)
          (speckDecrypt speck128_128.word_size speck128_128.rotation_alpha speck128_128.rotation_beta
            (fun i => loadLE ks ((speck128_128.word_size / 8) * i) (speck128_128.word_size / 8)) speck128_128.rounds
            (loadLE ct (speck128_128.word_size / 8) (speck128_128.word_size / 8), loadLE ct 0 (speck128_128.word_size / 8))).2) (speck128_128.word_size / 8) (speck128_128.word_size / 8)
          (speckDecrypt speck128_128.word_size speck128_128.rotation_alpha speck128_128.rotation_beta
            (fun i => loadLE ks ((speck128_128.word_size / 8) * i) (speck128_128.word_size / 8)) speck128_128.rounds
            (loadLE ct (speck128_128.word_size / 8) (speck128_128.word_size / 8), loadLE ct 0 (speck128_128.word_size / 8))).1
      ∧ ∀ x y k : Fin (2 ^ speck128_128.word_size),
          speckRoundInv speck128_128.word_size speck128_128.rotation_alpha speck128_128.rotation_beta k.val
            (speckRound speck128_128.word_size speck128_128.rotation_alpha speck128_128.rotation_beta k.val (x.val, y.val))
            = (x.val, y.val))
    ∧ (speck256_128.decrypt_speck_256_128 ks pt ct
        = storeLE (storeLE pt 0 (speck256_128.word_size / 8)
          (speckDecrypt speck256_128.word_size speck256_128.rotation_alpha speck256_128.rotation_beta
            (fun i => loadLE ks ((speck256_128.word_size / 8) * i) (speck256_128.word_size / 8)) speck256_128.rounds
            (loadLE ct (speck256_128.word_size / 8) (speck256_128.word_size / 8), loadLE ct 0 (speck256_128.word_size / 8))).2) (speck256_128.word_size / 8) (speck256_128.word_size / 8)
          (speckDecrypt speck256_128.word_size speck256_128.rotation_alpha speck256_128.rotation_beta
            (fun i => loadLE ks ((speck256_128.word_size / 8) * i) (speck256_128.word_size / 8)) speck256_128.rounds
            (loadLE ct (speck256_128.word_size / 8) (speck256_128.word_size / 8), loadLE ct 0 (speck256_128.word_size / 8))).1
      ∧ ∀ x y k : Fin (2 ^ speck256_128.word_size),
          speckRoundInv speck256_128.word_size speck256_128.rotation_alpha speck256_128.rotation_beta k.val
            (speckRound speck256_128.word_size speck256_128.rotation_alpha speck256_128.rotation_beta k.val (x.val, y.val))
            = (x.val, y.val)) :=
  ⟨⟨speck64_32_decrypt_eq ks pt ct,
      fun x y k => speckRoundInv_speckRound 16 7 2 k.val (x.val, y.val) (by decide) (by decide)
        x.isLt y.isLt⟩,
    ⟨speck72_48_decrypt_eq ks pt ct u,
      fun x y k => speckRoundInv_speckRound 24 8 3 k.val (x.val, y.val) (by decide) (by decide)
        x.isLt y.isLt⟩,
    ⟨speck96_48_decrypt_eq ks pt ct u,
      fun x y k => speckRoundInv_speckRound 24 8 3 k.val (x.val, y.val) (by decide) (by decide)
        x.isLt y.isLt⟩,
    ⟨speck96_96_decrypt_eq ks pt ct u,
      fun x y k => speckRoundInv_speckRound 48 8 3 k.val (x.val, y.val) (by decide) (by decide)
        x.isLt y.isLt⟩,
    ⟨speck128_64_decrypt_eq ks pt ct,
      fun x y k => speckRoundInv_speckRound 32 8 3 k.val (x.val, y.val) (by decide) (by decide)
        x.isLt y.isLt⟩,
    ⟨speck128_128_decrypt_eq ks pt ct,
      fun x y k => speckRoundInv_speckRound 64 8 3 k.val (x.val, y.val) (by decide) (by decide)
        x.isLt y.isLt⟩,
    ⟨speck256_128_decrypt_eq ks pt ct,
      fun x y k => speckRoundInv_speckRound 64 8 3 k.val (x.val, y.val) (by decide) (by decide)
        x.isLt y.isLt⟩⟩

set_option maxRecDepth 1000000 in
/-- Counterexample to claim C28. `decrypt_speck_128_128` on an all-zero schedule
and the ciphertext bytes `01 00 ... 00` (first word 1, second word 0) leaves
`0x8155f76f373785b4` in the first word of the output; the inverse rounds
started from `x` = first word and `y` = second word, as the claim has it, would
leave `0xd91442bbab1919f1` there. -/
theorem speck128_128_decrypt_x_first_fails :
    loadLE (speck128_128.decrypt_speck_128_128 zeroBuf zeroBuf (ofBytes [1])) 0 8
        = 0x8155f76f373785b4
    ∧ (speckDecrypt 64 8 3 (fun i => loadLE zeroBuf (8 * i) 8) 32
        (loadLE (ofBytes [1]) 0 8, loadLE (ofBytes [1]) 8 8)).2 = 0xd91442bbab1919f1 := by
  decide

/-- Claim C28, amended. In each of the seven Speck files `decrypt` reads `y` from
the first `word_size / 8` bytes of the ciphertext buffer and `x` from the
following `word_size / 8` bytes, the same order as `encrypt`, and leaves the
final `y` in the first word of the output and the final `x` in the second:
the two output words are those of the inverse rounds started from the pair
`(x, y) = (second word, first word)`. -/
theorem speck_decrypt_read_order (ks pt ct : Buf) (u : Locals) :
    (loadLE (speck64_32.decrypt_speck_64_32 ks pt ct) 0 (speck64_32.word_size / 8)
          = (speckDecrypt speck64_32.word_size speck64_32.rotation_alpha speck64_32.rotation_beta
            (fun i => loadLE ks ((speck64_32.word_size / 8) * i) (speck64_32.word_size / 8)) speck64_32.rounds
            (loadLE ct (speck64_32.word_size / 8) (speck64_32.word_size / 8), loadLE ct 0 (speck64_32.word_size / 8))).2
      ∧ loadLE (speck64_32.decrypt_speck_64_32 ks pt ct) (speck64_32.word_size / 8) (speck64_32.word_size / 8)
          = (speckDecrypt speck64_32.word_size speck64_32.rotation_alpha speck64_32.rotation_beta
            (fun i => loadLE ks ((speck64_32.word_size / 8) * i) (speck64_32.word_size / 8)) speck64_32.rounds
            (loadLE ct (speck64_32.word_size / 8) (speck64_32.word_size / 8), loadLE ct 0 (speck64_32.word_size / 8))).1)
    ∧ (loadLE (speck72_48.decrypt_speck_72_48 ks pt ct u) 0 (speck72_48.word_size / 8)
          = (speckDecrypt speck72_48.word_size speck72_48.rotation_alpha speck72_48.rotation_beta
            (fun i => loadLE ks ((speck72_48.word_size / 8) * i) (speck72_48.word_size / 8)) speck72_48.rounds
            (loadLE ct (speck72_48.word_size / 8) (speck72_48.word_size / 8), loadLE ct 0 (speck72_48.word_size / 8))).2
      ∧ loadLE (speck72_48.decrypt_speck_72_48 ks pt ct u) (speck72_48.word_size / 8) (speck72_48.word_size / 8)
          = (speckDecrypt speck72_48.word_size speck72_48.rotation_alpha speck72_48.rotation_beta
            (fun i => loadLE ks ((speck72_48.word_size / 8) * i) (speck72_48.word_size / 8)) speck72_48.rounds
            (loadLE ct (speck72_48.word_size / 8) (speck72_48.word_size / 8), loadLE ct 0 (speck72_48.word_size / 8))).1)
    ∧ (loadLE (speck96_48.decrypt_speck_96_48 ks pt ct u) 0 (speck96_48.word_size / 8)
          = (speckDecrypt speck96_48.word_size speck96_48.rotation_alpha speck96_48.rotation_beta
            (fun i => loadLE ks ((speck96_48.word_size / 8) * i) (speck96_48.word_size / 8)) speck96_48.rounds
            (loadLE ct (speck96_48.word_size / 8) (speck96_48.word_size / 8), loadLE ct 0 (speck96_48.word_size / 8))).2
      ∧ loadLE (speck96_48.decrypt_speck_96_48 ks pt ct u) (speck96_48.word_size / 8) (speck96_48.word_size / 8)
          = (speckDecrypt speck96_48.word_size speck96_48.rotation_alpha speck96_48.rotation_beta
            (fun i => loadLE ks ((speck96_48.word_size / 8) * i) (speck96_48.word_size / 8)) speck96_48.rounds
            (loadLE ct (speck96_48.word_size / 8) (speck96_48.word_size / 8), loadLE ct 0 (speck96_48.word_size / 8))).1)
    ∧ (loadLE (speck96_96.decrypt_speck_96_96 ks pt ct u) 0 (speck96_96.word_size / 8)
          = (speckDecrypt speck96_96.word_size speck96_96.rotation_alpha speck96_96.rotation_beta
            (fun i => loadLE ks ((speck96_96.word_size / 8) * i) (speck96_96.word_size / 8)) speck96_96.rounds
            (loadLE ct (speck96_96.word_size / 8) (speck96_96.word_size / 8), loadLE ct 0 (speck96_96.word_size / 8))).2
      ∧ loadLE (speck96_96.decrypt_speck_96_96 ks pt ct u) (speck96_96.word_size / 8) (speck96_96.word_size / 8)
          = (speckDecrypt speck96_96.word_size speck96_96.rotation_alpha speck96_96.rotation_beta
            (fun i => loadLE ks ((speck96_96.word_size / 8) * i) (speck96_96.word_size / 8)) speck96_96.rounds
            (loadLE ct (speck96_96.word_size / 8) (speck96_96.word_size / 8), loadLE ct 0 (speck96_96.word_size / 8))).1)
    ∧ (loadLE (speck128_64.decrypt_speck_128_64 ks pt ct) 0 (speck128_64.word_size / 8)
          = (speckDecrypt speck128_64.word_size speck128_64.rotation_alpha speck128_64.rotation_beta
            (fun i => loadLE ks ((speck128_64.word_size / 8) * i) (speck128_64.word_size / 8)) speck128_64.rounds
            (loadLE ct (speck128_64.word_size / 8) (speck128_64.word_size / 8), loadLE ct 0 (speck128_64.word_size / 8))).2
      ∧ loadLE (speck128_64.decrypt_speck_128_64 ks pt ct) (speck128_64.word_size / 8) (speck128_64.word_size / 8)
          = (speckDecrypt speck128_64.word_size speck128_64.rotation_alpha speck128_64.rotation_beta
            (fun i => loadLE ks ((speck128_64.word_size / 8) * i) (speck128_64.word_size / 8)) speck128_64.rounds
            (loadLE ct (speck128_64.word_size / 8) (speck128_64.word_size / 8), loadLE ct 0 (speck128_64.word_size / 8))).1)
    ∧ (loadLE (speck128_128.decrypt_speck_128_128 ks pt ct) 0 (speck128_128.word_size / 8)
          = (speckDecrypt speck128_128.word_size speck128_128.rotation_alpha speck128_128.rotation_beta
            (fun i => loadLE ks ((speck128_128.word_size / 8) * i) (speck128_128.word_size / 8)) speck128_128.rounds
            (loadLE ct (speck128_128.word_size / 8) (speck128_128.word_size / 8), loadLE ct 0 (speck128_128.word_size / 8))).2
      ∧ loadLE (speck128_128.decrypt_speck_128_128 ks pt ct) (speck128_128.word_size / 8) (speck128_128.word_size / 8)
          = (speckDecrypt speck128_128.word_size speck128_128.rotation_alpha speck128_128.rotation_beta
            (fun i => loadLE ks ((speck128_128.word_size / 8) * i) (speck128_128.word_size / 8)) speck128_128.rounds
            (loadLE ct (speck128_128.word_size / 8) (speck128_128.word_size / 8), loadLE ct 0 (speck128_128.word_size / 8))).1)
    ∧ (loadLE (speck256_128.decrypt_speck_256_128 ks pt ct) 0 (speck256_128.word_size / 8)
          = (speckDecrypt speck256_128.word_size speck256_128.rotation_alpha speck256_128.rotation_beta
            (fun i => loadLE ks ((speck256_128.word_size / 8) * i) (speck256_128.word_size / 8)) speck256_128.rounds
            (loadLE ct (speck256_128.word_size / 8) (speck256_128.word_size / 8), loadLE ct 0 (speck256_128.word_size / 8))).2
      ∧ loadLE (speck256_128.decrypt_speck_256_128 ks pt ct) (speck256_128.word_size / 8) (speck256_128.word_size / 8)
          = (speckDecrypt speck256_128.word_size speck256_128.rotation_alpha speck256_128.rotation_beta
            (fun i => loadLE ks ((speck256_128.word_size / 8) * i) (speck256_128.word_size / 8)) speck256_128.rounds
            (loadLE ct (speck256_128.word_size / 8) (speck256_128.word_size / 8), loadLE ct 0 (speck256_128.word_size / 8))).1) :=
  ⟨by
      have hb := speckDecrypt_lt 16 7 2 (fun i => loadLE ks (2 * i) 2) 22 (loadLE ct 2 2, loadLE ct 0 2)
        (loadLE_lt_word ct 2 2 16 (by decide)) (loadLE_lt_word ct 0 2 16 (by decide))
      have hw := block_written pt 2 16 _ _ (by decide) hb.2 hb.1
      rw [← speck64_32_decrypt_eq ks pt ct] at hw
      exact ⟨hw.1, hw.2.1⟩,
    by
      have hb := speckDecrypt_lt 24 8 3 (fun i => loadLE ks (3 * i) 3) 3 (loadLE ct 3 3, loadLE ct 0 3)
        (loadLE_lt_word ct 3 3 24 (by decide)) (loadLE_lt_word ct 0 3 24 (by decide))
      have hw := block_written pt 3 24 _ _ (by decide) hb.2 hb.1
      rw [← speck72_48_decrypt_eq ks pt ct u] at hw
      exact ⟨hw.1, hw.2.1⟩,
    by
      have hb := speckDecrypt_lt 24 8 3 (fun i => loadLE ks (3 * i) 3) 23 (loadLE ct 3 3, loadLE ct 0 3)
        (loadLE_lt_word ct 3 3 24 (by decide)) (loadLE_lt_word ct 0 3 24 (by decide))
      have hw := block_written pt 3 24 _ _ (by decide) hb.2 hb.1
      rw [← speck96_48_decrypt_eq ks pt ct u] at hw
      exact ⟨hw.1, hw.2.1⟩,
    by
      have hb := speckDecrypt_lt 48 8 3 (fun i => loadLE ks (6 * i) 6) 28 (loadLE ct 6 6, loadLE ct 0 6)
        (loadLE_lt_word ct 6 6 48 (by decide)) (loadLE_lt_word ct 0 6 48 (by decide))
      have hw := block_written pt 6 48 _ _ (by decide) hb.2 hb.1
      rw [← speck96_96_decrypt_eq ks pt ct u] at hw
      exact ⟨hw.1, hw.2.1⟩,
    by
      have hb := speckDecrypt_lt 32 8 3 (fun i => loadLE ks (4 * i) 4) 27 (loadLE ct 4 4, loadLE ct 0 4)
        (loadLE_lt_word ct 4 4 32 (by decide)) (loadLE_lt_word ct 0 4 32 (by decide))
      have hw := block_written pt 4 32 _ _ (by decide) hb.2 hb.1
      rw [← speck128_64_decrypt_eq ks pt ct] at hw
      exact ⟨hw.1, hw.2.1⟩,
    by
      have hb := speckDecrypt_lt 64 8 3 (fun i => loadLE ks (8 * i) 8) 32 (loadLE ct 8 8, loadLE ct 0 8)
        (loadLE_lt_word ct 8 8 64 (by decide)) (loadLE_lt_word ct 0 8 64 (by decide))
      have hw := block_written pt 8 64 _ _ (by decide) hb.2 hb.1
      rw [← speck128_128_decrypt_eq ks pt ct] at hw
      exact ⟨hw.1, hw.2.1⟩,
    by
      have hb := speckDecrypt_lt 64 8 3 (fun i => loadLE ks (8 * i) 8) 34 (loadLE ct 8 8, loadLE ct 0 8)
        (loadLE_lt_word ct 8 8 64 (by decide)) (loadLE_lt_word ct 0 8 64 (by decide))
      have hw := block_written pt 8 64 _ _ (by decide) hb.2 hb.1
      rw [← speck256_128_decrypt_eq ks pt ct] at hw
      exact ⟨hw.1, hw.2.1⟩⟩

/-! ## Claims on key lengths, byte packing and the rotation macros -/

/-- The shift `x << r` of C has the value `shl h x r` when the count is below
the width and, for a signed operand, the result is representable. -/
theorem shl_checked_eq (sg : Bool) (h x r : Nat) (hr : r < h)
    (hs : sg = true → x <<< r < 2 ^ (h - 1)) :
    shl_checked sg h x r = some (shl h x r) := by
  unfold shl_checked
  rw [if_pos ⟨hr, hs⟩]

/-- The shift `x >> r` of C has the value of the shift of natural numbers when
the count is below the width. -/
theorem shr_checked_eq (h x r : Nat) (hr : r < h) : shr_checked h x r = some (x >>> r) := by
  unfold shr_checked
  rw [if_pos hr]

/-- A shift by the width of the type or more has no value. -/
theorem shl_checked_none (sg : Bool) (h x r : Nat) (hr : h ≤ r) : shl_checked sg h x r = none := by
  unfold shl_checked
  rw [if_neg (fun hc => absurd hc.1 (Nat.not_lt.mpr hr))]

/-- A shift by the width of the type or more has no value. -/
theorem shr_checked_none (h x r : Nat) (hr : h ≤ r) : shr_checked h x r = none := by
  unfold shr_checked
  rw [if_neg (Nat.not_lt.mpr hr)]

/-- In a type as wide as the word, `rotate_right(x, 0)` shifts left by the width
of the type and has no value. -/
theorem rotate_right_checked_zero_none (sg : Bool) (h x : Nat) :
    rotate_right_checked sg h h x 0 = none := by
  unfold rotate_right_checked
  rw [if_neg (Nat.not_lt_zero h), shl_checked_none sg h x (h - 0) (Nat.le_refl h)]
  cases shr_checked h x 0 <;> rfl

/-- In a type as wide as the word, `rotate_left(x, 0)` shifts right by the width
of the type and has no value. -/
theorem rotate_left_checked_zero_none (sg : Bool) (h x : Nat) :
    rotate_left_checked sg h h x 0 = none := by
  unfold rotate_left_checked
  rw [if_neg (Nat.not_lt_zero h), shr_checked_none h x (h - 0) (Nat.le_refl h)]
  cases shl_checked sg h x 0 <;> rfl

/-- A word below `2 ^ w` shifted left by less than `w` is below `2 ^ (h - 1)`
when `2 * w ≤ h`. -/
theorem shiftLeft_lt_half (h w x c : Nat) (hh : 2 * w ≤ h) (hx : x < 2 ^ w) (hc : c < w) :
    x <<< c < 2 ^ (h - 1) := by
  rw [Nat.shiftLeft_eq]
  calc x * 2 ^ c < 2 ^ w * 2 ^ c := Nat.mul_lt_mul_of_pos_right hx (Nat.two_pow_pos c)
    _ = 2 ^ (w + c) := (Nat.pow_add 2 w c).symm
    _ ≤ 2 ^ (h - 1) := Nat.pow_le_pow_right (by decide) (by omega)

/-- The macro `rotate_right(v, r)` on a word below `2 ^ w`, in a type of `h ≥ w`
bits: C defines both shifts when `0 < r < w`, and also when `r = 0` if the type
is unsigned and wider than the word; for the signed type `2 * w ≤ h` is needed.
The value is then the one of the embedded macro. -/
theorem rotate_right_checked_eq (sg : Bool) (h w v r : Nat) (hwh : w ≤ h)
    (hsg : sg = true → 2 * w ≤ h) (hv : v < 2 ^ w) (hr : r < w)
    (h0 : 0 < r ∨ (sg = false ∧ w < h)) :
    rotate_right_checked sg h w v r = some ((v >>> r) ||| shl h v (w - r)) := by
  unfold rotate_right_checked
  rw [if_neg (by omega), shr_checked_eq h v r (by omega), shl_checked_eq sg h v (w - r)]
  · rcases h0 with h0 | h0 <;> omega
  · intro hs
    rcases h0 with h0 | h0
    · exact shiftLeft_lt_half h w v (w - r) (hsg hs) hv (by omega)
    · rw [h0.1] at hs
      exact absurd hs (by decide)

/-- The macro `rotate_left(v, r)` on a word below `2 ^ w`, in a type of `h ≥ w`
bits: C defines both shifts when `0 < r < w`, and also when `r = 0` if the type
is wider than the word; for the signed type `2 * w ≤ h` is needed. The value is
then the one of the embedded macro. -/
theorem rotate_left_checked_eq (sg : Bool) (h w v r : Nat) (hwh : w ≤ h)
    (hsg : sg = true → 2 * w ≤ h) (hv : v < 2 ^ w) (hr : r < w)
    (h0 : 0 < r ∨ w < h) :
    rotate_left_checked sg h w v r = some (shl h v r ||| (v >>> (w - r))) := by
  unfold rotate_left_checked
  rw [if_neg (by omega), shr_checked_eq h v (w - r) (by omega), shl_checked_eq sg h v r (by omega)]
  intro hs
  exact shiftLeft_lt_half h w v r (hsg hs) hv hr

/-- The two macros on a word below `2 ^ w` with a count for which C defines
every shift: both have the value of the embedded macros, and rotating right,
masking, rotating left and masking gives the word back. -/
theorem c_rotate_checked (sg : Bool) (h w v r : Nat) (hwh : w ≤ h)
    (hsg : sg = true → 2 * w ≤ h) (hv : v < 2 ^ w) (hr : r < w)
    (h0 : 0 < r ∨ (sg = false ∧ w < h)) :
    rotate_right_checked sg h w v r = some ((v >>> r) ||| shl h v (w - r))
    ∧ rotate_left_checked sg h w (((v >>> r) ||| shl h v (w - r)) &&& (2 ^ w - 1)) r
        = some (shl h (((v >>> r) ||| shl h v (w - r)) &&& (2 ^ w - 1)) r
            ||| ((((v >>> r) ||| shl h v (w - r)) &&& (2 ^ w - 1)) >>> (w - r)))
    ∧ (shl h (((v >>> r) ||| shl h v (w - r)) &&& (2 ^ w - 1)) r
        ||| ((((v >>> r) ||| shl h v (w - r)) &&& (2 ^ w - 1)) >>> (w - r))) &&& (2 ^ w - 1)
      = v := by
  refine ⟨rotate_right_checked_eq sg h w v r hwh hsg hv hr h0, ?_,
    c_rotate_identity h w v r hwh hv (Nat.le_of_lt hr)⟩
  apply rotate_left_checked_eq sg h w _ r hwh hsg _ hr
  · rcases h0 with h0 | h0
    · exact Or.inl h0
    · exact Or.inr h0.2
  · rw [Nat.and_pow_two_sub_one_eq_mod]
    exact Nat.mod_lt _ (Nat.two_pow_pos w)

/-- The macro `rotate_left(v, 0)` on a word below `2 ^ w` in a type wider than
the word: C defines both shifts, and the masked value is the word. -/
theorem c_rotate_left_checked_zero (sg : Bool) (h w v : Nat) (hwh : w < h)
    (hsg : sg = true → 2 * w ≤ h) (hv : v < 2 ^ w) (hw : 0 < w) :
    rotate_left_checked sg h w v 0 = some (shl h v 0 ||| (v >>> (w - 0)))
    ∧ (shl h v 0 ||| (v >>> (w - 0))) &&& (2 ^ w - 1) = v :=
  ⟨rotate_left_checked_eq sg h w v 0 (Nat.le_of_lt hwh) hsg hv hw (Or.inr hwh),
    c_rotate_left_zero h w v (Nat.le_of_lt hwh) hv⟩

/-- Counterexample to claim C24. With `r = 0` the macros shift by `word_size`.
In the routines of `speck128_64.c` the operands are `uint32_t` and `word_size`
is 32; in `speck128_128.c` and `speck256_128.c` (routines and key expansion)
they are `uint64_t` and `word_size` is 64: for every `v`,
`rotate_right(v, 0)` contains `v << word_size` and `rotate_left(v, 0)` contains
`v >> word_size`, shifts by the width of the type, which C leaves undefined. In
the routines of `speck64_32.c` the `uint16_t` operand is promoted to `int`, and
`rotate_right(0x8000, 0)` contains `0x8000 << 16`, which is `2 ^ 31` and not
representable in `int`. -/
theorem rotate_by_zero_undefined :
    (∀ v : Nat, rotate_right_checked false 32 speck128_64.word_size v 0 = none
        ∧ rotate_left_checked false 32 speck128_64.word_size v 0 = none)
    ∧ (∀ v : Nat, rotate_right_checked false 64 speck128_128.word_size v 0 = none
        ∧ rotate_left_checked false 64 speck128_128.word_size v 0 = none)
    ∧ (∀ v : Nat, rotate_right_checked false 64 speck256_128.word_size v 0 = none
        ∧ rotate_left_checked false 64 speck256_128.word_size v 0 = none)
    ∧ rotate_right_checked true 32 speck64_32.word_size 0x8000 0 = none :=
  ⟨fun v => ⟨rotate_right_checked_zero_none false 32 v, rotate_left_checked_zero_none false 32 v⟩,
    fun v => ⟨rotate_right_checked_zero_none false 64 v, rotate_left_checked_zero_none false 64 v⟩,
    fun v => ⟨rotate_right_checked_zero_none false 64 v, rotate_left_checked_zero_none false 64 v⟩,
    by decide⟩

/-- Claim C24, amended. For each of the seven Speck files, with `w` its
`word_size` and `M = 2 ^ w - 1`, the macros taken in the integer type of the
routines (`int`, to which the `uint16_t` operands are promoted, in
`speck64_32.c`; `uint32_t` in the 24-bit files and in `speck128_64.c`;
`uint64_t` in the others) and in the `uint64_t` of the key expansion: for every
`v` below `2 ^ w` and every `r` with `0 < r < w` (written `r + 1` with
`r < w - 1`), C defines the shifts of `rotate_right(v, r)` and of
`rotate_left(rotate_right(v, r) & M, r)`, their values are those of the
embedded macros, and `rotate_left(rotate_right(v, r) & M, r) & M = v`. Where
the type is unsigned and wider than the word the same holds for every `r < w`,
`r = 0` included. Where the type is wider than the word, `rotate_left(v, 0)` is
defined and `rotate_left(v, 0) & M = v`. The five word sizes 16, 24, 32, 48 and
64 all occur. -/
theorem rotation_identity_laws :
    (∀ (v : Fin (2 ^ speck64_32.word_size)) (r : Fin (speck64_32.word_size - 1)),
        rotate_right_checked true 32 speck64_32.word_size v.val (r.val + 1) = some (speck64_32.rotate_right 32 v.val (r.val + 1))
        ∧ rotate_left_checked true 32 speck64_32.word_size (speck64_32.rotate_right 32 v.val (r.val + 1) &&& (2 ^ speck64_32.word_size - 1)) (r.val + 1)
            = some (speck64_32.rotate_left 32 (speck64_32.rotate_right 32 v.val (r.val + 1) &&& (2 ^ speck64_32.word_size - 1)) (r.val + 1))
        ∧ speck64_32.rotate_left 32 (speck64_32.rotate_right 32 v.val (r.val + 1) &&& (2 ^ speck64_32.word_size - 1)) (r.val + 1) &&& (2 ^ speck64_32.word_size - 1) = v.val)
    ∧ (∀ v : Fin (2 ^ speck64_32.word_size),
        rotate_left_checked true 32 speck64_32.word_size v.val 0 = some (speck64_32.rotate_left 32 v.val 0)
        ∧ speck64_32.rotate_left 32 v.val 0 &&& (2 ^ speck64_32.word_size - 1) = v.val)
    ∧ (∀ (v : Fin (2 ^ speck64_32.word_size)) (r : Fin speck64_32.word_size),
        rotate_right_checked false 64 speck64_32.word_size v.val r.val = some (speck64_32.rotate_right 64 v.val r.val)
        ∧ rotate_left_checked false 64 speck64_32.word_size (speck64_32.rotate_right 64 v.val r.val &&& (2 ^ speck64_32.word_size - 1)) r.val
            = some (speck64_32.rotate_left 64 (speck64_32.rotate_right 64 v.val r.val &&& (2 ^ speck64_32.word_size - 1)) r.val)
        ∧ speck64_32.rotate_left 64 (speck64_32.rotate_right 64 v.val r.val &&& (2 ^ speck64_32.word_size - 1)) r.val &&& (2 ^ speck64_32.word_size - 1) = v.val)
    ∧ (∀ v : Fin (2 ^ speck64_32.word_size),
        rotate_left_checked false 64 speck64_32.word_size v.val 0 = some (speck64_32.rotate_left 64 v.val 0)
        ∧ speck64_32.rotate_left 64 v.val 0 &&& (2 ^ speck64_32.word_size - 1) = v.val)
    ∧ (∀ (v : Fin (2 ^ speck72_48.word_size)) (r : Fin speck72_48.word_size),
        rotate_right_checked false 32 speck72_48.word_size v.val r.val = some (speck72_48.rotate_right 32 v.val r.val)
        ∧ rotate_left_checked false 32 speck72_48.word_size (speck72_48.rotate_right 32 v.val r.val &&& (2 ^ speck72_48.word_size - 1)) r.val
            = some (speck72_48.rotate_left 32 (speck72_48.rotate_right 32 v.val r.val &&& (2 ^ speck72_48.word_size - 1)) r.val)
        ∧ speck72_48.rotate_left 32 (speck72_48.rotate_right 32 v.val r.val &&& (2 ^ speck72_48.word_size - 1)) r.val &&& (2 ^ speck72_48.word_size - 1) = v.val)
    ∧ (∀ v : Fin (2 ^ speck72_48.word_size),
        rotate_left_checked false 32 speck72_48.word_size v.val 0 = some (speck72_48.rotate_left 32 v.val 0)
        ∧ speck72_48.rotate_left 32 v.val 0 &&& (2 ^ speck72_48.word_size - 1) = v.val)
    ∧ (∀ (v : Fin (2 ^ speck72_48.word_size)) (r : Fin speck72_48.word_size),
        rotate_right_checked false 64 speck72_48.word_size v.val r.val = some (speck72_48.rotate_right 64 v.val r.val)
        ∧ rotate_left_checked false 64 speck72_48.word_size (speck72_48.rotate_right 64 v.val r.val &&& (2 ^ speck72_48.word_size - 1)) r.val
            = some (speck72_48.rotate_left 64 (speck72_48.rotate_right 64 v.val r.val &&& (2 ^ speck72_48.word_size - 1)) r.val)
        ∧ speck72_48.rotate_left 64 (speck72_48.rotate_right 64 v.val r.val &&& (2 ^ speck72_48.word_size - 1)) r.val &&& (2 ^ speck72_48.word_size - 1) = v.val)
    ∧ (∀ v : Fin (2 ^ speck72_48.word_size),
        rotate_left_checked false 64 speck72_48.word_size v.val 0 = some (speck72_48.rotate_left 64 v.val 0)
        ∧ speck72_48.rotate_left 64 v.val 0 &&& (2 ^ speck72_48.word_size - 1) = v.val)
    ∧ (∀ (v : Fin (2 ^ speck96_48.word_size)) (r : Fin speck96_48.word_size),
        rotate_right_checked false 32 speck96_48.word_size v.val r.val = some (speck96_48.rotate_right 32 v.val r.val)
        ∧ rotate_left_checked false 32 speck96_48.word_size (speck96_48.rotate_right 32 v.val r.val &&& (2 ^ speck96_48.word_size - 1)) r.val
            = some (speck96_48.rotate_left 32 (speck96_48.rotate_right 32 v.val r.val &&& (2 ^ speck96_48.word_size - 1)) r.val)
        ∧ speck96_48.rotate_left 32 (speck96_48.rotate_right 32 v.val r.val &&& (2 ^ speck96_48.word_size - 1)) r.val &&& (2 ^ speck96_48.word_size - 1) = v.val)
    ∧ (∀ v : Fin (2 ^ speck96_48.word_size),
        rotate_left_checked false 32 speck96_48.word_size v.val 0 = some (speck96_48.rotate_left 32 v.val 0)
        ∧ speck96_48.rotate_left 32 v.val 0 &&& (2 ^ speck96_48.word_size - 1) = v.val)
    ∧ (∀ (v : Fin (2 ^ speck96_48.word_size)) (r : Fin speck96_48.word_size),
        rotate_right_checked false 64 speck96_48.word_size v.val r.val = some (speck96_48.rotate_right 64 v.val r.val)
        ∧ rotate_left_checked false 64 speck96_48.word_size (speck96_48.rotate_right 64 v.val r.val &&& (2 ^ speck96_48.word_size - 1)) r.val
            = some (speck96_48.rotate_left 64 (speck96_48.rotate_right 64 v.val r.val &&& (2 ^ speck96_48.word_size - 1)) r.val)
        ∧ speck96_48.rotate_left 64 (speck96_48.rotate_right 64 v.val r.val &&& (2 ^ speck96_48.word_size - 1)) r.val &&& (2 ^ speck96_48.word_size - 1) = v.val)
    ∧ (∀ v : Fin (2 ^ speck96_48.word_size),
        rotate_left_checked false 64 speck96_48.word_size v.val 0 = some (speck96_48.rotate_left 64 v.val 0)
        ∧ speck96_48.rotate_left 64 v.val 0 &&& (2 ^ speck96_48.word_size - 1) = v.val)
    ∧ (∀ (v : Fin (2 ^ speck96_96.word_size)) (r : Fin speck96_96.word_size),
        rotate_right_checked false 64 speck96_96.word_size v.val r.val = some (speck96_96.rotate_right 64 v.val r.val)
        ∧ rotate_left_checked false 64 speck96_96.word_size (speck96_96.rotate_right 64 v.val r.val &&& (2 ^ speck96_96.word_size - 1)) r.val
            = some (speck96_96.rotate_left 64 (speck96_96.rotate_right 64 v.val r.val &&& (2 ^ speck96_96.word_size - 1)) r.val)
        ∧ speck96_96.rotate_left 64 (speck96_96.rotate_right 64 v.val r.val &&& (2 ^ speck96_96.word_size - 1)) r.val &&& (2 ^ speck96_96.word_size - 1) = v.val)
    ∧ (∀ v : Fin (2 ^ speck96_96.word_size),
        rotate_left_checked false 64 speck96_96.word_size v.val 0 = some (speck96_96.rotate_left 64 v.val 0)
        ∧ speck96_96.rotate_left 64 v.val 0 &&& (2 ^ speck96_96.word_size - 1) = v.val)
    ∧ (∀ (v : Fin (2 ^ speck128_64.word_size)) (r : Fin (speck128_64.word_size - 1)),
        rotate_right_checked false 32 speck128_64.word_size v.val (r.val + 1) = some (speck128_64.rotate_right 32 v.val (r.val + 1))
        ∧ rotate_left_checked false 32 speck128_64.word_size (speck128_64.rotate_right 32 v.val (r.val + 1) &&& (2 ^ speck128_64.word_size - 1)) (r.val + 1)
            = some (speck128_64.rotate_left 32 (speck128_64.rotate_right 32 v.val (r.val + 1) &&& (2 ^ speck128_64.word_size - 1)) (r.val + 1))
        ∧ speck128_64.rotate_left 32 (speck128_64.rotate_right 32 v.val (r.val + 1) &&& (2 ^ speck128_64.word_size - 1)) (r.val + 1) &&& (2 ^ speck128_64.word_size - 1) = v.val)
    ∧ (∀ (v : Fin (2 ^ speck128_64.word_size)) (r : Fin speck128_64.word_size),
        rotate_right_checked false 64 speck128_64.word_size v.val r.val = some (speck128_64.rotate_right 64 v.val r.val)
        ∧ rotate_left_checked false 64 speck128_64.word_size (speck128_64.rotate_right 64 v.val r.val &&& (2 ^ speck128_64.word_size - 1)) r.val
            = some (speck128_64.rotate_left 64 (speck128_64.rotate_right 64 v.val r.val &&& (2 ^ speck128_64.word_size - 1)) r.val)
        ∧ speck128_64.rotate_left 64 (speck128_64.rotate_right 64 v.val r.val &&& (2 ^ speck128_64.word_size - 1)) r.val &&& (2 ^ speck128_64.word_size - 1) = v.val)
    ∧ (∀ v : Fin (2 ^ speck128_64.word_size),
        rotate_left_checked false 64 speck128_64.word_size v.val 0 = some (speck128_64.rotate_left 64 v.val 0)
        ∧ speck128_64.rotate_left 64 v.val 0 &&& (2 ^ speck128_64.word_size - 1) = v.val)
    ∧ (∀ (v : Fin (2 ^ speck128_128.word_size)) (r : Fin (speck128_128.word_size - 1)),
        rotate_right_checked false 64 speck128_128.word_size v.val (r.val + 1) = some (speck128_128.rotate_right 64 v.val (r.val + 1))
        ∧ rotate_left_checked false 64 speck128_128.word_size (speck128_128.rotate_right 64 v.val (r.val + 1) &&& (2 ^ speck128_128.word_size - 1)) (r.val + 1)
            = some (speck128_128.rotate_left 64 (speck128_128.rotate_right 64 v.val (r.val + 1) &&& (2 ^ speck128_128.word_size - 1)) (r.val + 1))
        ∧ speck128_128.rotate_left 64 (speck128_128.rotate_right 64 v.val (r.val + 1) &&& (2 ^ speck128_128.word_size - 1)) (r.val + 1) &&& (2 ^ speck128_128.word_size - 1) = v.val)
    ∧ (∀ (v : Fin (2 ^ speck256_128.word_size)) (r : Fin (speck256_128.word_size - 1)),
        rotate_right_checked false 64 speck256_128.word_size v.val (r.val + 1) = some (speck256_128.rotate_right 64 v.val (r.val + 1))
        ∧ rotate_left_checked false 64 speck256_128.word_size (speck256_128.rotate_right 64 v.val (r.val + 1) &&& (2 ^ speck256_128.word_size - 1)) (r.val + 1)
            = some (speck256_128.rotate_left 64 (speck256_128.rotate_right 64 v.val (r.val + 1) &&& (2 ^ speck256_128.word_size - 1)) (r.val + 1))
        ∧ speck256_128.rotate_left 64 (speck256_128.rotate_right 64 v.val (r.val + 1) &&& (2 ^ speck256_128.word_size - 1)) (r.val + 1) &&& (2 ^ speck256_128.word_size - 1) = v.val) :=
  ⟨fun v r => c_rotate_checked true 32 16 v.val (r.val + 1) (by decide) (by decide) v.isLt
      (Nat.add_lt_of_lt_sub r.isLt) (Or.inl (Nat.succ_pos r.val)),
    fun v => c_rotate_left_checked_zero true 32 16 v.val (by decide) (by decide) v.isLt (by decide),
    fun v r => c_rotate_checked false 64 16 v.val r.val (by decide) (by decide) v.isLt r.isLt
      (Or.inr ⟨rfl, by decide⟩),
    fun v => c_rotate_left_checked_zero false 64 16 v.val (by decide) (by decide) v.isLt (by decide),
    fun v r => c_rotate_checked false 32 24 v.val r.val (by decide) (by decide) v.isLt r.isLt
      (Or.inr ⟨rfl, by decide⟩),
    fun v => c_rotate_left_checked_zero false 32 24 v.val (by decide) (by decide) v.isLt (by decide),
    fun v r => c_rotate_checked false 64 24 v.val r.val (by decide) (by decide) v.isLt r.isLt
      (Or.inr ⟨rfl, by decide⟩),
    fun v => c_rotate_left_checked_zero false 64 24 v.val (by decide) (by decide) v.isLt (by decide),
    fun v r => c_rotate_checked false 32 24 v.val r.val (by decide) (by decide) v.isLt r.isLt
      (Or.inr ⟨rfl, by decide⟩),
    fun v => c_rotate_left_checked_zero false 32 24 v.val (by decide) (by decide) v.isLt (by decide),
    fun v r => c_rotate_checked false 64 24 v.val r.val (by decide) (by decide) v.isLt r.isLt
      (Or.inr ⟨rfl, by decide⟩),
    fun v => c_rotate_left_checked_zero false 64 24 v.val (by decide) (by decide) v.isLt (by decide),
    fun v r => c_rotate_checked false 64 48 v.val r.val (by decide) (by decide) v.isLt r.isLt
      (Or.inr ⟨rfl, by decide⟩),
    fun v => c_rotate_left_checked_zero false 64 48 v.val (by decide) (by decide) v.isLt (by decide),
    fun v r => c_rotate_checked false 32 32 v.val (r.val + 1) (by decide) (by decide) v.isLt
      (Nat.add_lt_of_lt_sub r.isLt) (Or.inl (Nat.succ_pos r.val)),
    fun v r => c_rotate_checked false 64 32 v.val r.val (by decide) (by decide) v.isLt r.isLt
      (Or.inr ⟨rfl, by decide⟩),
    fun v => c_rotate_left_checked_zero false 64 32 v.val (by decide) (by decide) v.isLt (by decide),
    fun v r => c_rotate_checked false 64 64 v.val (r.val + 1) (by decide) (by decide) v.isLt
      (Nat.add_lt_of_lt_sub r.isLt) (Or.inl (Nat.succ_pos r.val)),
    fun v r => c_rotate_checked false 64 64 v.val (r.val + 1) (by decide) (by decide) v.isLt
      (Nat.add_lt_of_lt_sub r.isLt) (Or.inl (Nat.succ_pos r.val))⟩

/-! ## Claims on the Simon expansion -/

set_option maxRecDepth 1000000 in
/-- Counterexample to claim C29. `expand_simon_64_32` on the key of the file
(master words `0x0100`, `0x0908`, `0x1110`, `0x1918`): the word that pass 0
computes and puts in `keys[3]` is `0x71c3`; the word stored at schedule
position 1 is master word 1, `0x0908`, and `0x71c3` is stored at position 4. -/
theorem simon64_32_new_word_stored_later :
    (simon64_32.expand_step 0
        (load_keys simon64_32.main_encryption_key zeroBuf simon64_32.bytes
          simon64_32.key_size).keys).get (simon64_32.key_size - 1) = 0x71c3
    ∧ loadLE (simon64_32.expand_simon_64_32 simon64_32.main_encryption_key zeroBuf)
        (simon64_32.bytes * (0 + 1)) simon64_32.bytes = 0x0908
    ∧ loadLE (simon64_32.expand_simon_64_32 simon64_32.main_encryption_key zeroBuf)
        (simon64_32.bytes * (0 + simon64_32.key_size)) simon64_32.bytes = 0x71c3 := by
  decide

/-- Claim C29, amended. In each of the six Simon files, for every key and every
previous content of the schedule buffer, with `P` the number of passes of the
expansion loop (`rounds` in `simon64_32.c` and `simon128_128.c`, `rounds - 1`
in the other four): for every pass `i < P`, the word stored at schedule
position `i + 1` is `keys[0]` after the shift of the window, that is the word
that was `keys[1]` before the pass; for every pass `i` with
`i + key_size ≤ P`, the word that pass `i` computes and puts in
`keys[key_size - 1]` is the one found at schedule position `i + key_size`,
`key_size - 1` passes later; and the expansion leaves every byte of the
schedule buffer from position `P + 1` on as it was, so that the words computed
in the last `key_size - 1` passes, whose positions `i + key_size` lie beyond
`P`, are not stored. -/
theorem simon_expand_stored_words (key ks : Buf) :
    (∀ i : Fin (simon64_32.rounds),
        loadLE (simon64_32.expand_simon_64_32 key ks) (simon64_32.bytes * (i.val + 1)) simon64_32.bytes
          = (forUp simon64_32.expand_step i.val (load_keys key ks simon64_32.bytes simon64_32.key_size).keys).get 1)
    ∧ (∀ i : Fin (simon64_32.rounds + 1 - simon64_32.key_size),
        loadLE (simon64_32.expand_simon_64_32 key ks) (simon64_32.bytes * (i.val + simon64_32.key_size)) simon64_32.bytes
          = (simon64_32.expand_step i.val (forUp simon64_32.expand_step i.val (load_keys key ks simon64_32.bytes simon64_32.key_size).keys)).get
              (simon64_32.key_size - 1))
    ∧ (∀ j : Nat, simon64_32.expand_simon_64_32 key ks (simon64_32.bytes * (simon64_32.rounds + 1) + j)
          = ks (simon64_32.bytes * (simon64_32.rounds + 1) + j))
    ∧ (∀ i : Fin (simon72_48.rounds - 1),
        loadLE (simon72_48.expand_simon_72_48 key ks) (simon72_48.bytes * (i.val + 1)) simon72_48.bytes
          = (forUp simon72_48.expand_step i.val (load_keys key ks simon72_48.bytes simon72_48.key_size).keys).get 1)
    ∧ (∀ i : Fin (simon72_48.rounds - 1 + 1 - simon72_48.key_size),
        loadLE (simon72_48.expand_simon_72_48 key ks) (simon72_48.bytes * (i.val + simon72_48.key_size)) simon72_48.bytes
          = (simon72_48.expand_step i.val (forUp simon72_48.expand_step i.val (load_keys key ks simon72_48.bytes simon72_48.key_size).keys)).get
              (simon72_48.key_size - 1))
    ∧ (∀ j : Nat, simon72_48.expand_simon_72_48 key ks (simon72_48.bytes * (simon72_48.rounds - 1 + 1) + j)
          = ks (simon72_48.bytes * (simon72_48.rounds - 1 + 1) + j))
    ∧ (∀ i : Fin (simon128_64.rounds - 1),
        loadLE (simon128_64.expand_simon_128_64 key ks) (simon128_64.bytes * (i.val + 1)) simon128_64.bytes
          = (forUp simon128_64.expand_step i.val (load_keys key ks simon128_64.bytes simon128_64.key_size).keys).get 1)
    ∧ (∀ i : Fin (simon128_64.rounds - 1 + 1 - simon128_64.key_size),
        loadLE (simon128_64.expand_simon_128_64 key ks) (simon128_64.bytes * (i.val + simon128_64.key_size)) simon128_64.bytes
          = (simon128_64.expand_step i.val (forUp simon128_64.expand_step i.val (load_keys key ks simon128_64.bytes simon128_64.key_size).keys)).get
              (simon128_64.key_size - 1))
    ∧ (∀ j : Nat, simon128_64.expand_simon_128_64 key ks (simon128_64.bytes * (simon128_64.rounds - 1 + 1) + j)
          = ks (simon128_64.bytes * (simon128_64.rounds - 1 + 1) + j))
    ∧ (∀ i : Fin (simon144_96.rounds - 1),
        loadLE (simon144_96.expand_simon_144_96 key ks) (simon144_96.bytes * (i.val + 1)) simon144_96.bytes
          = (forUp simon144_96.expand_step i.val (load_keys key ks simon144_96.bytes simon144_96.key_size).keys).get 1)
    ∧ (∀ i : Fin (simon144_96.rounds - 1 + 1 - simon144_96.key_size),
        loadLE (simon144_96.expand_simon_144_96 key ks) (simon144_96.bytes * (i.val + simon144_96.key_size)) simon144_96.bytes
          = (simon144_96.expand_step i.val (forUp simon144_96.expand_step i.val (load_keys key ks simon144_96.bytes simon144_96.key_size).keys)).get
              (simon144_96.key_size - 1))
    ∧ (∀ j : Nat, simon144_96.expand_simon_144_96 key ks (simon144_96.bytes * (simon144_96.rounds - 1 + 1) + j)
          = ks (simon144_96.bytes * (simon144_96.rounds - 1 + 1) + j))
    ∧ (∀ i : Fin (simon128_128.rounds),
        loadLE (simon128_128.expand_simon_128_128 key ks) (simon128_128.bytes * (i.val + 1)) simon128_128.bytes
          = (forUp simon128_128.expand_step i.val (load_keys key ks simon128_128.bytes simon128_128.key_size).keys).get 1)
    ∧ (∀ i : Fin (simon128_128.rounds + 1 - simon128_128.key_size),
        loadLE (simon128_128.expand_simon_128_128 key ks) (simon128_128.bytes * (i.val + simon128_128.key_size)) simon128_128.bytes
          = (simon128_128.expand_step i.val (forUp simon128_128.expand_step i.val (load_keys key ks simon128_128.bytes simon128_128.key_size).keys)).get
              (simon128_128.key_size - 1))
    ∧ (∀ j : Nat, simon128_128.expand_simon_128_128 key ks (simon128_128.bytes * (simon128_128.rounds + 1) + j)
          = ks (simon128_128.bytes * (simon128_128.rounds + 1) + j))
    ∧ (∀ i : Fin (simon192_128.rounds - 1),
        loadLE (simon192_128.expand_simon_192_128 key ks) (simon192_128.bytes * (i.val + 1)) simon192_128.bytes
          = (forUp simon192_128.expand_step i.val (load_keys key ks simon192_128.bytes simon192_128.key_size).keys).get 1)
    ∧ (∀ i : Fin (simon192_128.rounds - 1 + 1 - simon192_128.key_size),
        loadLE (simon192_128.expand_simon_192_128 key ks) (simon192_128.bytes * (i.val + simon192_128.key_size)) simon192_128.bytes
          = (simon192_128.expand_step i.val (forUp simon192_128.expand_step i.val (load_keys key ks simon192_128.bytes simon192_128.key_size).keys)).get
              (simon192_128.key_size - 1))
    ∧ (∀ j : Nat, simon192_128.expand_simon_192_128 key ks (simon192_128.bytes * (simon192_128.rounds - 1 + 1) + j)
          = ks (simon192_128.bytes * (simon192_128.rounds - 1 + 1) + j)) :=
  ⟨fun i => (simon_expand_emit simon64_32.word_size simon64_32.key_size simon64_32.bytes simon64_32.expand_step
      (fun i a b c => ((((2 ^ simon64_32.word_size - 4) ^^^ ((simon64_32.z_sequence >>> (i % 62)) &&& 1)) ^^^ a)
          ^^^ (rotr simon64_32.word_size c 3 ^^^ b)) ^^^ rotr simon64_32.word_size (rotr simon64_32.word_size c 3 ^^^ b) 1)
      (simon64_32.rounds) key ks (by decide) (by decide) (by decide) (by decide)
      simon64_32_step_window simon64_32_new_word_lt i.val).1
      (Nat.succ_le_of_lt i.isLt),
    fun i => (simon_expand_emit simon64_32.word_size simon64_32.key_size simon64_32.bytes simon64_32.expand_step
      (fun i a b c => ((((2 ^ simon64_32.word_size - 4) ^^^ ((simon64_32.z_sequence >>> (i % 62)) &&& 1)) ^^^ a)
          ^^^ (rotr simon64_32.word_size c 3 ^^^ b)) ^^^ rotr simon64_32.word_size (rotr simon64_32.word_size c 3 ^^^ b) 1)
      (simon64_32.rounds) key ks (by decide) (by decide) (by decide) (by decide)
      simon64_32_step_window simon64_32_new_word_lt i.val).2
      (by
        have h := i.isLt
        simp only [simon64_32.rounds, simon64_32.key_size] at h ⊢
        omega),
    fun j => expand_beyond simon64_32.expand_step simon64_32.bytes (simon64_32.rounds) simon64_32.key_size key ks _
      (Nat.le_add_right _ j),
    fun i => (simon_expand_emit simon72_48.word_size simon72_48.key_size simon72_48.bytes simon72_48.expand_step
      (fun i a _ c => ((((2 ^ simon72_48.word_size - 4) ^^^ ((simon72_48.z_sequence >>> (i % 62)) &&& 1)) ^^^ a)
          ^^^ rotr simon72_48.word_size c 3) ^^^ rotr simon72_48.word_size (rotr simon72_48.word_size c 3) 1)
      (simon72_48.rounds - 1) key ks (by decide) (by decide) (by decide) (by decide)
      simon72_48_step_window simon72_48_new_word_lt i.val).1
      (Nat.succ_le_of_lt i.isLt),
    fun i => (simon_expand_emit simon72_48.word_size simon72_48.key_size simon72_48.bytes simon72_48.expand_step
      (fun i a _ c => ((((2 ^ simon72_48.word_size - 4) ^^^ ((simon72_48.z_sequence >>> (i % 62)) &&& 1)) ^^^ a)
          ^^^ rotr simon72_48.word_size c 3) ^^^ rotr simon72_48.word_size (rotr simon72_48.word_size c 3) 1)
      (simon72_48.rounds - 1) key ks (by decide) (by decide) (by decide) (by decide)
      simon72_48_step_window simon72_48_new_word_lt i.val).2
      (by
        have h := i.isLt
        simp only [simon72_48.rounds, simon72_48.key_size] at h ⊢
        omega),
    fun j => expand_beyond simon72_48.expand_step simon72_48.bytes (simon72_48.rounds - 1) simon72_48.key_size key ks _
      (Nat.le_add_right _ j),
    fun i => (simon_expand_emit simon128_64.word_size simon128_64.key_size simon128_64.bytes simon128_64.expand_step
      (fun i a b c => ((((2 ^ simon128_64.word_size - 4) ^^^ ((simon128_64.z_sequence >>> (i % 62)) &&& 1)) ^^^ a)
          ^^^ (rotr simon128_64.word_size c 3 ^^^ b)) ^^^ rotr simon128_64.word_size (rotr simon128_64.word_size c 3 ^^^ b) 1)
      (simon128_64.rounds - 1) key ks (by decide) (by decide) (by decide) (by decide)
      simon128_64_step_window simon128_64_new_word_lt i.val).1
      (Nat.succ_le_of_lt i.isLt),
    fun i => (simon_expand_emit simon128_64.word_size simon128_64.key_size simon128_64.bytes simon128_64.expand_step
      (fun i a b c => ((((2 ^ simon128_64.word_size - 4) ^^^ ((simon128_64.z_sequence >>> (i % 62)) &&& 1)) ^^^ a)
          ^^^ (rotr simon128_64.word_size c 3 ^^^ b)) ^^^ rotr simon128_64.word_size (rotr simon128_64.word_size c 3 ^^^ b) 1)
      (simon128_64.rounds - 1) key ks (by decide) (by decide) (by decide) (by decide)
      simon128_64_step_window simon128_64_new_word_lt i.val).2
      (by
        have h := i.isLt
        simp only [simon128_64.rounds, simon128_64.key_size] at h ⊢
        omega),
    fun j => expand_beyond simon128_64.expand_step simon128_64.bytes (simon128_64.rounds - 1) simon128_64.key_size key ks _
      (Nat.le_add_right _ j),
    fun i => (simon_expand_emit simon144_96.word_size simon144_96.key_size simon144_96.bytes simon144_96.expand_step
      (fun i a _ c => ((((2 ^ simon144_96.word_size - 4) ^^^ ((simon144_96.z_sequence >>> (i % 62)) &&& 1)) ^^^ a)
          ^^^ rotr simon144_96.word_size c 3) ^^^ rotr simon144_96.word_size (rotr simon144_96.word_size c 3) 1)
      (simon144_96.rounds - 1) key ks (by decide) (by decide) (by decide) (by decide)
      simon144_96_step_window simon144_96_new_word_lt i.val).1
      (Nat.succ_le_of_lt i.isLt),
    fun i => (simon_expand_emit simon144_96.word_size simon144_96.key_size simon144_96.bytes simon144_96.expand_step
      (fun i a _ c => ((((2 ^ simon144_96.word_size - 4) ^^^ ((simon144_96.z_sequence >>> (i % 62)) &&& 1)) ^^^ a)
          ^^^ rotr simon144_96.word_size c 3) ^^^ rotr simon144_96.word_size (rotr simon144_96.word_size c 3) 1)
      (simon144_96.rounds - 1) key ks (by decide) (by decide) (by decide) (by decide)
      simon144_96_step_window simon144_96_new_word_lt i.val).2
      (by
        have h := i.isLt
        simp only [simon144_96.rounds, simon144_96.key_size] at h ⊢
        omega),
    fun j => expand_beyond simon144_96.expand_step simon144_96.bytes (simon144_96.rounds - 1) simon144_96.key_size key ks _
      (Nat.le_add_right _ j),
    fun i => (simon_expand_emit simon128_128.word_size simon128_128.key_size simon128_128.bytes simon128_128.expand_step
      (fun i a _ c => ((((2 ^ simon128_128.word_size - 4) ^^^ ((simon128_128.z_sequence >>> (i % 62)) &&& 1)) ^^^ a)
          ^^^ rotr simon128_128.word_size c 3) ^^^ rotr simon128_128.word_size (rotr simon128_128.word_size c 3) 1)
      (simon128_128.rounds) key ks (by decide) (by decide) (by decide) (by decide)
      simon128_128_step_window simon128_128_new_word_lt i.val).1
      (Nat.succ_le_of_lt i.isLt),
    fun i => (simon_expand_emit simon128_128.word_size simon128_128.key_size simon128_128.bytes simon128_128.expand_step
      (fun i a _ c => ((((2 ^ simon128_128.word_size - 4) ^^^ ((simon128_128.z_sequence >>> (i % 62)) &&& 1)) ^^^ a)
          ^^^ rotr simon128_128.word_size c 3) ^^^ rotr simon128_128.word_size (rotr simon128_128.word_size c 3) 1)
      (simon128_128.rounds) key ks (by decide) (by decide) (by decide) (by decide)
      simon128_128_step_window simon128_128_new_word_lt i.val).2
      (by
        have h := i.isLt
        simp only [simon128_128.rounds, simon128_128.key_size] at h ⊢
        omega),
    fun j => expand_beyond simon128_128.expand_step simon128_128.bytes (simon128_128.rounds) simon128_128.key_size key ks _
      (Nat.le_add_right _ j),
    fun i => (simon_expand_emit simon192_128.word_size simon192_128.key_size simon192_128.bytes simon192_128.expand_step
      (fun i a _ c => ((((2 ^ simon192_128.word_size - 4) ^^^ ((simon192_128.z_sequence >>> (i % 62)) &&& 1)) ^^^ a)
          ^^^ rotr simon192_128.word_size c 3) ^^^ rotr simon192_128.word_size (rotr simon192_128.word_size c 3) 1)
      (simon192_128.rounds - 1) key ks (by decide) (by decide) (by decide) (by decide)
      simon192_128_step_window simon192_128_new_word_lt i.val).1
      (Nat.succ_le_of_lt i.isLt),
    fun i => (simon_expand_emit simon192_128.word_size simon192_128.key_size simon192_128.bytes simon192_128.expand_step
      (fun i a _ c => ((((2 ^ simon192_128.word_size - 4) ^^^ ((simon192_128.z_sequence >>> (i % 62)) &&& 1)) ^^^ a)
          ^^^ rotr simon192_128.word_size c 3) ^^^ rotr simon192_128.word_size (rotr simon192_128.word_size c 3) 1)
      (simon192_128.rounds - 1) key ks (by decide) (by decide) (by decide) (by decide)
      simon192_128_step_window simon192_128_new_word_lt i.val).2
      (by
        have h := i.isLt
        simp only [simon192_128.rounds, simon192_128.key_size] at h ⊢
        omega),
    fun j => expand_beyond simon192_128.expand_step simon192_128.bytes (simon192_128.rounds - 1) simon192_128.key_size key ks _
      (Nat.le_add_right _ j)⟩

/-- Claim C30. In each of the six Simon files, for every `v` below
`2 ^ word_size` and `r` equal to 1 or 3: the expansion of the macro
`shift_right(v, r)`, computed in 64 bits, is `v` rotated right by `r` within
`word_size` bits; and so is `shift_right(v, r) & mod_mask`, in which the mask
applies to the second operand of `|` only (`mod_mask` being the constant of
the file, `ULLONG_MAX` in `simon128_128.c`, and `ULLONG_MAX >> (64 - word_size)`
in the files that declare it so). -/
theorem simon_shift_right_is_rotation :
    (∀ v : Fin (2 ^ simon64_32.word_size),
        simon64_32.shift_right 64 v.val 1 = rotr simon64_32.word_size v.val 1
        ∧ simon64_32.shift_right 64 v.val 3 = rotr simon64_32.word_size v.val 3
        ∧ simon64_32.shift_right_and 64 v.val 1 (ULLONG_MAX >>> (64 - simon64_32.word_size)) = rotr simon64_32.word_size v.val 1
        ∧ simon64_32.shift_right_and 64 v.val 3 (ULLONG_MAX >>> (64 - simon64_32.word_size)) = rotr simon64_32.word_size v.val 3)
    ∧ (∀ v : Fin (2 ^ simon72_48.word_size),
        simon72_48.shift_right 64 v.val 1 = rotr simon72_48.word_size v.val 1
        ∧ simon72_48.shift_right 64 v.val 3 = rotr simon72_48.word_size v.val 3
        ∧ simon72_48.shift_right_and 64 v.val 1 simon72_48.mod_mask = rotr simon72_48.word_size v.val 1
        ∧ simon72_48.shift_right_and 64 v.val 3 simon72_48.mod_mask = rotr simon72_48.word_size v.val 3)
    ∧ (∀ v : Fin (2 ^ simon128_64.word_size),
        simon128_64.shift_right 64 v.val 1 = rotr simon128_64.word_size v.val 1
        ∧ simon128_64.shift_right 64 v.val 3 = rotr simon128_64.word_size v.val 3
        ∧ simon128_64.shift_right_and 64 v.val 1 (ULLONG_MAX >>> (64 - simon128_64.word_size)) = rotr simon128_64.word_size v.val 1
        ∧ simon128_64.shift_right_and 64 v.val 3 (ULLONG_MAX >>> (64 - simon128_64.word_size)) = rotr simon128_64.word_size v.val 3)
    ∧ (∀ v : Fin (2 ^ simon144_96.word_size),
        simon144_96.shift_right 64 v.val 1 = rotr simon144_96.word_size v.val 1
        ∧ simon144_96.shift_right 64 v.val 3 = rotr simon144_96.word_size v.val 3
        ∧ simon144_96.shift_right_and 64 v.val 1 simon144_96.mod_mask = rotr simon144_96.word_size v.val 1
        ∧ simon144_96.shift_right_and 64 v.val 3 simon144_96.mod_mask = rotr simon144_96.word_size v.val 3)
    ∧ (∀ v : Fin (2 ^ simon128_128.word_size),
        simon128_128.shift_right 64 v.val 1 = rotr simon128_128.word_size v.val 1
        ∧ simon128_128.shift_right 64 v.val 3 = rotr simon128_128.word_size v.val 3
        ∧ simon128_128.shift_right_and 64 v.val 1 ULLONG_MAX = rotr simon128_128.word_size v.val 1
        ∧ simon128_128.shift_right_and 64 v.val 3 ULLONG_MAX = rotr simon128_128.word_size v.val 3)
    ∧ (∀ v : Fin (2 ^ simon192_128.word_size),
        simon192_128.shift_right 64 v.val 1 = rotr simon192_128.word_size v.val 1
        ∧ simon192_128.shift_right 64 v.val 3 = rotr simon192_128.word_size v.val 3
        ∧ simon192_128.shift_right_and 64 v.val 1 (ULLONG_MAX >>> (64 - simon192_128.word_size)) = rotr simon192_128.word_size v.val 1
        ∧ simon192_128.shift_right_and 64 v.val 3 (ULLONG_MAX >>> (64 - simon192_128.word_size)) = rotr simon192_128.word_size v.val 3) :=
  ⟨fun v => ⟨c_shift_right 16 v.val 1 v.isLt (by decide) (by decide),
      c_shift_right 16 v.val 3 v.isLt (by decide) (by decide),
      c_shift_right_mask 16 v.val 1 _ (fun t => and_mask t 16 (by decide)) v.isLt (by decide) (by decide),
      c_shift_right_mask 16 v.val 3 _ (fun t => and_mask t 16 (by decide)) v.isLt (by decide) (by decide)⟩,
    fun v => ⟨c_shift_right 24 v.val 1 v.isLt (by decide) (by decide),
      c_shift_right 24 v.val 3 v.isLt (by decide) (by decide),
      c_shift_right_mask 24 v.val 1 _ and_mask24 v.isLt (by decide) (by decide),
      c_shift_right_mask 24 v.val 3 _ and_mask24 v.isLt (by decide) (by decide)⟩,
    fun v => ⟨c_shift_right 32 v.val 1 v.isLt (by decide) (by decide),
      c_shift_right 32 v.val 3 v.isLt (by decide) (by decide),
      c_shift_right_mask 32 v.val 1 _ (fun t => and_mask t 32 (by decide)) v.isLt (by decide) (by decide),
      c_shift_right_mask 32 v.val 3 _ (fun t => and_mask t 32 (by decide)) v.isLt (by decide) (by decide)⟩,
    fun v => ⟨c_shift_right 48 v.val 1 v.isLt (by decide) (by decide),
      c_shift_right 48 v.val 3 v.isLt (by decide) (by decide),
      c_shift_right_mask 48 v.val 1 _ and_mask48 v.isLt (by decide) (by decide),
      c_shift_right_mask 48 v.val 3 _ and_mask48 v.isLt (by decide) (by decide)⟩,
    fun v => ⟨c_shift_right 64 v.val 1 v.isLt (by decide) (by decide),
      c_shift_right 64 v.val 3 v.isLt (by decide) (by decide),
      c_shift_right_mask 64 v.val 1 _ and_ullong_max v.isLt (by decide) (by decide),
      c_shift_right_mask 64 v.val 3 _ and_ullong_max v.isLt (by decide) (by decide)⟩,
    fun v => ⟨c_shift_right 64 v.val 1 v.isLt (by decide) (by decide),
      c_shift_right 64 v.val 3 v.isLt (by decide) (by decide),
      c_shift_right_mask 64 v.val 1 _ (fun t => and_mask t 64 (by decide)) v.isLt (by decide) (by decide),
      c_shift_right_mask 64 v.val 3 _ (fun t => and_mask t 64 (by decide)) v.isLt (by decide) (by decide)⟩⟩

/-! ## Encryption after decryption -/

/-- An upward loop undoes a downward loop whose passes it undoes one by one. -/
theorem forUp_forDown {σ τ : Type} (P : σ → Prop) (g : σ → τ) (e : Nat → τ → τ)
    (d : Nat → σ → σ) (n : Nat)
    (hP : ∀ i s, i < n → P s → P (d i s))
    (hinv : ∀ i s, i < n → P s → e i (g (d i s)) = g s) (s : σ) (h0 : P s) :
    forUp e n (g (forDown d n s)) = g s := by
  induction n generalizing s with
  | zero => rfl
  | succ m ih =>
    show e m (forUp e m (g (forDown d m (d m s)))) = g s
    rw [ih (fun i s hi hp => hP i s (Nat.lt_succ_of_lt hi) hp)
      (fun i s hi hp => hinv i s (Nat.lt_succ_of_lt hi) hp) (d m s)
      (hP m s (Nat.lt_succ_self m) h0)]
    exact hinv m s (Nat.lt_succ_self m) h0

/-- Adding back what was subtracted, modulo `2 ^ w`. -/
theorem add_sub_cancel_mod (w a b : Nat) (ha : a < 2 ^ w) : (sub w a b + b) % 2 ^ w = a := by
  unfold sub
  have hposw : (0 : Int) < (2 : Int) ^ w := by positivity
  have h1 := Int.emod_nonneg ((a : Int) - (b : Int)) (ne_of_gt hposw)
  apply Int.ofNat.inj
  show ((((((a : Int) - (b : Int)) % (2 : Int) ^ w).toNat + b) % 2 ^ w : Nat) : Int) = (a : Int)
  push_cast
  rw [Int.toNat_of_nonneg h1, Int.emod_add_emod, Int.sub_add_cancel]
  exact Int.emod_eq_of_lt (by omega) (by exact_mod_cast ha)

/-- A Speck encryption round undoes the Speck decryption step. -/
theorem speckRound_speckRoundInv (w a b k : Nat) (p : Nat × Nat) (ha : a ≤ w) (hb : b ≤ w)
    (hk : k < 2 ^ w) (hx : p.1 < 2 ^ w) (hy : p.2 < 2 ^ w) :
    speckRound w a b k (speckRoundInv w a b k p) = p := by
  obtain ⟨x, y⟩ := p
  simp only [speckRound, speckRoundInv] at *
  have hxy : y ^^^ x < 2 ^ w := Nat.xor_lt_two_pow hy hx
  have hxk : x ^^^ k < 2 ^ w := Nat.xor_lt_two_pow hx hk
  rw [rotr_rotl w _ a (sub_lt w _ _) ha, add_sub_cancel_mod w _ _ hxk, xor_cancel_right,
    rotl_rotr w _ b hxy hb, xor_cancel_right]

theorem speckEncrypt_speckDecrypt (w a b : Nat) (K : Nat → Nat) (n : Nat) (p : Nat × Nat)
    (ha : a ≤ w) (hb : b ≤ w) (hK : ∀ i, K i < 2 ^ w) (hx : p.1 < 2 ^ w) (hy : p.2 < 2 ^ w) :
    speckEncrypt w a b K n (speckDecrypt w a b K n p) = p := by
  unfold speckDecrypt speckEncrypt
  rw [forUp_reverse (fun j => speckRoundInv w a b (K j)) n p]
  exact forUp_forDown (fun q : Nat × Nat => q.1 < 2 ^ w ∧ q.2 < 2 ^ w) id
    (fun i => speckRound w a b (K i)) (fun j => speckRoundInv w a b (K j)) n
    (fun _ _ _ _ => ⟨rotl_lt w _ a, rotr_lt w _ b⟩)
    (fun i q _ hq => speckRound_speckRoundInv w a b (K i) q ha hb (hK i) hq.1 hq.2) p ⟨hx, hy⟩

theorem simonEncrypt_simonDecrypt (w : Nat) (K : Nat → Nat) (n : Nat) (p : Nat × Nat) :
    simonEncrypt w K n (Prod.swap (simonDecrypt w K n p)) = Prod.swap p := by
  unfold simonDecrypt simonEncrypt
  exact forUp_forDown (fun _ : Nat × Nat => True) Prod.swap
    (fun i => simonRound w (K i)) (fun j => simonRound w (K j)) n
    (fun _ _ _ _ => trivial)
    (fun i q _ _ => simonRound_swap_simonRound w (K i) q) p trivial

/-- Encrypting the stored Speck decryption of a block gives the bytes of the
ciphertext back. -/
theorem speck_block_round_trip_back (w a b n m : Nat) (hw : w = 8 * m) (ha : a ≤ w)
    (hb : b ≤ w) (K : Nat → Nat) (hK : ∀ i, K i < 2 ^ w) (ct pt0 ct0 : Buf) (j : Nat)
    (hj : j < 2 * m) :
    storeLE (storeLE ct0 0 m
      (speckEncrypt w a b K n
        (loadLE (storeLE (storeLE pt0 0 m
            (speckDecrypt w a b K n (loadLE ct m m, loadLE ct 0 m)).2) m m
            (speckDecrypt w a b K n (loadLE ct m m, loadLE ct 0 m)).1) m m,
         loadLE (storeLE (storeLE pt0 0 m
            (speckDecrypt w a b K n (loadLE ct m m, loadLE ct 0 m)).2) m m
            (speckDecrypt w a b K n (loadLE ct m m, loadLE ct 0 m)).1) 0 m)).2) m m
      (speckEncrypt w a b K n
        (loadLE (storeLE (storeLE pt0 0 m
            (speckDecrypt w a b K n (loadLE ct m m, loadLE ct 0 m)).2) m m
            (speckDecrypt w a b K n (loadLE ct m m, loadLE ct 0 m)).1) m m,
         loadLE (storeLE (storeLE pt0 0 m
            (speckDecrypt w a b K n (loadLE ct m m, loadLE ct 0 m)).2) m m
            (speckDecrypt w a b K n (loadLE ct m m, loadLE ct 0 m)).1) 0 m)).1 j
      = ct j % 256 := by
  have hx : loadLE ct m m < 2 ^ w := loadLE_lt_word ct m m w hw
  have hy : loadLE ct 0 m < 2 ^ w := loadLE_lt_word ct 0 m w hw
  have hD := speckDecrypt_lt w a b K n (loadLE ct m m, loadLE ct 0 m) hx hy
  obtain ⟨l1, l2, _⟩ := block_written pt0 m w
    (speckDecrypt w a b K n (loadLE ct m m, loadLE ct 0 m)).2
    (speckDecrypt w a b K n (loadLE ct m m, loadLE ct 0 m)).1 hw hD.2 hD.1
  rw [l1, l2, speckEncrypt_speckDecrypt w a b K n _ ha hb hK hx hy]
  exact store_load_block ct0 ct m j hj

/-- Encrypting the stored Simon decryption of a block gives the bytes of the
ciphertext back. -/
theorem simon_block_round_trip_back (w n m : Nat) (hw : w = 8 * m)
    (K : Nat → Nat) (hK : ∀ i, K i < 2 ^ w) (ct pt0 ct0 : Buf) (j : Nat)
    (hj : j < 2 * m) :
    storeLE (storeLE ct0 0 m
      (simonEncrypt w K n
        (loadLE (storeLE (storeLE pt0 0 m
            (simonDecrypt w K n (loadLE ct 0 m, loadLE ct m m)).1) m m
            (simonDecrypt w K n (loadLE ct 0 m, loadLE ct m m)).2) m m,
         loadLE (storeLE (storeLE pt0 0 m
            (simonDecrypt w K n (loadLE ct 0 m, loadLE ct m m)).1) m m
            (simonDecrypt w K n (loadLE ct 0 m, loadLE ct m m)).2) 0 m)).2) m m
      (simonEncrypt w K n
        (loadLE (storeLE (storeLE pt0 0 m
            (simonDecrypt w K n (loadLE ct 0 m, loadLE ct m m)).1) m m
            (simonDecrypt w K n (loadLE ct 0 m, loadLE ct m m)).2) m m,
         loadLE (storeLE (storeLE pt0 0 m
            (simonDecrypt w K n (loadLE ct 0 m, loadLE ct m m)).1) m m
            (simonDecrypt w K n (loadLE ct 0 m, loadLE ct m m)).2) 0 m)).1 j
      = ct j % 256 := by
  have hx : loadLE ct 0 m < 2 ^ w := loadLE_lt_word ct 0 m w hw
  have hy : loadLE ct m m < 2 ^ w := loadLE_lt_word ct m m w hw
  have hD := simonDecrypt_lt w K n (loadLE ct 0 m, loadLE ct m m) hK hx hy
  obtain ⟨l1, l2, _⟩ := block_written pt0 m w
    (simonDecrypt w K n (loadLE ct 0 m, loadLE ct m m)).1
    (simonDecrypt w K n (loadLE ct 0 m, loadLE ct m m)).2 hw hD.1 hD.2
  rw [l1, l2]
  have e := simonEncrypt_simonDecrypt w K n (loadLE ct 0 m, loadLE ct m m)
  simp only [Prod.swap] at e
  rw [e]
  exact store_load_block ct0 ct m j hj

/-! ## Reversed schedules and swapped blocks -/

theorem loadLE_reverseSchedule (ks : Buf) (m n i : Nat) :
    loadLE (reverseSchedule ks m n) (m * i) m = loadLE ks (m * (n - 1 - i)) m := by
  apply loadLE_shift
  intro j hj
  have hm : 0 < m := by omega
  have h1 : (m * i + j) / m = i := by
    rw [Nat.mul_comm m i, Nat.add_comm, Nat.add_mul_div_right _ _ hm, Nat.div_eq_of_lt hj,
      Nat.zero_add]
  have h2 : (m * i + j) % m = j := by
    rw [Nat.mul_add_mod, Nat.mod_eq_of_lt hj]
  simp only [reverseSchedule, h1, h2]

theorem loadLE_swapBlock (b : Buf) (m : Nat) :
    loadLE (swapBlock b m) 0 m = loadLE b m m ∧ loadLE (swapBlock b m) m m = loadLE b 0 m := by
  constructor
  · apply loadLE_shift
    intro j hj
    simp only [swapBlock, Nat.zero_add, if_pos hj]
  · apply loadLE_shift
    intro j hj
    have h1 : ¬ (m + j < m) := by omega
    have h2 : m + j < 2 * m := by omega
    simp only [swapBlock, if_neg h1, if_pos h2, Nat.add_sub_cancel_left, Nat.zero_add]

/-- Simon decryption is Simon encryption with the subkeys in reverse order. -/
theorem simonDecrypt_eq_encrypt_reverse (w : Nat) (K : Nat → Nat) (n : Nat) (p : Nat × Nat) :
    simonDecrypt w K n p = simonEncrypt w (fun i => K (n - 1 - i)) n p := by
  unfold simonDecrypt simonEncrypt
  exact (forUp_reverse (fun j => simonRound w (K j)) n p).symm

/-- The two words that a Simon decryption leaves are those that the Simon
encryption with the reversed schedule leaves for the swapped block, in the
other order. -/
theorem simon_decrypt_as_encrypt (w n m : Nat) (hw : w = 8 * m) (ks pt ct out : Buf) :
    loadLE (storeLE (storeLE pt 0 m
        (simonDecrypt w (fun i => loadLE ks (m * i) m) n (loadLE ct 0 m, loadLE ct m m)).1) m m
        (simonDecrypt w (fun i => loadLE ks (m * i) m) n (loadLE ct 0 m, loadLE ct m m)).2) 0 m
      = loadLE (storeLE (storeLE out 0 m
        (simonEncrypt w (fun i => loadLE (reverseSchedule ks m n) (m * i) m) n
          (loadLE (swapBlock ct m) m m, loadLE (swapBlock ct m) 0 m)).2) m m
        (simonEncrypt w (fun i => loadLE (reverseSchedule ks m n) (m * i) m) n
          (loadLE (swapBlock ct m) m m, loadLE (swapBlock ct m) 0 m)).1) m m
    ∧ loadLE (storeLE (storeLE pt 0 m
        (simonDecrypt w (fun i => loadLE ks (m * i) m) n (loadLE ct 0 m, loadLE ct m m)).1) m m
        (simonDecrypt w (fun i => loadLE ks (m * i) m) n (loadLE ct 0 m, loadLE ct m m)).2) m m
      = loadLE (storeLE (storeLE out 0 m
        (simonEncrypt w (fun i => loadLE (reverseSchedule ks m n) (m * i) m) n
          (loadLE (swapBlock ct m) m m, loadLE (swapBlock ct m) 0 m)).2) m m
        (simonEncrypt w (fun i => loadLE (reverseSchedule ks m n) (m * i) m) n
          (loadLE (swapBlock ct m) m m, loadLE (swapBlock ct m) 0 m)).1) 0 m := by
  have hK : ∀ i, loadLE ks (m * i) m < 2 ^ w := fun i => loadLE_lt_word ks (m * i) m w hw
  have hx : loadLE ct 0 m < 2 ^ w := loadLE_lt_word ct 0 m w hw
  have hy : loadLE ct m m < 2 ^ w := loadLE_lt_word ct m m w hw
  have hD := simonDecrypt_lt w (fun i => loadLE ks (m * i) m) n (loadLE ct 0 m, loadLE ct m m)
    hK hx hy
  have e : simonEncrypt w (fun i => loadLE (reverseSchedule ks m n) (m * i) m) n
      (loadLE (swapBlock ct m) m m, loadLE (swapBlock ct m) 0 m)
      = simonDecrypt w (fun i => loadLE ks (m * i) m) n (loadLE ct 0 m, loadLE ct m m) := by
    rw [(loadLE_swapBlock ct m).1, (loadLE_swapBlock ct m).2, simonDecrypt_eq_encrypt_reverse]
    exact simonEncrypt_congr w _ _ n _ (fun i _ => loadLE_reverseSchedule ks m n i)
  rw [e]
  obtain ⟨a1, a2, _⟩ := block_written pt m w _ _ hw hD.1 hD.2
  obtain ⟨b1, b2, _⟩ := block_written out m w _ _ hw hD.2 hD.1
  rw [a1, a2, b1, b2]
  exact ⟨rfl, rfl⟩

/-! ## The first words of the Simon schedule -/

/-- The first `b ≤ 8` bytes of the array `keys` are bytes of `keys[0]`. -/
theorem memcpy_keys_mem (ks : Buf) (off : Nat) (k k2 : Keys) (b : Nat) (hb : b ≤ 8)
    (h : k.keys0 = k2.keys0) : memcpy ks off k.mem 0 b = memcpy ks off k2.mem 0 b := by
  funext j
  simp only [memcpy]
  by_cases hin : off ≤ j ∧ j < off + b
  · have h8 : 0 + (j - off) < 8 := by omega
    simp only [if_pos hin, Keys.mem, if_pos h8, h]
  · simp only [if_neg hin]

/-- The expansion loop of `speck64_32.c` reads `keys[0]` and `keys[1]` only:
states that agree on them and on the schedule bytes give the same schedule. -/
theorem speck64_32_loop_two_words (n : Nat) (s t : ExpandState)
    (h0 : s.keys.keys0 = t.keys.keys0) (h1 : s.keys.keys1 = t.keys.keys1)
    (hs : s.key_schedule = t.key_schedule) :
    (expand_loop speck64_32.expand_step speck64_32.bytes n s).key_schedule
      = (expand_loop speck64_32.expand_step speck64_32.bytes n t).key_schedule := by
  have hR := forUp_rel
    (fun a b : ExpandState => a.keys.keys0 = b.keys.keys0 ∧ a.keys.keys1 = b.keys.keys1
      ∧ a.key_schedule = b.key_schedule)
    (fun i s =>
      ({ keys := speck64_32.expand_step i s.keys,
         key_schedule := memcpy s.key_schedule (speck64_32.bytes * (i + 1))
           (speck64_32.expand_step i s.keys).mem 0 speck64_32.bytes } : ExpandState))
    (fun i s =>
      ({ keys := speck64_32.expand_step i s.keys,
         key_schedule := memcpy s.key_schedule (speck64_32.bytes * (i + 1))
           (speck64_32.expand_step i s.keys).mem 0 speck64_32.bytes } : ExpandState))
    n
    (fun i a b _ hab => by
      obtain ⟨e0, e1, e2⟩ := hab
      have k0 : (speck64_32.expand_step i a.keys).keys0 = (speck64_32.expand_step i b.keys).keys0 := by
        rw [speck64_32_step_keys, speck64_32_step_keys, e0, e1]
      have k1 : (speck64_32.expand_step i a.keys).keys1 = (speck64_32.expand_step i b.keys).keys1 := by
        rw [speck64_32_step_keys, speck64_32_step_keys, e1]
      refine ⟨k0, k1, ?_⟩
      show memcpy a.key_schedule _ _ 0 _ = memcpy b.key_schedule _ _ 0 _
      rw [e2]
      exact memcpy_keys_mem _ _ _ _ speck64_32.bytes (by decide) k0)
    s t ⟨h0, h1, hs⟩
  exact hR.2.2

/-- Two keys that agree on their first four bytes give the same schedule with
`expand_speck_64_32`. -/
theorem speck64_32_expand_congr (key key2 ks : Buf)
    (h : ∀ j, j < 4 → key j % 256 = key2 j % 256) :
    speck64_32.expand_speck_64_32 key ks = speck64_32.expand_speck_64_32 key2 ks := by
  have g0 : (load_keys key ks 2 4).keys.get 0 = (load_keys key2 ks 2 4).keys.get 0 := by
    rw [load_keys_get key ks 2 4 0 (by decide) (by decide),
      load_keys_get key2 ks 2 4 0 (by decide) (by decide)]
    simp only [show (0 : Nat) < 4 from by decide, if_true]
    exact loadLE_congr key key2 (2 * 0) 2 (fun j _ h2 => h j (by omega))
  have g1 : (load_keys key ks 2 4).keys.get 1 = (load_keys key2 ks 2 4).keys.get 1 := by
    rw [load_keys_get key ks 2 4 1 (by decide) (by decide),
      load_keys_get key2 ks 2 4 1 (by decide) (by decide)]
    simp only [show (1 : Nat) < 4 from by decide, if_true]
    exact loadLE_congr key key2 (2 * 1) 2 (fun j _ h2 => h j (by omega))
  exact speck64_32_loop_two_words (speck64_32.rounds - 1) _ _ g0 g1
    (memcpy_keys_mem ks 0 _ _ 2 (by decide) g0)

/-! ## Claims on the shift counts and on the constants of Simon -/

/-- Claim C31. The amounts passed to the rotation macros are, in the seven Speck
files, `rotation_alpha` and `rotation_beta` (to `rotate_right` and
`rotate_left`, in the routines and in the key expansion), and, in the six Simon
files, 1, 2 and 8 (to `shift_left`, in the routines) and 3 and 1 (to
`shift_right`, in the key expansion). Each amount `r` satisfies
`0 < r < word_size`, so both shift counts `r` and `word_size - r` lie strictly
between 0 and `word_size`; and `word_size` is at most the width of the integer
type in which the routines compute (the first bound of each last line: 32 bits
for `int`, the promoted type of `uint16_t`, and for `uint32_t`; 64 bits
otherwise) and at most the 64 bits of the key expansion. -/
theorem shift_counts_in_range :
    (0 < speck64_32.rotation_alpha ∧ speck64_32.rotation_alpha < speck64_32.word_size
      ∧ 0 < speck64_32.word_size - speck64_32.rotation_alpha ∧ speck64_32.word_size - speck64_32.rotation_alpha < speck64_32.word_size
      ∧ 0 < speck64_32.rotation_beta ∧ speck64_32.rotation_beta < speck64_32.word_size
      ∧ 0 < speck64_32.word_size - speck64_32.rotation_beta ∧ speck64_32.word_size - speck64_32.rotation_beta < speck64_32.word_size
      ∧ speck64_32.word_size ≤ 32 ∧ speck64_32.word_size ≤ 64)
    ∧ (0 < speck72_48.rotation_alpha ∧ speck72_48.rotation_alpha < speck72_48.word_size
      ∧ 0 < speck72_48.word_size - speck72_48.rotation_alpha ∧ speck72_48.word_size - speck72_48.rotation_alpha < speck72_48.word_size
      ∧ 0 < speck72_48.rotation_beta ∧ speck72_48.rotation_beta < speck72_48.word_size
      ∧ 0 < speck72_48.word_size - speck72_48.rotation_beta ∧ speck72_48.word_size - speck72_48.rotation_beta < speck72_48.word_size
      ∧ speck72_48.word_size ≤ 32 ∧ speck72_48.word_size ≤ 64)
    ∧ (0 < speck96_48.rotation_alpha ∧ speck96_48.rotation_alpha < speck96_48.word_size
      ∧ 0 < speck96_48.word_size - speck96_48.rotation_alpha ∧ speck96_48.word_size - speck96_48.rotation_alpha < speck96_48.word_size
      ∧ 0 < speck96_48.rotation_beta ∧ speck96_48.rotation_beta < speck96_48.word_size
      ∧ 0 < speck96_48.word_size - speck96_48.rotation_beta ∧ speck96_48.word_size - speck96_48.rotation_beta < speck96_48.word_size
      ∧ speck96_48.word_size ≤ 32 ∧ speck96_48.word_size ≤ 64)
    ∧ (0 < speck96_96.rotation_alpha ∧ speck96_96.rotation_alpha < speck96_96.word_size
      ∧ 0 < speck96_96.word_size - speck96_96.rotation_alpha ∧ speck96_96.word_size - speck96_96.rotation_alpha < speck96_96.word_size
      ∧ 0 < speck96_96.rotation_beta ∧ speck96_96.rotation_beta < speck96_96.word_size
      ∧ 0 < speck96_96.word_size - speck96_96.rotation_beta ∧ speck96_96.word_size - speck96_96.rotation_beta < speck96_96.word_size
      ∧ speck96_96.word_size ≤ 64 ∧ speck96_96.word_size ≤ 64)
    ∧ (0 < speck128_64.rotation_alpha ∧ speck128_64.rotation_alpha < speck128_64.word_size
      ∧ 0 < speck128_64.word_size - speck128_64.rotation_alpha ∧ speck128_64.word_size - speck128_64.rotation_alpha < speck128_64.word_size
      ∧ 0 < speck128_64.rotation_beta ∧ speck128_64.rotation_beta < speck128_64.word_size
      ∧ 0 < speck128_64.word_size - speck128_64.rotation_beta ∧ speck128_64.word_size - speck128_64.rotation_beta < speck128_64.word_size
      ∧ speck128_64.word_size ≤ 32 ∧ speck128_64.word_size ≤ 64)
    ∧ (0 < speck128_128.rotation_alpha ∧ speck128_128.rotation_alpha < speck128_128.word_size
      ∧ 0 < speck128_128.word_size - speck128_128.rotation_alpha ∧ speck128_128.word_size - speck128_128.rotation_alpha < speck128_128.word_size
      ∧ 0 < speck128_128.rotation_beta ∧ speck128_128.rotation_beta < speck128_128.word_size
      ∧ 0 < speck128_128.word_size - speck128_128.rotation_beta ∧ speck128_128.word_size - speck128_128.rotation_beta < speck128_128.word_size
      ∧ speck128_128.word_size ≤ 64 ∧ speck128_128.word_size ≤ 64)
    ∧ (0 < speck256_128.rotation_alpha ∧ speck256_128.rotation_alpha < speck256_128.word_size
      ∧ 0 < speck256_128.word_size - speck256_128.rotation_alpha ∧ speck256_128.word_size - speck256_128.rotation_alpha < speck256_128.word_size
      ∧ 0 < speck256_128.rotation_beta ∧ speck256_128.rotation_beta < speck256_128.word_size
      ∧ 0 < speck256_128.word_size - speck256_128.rotation_beta ∧ speck256_128.word_size - speck256_128.rotation_beta < speck256_128.word_size
      ∧ speck256_128.word_size ≤ 64 ∧ speck256_128.word_size ≤ 64)
    ∧ (0 < 1 ∧ 1 < simon64_32.word_size ∧ 0 < simon64_32.word_size - 1 ∧ simon64_32.word_size - 1 < simon64_32.word_size
      ∧ 0 < 2 ∧ 2 < simon64_32.word_size ∧ 0 < simon64_32.word_size - 2 ∧ simon64_32.word_size - 2 < simon64_32.word_size
      ∧ 0 < 8 ∧ 8 < simon64_32.word_size ∧ 0 < simon64_32.word_size - 8 ∧ simon64_32.word_size - 8 < simon64_32.word_size
      ∧ 0 < 3 ∧ 3 < simon64_32.word_size ∧ 0 < simon64_32.word_size - 3 ∧ simon64_32.word_size - 3 < simon64_32.word_size
      ∧ simon64_32.word_size ≤ 32 ∧ simon64_32.word_size ≤ 64)
    ∧ (0 < 1 ∧ 1 < simon72_48.word_size ∧ 0 < simon72_48.word_size - 1 ∧ simon72_48.word_size - 1 < simon72_48.word_size
      ∧ 0 < 2 ∧ 2 < simon72_48.word_size ∧ 0 < simon72_48.word_size - 2 ∧ simon72_48.word_size - 2 < simon72_48.word_size
      ∧ 0 < 8 ∧ 8 < simon72_48.word_size ∧ 0 < simon72_48.word_size - 8 ∧ simon72_48.word_size - 8 < simon72_48.word_size
      ∧ 0 < 3 ∧ 3 < simon72_48.word_size ∧ 0 < simon72_48.word_size - 3 ∧ simon72_48.word_size - 3 < simon72_48.word_size
      ∧ simon72_48.word_size ≤ 64 ∧ simon72_48.word_size ≤ 64)
    ∧ (0 < 1 ∧ 1 < simon128_64.word_size ∧ 0 < simon128_64.word_size - 1 ∧ simon128_64.word_size - 1 < simon128_64.word_size
      ∧ 0 < 2 ∧ 2 < simon128_64.word_size ∧ 0 < simon128_64.word_size - 2 ∧ simon128_64.word_size - 2 < simon128_64.word_size
      ∧ 0 < 8 ∧ 8 < simon128_64.word_size ∧ 0 < simon128_64.word_size - 8 ∧ simon128_64.word_size - 8 < simon128_64.word_size
      ∧ 0 < 3 ∧ 3 < simon128_64.word_size ∧ 0 < simon128_64.word_size - 3 ∧ simon128_64.word_size - 3 < simon128_64.word_size
      ∧ simon128_64.word_size ≤ 32 ∧ simon128_64.word_size ≤ 64)
    ∧ (0 < 1 ∧ 1 < simon144_96.word_size ∧ 0 < simon144_96.word_size - 1 ∧ simon144_96.word_size - 1 < simon144_96.word_size
      ∧ 0 < 2 ∧ 2 < simon144_96.word_size ∧ 0 < simon144_96.word_size - 2 ∧ simon144_96.word_size - 2 < simon144_96.word_size
      ∧ 0 < 8 ∧ 8 < simon144_96.word_size ∧ 0 < simon144_96.word_size - 8 ∧ simon144_96.word_size - 8 < simon144_96.word_size
      ∧ 0 < 3 ∧ 3 < simon144_96.word_size ∧ 0 < simon144_96.word_size - 3 ∧ simon144_96.word_size - 3 < simon144_96.word_size
      ∧ simon144_96.word_size ≤ 64 ∧ simon144_96.word_size ≤ 64)
    ∧ (0 < 1 ∧ 1 < simon128_128.word_size ∧ 0 < simon128_128.word_size - 1 ∧ simon128_128.word_size - 1 < simon128_128.word_size
      ∧ 0 < 2 ∧ 2 < simon128_128.word_size ∧ 0 < simon128_128.word_size - 2 ∧ simon128_128.word_size - 2 < simon128_128.word_size
      ∧ 0 < 8 ∧ 8 < simon128_128.word_size ∧ 0 < simon128_128.word_size - 8 ∧ simon128_128.word_size - 8 < simon128_128.word_size
      ∧ 0 < 3 ∧ 3 < simon128_128.word_size ∧ 0 < simon128_128.word_size - 3 ∧ simon128_128.word_size - 3 < simon128_128.word_size
      ∧ simon128_128.word_size ≤ 64 ∧ simon128_128.word_size ≤ 64)
    ∧ (0 < 1 ∧ 1 < simon192_128.word_size ∧ 0 < simon192_128.word_size - 1 ∧ simon192_128.word_size - 1 < simon192_128.word_size
      ∧ 0 < 2 ∧ 2 < simon192_128.word_size ∧ 0 < simon192_128.word_size - 2 ∧ simon192_128.word_size - 2 < simon192_128.word_size
      ∧ 0 < 8 ∧ 8 < simon192_128.word_size ∧ 0 < simon192_128.word_size - 8 ∧ simon192_128.word_size - 8 < simon192_128.word_size
      ∧ 0 < 3 ∧ 3 < simon192_128.word_size ∧ 0 < simon192_128.word_size - 3 ∧ simon192_128.word_size - 3 < simon192_128.word_size
      ∧ simon192_128.word_size ≤ 64 ∧ simon192_128.word_size ≤ 64) :=
  ⟨by decide, by decide, by decide, by decide, by decide, by decide, by decide, by decide, by decide, by decide, by decide, by decide, by decide⟩

set_option maxRecDepth 1000000 in
/-- Claim C32. In each of the six Simon files, bit `i` of `z_sequence` (bit 0 the
least significant) is element `i` of the published sequence of its size
(leftmost element first), for every `i < 62`, and bits 62 and 63 are zero:
`z0` for `simon64_32.c` and `simon72_48.c`, `z2` for `simon128_128.c`, `z3` for
`simon128_64.c`, `simon144_96.c` and `simon192_128.c`. -/
theorem z_sequence_bits :
    ((∀ i : Fin 62, (simon64_32.z_sequence >>> i.val) &&& 1 = z0_published.getD i.val 0)
      ∧ simon64_32.z_sequence < 2 ^ 62)
    ∧ ((∀ i : Fin 62, (simon72_48.z_sequence >>> i.val) &&& 1 = z0_published.getD i.val 0)
      ∧ simon72_48.z_sequence < 2 ^ 62)
    ∧ ((∀ i : Fin 62, (simon128_64.z_sequence >>> i.val) &&& 1 = z3_published.getD i.val 0)
      ∧ simon128_64.z_sequence < 2 ^ 62)
    ∧ ((∀ i : Fin 62, (simon144_96.z_sequence >>> i.val) &&& 1 = z3_published.getD i.val 0)
      ∧ simon144_96.z_sequence < 2 ^ 62)
    ∧ ((∀ i : Fin 62, (simon128_128.z_sequence >>> i.val) &&& 1 = z2_published.getD i.val 0)
      ∧ simon128_128.z_sequence < 2 ^ 62)
    ∧ ((∀ i : Fin 62, (simon192_128.z_sequence >>> i.val) &&& 1 = z3_published.getD i.val 0)
      ∧ simon192_128.z_sequence < 2 ^ 62) :=
  ⟨by decide, by decide, by decide, by decide, by decide, by decide⟩

/-! ## Claims on encryption after decryption and on Simon decryption -/

/-- Claim C33. In each of the thirteen files, for every schedule buffer, every
ciphertext buffer of bytes, whatever the output buffers and the uninitialised
locals held before: encrypting the decryption gives back exactly the
`2 * word_bytes` bytes of the ciphertext block. With the round trip in the
other direction (claims C1 and C2) the encryption of blocks is a bijection
for each schedule. -/
theorem encrypt_decrypt (ks ct pt0 ct0 : Buf) (u u2 : Locals)
    (hct : ∀ j, ct j < 256) :
    (∀ j, j < 4 →
        speck64_32.encrypt_speck_64_32 ks (speck64_32.decrypt_speck_64_32 ks pt0 ct) ct0 j = ct j)
      ∧ (∀ j, j < 6 →
        speck72_48.encrypt_speck_72_48 ks (speck72_48.decrypt_speck_72_48 ks pt0 ct u) ct0 u2 j = ct j)
      ∧ (∀ j, j < 6 →
        speck96_48.encrypt_speck_96_48 ks (speck96_48.decrypt_speck_96_48 ks pt0 ct u) ct0 u2 j = ct j)
      ∧ (∀ j, j < 12 →
        speck96_96.encrypt_speck_96_96 ks (speck96_96.decrypt_speck_96_96 ks pt0 ct u) ct0 u2 j = ct j)
      ∧ (∀ j, j < 8 →
        speck128_64.encrypt_speck_128_64 ks (speck128_64.decrypt_speck_128_64 ks pt0 ct) ct0 j = ct j)
      ∧ (∀ j, j < 16 →
        speck128_128.encrypt_speck_128_128 ks (speck128_128.decrypt_speck_128_128 ks pt0 ct) ct0 j = ct j)
      ∧ (∀ j, j < 16 →
        speck256_128.encrypt_speck_256_128 ks (speck256_128.decrypt_speck_256_128 ks pt0 ct) ct0 j = ct j)
      ∧ (∀ j, j < 4 →
        simon64_32.encrypt_simon_64_32 ks (simon64_32.decrypt_simon_64_32 ks pt0 ct) ct0 j = ct j)
      ∧ (∀ j, j < 6 →
        simon72_48.encrypt_simon_72_48 ks (simon72_48.decrypt_simon_72_48 ks pt0 ct u) ct0 u2 j = ct j)
      ∧ (∀ j, j < 8 →
        simon128_64.encrypt_simon_128_64 ks (simon128_64.decrypt_simon_128_64 ks pt0 ct) ct0 j = ct j)
      ∧ (∀ j, j < 12 →
        simon144_96.encrypt_simon_144_96 ks (simon144_96.decrypt_simon_144_96 ks pt0 ct u) ct0 u2 j = ct j)
      ∧ (∀ j, j < 16 →
        simon128_128.encrypt_simon_128_128 ks (simon128_128.decrypt_simon_128_128 ks pt0 ct) ct0 j = ct j)
      ∧ (∀ j, j < 16 →
        simon192_128.encrypt_simon_192_128 ks (simon192_128.decrypt_simon_192_128 ks pt0 ct) ct0 j = ct j) := by
  refine ⟨?_, ?_, ?_, ?_, ?_, ?_, ?_, ?_, ?_, ?_, ?_, ?_, ?_⟩
  · intro j hj
    rw [speck64_32_encrypt_eq, speck64_32_decrypt_eq]
    exact (speck_block_round_trip_back 16 7 2 22 2 (by decide) (by decide) (by decide) _
      (fun i => loadLE_lt_word ks (2 * i) 2 16 (by decide)) ct pt0 ct0 j hj).trans
      (Nat.mod_eq_of_lt (hct j))
  · intro j hj
    rw [speck72_48_encrypt_eq, speck72_48_decrypt_eq]
    exact (speck_block_round_trip_back 24 8 3 3 3 (by decide) (by decide) (by decide) _
      (fun i => loadLE_lt_word ks (3 * i) 3 24 (by decide)) ct pt0 ct0 j hj).trans
      (Nat.mod_eq_of_lt (hct j))
  · intro j hj
    rw [speck96_48_encrypt_eq, speck96_48_decrypt_eq]
    exact (speck_block_round_trip_back 24 8 3 23 3 (by decide) (by decide) (by decide) _
      (fun i => loadLE_lt_word ks (3 * i) 3 24 (by decide)) ct pt0 ct0 j hj).trans
      (Nat.mod_eq_of_lt (hct j))
  · intro j hj
    rw [speck96_96_encrypt_eq, speck96_96_decrypt_eq]
    exact (speck_block_round_trip_back 48 8 3 28 6 (by decide) (by decide) (by decide) _
      (fun i => loadLE_lt_word ks (6 * i) 6 48 (by decide)) ct pt0 ct0 j hj).trans
      (Nat.mod_eq_of_lt (hct j))
  · intro j hj
    rw [speck128_64_encrypt_eq, speck128_64_decrypt_eq]
    exact (speck_block_round_trip_back 32 8 3 27 4 (by decide) (by decide) (by decide) _
      (fun i => loadLE_lt_word ks (4 * i) 4 32 (by decide)) ct pt0 ct0 j hj).trans
      (Nat.mod_eq_of_lt (hct j))
  · intro j hj
    rw [speck128_128_encrypt_eq, speck128_128_decrypt_eq]
    exact (speck_block_round_trip_back 64 8 3 32 8 (by decide) (by decide) (by decide) _
      (fun i => loadLE_lt_word ks (8 * i) 8 64 (by decide)) ct pt0 ct0 j hj).trans
      (Nat.mod_eq_of_lt (hct j))
  · intro j hj
    rw [speck256_128_encrypt_eq, speck256_128_decrypt_eq]
    exact (speck_block_round_trip_back 64 8 3 34 8 (by decide) (by decide) (by decide) _
      (fun i => loadLE_lt_word ks (8 * i) 8 64 (by decide)) ct pt0 ct0 j hj).trans
      (Nat.mod_eq_of_lt (hct j))
  · intro j hj
    rw [simon64_32_encrypt_eq, simon64_32_decrypt_eq]
    exact (simon_block_round_trip_back 16 32 2 (by decide) _
      (fun i => loadLE_lt_word ks (2 * i) 2 16 (by decide)) ct pt0 ct0 j hj).trans
      (Nat.mod_eq_of_lt (hct j))
  · intro j hj
    rw [simon72_48_encrypt_eq, simon72_48_decrypt_eq]
    exact (simon_block_round_trip_back 24 36 3 (by decide) _
      (fun i => loadLE_lt_word ks (3 * i) 3 24 (by decide)) ct pt0 ct0 j hj).trans
      (Nat.mod_eq_of_lt (hct j))
  · intro j hj
    rw [simon128_64_encrypt_eq, simon128_64_decrypt_eq]
    exact (simon_block_round_trip_back 32 44 4 (by decide) _
      (fun i => loadLE_lt_word ks (4 * i) 4 32 (by decide)) ct pt0 ct0 j hj).trans
      (Nat.mod_eq_of_lt (hct j))
  · intro j hj
    rw [simon144_96_encrypt_eq, simon144_96_decrypt_eq]
    exact (simon_block_round_trip_back 48 54 6 (by decide) _
      (fun i => loadLE_lt_word ks (6 * i) 6 48 (by decide)) ct pt0 ct0 j hj).trans
      (Nat.mod_eq_of_lt (hct j))
  · intro j hj
    rw [simon128_128_encrypt_eq, simon128_128_decrypt_eq]
    exact (simon_block_round_trip_back 64 68 8 (by decide) _
      (fun i => loadLE_lt_word ks (8 * i) 8 64 (by decide)) ct pt0 ct0 j hj).trans
      (Nat.mod_eq_of_lt (hct j))
  · intro j hj
    rw [simon192_128_encrypt_eq, simon192_128_decrypt_eq]
    exact (simon_block_round_trip_back 64 69 8 (by decide) _
      (fun i => loadLE_lt_word ks (8 * i) 8 64 (by decide)) ct pt0 ct0 j hj).trans
      (Nat.mod_eq_of_lt (hct j))

/-- Witness of C33: the all-zero schedule and the sixteen bytes of the plaintext
of the Speck 128/128 demonstration, taken as a ciphertext block. -/
theorem encrypt_decrypt_witness :
    (∀ j, speck128_128.main_plaintext j < 256)
      ∧ (∀ j, j < 4 →
        speck64_32.encrypt_speck_64_32 zeroBuf (speck64_32.decrypt_speck_64_32 zeroBuf zeroBuf speck128_128.main_plaintext) zeroBuf j = speck128_128.main_plaintext j)
      ∧ (∀ j, j < 6 →
        speck72_48.encrypt_speck_72_48 zeroBuf (speck72_48.decrypt_speck_72_48 zeroBuf zeroBuf speck128_128.main_plaintext ⟨0, 0, 0⟩) zeroBuf ⟨0, 0, 0⟩ j = speck128_128.main_plaintext j)
      ∧ (∀ j, j < 6 →
        speck96_48.encrypt_speck_96_48 zeroBuf (speck96_48.decrypt_speck_96_48 zeroBuf zeroBuf speck128_128.main_plaintext ⟨0, 0, 0⟩) zeroBuf ⟨0, 0, 0⟩ j = speck128_128.main_plaintext j)
      ∧ (∀ j, j < 12 →
        speck96_96.encrypt_speck_96_96 zeroBuf (speck96_96.decrypt_speck_96_96 zeroBuf zeroBuf speck128_128.main_plaintext ⟨0, 0, 0⟩) zeroBuf ⟨0, 0, 0⟩ j = speck128_128.main_plaintext j)
      ∧ (∀ j, j < 8 →
        speck128_64.encrypt_speck_128_64 zeroBuf (speck128_64.decrypt_speck_128_64 zeroBuf zeroBuf speck128_128.main_plaintext) zeroBuf j = speck128_128.main_plaintext j)
      ∧ (∀ j, j < 16 →
        speck128_128.encrypt_speck_128_128 zeroBuf (speck128_128.decrypt_speck_128_128 zeroBuf zeroBuf speck128_128.main_plaintext) zeroBuf j = speck128_128.main_plaintext j)
      ∧ (∀ j, j < 16 →
        speck256_128.encrypt_speck_256_128 zeroBuf (speck256_128.decrypt_speck_256_128 zeroBuf zeroBuf speck128_128.main_plaintext) zeroBuf j = speck128_128.main_plaintext j)
      ∧ (∀ j, j < 4 →
        simon64_32.encrypt_simon_64_32 zeroBuf (simon64_32.decrypt_simon_64_32 zeroBuf zeroBuf speck128_128.main_plaintext) zeroBuf j = speck128_128.main_plaintext j)
      ∧ (∀ j, j < 6 →
        simon72_48.encrypt_simon_72_48 zeroBuf (simon72_48.decrypt_simon_72_48 zeroBuf zeroBuf speck128_128.main_plaintext ⟨0, 0, 0⟩) zeroBuf ⟨0, 0, 0⟩ j = speck128_128.main_plaintext j)
      ∧ (∀ j, j < 8 →
        simon128_64.encrypt_simon_128_64 zeroBuf (simon128_64.decrypt_simon_128_64 zeroBuf zeroBuf speck128_128.main_plaintext) zeroBuf j = speck128_128.main_plaintext j)
      ∧ (∀ j, j < 12 →
        simon144_96.encrypt_simon_144_96 zeroBuf (simon144_96.decrypt_simon_144_96 zeroBuf zeroBuf speck128_128.main_plaintext ⟨0, 0, 0⟩) zeroBuf ⟨0, 0, 0⟩ j = speck128_128.main_plaintext j)
      ∧ (∀ j, j < 16 →
        simon128_128.encrypt_simon_128_128 zeroBuf (simon128_128.decrypt_simon_128_128 zeroBuf zeroBuf speck128_128.main_plaintext) zeroBuf j = speck128_128.main_plaintext j)
      ∧ (∀ j, j < 16 →
        simon192_128.encrypt_simon_192_128 zeroBuf (simon192_128.decrypt_simon_192_128 zeroBuf zeroBuf speck128_128.main_plaintext) zeroBuf j = speck128_128.main_plaintext j) :=
  ⟨ofBytes_lt _ (by decide),
    encrypt_decrypt zeroBuf speck128_128.main_plaintext zeroBuf zeroBuf ⟨0, 0, 0⟩ ⟨0, 0, 0⟩
      (ofBytes_lt _ (by decide))⟩

/-- Claim C34. In each of the six Simon files, for every schedule and every
ciphertext block: the first word that `decrypt` leaves is the second word
that `encrypt` leaves when it is given the schedule with its `rounds` words
in reverse order and the block with its two words exchanged, and the second
word that `decrypt` leaves is the first word that this `encrypt` leaves;
whatever the output buffers and the uninitialised locals held before. -/
theorem simon_decrypt_is_reversed_encrypt (ks pt ct out : Buf) (u u2 : Locals) :
    (loadLE (simon64_32.decrypt_simon_64_32 ks pt ct) 0 (simon64_32.word_size / 8)
          = loadLE (simon64_32.encrypt_simon_64_32 (reverseSchedule ks (simon64_32.word_size / 8) simon64_32.rounds)
              (swapBlock ct (simon64_32.word_size / 8)) out) (simon64_32.word_size / 8) (simon64_32.word_size / 8)
      ∧ loadLE (simon64_32.decrypt_simon_64_32 ks pt ct) (simon64_32.word_size / 8) (simon64_32.word_size / 8)
          = loadLE (simon64_32.encrypt_simon_64_32 (reverseSchedule ks (simon64_32.word_size / 8) simon64_32.rounds)
              (swapBlock ct (simon64_32.word_size / 8)) out) 0 (simon64_32.word_size / 8))
    ∧ (loadLE (simon72_48.decrypt_simon_72_48 ks pt ct u) 0 (simon72_48.word_size / 8)
          = loadLE (simon72_48.encrypt_simon_72_48 (reverseSchedule ks (simon72_48.word_size / 8) simon72_48.rounds)
              (swapBlock ct (simon72_48.word_size / 8)) out u2) (simon72_48.word_size / 8) (simon72_48.word_size / 8)
      ∧ loadLE (simon72_48.decrypt_simon_72_48 ks pt ct u) (simon72_48.word_size / 8) (simon72_48.word_size / 8)
          = loadLE (simon72_48.encrypt_simon_72_48 (reverseSchedule ks (simon72_48.word_size / 8) simon72_48.rounds)
              (swapBlock ct (simon72_48.word_size / 8)) out u2) 0 (simon72_48.word_size / 8))
    ∧ (loadLE (simon128_64.decrypt_simon_128_64 ks pt ct) 0 (simon128_64.word_size / 8)
          = loadLE (simon128_64.encrypt_simon_128_64 (reverseSchedule ks (simon128_64.word_size / 8) simon128_64.rounds)
              (swapBlock ct (simon128_64.word_size / 8)) out) (simon128_64.word_size / 8) (simon128_64.word_size / 8)
      ∧ loadLE (simon128_64.decrypt_simon_128_64 ks pt ct) (simon128_64.word_size / 8) (simon128_64.word_size / 8)
          = loadLE (simon128_64.encrypt_simon_128_64 (reverseSchedule ks (simon128_64.word_size / 8) simon128_64.rounds)
              (swapBlock ct (simon128_64.word_size / 8)) out) 0 (simon128_64.word_size / 8))
    ∧ (loadLE (simon144_96.decrypt_simon_144_96 ks pt ct u) 0 (simon144_96.word_size / 8)
          = loadLE (simon144_96.encrypt_simon_144_96 (reverseSchedule ks (simon144_96.word_size / 8) simon144_96.rounds)
              (swapBlock ct (simon144_96.word_size / 8)) out u2) (simon144_96.word_size / 8) (simon144_96.word_size / 8)
      ∧ loadLE (simon144_96.decrypt_simon_144_96 ks pt ct u) (simon144_96.word_size / 8) (simon144_96.word_size / 8)
          = loadLE (simon144_96.encrypt_simon_144_96 (reverseSchedule ks (simon144_96.word_size / 8) simon144_96.rounds)
              (swapBlock ct (simon144_96.word_size / 8)) out u2) 0 (simon144_96.word_size / 8))
    ∧ (loadLE (simon128_128.decrypt_simon_128_128 ks pt ct) 0 (simon128_128.word_size / 8)
          = loadLE (simon128_128.encrypt_simon_128_128 (reverseSchedule ks (simon128_128.word_size / 8) simon128_128.rounds)
              (swapBlock ct (simon128_128.word_size / 8)) out) (simon128_128.word_size / 8) (simon128_128.word_size / 8)
      ∧ loadLE (simon128_128.decrypt_simon_128_128 ks pt ct) (simon128_128.word_size / 8) (simon128_128.word_size / 8)
          = loadLE (simon128_128.encrypt_simon_128_128 (reverseSchedule ks (simon128_128.word_size / 8) simon128_128.rounds)
              (swapBlock ct (simon128_128.word_size / 8)) out) 0 (simon128_128.word_size / 8))
    ∧ (loadLE (simon192_128.decrypt_simon_192_128 ks pt ct) 0 (simon192_128.word_size / 8)
          = loadLE (simon192_128.encrypt_simon_192_128 (reverseSchedule ks (simon192_128.word_size / 8) simon192_128.rounds)
              (swapBlock ct (simon192_128.word_size / 8)) out) (simon192_128.word_size / 8) (simon192_128.word_size / 8)
      ∧ loadLE (simon192_128.decrypt_simon_192_128 ks pt ct) (simon192_128.word_size / 8) (simon192_128.word_size / 8)
          = loadLE (simon192_128.encrypt_simon_192_128 (reverseSchedule ks (simon192_128.word_size / 8) simon192_128.rounds)
              (swapBlock ct (simon192_128.word_size / 8)) out) 0 (simon192_128.word_size / 8)) :=
  ⟨by
      rw [simon64_32_decrypt_eq, simon64_32_encrypt_eq]
      exact simon_decrypt_as_encrypt 16 32 2 (by decide) ks pt ct out,
    by
      rw [simon72_48_decrypt_eq, simon72_48_encrypt_eq]
      exact simon_decrypt_as_encrypt 24 36 3 (by decide) ks pt ct out,
    by
      rw [simon128_64_decrypt_eq, simon128_64_encrypt_eq]
      exact simon_decrypt_as_encrypt 32 44 4 (by decide) ks pt ct out,
    by
      rw [simon144_96_decrypt_eq, simon144_96_encrypt_eq]
      exact simon_decrypt_as_encrypt 48 54 6 (by decide) ks pt ct out,
    by
      rw [simon128_128_decrypt_eq, simon128_128_encrypt_eq]
      exact simon_decrypt_as_encrypt 64 68 8 (by decide) ks pt ct out,
    by
      rw [simon192_128_decrypt_eq, simon192_128_encrypt_eq]
      exact simon_decrypt_as_encrypt 64 69 8 (by decide) ks pt ct out⟩

/-! ## Claims on the first words of the schedules -/

/-- Claim C36. The schedule that `expand_speck_64_32` produces depends on master
key words 0 and 1 only: two keys that agree on bytes 0 to 3 give the same
schedule buffer, hence the same subkey at every position 0 to 21 and the same
ciphertext for every plaintext, whatever bytes 4 to 7 are. (It is the effect
of the loop body leaving `keys[1]` as it is and never reading `keys[2]` and
`keys[3]`.) -/
theorem speck64_32_schedule_uses_two_words (key key2 ks pt ct : Buf)
    (h : ∀ j, j < 4 → key j % 256 = key2 j % 256) :
    speck64_32.expand_speck_64_32 key ks = speck64_32.expand_speck_64_32 key2 ks
    ∧ (∀ i : Fin speck64_32.rounds,
        loadLE (speck64_32.expand_speck_64_32 key ks) (speck64_32.bytes * i.val) speck64_32.bytes
          = loadLE (speck64_32.expand_speck_64_32 key2 ks) (speck64_32.bytes * i.val)
              speck64_32.bytes)
    ∧ speck64_32.encrypt_speck_64_32 (speck64_32.expand_speck_64_32 key ks) pt ct
        = speck64_32.encrypt_speck_64_32 (speck64_32.expand_speck_64_32 key2 ks) pt ct := by
  have e := speck64_32_expand_congr key key2 ks h
  refine ⟨e, ?_, ?_⟩
  · intro i
    rw [e]
  · rw [e]

/-- Witness of C36: the key of the file and the key with the same first four
bytes followed by `ff ff ff ff`, with the plaintext of the file. -/
theorem speck64_32_schedule_uses_two_words_witness :
    (∀ j, j < 4 → speck64_32.main_encryption_key j % 256
        = ofBytes [0x00, 0x01, 0x08, 0x09, 0xff, 0xff, 0xff, 0xff] j % 256)
    ∧ speck64_32.main_encryption_key 4 ≠ ofBytes [0x00, 0x01, 0x08, 0x09, 0xff, 0xff, 0xff, 0xff] 4
    ∧ (speck64_32.expand_speck_64_32 speck64_32.main_encryption_key zeroBuf
        = speck64_32.expand_speck_64_32 (ofBytes [0x00, 0x01, 0x08, 0x09, 0xff, 0xff, 0xff, 0xff]) zeroBuf
      ∧ (∀ i : Fin speck64_32.rounds,
          loadLE (speck64_32.expand_speck_64_32 speck64_32.main_encryption_key zeroBuf)
              (speck64_32.bytes * i.val) speck64_32.bytes
            = loadLE (speck64_32.expand_speck_64_32
                (ofBytes [0x00, 0x01, 0x08, 0x09, 0xff, 0xff, 0xff, 0xff]) zeroBuf)
                (speck64_32.bytes * i.val) speck64_32.bytes)
      ∧ speck64_32.encrypt_speck_64_32
          (speck64_32.expand_speck_64_32 speck64_32.main_encryption_key zeroBuf)
          speck64_32.main_plaintext zeroBuf
        = speck64_32.encrypt_speck_64_32
          (speck64_32.expand_speck_64_32 (ofBytes [0x00, 0x01, 0x08, 0x09, 0xff, 0xff, 0xff, 0xff])
            zeroBuf)
          speck64_32.main_plaintext zeroBuf) :=
  ⟨by decide, by decide,
    speck64_32_schedule_uses_two_words speck64_32.main_encryption_key
      (ofBytes [0x00, 0x01, 0x08, 0x09, 0xff, 0xff, 0xff, 0xff]) zeroBuf
      speck64_32.main_plaintext zeroBuf (by decide)⟩

/-! ## The locals of the routines stay within the word size -/

/-- When each pass of a loop on the variables `x`, `y` does what a map `g` on
pairs of words below `2 ^ w` does, `x` and `y` are below `2 ^ w` after the loop. -/
theorem locals_lt_forUp (w : Nat) (body : Nat → Regs → Regs)
    (g : Nat → Nat × Nat → Nat × Nat) (n : Nat) (s : Regs) (p : Nat × Nat)
    (hg : ∀ i p, i < n → p.1 < 2 ^ w → p.2 < 2 ^ w → (g i p).1 < 2 ^ w ∧ (g i p).2 < 2 ^ w)
    (hs : s.x = p.1 ∧ s.y = p.2) (hp : p.1 < 2 ^ w ∧ p.2 < 2 ^ w)
    (hstep : ∀ i s, i < n → s.x < 2 ^ w → s.y < 2 ^ w →
      ((body i s).x, (body i s).y) = g i (s.x, s.y)) :
    (forUp body n s).x < 2 ^ w ∧ (forUp body n s).y < 2 ^ w := by
  obtain ⟨e1, e2⟩ := regs_forUp_store w body g n s p hg hs hp hstep
  rw [e1, e2]
  exact forUp_inv (fun q : Nat × Nat => q.1 < 2 ^ w ∧ q.2 < 2 ^ w) g n
    (fun i q hi hq => hg i q hi hq.1 hq.2) p hp

/-- The same for a loop that counts down. -/
theorem locals_lt_forDown (w : Nat) (body : Nat → Regs → Regs)
    (g : Nat → Nat × Nat → Nat × Nat) (n : Nat) (s : Regs) (p : Nat × Nat)
    (hg : ∀ i p, i < n → p.1 < 2 ^ w → p.2 < 2 ^ w → (g i p).1 < 2 ^ w ∧ (g i p).2 < 2 ^ w)
    (hs : s.x = p.1 ∧ s.y = p.2) (hp : p.1 < 2 ^ w ∧ p.2 < 2 ^ w)
    (hstep : ∀ i s, i < n → s.x < 2 ^ w → s.y < 2 ^ w →
      ((body i s).x, (body i s).y) = g i (s.x, s.y)) :
    (forDown body n s).x < 2 ^ w ∧ (forDown body n s).y < 2 ^ w := by
  obtain ⟨e1, e2⟩ := regs_forDown_store w body g n s p hg hs hp hstep
  rw [e1, e2]
  exact forDown_inv (fun q : Nat × Nat => q.1 < 2 ^ w ∧ q.2 < 2 ^ w) g n
    (fun i q hi hq => hg i q hi hq.1 hq.2) p hp

/-- The locals `x` and `y` of `encrypt_speck_64_32` are below `2 ^ 16` after any
number of passes of its loop. -/
theorem speck64_32_encrypt_locals_lt (ks pt : Buf) (n : Nat) :
    (speck64_32.encrypt_speck_64_32_locals ks pt n).x < 2 ^ 16
      ∧ (speck64_32.encrypt_speck_64_32_locals ks pt n).y < 2 ^ 16 := by
  unfold speck64_32.encrypt_speck_64_32_locals
  refine locals_lt_forUp 16 _
    (fun i => speckRound 16 7 2 (loadLE ks (2 * i) 2)) n _ (loadLE pt 2 2, loadLE pt 0 2)
    (fun i p _ _ _ => speckRound_lt 16 7 2 _ p (loadLE_lt ks (2 * i) 2))
    ?_ ⟨loadLE_lt pt 2 2, loadLE_lt pt 0 2⟩ ?_
  · simp only [speck64_32.rotate_right, speck64_32.rotate_left, speck64_32.word_size, speck64_32.bytes, speck64_32.rounds,
      speck64_32.rotation_alpha, speck64_32.rotation_beta,
      and_mask24, and_mask48, and_mask _ 16 (by decide), memcpyWord_mod3, memcpyWord_mod6,
      c_rotr 32 16 _ _ (by decide), c_rotl 32 16 _ _ (by decide),
      add_mod_two_pow 32 16 _ _ (by decide), sub_mod_two_pow 32 16 _ _ (by decide),
      xor_mod_two_pow, Nat.mod_mod, rotr_mod, rotl_mod, sub_mod,
      rotr_mod_of_le 16 32 _ _ (by decide), rotl_mod_of_le 16 32 _ _ (by decide),
      sub_mod_of_le 16 32 _ _ (by decide), loadLE_mod_of_le _ _ 2 32 (by decide),
      loadLE_mod_of_le _ _ 2 16 (by decide), mod_two_pow_mod_of_le _ (by decide : 16 ≤ 32), and_self]
  · intro i s _ hx hy
    simp only [speckRound, speck64_32.rotate_right, speck64_32.rotate_left, speck64_32.word_size, speck64_32.bytes, speck64_32.rounds,
      speck64_32.rotation_alpha, speck64_32.rotation_beta,
      and_mask24, and_mask48, and_mask _ 16 (by decide), memcpyWord_mod3, memcpyWord_mod6,
      c_rotr 32 16 _ _ (by decide), c_rotl 32 16 _ _ (by decide),
      add_mod_two_pow 32 16 _ _ (by decide), sub_mod_two_pow 32 16 _ _ (by decide),
      xor_mod_two_pow, Nat.mod_mod, rotr_mod, rotl_mod, sub_mod,
      rotr_mod_of_le 16 32 _ _ (by decide), rotl_mod_of_le 16 32 _ _ (by decide),
      sub_mod_of_le 16 32 _ _ (by decide), loadLE_mod_of_le _ _ 2 32 (by decide),
      loadLE_mod_of_le _ _ 2 16 (by decide), mod_two_pow_mod_of_le _ (by decide : 16 ≤ 32)]

/-- The locals `x` and `y` of `decrypt_speck_64_32` are below `2 ^ 16` after any
number of passes of its loop. -/
theorem speck64_32_decrypt_locals_lt (ks ct : Buf) (n : Nat) :
    (speck64_32.decrypt_speck_64_32_locals ks ct n).x < 2 ^ 16
      ∧ (speck64_32.decrypt_speck_64_32_locals ks ct n).y < 2 ^ 16 := by
  unfold speck64_32.decrypt_speck_64_32_locals
  refine locals_lt_forUp 16 _
    (fun i => speckRoundInv 16 7 2 (loadLE ks (2 * (22 - 1 - i)) 2)) n _
    (loadLE ct 2 2, loadLE ct 0 2)
    (fun i p _ _ _ => ⟨rotl_lt _ _ _, rotr_lt _ _ _⟩)
    ?_ ⟨loadLE_lt ct 2 2, loadLE_lt ct 0 2⟩ ?_
  · simp only [speck64_32.rotate_right, speck64_32.rotate_left, speck64_32.word_size, speck64_32.bytes, speck64_32.rounds,
      speck64_32.rotation_alpha, speck64_32.rotation_beta,
      and_mask24, and_mask48, and_mask _ 16 (by decide), memcpyWord_mod3, memcpyWord_mod6,
      c_rotr 32 16 _ _ (by decide), c_rotl 32 16 _ _ (by decide),
      add_mod_two_pow 32 16 _ _ (by decide), sub_mod_two_pow 32 16 _ _ (by decide),
      xor_mod_two_pow, Nat.mod_mod, rotr_mod, rotl_mod, sub_mod,
      rotr_mod_of_le 16 32 _ _ (by decide), rotl_mod_of_le 16 32 _ _ (by decide),
      sub_mod_of_le 16 32 _ _ (by decide), loadLE_mod_of_le _ _ 2 32 (by decide),
      loadLE_mod_of_le _ _ 2 16 (by decide), mod_two_pow_mod_of_le _ (by decide : 16 ≤ 32), and_self]
  · intro i s _ hx hy
    simp only [speckRoundInv, speck64_32.rotate_right, speck64_32.rotate_left, speck64_32.word_size, speck64_32.bytes, speck64_32.rounds,
      speck64_32.rotation_alpha, speck64_32.rotation_beta,
      and_mask24, and_mask48, and_mask _ 16 (by decide), memcpyWord_mod3, memcpyWord_mod6,
      c_rotr 32 16 _ _ (by decide), c_rotl 32 16 _ _ (by decide),
      add_mod_two_pow 32 16 _ _ (by decide), sub_mod_two_pow 32 16 _ _ (by decide),
      xor_mod_two_pow, Nat.mod_mod, rotr_mod, rotl_mod, sub_mod,
      rotr_mod_of_le 16 32 _ _ (by decide), rotl_mod_of_le 16 32 _ _ (by decide),
      sub_mod_of_le 16 32 _ _ (by decide), loadLE_mod_of_le _ _ 2 32 (by decide),
      loadLE_mod_of_le _ _ 2 16 (by decide), mod_two_pow_mod_of_le _ (by decide : 16 ≤ 32),
      Nat.mod_eq_of_lt hx, Nat.mod_eq_of_lt hy, mod_eq_of_lt_two_pow 32 hx (by decide),
      mod_eq_of_lt_two_pow 32 hy (by decide)]

/-- The locals `x` and `y` of `encrypt_speck_72_48` are below `2 ^ 24` after any
number of passes of its loop. -/
theorem speck72_48_encrypt_locals_lt (ks pt : Buf) (u : Locals) (n : Nat) :
    (speck72_48.encrypt_speck_72_48_locals ks pt u n).x < 2 ^ 24
      ∧ (speck72_48.encrypt_speck_72_48_locals ks pt u n).y < 2 ^ 24 := by
  unfold speck72_48.encrypt_speck_72_48_locals
  refine locals_lt_forUp 24 _
    (fun i => speckRound 24 8 3 (loadLE ks (3 * i) 3)) n _ (loadLE pt 3 3, loadLE pt 0 3)
    (fun i p _ _ _ => speckRound_lt 24 8 3 _ p (loadLE_lt ks (3 * i) 3))
    ?_ ⟨loadLE_lt pt 3 3, loadLE_lt pt 0 3⟩ ?_
  · simp only [speck72_48.rotate_right, speck72_48.rotate_left, speck72_48.word_size, speck72_48.bytes, speck72_48.rounds,
      speck72_48.rotation_alpha, speck72_48.rotation_beta, speck72_48.mod_mask, sizeof_bytes3_t,
      and_mask24, and_mask48, and_mask _ 24 (by decide), memcpyWord_mod3, memcpyWord_mod6,
      c_rotr 32 24 _ _ (by decide), c_rotl 32 24 _ _ (by decide),
      add_mod_two_pow 32 24 _ _ (by decide), sub_mod_two_pow 32 24 _ _ (by decide),
      xor_mod_two_pow, Nat.mod_mod, rotr_mod, rotl_mod, sub_mod,
      rotr_mod_of_le 24 32 _ _ (by decide), rotl_mod_of_le 24 32 _ _ (by decide),
      sub_mod_of_le 24 32 _ _ (by decide), loadLE_mod_of_le _ _ 3 32 (by decide),
      loadLE_mod_of_le _ _ 3 24 (by decide), mod_two_pow_mod_of_le _ (by decide : 24 ≤ 32), and_self]
  · intro i s _ hx hy
    simp only [speckRound, speck72_48.rotate_right, speck72_48.rotate_left, speck72_48.word_size, speck72_48.bytes, speck72_48.rounds,
      speck72_48.rotation_alpha, speck72_48.rotation_beta, speck72_48.mod_mask, sizeof_bytes3_t,
      and_mask24, and_mask48, and_mask _ 24 (by decide), memcpyWord_mod3, memcpyWord_mod6,
      c_rotr 32 24 _ _ (by decide), c_rotl 32 24 _ _ (by decide),
      add_mod_two_pow 32 24 _ _ (by decide), sub_mod_two_pow 32 24 _ _ (by decide),
      xor_mod_two_pow, Nat.mod_mod, rotr_mod, rotl_mod, sub_mod,
      rotr_mod_of_le 24 32 _ _ (by decide), rotl_mod_of_le 24 32 _ _ (by decide),
      sub_mod_of_le 24 32 _ _ (by decide), loadLE_mod_of_le _ _ 3 32 (by decide),
      loadLE_mod_of_le _ _ 3 24 (by decide), mod_two_pow_mod_of_le _ (by decide : 24 ≤ 32)]

/-- The locals `x` and `y` of `decrypt_speck_72_48` are below `2 ^ 24` after any
number of passes of its loop. -/
theorem speck72_48_decrypt_locals_lt (ks ct : Buf) (u : Locals) (n : Nat) :
    (speck72_48.decrypt_speck_72_48_locals ks ct u n).x < 2 ^ 24
      ∧ (speck72_48.decrypt_speck_72_48_locals ks ct u n).y < 2 ^ 24 := by
  unfold speck72_48.decrypt_speck_72_48_locals
  refine locals_lt_forUp 24 _
    (fun i => speckRoundInv 24 8 3 (loadLE ks (3 * (3 - 1 - i)) 3)) n _
    (loadLE ct 3 3, loadLE ct 0 3)
    (fun i p _ _ _ => ⟨rotl_lt _ _ _, rotr_lt _ _ _⟩)
    ?_ ⟨loadLE_lt ct 3 3, loadLE_lt ct 0 3⟩ ?_
  · simp only [speck72_48.rotate_right, speck72_48.rotate_left, speck72_48.word_size, speck72_48.bytes, speck72_48.rounds,
      speck72_48.rotation_alpha, speck72_48.rotation_beta, speck72_48.mod_mask, sizeof_bytes3_t,
      and_mask24, and_mask48, and_mask _ 24 (by decide), memcpyWord_mod3, memcpyWord_mod6,
      c_rotr 32 24 _ _ (by decide), c_rotl 32 24 _ _ (by decide),
      add_mod_two_pow 32 24 _ _ (by decide), sub_mod_two_pow 32 24 _ _ (by decide),
      xor_mod_two_pow, Nat.mod_mod, rotr_mod, rotl_mod, sub_mod,
      rotr_mod_of_le 24 32 _ _ (by decide), rotl_mod_of_le 24 32 _ _ (by decide),
      sub_mod_of_le 24 32 _ _ (by decide), loadLE_mod_of_le _ _ 3 32 (by decide),
      loadLE_mod_of_le _ _ 3 24 (by decide), mod_two_pow_mod_of_le _ (by decide : 24 ≤ 32), and_self]
  · intro i s _ hx hy
    simp only [speckRoundInv, speck72_48.rotate_right, speck72_48.rotate_left, speck72_48.word_size, speck72_48.bytes, speck72_48.rounds,
      speck72_48.rotation_alpha, speck72_48.rotation_beta, speck72_48.mod_mask, sizeof_bytes3_t,
      and_mask24, and_mask48, and_mask _ 24 (by decide), memcpyWord_mod3, memcpyWord_mod6,
      c_rotr 32 24 _ _ (by decide), c_rotl 32 24 _ _ (by decide),
      add_mod_two_pow 32 24 _ _ (by decide), sub_mod_two_pow 32 24 _ _ (by decide),
      xor_mod_two_pow, Nat.mod_mod, rotr_mod, rotl_mod, sub_mod,
      rotr_mod_of_le 24 32 _ _ (by decide), rotl_mod_of_le 24 32 _ _ (by decide),
      sub_mod_of_le 24 32 _ _ (by decide), loadLE_mod_of_le _ _ 3 32 (by decide),
      loadLE_mod_of_le _ _ 3 24 (by decide), mod_two_pow_mod_of_le _ (by decide : 24 ≤ 32),
      Nat.mod_eq_of_lt hx, Nat.mod_eq_of_lt hy, mod_eq_of_lt_two_pow 32 hx (by decide),
      mod_eq_of_lt_two_pow 32 hy (by decide)]

/-- The locals `x` and `y` of `encrypt_speck_96_48` are below `2 ^ 24` after any
number of passes of its loop. -/
theorem speck96_48_encrypt_locals_lt (ks pt : Buf) (u : Locals) (n : Nat) :
    (speck96_48.encrypt_speck_96_48_locals ks pt u n).x < 2 ^ 24
      ∧ (speck96_48.encrypt_speck_96_48_locals ks pt u n).y < 2 ^ 24 := by
  unfold speck96_48.encrypt_speck_96_48_locals
  refine locals_lt_forUp 24 _
    (fun i => speckRound 24 8 3 (loadLE ks (3 * i) 3)) n _ (loadLE pt 3 3, loadLE pt 0 3)
    (fun i p _ _ _ => speckRound_lt 24 8 3 _ p (loadLE_lt ks (3 * i) 3))
    ?_ ⟨loadLE_lt pt 3 3, loadLE_lt pt 0 3⟩ ?_
  · simp only [speck96_48.rotate_right, speck96_48.rotate_left, speck96_48.word_size, speck96_48.bytes, speck96_48.rounds,
      speck96_48.rotation_alpha, speck96_48.rotation_beta, speck96_48.mod_mask, sizeof_bytes3_t,
      and_mask24, and_mask48, and_mask _ 24 (by decide), memcpyWord_mod3, memcpyWord_mod6,
      c_rotr 32 24 _ _ (by decide), c_rotl 32 24 _ _ (by decide),
      add_mod_two_pow 32 24 _ _ (by decide), sub_mod_two_pow 32 24 _ _ (by decide),
      xor_mod_two_pow, Nat.mod_mod, rotr_mod, rotl_mod, sub_mod,
      rotr_mod_of_le 24 32 _ _ (by decide), rotl_mod_of_le 24 32 _ _ (by decide),
      sub_mod_of_le 24 32 _ _ (by decide), loadLE_mod_of_le _ _ 3 32 (by decide),
      loadLE_mod_of_le _ _ 3 24 (by decide), mod_two_pow_mod_of_le _ (by decide : 24 ≤ 32), and_self]
  · intro i s _ hx hy
    simp only [speckRound, speck96_48.rotate_right, speck96_48.rotate_left, speck96_48.word_size, speck96_48.bytes, speck96_48.rounds,
      speck96_48.rotation_alpha, speck96_48.rotation_beta, speck96_48.mod_mask, sizeof_bytes3_t,
      and_mask24, and_mask48, and_mask _ 24 (by decide), memcpyWord_mod3, memcpyWord_mod6,
      c_rotr 32 24 _ _ (by decide), c_rotl 32 24 _ _ (by decide),
      add_mod_two_pow 32 24 _ _ (by decide), sub_mod_two_pow 32 24 _ _ (by decide),
      xor_mod_two_pow, Nat.mod_mod, rotr_mod, rotl_mod, sub_mod,
      rotr_mod_of_le 24 32 _ _ (by decide), rotl_mod_of_le 24 32 _ _ (by decide),
      sub_mod_of_le 24 32 _ _ (by decide), loadLE_mod_of_le _ _ 3 32 (by decide),
      loadLE_mod_of_le _ _ 3 24 (by decide), mod_two_pow_mod_of_le _ (by decide : 24 ≤ 32)]

/-- The locals `x` and `y` of `decrypt_speck_96_48` are below `2 ^ 24` after any
number of passes of its loop. -/
theorem speck96_48_decrypt_locals_lt (ks ct : Buf) (u : Locals) (n : Nat) :
    (speck96_48.decrypt_speck_96_48_locals ks ct u n).x < 2 ^ 24
      ∧ (speck96_48.decrypt_speck_96_48_locals ks ct u n).y < 2 ^ 24 := by
  unfold speck96_48.decrypt_speck_96_48_locals
  refine locals_lt_forUp 24 _
    (fun i => speckRoundInv 24 8 3 (loadLE ks (3 * (23 - 1 - i)) 3)) n _
    (loadLE ct 3 3, loadLE ct 0 3)
    (fun i p _ _ _ => ⟨rotl_lt _ _ _, rotr_lt _ _ _⟩)
    ?_ ⟨loadLE_lt ct 3 3, loadLE_lt ct 0 3⟩ ?_
  · simp only [speck96_48.rotate_right, speck96_48.rotate_left, speck96_48.word_size, speck96_48.bytes, speck96_48.rounds,
      speck96_48.rotation_alpha, speck96_48.rotation_beta, speck96_48.mod_mask, sizeof_bytes3_t,
      and_mask24, and_mask48, and_mask _ 24 (by decide), memcpyWord_mod3, memcpyWord_mod6,
      c_rotr 32 24 _ _ (by decide), c_rotl 32 24 _ _ (by decide),
      add_mod_two_pow 32 24 _ _ (by decide), sub_mod_two_pow 32 24 _ _ (by decide),
      xor_mod_two_pow, Nat.mod_mod, rotr_mod, rotl_mod, sub_mod,
      rotr_mod_of_le 24 32 _ _ (by decide), rotl_mod_of_le 24 32 _ _ (by decide),
      sub_mod_of_le 24 32 _ _ (by decide), loadLE_mod_of_le _ _ 3 32 (by decide),
      loadLE_mod_of_le _ _ 3 24 (by decide), mod_two_pow_mod_of_le _ (by decide : 24 ≤ 32), and_self]
  · intro i s _ hx hy
    simp only [speckRoundInv, speck96_48.rotate_right, speck96_48.rotate_left, speck96_48.word_size, speck96_48.bytes, speck96_48.rounds,
      speck96_48.rotation_alpha, speck96_48.rotation_beta, speck96_48.mod_mask, sizeof_bytes3_t,
      and_mask24, and_mask48, and_mask _ 24 (by decide), memcpyWord_mod3, memcpyWord_mod6,
      c_rotr 32 24 _ _ (by decide), c_rotl 32 24 _ _ (by decide),
      add_mod_two_pow 32 24 _ _ (by decide), sub_mod_two_pow 32 24 _ _ (by decide),
      xor_mod_two_pow, Nat.mod_mod, rotr_mod, rotl_mod, sub_mod,
      rotr_mod_of_le 24 32 _ _ (by decide), rotl_mod_of_le 24 32 _ _ (by decide),
      sub_mod_of_le 24 32 _ _ (by decide), loadLE_mod_of_le _ _ 3 32 (by decide),
      loadLE_mod_of_le _ _ 3 24 (by decide), mod_two_pow_mod_of_le _ (by decide : 24 ≤ 32),
      Nat.mod_eq_of_lt hx, Nat.mod_eq_of_lt hy, mod_eq_of_lt_two_pow 32 hx (by decide),
      mod_eq_of_lt_two_pow 32 hy (by decide)]

/-- The locals `x` and `y` of `encrypt_speck_96_96` are below `2 ^ 48` after any
number of passes of its loop. -/
theorem speck96_96_encrypt_locals_lt (ks pt : Buf) (u : Locals) (n : Nat) :
    (speck96_96.encrypt_speck_96_96_locals ks pt u n).x < 2 ^ 48
      ∧ (speck96_96.encrypt_speck_96_96_locals ks pt u n).y < 2 ^ 48 := by
  unfold speck96_96.encrypt_speck_96_96_locals
  refine locals_lt_forUp 48 _
    (fun i => speckRound 48 8 3 (loadLE ks (6 * i) 6)) n _ (loadLE pt 6 6, loadLE pt 0 6)
    (fun i p _ _ _ => speckRound_lt 48 8 3 _ p (loadLE_lt ks (6 * i) 6))
    ?_ ⟨loadLE_lt pt 6 6, loadLE_lt pt 0 6⟩ ?_
  · simp only [speck96_96.rotate_right, speck96_96.rotate_left, speck96_96.word_size, speck96_96.bytes, speck96_96.rounds,
      speck96_96.rotation_alpha, speck96_96.rotation_beta, speck96_96.mod_mask, sizeof_bytes6_t,
      and_mask24, and_mask48, and_mask _ 48 (by decide), memcpyWord_mod3, memcpyWord_mod6,
      c_rotr 64 48 _ _ (by decide), c_rotl 64 48 _ _ (by decide),
      add_mod_two_pow 64 48 _ _ (by decide), sub_mod_two_pow 64 48 _ _ (by decide),
      xor_mod_two_pow, Nat.mod_mod, rotr_mod, rotl_mod, sub_mod,
      rotr_mod_of_le 48 64 _ _ (by decide), rotl_mod_of_le 48 64 _ _ (by decide),
      sub_mod_of_le 48 64 _ _ (by decide), loadLE_mod_of_le _ _ 6 64 (by decide),
      loadLE_mod_of_le _ _ 6 48 (by decide), mod_two_pow_mod_of_le _ (by decide : 48 ≤ 64), and_self]
  · intro i s _ hx hy
    simp only [speckRound, speck96_96.rotate_right, speck96_96.rotate_left, speck96_96.word_size, speck96_96.bytes, speck96_96.rounds,
      speck96_96.rotation_alpha, speck96_96.rotation_beta, speck96_96.mod_mask, sizeof_bytes6_t,
      and_mask24, and_mask48, and_mask _ 48 (by decide), memcpyWord_mod3, memcpyWord_mod6,
      c_rotr 64 48 _ _ (by decide), c_rotl 64 48 _ _ (by decide),
      add_mod_two_pow 64 48 _ _ (by decide), sub_mod_two_pow 64 48 _ _ (by decide),
      xor_mod_two_pow, Nat.mod_mod, rotr_mod, rotl_mod, sub_mod,
      rotr_mod_of_le 48 64 _ _ (by decide), rotl_mod_of_le 48 64 _ _ (by decide),
      sub_mod_of_le 48 64 _ _ (by decide), loadLE_mod_of_le _ _ 6 64 (by decide),
      loadLE_mod_of_le _ _ 6 48 (by decide), mod_two_pow_mod_of_le _ (by decide : 48 ≤ 64)]

/-- The locals `x` and `y` of `decrypt_speck_96_96` are below `2 ^ 48` after any
number of passes of its loop. -/
theorem speck96_96_decrypt_locals_lt (ks ct : Buf) (u : Locals) (n : Nat) :
    (speck96_96.decrypt_speck_96_96_locals ks ct u n).x < 2 ^ 48
      ∧ (speck96_96.decrypt_speck_96_96_locals ks ct u n).y < 2 ^ 48 := by
  unfold speck96_96.decrypt_speck_96_96_locals
  refine locals_lt_forUp 48 _
    (fun i => speckRoundInv 48 8 3 (loadLE ks (6 * (28 - 1 - i)) 6)) n _
    (loadLE ct 6 6, loadLE ct 0 6)
    (fun i p _ _ _ => ⟨rotl_lt _ _ _, rotr_lt _ _ _⟩)
    ?_ ⟨loadLE_lt ct 6 6, loadLE_lt ct 0 6⟩ ?_
  · simp only [speck96_96.rotate_right, speck96_96.rotate_left, speck96_96.word_size, speck96_96.bytes, speck96_96.rounds,
      speck96_96.rotation_alpha, speck96_96.rotation_beta, speck96_96.mod_mask, sizeof_bytes6_t,
      and_mask24, and_mask48, and_mask _ 48 (by decide), memcpyWord_mod3, memcpyWord_mod6,
      c_rotr 64 48 _ _ (by decide), c_rotl 64 48 _ _ (by decide),
      add_mod_two_pow 64 48 _ _ (by decide), sub_mod_two_pow 64 48 _ _ (by decide),
      xor_mod_two_pow, Nat.mod_mod, rotr_mod, rotl_mod, sub_mod,
      rotr_mod_of_le 48 64 _ _ (by decide), rotl_mod_of_le 48 64 _ _ (by decide),
      sub_mod_of_le 48 64 _ _ (by decide), loadLE_mod_of_le _ _ 6 64 (by decide),
      loadLE_mod_of_le _ _ 6 48 (by decide), mod_two_pow_mod_of_le _ (by decide : 48 ≤ 64), and_self]
  · intro i s _ hx hy
    simp only [speckRoundInv, speck96_96.rotate_right, speck96_96.rotate_left, speck96_96.word_size, speck96_96.bytes, speck96_96.rounds,
      speck96_96.rotation_alpha, speck96_96.rotation_beta, speck96_96.mod_mask, sizeof_bytes6_t,
      and_mask24, and_mask48, and_mask _ 48 (by decide), memcpyWord_mod3, memcpyWord_mod6,
      c_rotr 64 48 _ _ (by decide), c_rotl 64 48 _ _ (by decide),
      add_mod_two_pow 64 48 _ _ (by decide), sub_mod_two_pow 64 48 _ _ (by decide),
      xor_mod_two_pow, Nat.mod_mod, rotr_mod, rotl_mod, sub_mod,
      rotr_mod_of_le 48 64 _ _ (by decide), rotl_mod_of_le 48 64 _ _ (by decide),
      sub_mod_of_le 48 64 _ _ (by decide), loadLE_mod_of_le _ _ 6 64 (by decide),
      loadLE_mod_of_le _ _ 6 48 (by decide), mod_two_pow_mod_of_le _ (by decide : 48 ≤ 64),
      Nat.mod_eq_of_lt hx, Nat.mod_eq_of_lt hy, mod_eq_of_lt_two_pow 64 hx (by decide),
      mod_eq_of_lt_two_pow 64 hy (by decide)]

/-- The locals `x` and `y` of `encrypt_speck_128_64` are below `2 ^ 32` after any
number of passes of its loop. -/
theorem speck128_64_encrypt_locals_lt (ks pt : Buf) (n : Nat) :
    (speck128_64.encrypt_speck_128_64_locals ks pt n).x < 2 ^ 32
      ∧ (speck128_64.encrypt_speck_128_64_locals ks pt n).y < 2 ^ 32 := by
  unfold speck128_64.encrypt_speck_128_64_locals
  refine locals_lt_forUp 32 _
    (fun i => speckRound 32 8 3 (loadLE ks (4 * i) 4)) n _ (loadLE pt 4 4, loadLE pt 0 4)
    (fun i p _ _ _ => speckRound_lt 32 8 3 _ p (loadLE_lt ks (4 * i) 4))
    ?_ ⟨loadLE_lt pt 4 4, loadLE_lt pt 0 4⟩ ?_
  · simp only [speck128_64.rotate_right, speck128_64.rotate_left, speck128_64.word_size, speck128_64.bytes, speck128_64.rounds,
      speck128_64.rotation_alpha, speck128_64.rotation_beta,
      and_mask24, and_mask48, and_mask _ 32 (by decide), memcpyWord_mod3, memcpyWord_mod6,
      c_rotr 32 32 _ _ (by decide), c_rotl 32 32 _ _ (by decide),
      add_mod_two_pow 32 32 _ _ (by decide), sub_mod_two_pow 32 32 _ _ (by decide),
      xor_mod_two_pow, Nat.mod_mod, rotr_mod, rotl_mod, sub_mod,
      rotr_mod_of_le 32 32 _ _ (by decide), rotl_mod_of_le 32 32 _ _ (by decide),
      sub_mod_of_le 32 32 _ _ (by decide), loadLE_mod_of_le _ _ 4 32 (by decide),
      loadLE_mod_of_le _ _ 4 32 (by decide), mod_two_pow_mod_of_le _ (by decide : 32 ≤ 32), and_self]
  · intro i s _ hx hy
    simp only [speckRound, speck128_64.rotate_right, speck128_64.rotate_left, speck128_64.word_size, speck128_64.bytes, speck128_64.rounds,
      speck128_64.rotation_alpha, speck128_64.rotation_beta,
      and_mask24, and_mask48, and_mask _ 32 (by decide), memcpyWord_mod3, memcpyWord_mod6,
      c_rotr 32 32 _ _ (by decide), c_rotl 32 32 _ _ (by decide),
      add_mod_two_pow 32 32 _ _ (by decide), sub_mod_two_pow 32 32 _ _ (by decide),
      xor_mod_two_pow, Nat.mod_mod, rotr_mod, rotl_mod, sub_mod,
      rotr_mod_of_le 32 32 _ _ (by decide), rotl_mod_of_le 32 32 _ _ (by decide),
      sub_mod_of_le 32 32 _ _ (by decide), loadLE_mod_of_le _ _ 4 32 (by decide),
      loadLE_mod_of_le _ _ 4 32 (by decide), mod_two_pow_mod_of_le _ (by decide : 32 ≤ 32)]

/-- The locals `x` and `y` of `decrypt_speck_128_64` are below `2 ^ 32` after any
number of passes of its loop. -/
theorem speck128_64_decrypt_locals_lt (ks ct : Buf) (n : Nat) :
    (speck128_64.decrypt_speck_128_64_locals ks ct n).x < 2 ^ 32
      ∧ (speck128_64.decrypt_speck_128_64_locals ks ct n).y < 2 ^ 32 := by
  unfold speck128_64.decrypt_speck_128_64_locals
  refine locals_lt_forUp 32 _
    (fun i => speckRoundInv 32 8 3 (loadLE ks (4 * (27 - 1 - i)) 4)) n _
    (loadLE ct 4 4, loadLE ct 0 4)
    (fun i p _ _ _ => ⟨rotl_lt _ _ _, rotr_lt _ _ _⟩)
    ?_ ⟨loadLE_lt ct 4 4, loadLE_lt ct 0 4⟩ ?_
  · simp only [speck128_64.rotate_right, speck128_64.rotate_left, speck128_64.word_size, speck128_64.bytes, speck128_64.rounds,
      speck128_64.rotation_alpha, speck128_64.rotation_beta,
      and_mask24, and_mask48, and_mask _ 32 (by decide), memcpyWord_mod3, memcpyWord_mod6,
      c_rotr 32 32 _ _ (by decide), c_rotl 32 32 _ _ (by decide),
      add_mod_two_pow 32 32 _ _ (by decide), sub_mod_two_pow 32 32 _ _ (by decide),
      xor_mod_two_pow, Nat.mod_mod, rotr_mod, rotl_mod, sub_mod,
      rotr_mod_of_le 32 32 _ _ (by decide), rotl_mod_of_le 32 32 _ _ (by decide),
      sub_mod_of_le 32 32 _ _ (by decide), loadLE_mod_of_le _ _ 4 32 (by decide),
      loadLE_mod_of_le _ _ 4 32 (by decide), mod_two_pow_mod_of_le _ (by decide : 32 ≤ 32), and_self]
  · intro i s _ hx hy
    simp only [speckRoundInv, speck128_64.rotate_right, speck128_64.rotate_left, speck128_64.word_size, speck128_64.bytes, speck128_64.rounds,
      speck128_64.rotation_alpha, speck128_64.rotation_beta,
      and_mask24, and_mask48, and_mask _ 32 (by decide), memcpyWord_mod3, memcpyWord_mod6,
      c_rotr 32 32 _ _ (by decide), c_rotl 32 32 _ _ (by decide),
      add_mod_two_pow 32 32 _ _ (by decide), sub_mod_two_pow 32 32 _ _ (by decide),
      xor_mod_two_pow, Nat.mod_mod, rotr_mod, rotl_mod, sub_mod,
      rotr_mod_of_le 32 32 _ _ (by decide), rotl_mod_of_le 32 32 _ _ (by decide),
      sub_mod_of_le 32 32 _ _ (by decide), loadLE_mod_of_le _ _ 4 32 (by decide),
      loadLE_mod_of_le _ _ 4 32 (by decide), mod_two_pow_mod_of_le _ (by decide : 32 ≤ 32),
      Nat.mod_eq_of_lt hx, Nat.mod_eq_of_lt hy, mod_eq_of_lt_two_pow 32 hx (by decide),
      mod_eq_of_lt_two_pow 32 hy (by decide)]

/-- The locals `x` and `y` of `encrypt_speck_128_128` are below `2 ^ 64` after any
number of passes of its loop. -/
theorem speck128_128_encrypt_locals_lt (ks pt : Buf) (n : Nat) :
    (speck128_128.encrypt_speck_128_128_locals ks pt n).x < 2 ^ 64
      ∧ (speck128_128.encrypt_speck_128_128_locals ks pt n).y < 2 ^ 64 := by
  unfold speck128_128.encrypt_speck_128_128_locals
  refine locals_lt_forUp 64 _
    (fun i => speckRound 64 8 3 (loadLE ks (8 * i) 8)) n _ (loadLE pt 8 8, loadLE pt 0 8)
    (fun i p _ _ _ => speckRound_lt 64 8 3 _ p (loadLE_lt ks (8 * i) 8))
    ?_ ⟨loadLE_lt pt 8 8, loadLE_lt pt 0 8⟩ ?_
  · simp only [speck128_128.rotate_right, speck128_128.rotate_left, speck128_128.word_size, speck128_128.bytes, speck128_128.rounds,
      speck128_128.rotation_alpha, speck128_128.rotation_beta,
      and_mask24, and_mask48, and_mask _ 64 (by decide), memcpyWord_mod3, memcpyWord_mod6,
      c_rotr 64 64 _ _ (by decide), c_rotl 64 64 _ _ (by decide),
      add_mod_two_pow 64 64 _ _ (by decide), sub_mod_two_pow 64 64 _ _ (by decide),
      xor_mod_two_pow, Nat.mod_mod, rotr_mod, rotl_mod, sub_mod,
      rotr_mod_of_le 64 64 _ _ (by decide), rotl_mod_of_le 64 64 _ _ (by decide),
      sub_mod_of_le 64 64 _ _ (by decide), loadLE_mod_of_le _ _ 8 64 (by decide),
      loadLE_mod_of_le _ _ 8 64 (by decide), mod_two_pow_mod_of_le _ (by decide : 64 ≤ 64), and_self]
  · intro i s _ hx hy
    simp only [speckRound, speck128_128.rotate_right, speck128_128.rotate_left, speck128_128.word_size, speck128_128.bytes, speck128_128.rounds,
      speck128_128.rotation_alpha, speck128_128.rotation_beta,
      and_mask24, and_mask48, and_mask _ 64 (by decide), memcpyWord_mod3, memcpyWord_mod6,
      c_rotr 64 64 _ _ (by decide), c_rotl 64 64 _ _ (by decide),
      add_mod_two_pow 64 64 _ _ (by decide), sub_mod_two_pow 64 64 _ _ (by decide),
      xor_mod_two_pow, Nat.mod_mod, rotr_mod, rotl_mod, sub_mod,
      rotr_mod_of_le 64 64 _ _ (by decide), rotl_mod_of_le 64 64 _ _ (by decide),
      sub_mod_of_le 64 64 _ _ (by decide), loadLE_mod_of_le _ _ 8 64 (by decide),
      loadLE_mod_of_le _ _ 8 64 (by decide), mod_two_pow_mod_of_le _ (by decide : 64 ≤ 64)]

/-- The locals `x` and `y` of `decrypt_speck_128_128` are below `2 ^ 64` after any
number of passes of its loop. -/
theorem speck128_128_decrypt_locals_lt (ks ct : Buf) (n : Nat) :
    (speck128_128.decrypt_speck_128_128_locals ks ct n).x < 2 ^ 64
      ∧ (speck128_128.decrypt_speck_128_128_locals ks ct n).y < 2 ^ 64 := by
  unfold speck128_128.decrypt_speck_128_128_locals
  refine locals_lt_forUp 64 _
    (fun i => speckRoundInv 64 8 3 (loadLE ks (8 * (32 - 1 - i)) 8)) n _
    (loadLE ct 8 8, loadLE ct 0 8)
    (fun i p _ _ _ => ⟨rotl_lt _ _ _, rotr_lt _ _ _⟩)
    ?_ ⟨loadLE_lt ct 8 8, loadLE_lt ct 0 8⟩ ?_
  · simp only [speck128_128.rotate_right, speck128_128.rotate_left, speck128_128.word_size, speck128_128.bytes, speck128_128.rounds,
      speck128_128.rotation_alpha, speck128_128.rotation_beta,
      and_mask24, and_mask48, and_mask _ 64 (by decide), memcpyWord_mod3, memcpyWord_mod6,
      c_rotr 64 64 _ _ (by decide), c_rotl 64 64 _ _ (by decide),
      add_mod_two_pow 64 64 _ _ (by decide), sub_mod_two_pow 64 64 _ _ (by decide),
      xor_mod_two_pow, Nat.mod_mod, rotr_mod, rotl_mod, sub_mod,
      rotr_mod_of_le 64 64 _ _ (by decide), rotl_mod_of_le 64 64 _ _ (by decide),
      sub_mod_of_le 64 64 _ _ (by decide), loadLE_mod_of_le _ _ 8 64 (by decide),
      loadLE_mod_of_le _ _ 8 64 (by decide), mod_two_pow_mod_of_le _ (by decide : 64 ≤ 64), and_self]
  · intro i s _ hx hy
    simp only [speckRoundInv, speck128_128.rotate_right, speck128_128.rotate_left, speck128_128.word_size, speck128_128.bytes, speck128_128.rounds,
      speck128_128.rotation_alpha, speck128_128.rotation_beta,
      and_mask24, and_mask48, and_mask _ 64 (by decide), memcpyWord_mod3, memcpyWord_mod6,
      c_rotr 64 64 _ _ (by decide), c_rotl 64 64 _ _ (by decide),
      add_mod_two_pow 64 64 _ _ (by decide), sub_mod_two_pow 64 64 _ _ (by decide),
      xor_mod_two_pow, Nat.mod_mod, rotr_mod, rotl_mod, sub_mod,
      rotr_mod_of_le 64 64 _ _ (by decide), rotl_mod_of_le 64 64 _ _ (by decide),
      sub_mod_of_le 64 64 _ _ (by decide), loadLE_mod_of_le _ _ 8 64 (by decide),
      loadLE_mod_of_le _ _ 8 64 (by decide), mod_two_pow_mod_of_le _ (by decide : 64 ≤ 64),
      Nat.mod_eq_of_lt hx, Nat.mod_eq_of_lt hy, mod_eq_of_lt_two_pow 64 hx (by decide),
      mod_eq_of_lt_two_pow 64 hy (by decide)]

/-- The locals `x` and `y` of `encrypt_speck_256_128` are below `2 ^ 64` after any
number of passes of its loop. -/
theorem speck256_128_encrypt_locals_lt (ks pt : Buf) (n : Nat) :
    (speck256_128.encrypt_speck_256_128_locals ks pt n).x < 2 ^ 64
      ∧ (speck256_128.encrypt_speck_256_128_locals ks pt n).y < 2 ^ 64 := by
  unfold speck256_128.encrypt_speck_256_128_locals
  refine locals_lt_forUp 64 _
    (fun i => speckRound 64 8 3 (loadLE ks (8 * i) 8)) n _ (loadLE pt 8 8, loadLE pt 0 8)
    (fun i p _ _ _ => speckRound_lt 64 8 3 _ p (loadLE_lt ks (8 * i) 8))
    ?_ ⟨loadLE_lt pt 8 8, loadLE_lt pt 0 8⟩ ?_
  · simp only [speck256_128.rotate_right, speck256_128.rotate_left, speck256_128.word_size, speck256_128.bytes, speck256_128.rounds,
      speck256_128.rotation_alpha, speck256_128.rotation_beta,
      and_mask24, and_mask48, and_mask _ 64 (by decide), memcpyWord_mod3, memcpyWord_mod6,
      c_rotr 64 64 _ _ (by decide), c_rotl 64 64 _ _ (by decide),
      add_mod_two_pow 64 64 _ _ (by decide), sub_mod_two_pow 64 64 _ _ (by decide),
      xor_mod_two_pow, Nat.mod_mod, rotr_mod, rotl_mod, sub_mod,
      rotr_mod_of_le 64 64 _ _ (by decide), rotl_mod_of_le 64 64 _ _ (by decide),
      sub_mod_of_le 64 64 _ _ (by decide), loadLE_mod_of_le _ _ 8 64 (by decide),
      loadLE_mod_of_le _ _ 8 64 (by decide), mod_two_pow_mod_of_le _ (by decide : 64 ≤ 64), and_self]
  · intro i s _ hx hy
    simp only [speckRound, speck256_128.rotate_right, speck256_128.rotate_left, speck256_128.word_size, speck256_128.bytes, speck256_128.rounds,
      speck256_128.rotation_alpha, speck256_128.rotation_beta,
      and_mask24, and_mask48, and_mask _ 64 (by decide), memcpyWord_mod3, memcpyWord_mod6,
      c_rotr 64 64 _ _ (by decide), c_rotl 64 64 _ _ (by decide),
      add_mod_two_pow 64 64 _ _ (by decide), sub_mod_two_pow 64 64 _ _ (by decide),
      xor_mod_two_pow, Nat.mod_mod, rotr_mod, rotl_mod, sub_mod,
      rotr_mod_of_le 64 64 _ _ (by decide), rotl_mod_of_le 64 64 _ _ (by decide),
      sub_mod_of_le 64 64 _ _ (by decide), loadLE_mod_of_le _ _ 8 64 (by decide),
      loadLE_mod_of_le _ _ 8 64 (by decide), mod_two_pow_mod_of_le _ (by decide : 64 ≤ 64)]

/-- The locals `x` and `y` of `decrypt_speck_256_128` are below `2 ^ 64` after any
number of passes of its loop. -/
theorem speck256_128_decrypt_locals_lt (ks ct : Buf) (n : Nat) :
    (speck256_128.decrypt_speck_256_128_locals ks ct n).x < 2 ^ 64
      ∧ (speck256_128.decrypt_speck_256_128_locals ks ct n).y < 2 ^ 64 := by
  unfold speck256_128.decrypt_speck_256_128_locals
  refine locals_lt_forUp 64 _
    (fun i => speckRoundInv 64 8 3 (loadLE ks (8 * (34 - 1 - i)) 8)) n _
    (loadLE ct 8 8, loadLE ct 0 8)
    (fun i p _ _ _ => ⟨rotl_lt _ _ _, rotr_lt _ _ _⟩)
    ?_ ⟨loadLE_lt ct 8 8, loadLE_lt ct 0 8⟩ ?_
  · simp only [speck256_128.rotate_right, speck256_128.rotate_left, speck256_128.word_size, speck256_128.bytes, speck256_128.rounds,
      speck256_128.rotation_alpha, speck256_128.rotation_beta,
      and_mask24, and_mask48, and_mask _ 64 (by decide), memcpyWord_mod3, memcpyWord_mod6,
      c_rotr 64 64 _ _ (by decide), c_rotl 64 64 _ _ (by decide),
      add_mod_two_pow 64 64 _ _ (by decide), sub_mod_two_pow 64 64 _ _ (by decide),
      xor_mod_two_pow, Nat.mod_mod, rotr_mod, rotl_mod, sub_mod,
      rotr_mod_of_le 64 64 _ _ (by decide), rotl_mod_of_le 64 64 _ _ (by decide),
      sub_mod_of_le 64 64 _ _ (by decide), loadLE_mod_of_le _ _ 8 64 (by decide),
      loadLE_mod_of_le _ _ 8 64 (by decide), mod_two_pow_mod_of_le _ (by decide : 64 ≤ 64), and_self]
  · intro i s _ hx hy
    simp only [speckRoundInv, speck256_128.rotate_right, speck256_128.rotate_left, speck256_128.word_size, speck256_128.bytes, speck256_128.rounds,
      speck256_128.rotation_alpha, speck256_128.rotation_beta,
      and_mask24, and_mask48, and_mask _ 64 (by decide), memcpyWord_mod3, memcpyWord_mod6,
      c_rotr 64 64 _ _ (by decide), c_rotl 64 64 _ _ (by decide),
      add_mod_two_pow 64 64 _ _ (by decide), sub_mod_two_pow 64 64 _ _ (by decide),
      xor_mod_two_pow, Nat.mod_mod, rotr_mod, rotl_mod, sub_mod,
      rotr_mod_of_le 64 64 _ _ (by decide), rotl_mod_of_le 64 64 _ _ (by decide),
      sub_mod_of_le 64 64 _ _ (by decide), loadLE_mod_of_le _ _ 8 64 (by decide),
      loadLE_mod_of_le _ _ 8 64 (by decide), mod_two_pow_mod_of_le _ (by decide : 64 ≤ 64),
      Nat.mod_eq_of_lt hx, Nat.mod_eq_of_lt hy, mod_eq_of_lt_two_pow 64 hx (by decide),
      mod_eq_of_lt_two_pow 64 hy (by decide)]

/-- The locals `x` and `y` of `encrypt_simon_64_32` are below `2 ^ 16` after any
number of passes of its loop. -/
theorem simon64_32_encrypt_locals_lt (ks pt : Buf) (n : Nat) :
    (simon64_32.encrypt_simon_64_32_locals ks pt n).x < 2 ^ 16
      ∧ (simon64_32.encrypt_simon_64_32_locals ks pt n).y < 2 ^ 16 := by
  unfold simon64_32.encrypt_simon_64_32_locals
  refine locals_lt_forUp 16 _
    (fun i => simonRound 16 (loadLE ks (2 * i) 2)) n _ (loadLE pt 2 2, loadLE pt 0 2)
    (fun i p _ h1 h2 => simonRound_lt 16 _ p (loadLE_lt ks (2 * i) 2) h1 h2)
    ?_ ⟨loadLE_lt pt 2 2, loadLE_lt pt 0 2⟩ ?_
  · simp only [simon64_32.shift_left, simon64_32.word_size, simon64_32.bytes, simon64_32.rounds,
      and_mask24, and_mask48, and_mask _ 16 (by decide), and_ullong_max, memcpyWord_mod3,
      memcpyWord_mod6, c_rotl 32 16 _ _ (by decide),
      xor_mod_two_pow, and_mod_two_pow, Nat.mod_mod, rotl_mod,
      rotl_mod_of_le 16 32 _ _ (by decide), loadLE_mod_of_le _ _ 2 32 (by decide),
      loadLE_mod_of_le _ _ 2 16 (by decide), mod_two_pow_mod_of_le _ (by decide : 16 ≤ 32), and_self]
  · intro i s _ hx hy
    simp only [simonRound, simon64_32.shift_left, simon64_32.word_size, simon64_32.bytes, simon64_32.rounds,
      and_mask24, and_mask48, and_mask _ 16 (by decide), and_ullong_max, memcpyWord_mod3,
      memcpyWord_mod6, c_rotl 32 16 _ _ (by decide),
      xor_mod_two_pow, and_mod_two_pow, Nat.mod_mod, rotl_mod,
      rotl_mod_of_le 16 32 _ _ (by decide), loadLE_mod_of_le _ _ 2 32 (by decide),
      loadLE_mod_of_le _ _ 2 16 (by decide), mod_two_pow_mod_of_le _ (by decide : 16 ≤ 32),
      Nat.mod_eq_of_lt hx, Nat.mod_eq_of_lt hy, mod_eq_of_lt_two_pow 32 hx (by decide),
      mod_eq_of_lt_two_pow 32 hy (by decide)]

/-- The locals `x` and `y` of `decrypt_simon_64_32` are below `2 ^ 16` at the end of
its loop, from whatever index the loop starts. -/
theorem simon64_32_decrypt_locals_lt (ks ct : Buf) (n : Nat) :
    (simon64_32.decrypt_simon_64_32_locals ks ct n).x < 2 ^ 16
      ∧ (simon64_32.decrypt_simon_64_32_locals ks ct n).y < 2 ^ 16 := by
  unfold simon64_32.decrypt_simon_64_32_locals
  refine locals_lt_forDown 16 _
    (fun i => simonRound 16 (loadLE ks (2 * i) 2)) n _ (loadLE ct 0 2, loadLE ct 2 2)
    (fun i p _ h1 h2 => simonRound_lt 16 _ p (loadLE_lt ks _ 2) h1 h2)
    ?_ ⟨loadLE_lt ct 0 2, loadLE_lt ct 2 2⟩ ?_
  · simp only [simon64_32.shift_left, simon64_32.word_size, simon64_32.bytes, simon64_32.rounds,
      and_mask24, and_mask48, and_mask _ 16 (by decide), and_ullong_max, memcpyWord_mod3,
      memcpyWord_mod6, c_rotl 32 16 _ _ (by decide),
      xor_mod_two_pow, and_mod_two_pow, Nat.mod_mod, rotl_mod,
      rotl_mod_of_le 16 32 _ _ (by decide), loadLE_mod_of_le _ _ 2 32 (by decide),
      loadLE_mod_of_le _ _ 2 16 (by decide), mod_two_pow_mod_of_le _ (by decide : 16 ≤ 32), and_self]
  · intro i s _ hx hy
    simp only [simonRound, simon64_32.shift_left, simon64_32.word_size, simon64_32.bytes, simon64_32.rounds,
      and_mask24, and_mask48, and_mask _ 16 (by decide), and_ullong_max, memcpyWord_mod3,
      memcpyWord_mod6, c_rotl 32 16 _ _ (by decide),
      xor_mod_two_pow, and_mod_two_pow, Nat.mod_mod, rotl_mod,
      rotl_mod_of_le 16 32 _ _ (by decide), loadLE_mod_of_le _ _ 2 32 (by decide),
      loadLE_mod_of_le _ _ 2 16 (by decide), mod_two_pow_mod_of_le _ (by decide : 16 ≤ 32),
      Nat.mod_eq_of_lt hx, Nat.mod_eq_of_lt hy, mod_eq_of_lt_two_pow 32 hx (by decide),
      mod_eq_of_lt_two_pow 32 hy (by decide)]

/-- The locals `x` and `y` of `encrypt_simon_72_48` are below `2 ^ 24` after any
number of passes of its loop. -/
theorem simon72_48_encrypt_locals_lt (ks pt : Buf) (u : Locals) (n : Nat) :
    (simon72_48.encrypt_simon_72_48_locals ks pt u n).x < 2 ^ 24
      ∧ (simon72_48.encrypt_simon_72_48_locals ks pt u n).y < 2 ^ 24 := by
  unfold simon72_48.encrypt_simon_72_48_locals
  refine locals_lt_forUp 24 _
    (fun i => simonRound 24 (loadLE ks (3 * i) 3)) n _ (loadLE pt 3 3, loadLE pt 0 3)
    (fun i p _ h1 h2 => simonRound_lt 24 _ p (loadLE_lt ks (3 * i) 3) h1 h2)
    ?_ ⟨loadLE_lt pt 3 3, loadLE_lt pt 0 3⟩ ?_
  · simp only [simon72_48.shift_left, simon72_48.word_size, simon72_48.bytes, simon72_48.rounds, simon72_48.mod_mask, sizeof_bytes3_t,
      and_mask24, and_mask48, and_mask _ 24 (by decide), and_ullong_max, memcpyWord_mod3,
      memcpyWord_mod6, c_rotl 64 24 _ _ (by decide),
      xor_mod_two_pow, and_mod_two_pow, Nat.mod_mod, rotl_mod,
      rotl_mod_of_le 24 64 _ _ (by decide), loadLE_mod_of_le _ _ 3 64 (by decide),
      loadLE_mod_of_le _ _ 3 24 (by decide), mod_two_pow_mod_of_le _ (by decide : 24 ≤ 64), and_self]
  · intro i s _ hx hy
    simp only [simonRound, simon72_48.shift_left, simon72_48.word_size, simon72_48.bytes, simon72_48.rounds, simon72_48.mod_mask, sizeof_bytes3_t,
      and_mask24, and_mask48, and_mask _ 24 (by decide), and_ullong_max, memcpyWord_mod3,
      memcpyWord_mod6, c_rotl 64 24 _ _ (by decide),
      xor_mod_two_pow, and_mod_two_pow, Nat.mod_mod, rotl_mod,
      rotl_mod_of_le 24 64 _ _ (by decide), loadLE_mod_of_le _ _ 3 64 (by decide),
      loadLE_mod_of_le _ _ 3 24 (by decide), mod_two_pow_mod_of_le _ (by decide : 24 ≤ 64),
      Nat.mod_eq_of_lt hx, Nat.mod_eq_of_lt hy, mod_eq_of_lt_two_pow 64 hx (by decide),
      mod_eq_of_lt_two_pow 64 hy (by decide)]

/-- The locals `x` and `y` of `decrypt_simon_72_48` are below `2 ^ 24` after any
number of passes of its loop. -/
theorem simon72_48_decrypt_locals_lt (ks ct : Buf) (u : Locals) (n : Nat) :
    (simon72_48.decrypt_simon_72_48_locals ks ct u n).x < 2 ^ 24
      ∧ (simon72_48.decrypt_simon_72_48_locals ks ct u n).y < 2 ^ 24 := by
  unfold simon72_48.decrypt_simon_72_48_locals
  refine locals_lt_forUp 24 _
    (fun i => simonRound 24 (loadLE ks (3 * (36 - 1 - i)) 3)) n _ (loadLE ct 0 3, loadLE ct 3 3)
    (fun i p _ h1 h2 => simonRound_lt 24 _ p (loadLE_lt ks _ 3) h1 h2)
    ?_ ⟨loadLE_lt ct 0 3, loadLE_lt ct 3 3⟩ ?_
  · simp only [simon72_48.shift_left, simon72_48.word_size, simon72_48.bytes, simon72_48.rounds, simon72_48.mod_mask, sizeof_bytes3_t,
      and_mask24, and_mask48, and_mask _ 24 (by decide), and_ullong_max, memcpyWord_mod3,
      memcpyWord_mod6, c_rotl 64 24 _ _ (by decide),
      xor_mod_two_pow, and_mod_two_pow, Nat.mod_mod, rotl_mod,
      rotl_mod_of_le 24 64 _ _ (by decide), loadLE_mod_of_le _ _ 3 64 (by decide),
      loadLE_mod_of_le _ _ 3 24 (by decide), mod_two_pow_mod_of_le _ (by decide : 24 ≤ 64), and_self]
  · intro i s _ hx hy
    simp only [simonRound, simon72_48.shift_left, simon72_48.word_size, simon72_48.bytes, simon72_48.rounds, simon72_48.mod_mask, sizeof_bytes3_t,
      and_mask24, and_mask48, and_mask _ 24 (by decide), and_ullong_max, memcpyWord_mod3,
      memcpyWord_mod6, c_rotl 64 24 _ _ (by decide),
      xor_mod_two_pow, and_mod_two_pow, Nat.mod_mod, rotl_mod,
      rotl_mod_of_le 24 64 _ _ (by decide), loadLE_mod_of_le _ _ 3 64 (by decide),
      loadLE_mod_of_le _ _ 3 24 (by decide), mod_two_pow_mod_of_le _ (by decide : 24 ≤ 64),
      Nat.mod_eq_of_lt hx, Nat.mod_eq_of_lt hy, mod_eq_of_lt_two_pow 64 hx (by decide),
      mod_eq_of_lt_two_pow 64 hy (by decide)]

/-- The locals `x` and `y` of `encrypt_simon_128_64` are below `2 ^ 32` after any
number of passes of its loop. -/
theorem simon128_64_encrypt_locals_lt (ks pt : Buf) (n : Nat) :
    (simon128_64.encrypt_simon_128_64_locals ks pt n).x < 2 ^ 32
      ∧ (simon128_64.encrypt_simon_128_64_locals ks pt n).y < 2 ^ 32 := by
  unfold simon128_64.encrypt_simon_128_64_locals
  refine locals_lt_forUp 32 _
    (fun i => simonRound 32 (loadLE ks (4 * i) 4)) n _ (loadLE pt 4 4, loadLE pt 0 4)
    (fun i p _ h1 h2 => simonRound_lt 32 _ p (loadLE_lt ks (4 * i) 4) h1 h2)
    ?_ ⟨loadLE_lt pt 4 4, loadLE_lt pt 0 4⟩ ?_
  · simp only [simon128_64.shift_left, simon128_64.word_size, simon128_64.bytes, simon128_64.rounds,
      and_mask24, and_mask48, and_mask _ 32 (by decide), and_ullong_max, memcpyWord_mod3,
      memcpyWord_mod6, c_rotl 32 32 _ _ (by decide),
      xor_mod_two_pow, and_mod_two_pow, Nat.mod_mod, rotl_mod,
      rotl_mod_of_le 32 32 _ _ (by decide), loadLE_mod_of_le _ _ 4 32 (by decide),
      loadLE_mod_of_le _ _ 4 32 (by decide), mod_two_pow_mod_of_le _ (by decide : 32 ≤ 32), and_self]
  · intro i s _ hx hy
    simp only [simonRound, simon128_64.shift_left, simon128_64.word_size, simon128_64.bytes, simon128_64.rounds,
      and_mask24, and_mask48, and_mask _ 32 (by decide), and_ullong_max, memcpyWord_mod3,
      memcpyWord_mod6, c_rotl 32 32 _ _ (by decide),
      xor_mod_two_pow, and_mod_two_pow, Nat.mod_mod, rotl_mod,
      rotl_mod_of_le 32 32 _ _ (by decide), loadLE_mod_of_le _ _ 4 32 (by decide),
      loadLE_mod_of_le _ _ 4 32 (by decide), mod_two_pow_mod_of_le _ (by decide : 32 ≤ 32),
      Nat.mod_eq_of_lt hx, Nat.mod_eq_of_lt hy, mod_eq_of_lt_two_pow 32 hx (by decide),
      mod_eq_of_lt_two_pow 32 hy (by decide), c_rotl_full 32 s.x _ hx]

/-- The locals `x` and `y` of `decrypt_simon_128_64` are below `2 ^ 32` at the end of
its loop, from whatever index the loop starts. -/
theorem simon128_64_decrypt_locals_lt (ks ct : Buf) (n : Nat) :
    (simon128_64.decrypt_simon_128_64_locals ks ct n).x < 2 ^ 32
      ∧ (simon128_64.decrypt_simon_128_64_locals ks ct n).y < 2 ^ 32 := by
  unfold simon128_64.decrypt_simon_128_64_locals
  refine locals_lt_forDown 32 _
    (fun i => simonRound 32 (loadLE ks (4 * i) 4)) n _ (loadLE ct 0 4, loadLE ct 4 4)
    (fun i p _ h1 h2 => simonRound_lt 32 _ p (loadLE_lt ks _ 4) h1 h2)
    ?_ ⟨loadLE_lt ct 0 4, loadLE_lt ct 4 4⟩ ?_
  · simp only [simon128_64.shift_left, simon128_64.word_size, simon128_64.bytes, simon128_64.rounds,
      and_mask24, and_mask48, and_mask _ 32 (by decide), and_ullong_max, memcpyWord_mod3,
      memcpyWord_mod6, c_rotl 32 32 _ _ (by decide),
      xor_mod_two_pow, and_mod_two_pow, Nat.mod_mod, rotl_mod,
      rotl_mod_of_le 32 32 _ _ (by decide), loadLE_mod_of_le _ _ 4 32 (by decide),
      loadLE_mod_of_le _ _ 4 32 (by decide), mod_two_pow_mod_of_le _ (by decide : 32 ≤ 32), and_self]
  · intro i s _ hx hy
    simp only [simonRound, simon128_64.shift_left, simon128_64.word_size, simon128_64.bytes, simon128_64.rounds,
      and_mask24, and_mask48, and_mask _ 32 (by decide), and_ullong_max, memcpyWord_mod3,
      memcpyWord_mod6, c_rotl 32 32 _ _ (by decide),
      xor_mod_two_pow, and_mod_two_pow, Nat.mod_mod, rotl_mod,
      rotl_mod_of_le 32 32 _ _ (by decide), loadLE_mod_of_le _ _ 4 32 (by decide),
      loadLE_mod_of_le _ _ 4 32 (by decide), mod_two_pow_mod_of_le _ (by decide : 32 ≤ 32),
      Nat.mod_eq_of_lt hx, Nat.mod_eq_of_lt hy, mod_eq_of_lt_two_pow 32 hx (by decide),
      mod_eq_of_lt_two_pow 32 hy (by decide), c_rotl_full 32 s.x _ hx]

/-- The locals `x` and `y` of `encrypt_simon_144_96` are below `2 ^ 48` after any
number of passes of its loop. -/
theorem simon144_96_encrypt_locals_lt (ks pt : Buf) (u : Locals) (n : Nat) :
    (simon144_96.encrypt_simon_144_96_locals ks pt u n).x < 2 ^ 48
      ∧ (simon144_96.encrypt_simon_144_96_locals ks pt u n).y < 2 ^ 48 := by
  unfold simon144_96.encrypt_simon_144_96_locals
  refine locals_lt_forUp 48 _
    (fun i => simonRound 48 (loadLE ks (6 * i) 6)) n _ (loadLE pt 6 6, loadLE pt 0 6)
    (fun i p _ h1 h2 => simonRound_lt 48 _ p (loadLE_lt ks (6 * i) 6) h1 h2)
    ?_ ⟨loadLE_lt pt 6 6, loadLE_lt pt 0 6⟩ ?_
  · simp only [simon144_96.shift_left, simon144_96.word_size, simon144_96.bytes, simon144_96.rounds, simon144_96.mod_mask, sizeof_bytes6_t,
      and_mask24, and_mask48, and_mask _ 48 (by decide), and_ullong_max, memcpyWord_mod3,
      memcpyWord_mod6, c_rotl 64 48 _ _ (by decide),
      xor_mod_two_pow, and_mod_two_pow, Nat.mod_mod, rotl_mod,
      rotl_mod_of_le 48 64 _ _ (by decide), loadLE_mod_of_le _ _ 6 64 (by decide),
      loadLE_mod_of_le _ _ 6 48 (by decide), mod_two_pow_mod_of_le _ (by decide : 48 ≤ 64), and_self]
  · intro i s _ hx hy
    simp only [simonRound, simon144_96.shift_left, simon144_96.word_size, simon144_96.bytes, simon144_96.rounds, simon144_96.mod_mask, sizeof_bytes6_t,
      and_mask24, and_mask48, and_mask _ 48 (by decide), and_ullong_max, memcpyWord_mod3,
      memcpyWord_mod6, c_rotl 64 48 _ _ (by decide),
      xor_mod_two_pow, and_mod_two_pow, Nat.mod_mod, rotl_mod,
      rotl_mod_of_le 48 64 _ _ (by decide), loadLE_mod_of_le _ _ 6 64 (by decide),
      loadLE_mod_of_le _ _ 6 48 (by decide), mod_two_pow_mod_of_le _ (by decide : 48 ≤ 64),
      Nat.mod_eq_of_lt hx, Nat.mod_eq_of_lt hy, mod_eq_of_lt_two_pow 64 hx (by decide),
      mod_eq_of_lt_two_pow 64 hy (by decide)]

/-- The locals `x` and `y` of `decrypt_simon_144_96` are below `2 ^ 48` after any
number of passes of its loop. -/
theorem simon144_96_decrypt_locals_lt (ks ct : Buf) (u : Locals) (n : Nat) :
    (simon144_96.decrypt_simon_144_96_locals ks ct u n).x < 2 ^ 48
      ∧ (simon144_96.decrypt_simon_144_96_locals ks ct u n).y < 2 ^ 48 := by
  unfold simon144_96.decrypt_simon_144_96_locals
  refine locals_lt_forUp 48 _
    (fun i => simonRound 48 (loadLE ks (6 * (54 - 1 - i)) 6)) n _ (loadLE ct 0 6, loadLE ct 6 6)
    (fun i p _ h1 h2 => simonRound_lt 48 _ p (loadLE_lt ks _ 6) h1 h2)
    ?_ ⟨loadLE_lt ct 0 6, loadLE_lt ct 6 6⟩ ?_
  · simp only [simon144_96.shift_left, simon144_96.word_size, simon144_96.bytes, simon144_96.rounds, simon144_96.mod_mask, sizeof_bytes6_t,
      and_mask24, and_mask48, and_mask _ 48 (by decide), and_ullong_max, memcpyWord_mod3,
      memcpyWord_mod6, c_rotl 64 48 _ _ (by decide),
      xor_mod_two_pow, and_mod_two_pow, Nat.mod_mod, rotl_mod,
      rotl_mod_of_le 48 64 _ _ (by decide), loadLE_mod_of_le _ _ 6 64 (by decide),
      loadLE_mod_of_le _ _ 6 48 (by decide), mod_two_pow_mod_of_le _ (by decide : 48 ≤ 64), and_self]
  · intro i s _ hx hy
    simp only [simonRound, simon144_96.shift_left, simon144_96.word_size, simon144_96.bytes, simon144_96.rounds, simon144_96.mod_mask, sizeof_bytes6_t,
      and_mask24, and_mask48, and_mask _ 48 (by decide), and_ullong_max, memcpyWord_mod3,
      memcpyWord_mod6, c_rotl 64 48 _ _ (by decide),
      xor_mod_two_pow, and_mod_two_pow, Nat.mod_mod, rotl_mod,
      rotl_mod_of_le 48 64 _ _ (by decide), loadLE_mod_of_le _ _ 6 64 (by decide),
      loadLE_mod_of_le _ _ 6 48 (by decide), mod_two_pow_mod_of_le _ (by decide : 48 ≤ 64),
      Nat.mod_eq_of_lt hx, Nat.mod_eq_of_lt hy, mod_eq_of_lt_two_pow 64 hx (by decide),
      mod_eq_of_lt_two_pow 64 hy (by decide)]

/-- The locals `x` and `y` of `encrypt_simon_128_128` are below `2 ^ 64` after any
number of passes of its loop. -/
theorem simon128_128_encrypt_locals_lt (ks pt : Buf) (n : Nat) :
    (simon128_128.encrypt_simon_128_128_locals ks pt n).x < 2 ^ 64
      ∧ (simon128_128.encrypt_simon_128_128_locals ks pt n).y < 2 ^ 64 := by
  unfold simon128_128.encrypt_simon_128_128_locals
  refine locals_lt_forUp 64 _
    (fun i => simonRound 64 (loadLE ks (8 * i) 8)) n _ (loadLE pt 8 8, loadLE pt 0 8)
    (fun i p _ h1 h2 => simonRound_lt 64 _ p (loadLE_lt ks (8 * i) 8) h1 h2)
    ?_ ⟨loadLE_lt pt 8 8, loadLE_lt pt 0 8⟩ ?_
  · simp only [simon128_128.shift_left, simon128_128.word_size, simon128_128.bytes, simon128_128.rounds,
      and_mask24, and_mask48, and_mask _ 64 (by decide), and_ullong_max, memcpyWord_mod3,
      memcpyWord_mod6, c_rotl 64 64 _ _ (by decide),
      xor_mod_two_pow, and_mod_two_pow, Nat.mod_mod, rotl_mod,
      rotl_mod_of_le 64 64 _ _ (by decide), loadLE_mod_of_le _ _ 8 64 (by decide),
      loadLE_mod_of_le _ _ 8 64 (by decide), mod_two_pow_mod_of_le _ (by decide : 64 ≤ 64), and_self]
  · intro i s _ hx hy
    simp only [simonRound, simon128_128.shift_left, simon128_128.word_size, simon128_128.bytes, simon128_128.rounds,
      and_mask24, and_mask48, and_mask _ 64 (by decide), and_ullong_max, memcpyWord_mod3,
      memcpyWord_mod6, c_rotl 64 64 _ _ (by decide),
      xor_mod_two_pow, and_mod_two_pow, Nat.mod_mod, rotl_mod,
      rotl_mod_of_le 64 64 _ _ (by decide), loadLE_mod_of_le _ _ 8 64 (by decide),
      loadLE_mod_of_le _ _ 8 64 (by decide), mod_two_pow_mod_of_le _ (by decide : 64 ≤ 64),
      Nat.mod_eq_of_lt hx, Nat.mod_eq_of_lt hy, mod_eq_of_lt_two_pow 64 hx (by decide),
      mod_eq_of_lt_two_pow 64 hy (by decide), c_rotl_full 64 s.x _ hx]

/-- The locals `x` and `y` of `decrypt_simon_128_128` are below `2 ^ 64` at the end of
its loop, from whatever index the loop starts. -/
theorem simon128_128_decrypt_locals_lt (ks ct : Buf) (n : Nat) :
    (simon128_128.decrypt_simon_128_128_locals ks ct n).x < 2 ^ 64
      ∧ (simon128_128.decrypt_simon_128_128_locals ks ct n).y < 2 ^ 64 := by
  unfold simon128_128.decrypt_simon_128_128_locals
  refine locals_lt_forDown 64 _
    (fun i => simonRound 64 (loadLE ks (8 * i) 8)) n _ (loadLE ct 0 8, loadLE ct 8 8)
    (fun i p _ h1 h2 => simonRound_lt 64 _ p (loadLE_lt ks _ 8) h1 h2)
    ?_ ⟨loadLE_lt ct 0 8, loadLE_lt ct 8 8⟩ ?_
  · simp only [simon128_128.shift_left, simon128_128.word_size, simon128_128.bytes, simon128_128.rounds,
      and_mask24, and_mask48, and_mask _ 64 (by decide), and_ullong_max, memcpyWord_mod3,
      memcpyWord_mod6, c_rotl 64 64 _ _ (by decide),
      xor_mod_two_pow, and_mod_two_pow, Nat.mod_mod, rotl_mod,
      rotl_mod_of_le 64 64 _ _ (by decide), loadLE_mod_of_le _ _ 8 64 (by decide),
      loadLE_mod_of_le _ _ 8 64 (by decide), mod_two_pow_mod_of_le _ (by decide : 64 ≤ 64), and_self]
  · intro i s _ hx hy
    simp only [simonRound, simon128_128.shift_left, simon128_128.word_size, simon128_128.bytes, simon128_128.rounds,
      and_mask24, and_mask48, and_mask _ 64 (by decide), and_ullong_max, memcpyWord_mod3,
      memcpyWord_mod6, c_rotl 64 64 _ _ (by decide),
      xor_mod_two_pow, and_mod_two_pow, Nat.mod_mod, rotl_mod,
      rotl_mod_of_le 64 64 _ _ (by decide), loadLE_mod_of_le _ _ 8 64 (by decide),
      loadLE_mod_of_le _ _ 8 64 (by decide), mod_two_pow_mod_of_le _ (by decide : 64 ≤ 64),
      Nat.mod_eq_of_lt hx, Nat.mod_eq_of_lt hy, mod_eq_of_lt_two_pow 64 hx (by decide),
      mod_eq_of_lt_two_pow 64 hy (by decide), c_rotl_full 64 s.x _ hx]

/-- The locals `x` and `y` of `encrypt_simon_192_128` are below `2 ^ 64` after any
number of passes of its loop. -/
theorem simon192_128_encrypt_locals_lt (ks pt : Buf) (n : Nat) :
    (simon192_128.encrypt_simon_192_128_locals ks pt n).x < 2 ^ 64
      ∧ (simon192_128.encrypt_simon_192_128_locals ks pt n).y < 2 ^ 64 := by
  unfold simon192_128.encrypt_simon_192_128_locals
  refine locals_lt_forUp 64 _
    (fun i => simonRound 64 (loadLE ks (8 * i) 8)) n _ (loadLE pt 8 8, loadLE pt 0 8)
    (fun i p _ h1 h2 => simonRound_lt 64 _ p (loadLE_lt ks (8 * i) 8) h1 h2)
    ?_ ⟨loadLE_lt pt 8 8, loadLE_lt pt 0 8⟩ ?_
  · simp only [simon192_128.shift_left, simon192_128.word_size, simon192_128.bytes, simon192_128.rounds,
      and_mask24, and_mask48, and_mask _ 64 (by decide), and_ullong_max, memcpyWord_mod3,
      memcpyWord_mod6, c_rotl 64 64 _ _ (by decide),
      xor_mod_two_pow, and_mod_two_pow, Nat.mod_mod, rotl_mod,
      rotl_mod_of_le 64 64 _ _ (by decide), loadLE_mod_of_le _ _ 8 64 (by decide),
      loadLE_mod_of_le _ _ 8 64 (by decide), mod_two_pow_mod_of_le _ (by decide : 64 ≤ 64), and_self]
  · intro i s _ hx hy
    simp only [simonRound, simon192_128.shift_left, simon192_128.word_size, simon192_128.bytes, simon192_128.rounds,
      and_mask24, and_mask48, and_mask _ 64 (by decide), and_ullong_max, memcpyWord_mod3,
      memcpyWord_mod6, c_rotl 64 64 _ _ (by decide),
      xor_mod_two_pow, and_mod_two_pow, Nat.mod_mod, rotl_mod,
      rotl_mod_of_le 64 64 _ _ (by decide), loadLE_mod_of_le _ _ 8 64 (by decide),
      loadLE_mod_of_le _ _ 8 64 (by decide), mod_two_pow_mod_of_le _ (by decide : 64 ≤ 64),
      Nat.mod_eq_of_lt hx, Nat.mod_eq_of_lt hy, mod_eq_of_lt_two_pow 64 hx (by decide),
      mod_eq_of_lt_two_pow 64 hy (by decide), c_rotl_full 64 s.x _ hx]

/-- The locals `x` and `y` of `decrypt_simon_192_128` are below `2 ^ 64` at the end of
its loop, from whatever index the loop starts. -/
theorem simon192_128_decrypt_locals_lt (ks ct : Buf) (n : Nat) :
    (simon192_128.decrypt_simon_192_128_locals ks ct n).x < 2 ^ 64
      ∧ (simon192_128.decrypt_simon_192_128_locals ks ct n).y < 2 ^ 64 := by
  unfold simon192_128.decrypt_simon_192_128_locals
  refine locals_lt_forDown 64 _
    (fun i => simonRound 64 (loadLE ks (8 * i) 8)) n _ (loadLE ct 0 8, loadLE ct 8 8)
    (fun i p _ h1 h2 => simonRound_lt 64 _ p (loadLE_lt ks _ 8) h1 h2)
    ?_ ⟨loadLE_lt ct 0 8, loadLE_lt ct 8 8⟩ ?_
  · simp only [simon192_128.shift_left, simon192_128.word_size, simon192_128.bytes, simon192_128.rounds,
      and_mask24, and_mask48, and_mask _ 64 (by decide), and_ullong_max, memcpyWord_mod3,
      memcpyWord_mod6, c_rotl 64 64 _ _ (by decide),
      xor_mod_two_pow, and_mod_two_pow, Nat.mod_mod, rotl_mod,
      rotl_mod_of_le 64 64 _ _ (by decide), loadLE_mod_of_le _ _ 8 64 (by decide),
      loadLE_mod_of_le _ _ 8 64 (by decide), mod_two_pow_mod_of_le _ (by decide : 64 ≤ 64), and_self]
  · intro i s _ hx hy
    simp only [simonRound, simon192_128.shift_left, simon192_128.word_size, simon192_128.bytes, simon192_128.rounds,
      and_mask24, and_mask48, and_mask _ 64 (by decide), and_ullong_max, memcpyWord_mod3,
      memcpyWord_mod6, c_rotl 64 64 _ _ (by decide),
      xor_mod_two_pow, and_mod_two_pow, Nat.mod_mod, rotl_mod,
      rotl_mod_of_le 64 64 _ _ (by decide), loadLE_mod_of_le _ _ 8 64 (by decide),
      loadLE_mod_of_le _ _ 8 64 (by decide), mod_two_pow_mod_of_le _ (by decide : 64 ≤ 64),
      Nat.mod_eq_of_lt hx, Nat.mod_eq_of_lt hy, mod_eq_of_lt_two_pow 64 hx (by decide),
      mod_eq_of_lt_two_pow 64 hy (by decide), c_rotl_full 64 s.x _ hx]

/-- A routine whose whole effect is to store the words `a` and `b`, both below
`2 ^ w` with `w = 8 * m`, at offsets 0 and `m`: the stored words read back as
`a` and `b`. -/
theorem stored_words_read_back (buf r : Buf) (m w a b : Nat) (hw : w = 8 * m)
    (hab : a < 2 ^ w ∧ b < 2 ^ w) (h : r = storeLE (storeLE buf 0 m a) m m b) :
    r = storeLE (storeLE buf 0 m a) m m b ∧ loadLE r 0 m = a ∧ loadLE r m m = b := by
  obtain ⟨h1, h2, _⟩ := block_written buf m w a b hw hab.1 hab.2
  subst h
  exact ⟨rfl, h1, h2⟩

/-! ## Claim on the widths of the words -/

/-- Claim C16. In each of the thirteen files, for every key, schedule and block:
the word `keys[0]` that the expansion writes at each schedule position (the
positions `0 .. rounds - 1`, and position `rounds` too where the loop runs
while `i < rounds`) is below `2 ^ word_size`, and the `word_size / 8` bytes at
that position hold exactly that word. In `encrypt` and in `decrypt` the host
variables `x` and `y` (16-bit, 32-bit or 64-bit integers, with arbitrary upper
bytes `u` at the start where the block is copied into them with `memcpy`) are
below `2 ^ word_size` after every number `n` of passes of the loop; the routine
is the two stores of the values that `x` and `y` have after `rounds` passes, and
the two words of the output block read back as exactly these values. -/
theorem width_invariant (key ks pt ct : Buf) (u : Locals) :
    (∀ i : Fin (speck64_32.rounds),
        (forUp speck64_32.expand_step i.val (load_keys key ks speck64_32.bytes speck64_32.key_size).keys).keys0
            < 2 ^ speck64_32.word_size
        ∧ loadLE (speck64_32.expand_speck_64_32 key ks) (speck64_32.bytes * i.val) (speck64_32.word_size / 8)
            = (forUp speck64_32.expand_step i.val (load_keys key ks speck64_32.bytes speck64_32.key_size).keys).keys0)
    ∧ (∀ n, (speck64_32.encrypt_speck_64_32_locals ks pt n).x < 2 ^ speck64_32.word_size
          ∧ (speck64_32.encrypt_speck_64_32_locals ks pt n).y < 2 ^ speck64_32.word_size)
    ∧ (speck64_32.encrypt_speck_64_32 ks pt ct
        = storeLE (storeLE ct 0 (speck64_32.word_size / 8) (speck64_32.encrypt_speck_64_32_locals ks pt speck64_32.rounds).y)
            (speck64_32.word_size / 8) (speck64_32.word_size / 8) (speck64_32.encrypt_speck_64_32_locals ks pt speck64_32.rounds).x
    ∧ loadLE (speck64_32.encrypt_speck_64_32 ks pt ct) 0 (speck64_32.word_size / 8)
        = (speck64_32.encrypt_speck_64_32_locals ks pt speck64_32.rounds).y
    ∧ loadLE (speck64_32.encrypt_speck_64_32 ks pt ct) (speck64_32.word_size / 8) (speck64_32.word_size / 8)
        = (speck64_32.encrypt_speck_64_32_locals ks pt speck64_32.rounds).x)
    ∧ (∀ n, (speck64_32.decrypt_speck_64_32_locals ks ct n).x < 2 ^ speck64_32.word_size
          ∧ (speck64_32.decrypt_speck_64_32_locals ks ct n).y < 2 ^ speck64_32.word_size)
    ∧ (speck64_32.decrypt_speck_64_32 ks pt ct
        = storeLE (storeLE pt 0 (speck64_32.word_size / 8) (speck64_32.decrypt_speck_64_32_locals ks ct speck64_32.rounds).y)
            (speck64_32.word_size / 8) (speck64_32.word_size / 8) (speck64_32.decrypt_speck_64_32_locals ks ct speck64_32.rounds).x
    ∧ loadLE (speck64_32.decrypt_speck_64_32 ks pt ct) 0 (speck64_32.word_size / 8)
        = (speck64_32.decrypt_speck_64_32_locals ks ct speck64_32.rounds).y
    ∧ loadLE (speck64_32.decrypt_speck_64_32 ks pt ct) (speck64_32.word_size / 8) (speck64_32.word_size / 8)
        = (speck64_32.decrypt_speck_64_32_locals ks ct speck64_32.rounds).x)
    ∧ (∀ i : Fin (speck72_48.rounds),
        (forUp speck72_48.expand_step i.val (load_keys key ks speck72_48.bytes speck72_48.key_size).keys).keys0
            < 2 ^ speck72_48.word_size
        ∧ loadLE (speck72_48.expand_speck key ks) (speck72_48.bytes * i.val) (speck72_48.word_size / 8)
            = (forUp speck72_48.expand_step i.val (load_keys key ks speck72_48.bytes speck72_48.key_size).keys).keys0)
    ∧ (∀ n, (speck72_48.encrypt_speck_72_48_locals ks pt u n).x < 2 ^ speck72_48.word_size
          ∧ (speck72_48.encrypt_speck_72_48_locals ks pt u n).y < 2 ^ speck72_48.word_size)
    ∧ (speck72_48.encrypt_speck_72_48 ks pt ct u
        = storeLE (storeLE ct 0 (speck72_48.word_size / 8) (speck72_48.encrypt_speck_72_48_locals ks pt u speck72_48.rounds).y)
            (speck72_48.word_size / 8) (speck72_48.word_size / 8) (speck72_48.encrypt_speck_72_48_locals ks pt u speck72_48.rounds).x
    ∧ loadLE (speck72_48.encrypt_speck_72_48 ks pt ct u) 0 (speck72_48.word_size / 8)
        = (speck72_48.encrypt_speck_72_48_locals ks pt u speck72_48.rounds).y
    ∧ loadLE (speck72_48.encrypt_speck_72_48 ks pt ct u) (speck72_48.word_size / 8) (speck72_48.word_size / 8)
        = (speck72_48.encrypt_speck_72_48_locals ks pt u speck72_48.rounds).x)
    ∧ (∀ n, (speck72_48.decrypt_speck_72_48_locals ks ct u n).x < 2 ^ speck72_48.word_size
          ∧ (speck72_48.decrypt_speck_72_48_locals ks ct u n).y < 2 ^ speck72_48.word_size)
    ∧ (speck72_48.decrypt_speck_72_48 ks pt ct u
        = storeLE (storeLE pt 0 (speck72_48.word_size / 8) (speck72_48.decrypt_speck_72_48_locals ks ct u speck72_48.rounds).y)
            (speck72_48.word_size / 8) (speck72_48.word_size / 8) (speck72_48.decrypt_speck_72_48_locals ks ct u speck72_48.rounds).x
    ∧ loadLE (speck72_48.decrypt_speck_72_48 ks pt ct u) 0 (speck72_48.word_size / 8)
        = (speck72_48.decrypt_speck_72_48_locals ks ct u speck72_48.rounds).y
    ∧ loadLE (speck72_48.decrypt_speck_72_48 ks pt ct u) (speck72_48.word_size / 8) (speck72_48.word_size / 8)
        = (speck72_48.decrypt_speck_72_48_locals ks ct u speck72_48.rounds).x)
    ∧ (∀ i : Fin (speck96_48.rounds),
        (forUp speck96_48.expand_step i.val (load_keys key ks speck96_48.bytes speck96_48.key_size).keys).keys0
            < 2 ^ speck96_48.word_size
        ∧ loadLE (speck96_48.expand_speck key ks) (speck96_48.bytes * i.val) (speck96_48.word_size / 8)
            = (forUp speck96_48.expand_step i.val (load_keys key ks speck96_48.bytes speck96_48.key_size).keys).keys0)
    ∧ (∀ n, (speck96_48.encrypt_speck_96_48_locals ks pt u n).x < 2 ^ speck96_48.word_size
          ∧ (speck96_48.encrypt_speck_96_48_locals ks pt u n).y < 2 ^ speck96_48.word_size)
    ∧ (speck96_48.encrypt_speck_96_48 ks pt ct u
        = storeLE (storeLE ct 0 (speck96_48.word_size / 8) (speck96_48.encrypt_speck_96_48_locals ks pt u speck96_48.rounds).y)
            (speck96_48.word_size / 8) (speck96_48.word_size / 8) (speck96_48.encrypt_speck_96_48_locals ks pt u speck96_48.rounds).x
    ∧ loadLE (speck96_48.encrypt_speck_96_48 ks pt ct u) 0 (speck96_48.word_size / 8)
        = (speck96_48.encrypt_speck_96_48_locals ks pt u speck96_48.rounds).y
    ∧ loadLE (speck96_48.encrypt_speck_96_48 ks pt ct u) (speck96_48.word_size / 8) (speck96_48.word_size / 8)
        = (speck96_48.encrypt_speck_96_48_locals ks pt u speck96_48.rounds).x)
    ∧ (∀ n, (speck96_48.decrypt_speck_96_48_locals ks ct u n).x < 2 ^ speck96_48.word_size
          ∧ (speck96_48.decrypt_speck_96_48_locals ks ct u n).y < 2 ^ speck96_48.word_size)
    ∧ (speck96_48.decrypt_speck_96_48 ks pt ct u
        = storeLE (storeLE pt 0 (speck96_48.word_size / 8) (speck96_48.decrypt_speck_96_48_locals ks ct u speck96_48.rounds).y)
            (speck96_48.word_size / 8) (speck96_48.word_size / 8) (speck96_48.decrypt_speck_96_48_locals ks ct u speck96_48.rounds).x
    ∧ loadLE (speck96_48.decrypt_speck_96_48 ks pt ct u) 0 (speck96_48.word_size / 8)
        = (speck96_48.decrypt_speck_96_48_locals ks ct u speck96_48.rounds).y
    ∧ loadLE (speck96_48.decrypt_speck_96_48 ks pt ct u) (speck96_48.word_size / 8) (speck96_48.word_size / 8)
        = (speck96_48.decrypt_speck_96_48_locals ks ct u speck96_48.rounds).x)
    ∧ (∀ i : Fin (speck96_96.rounds + 1),
        (forUp speck96_96.expand_step i.val (load_keys key ks speck96_96.bytes speck96_96.key_size).keys).keys0
            < 2 ^ speck96_96.word_size
        ∧ loadLE (speck96_96.expand_speck key ks) (speck96_96.bytes * i.val) (speck96_96.word_size / 8)
            = (forUp speck96_96.expand_step i.val (load_keys key ks speck96_96.bytes speck96_96.key_size).keys).keys0)
    ∧ (∀ n, (speck96_96.encrypt_speck_96_96_locals ks pt u n).x < 2 ^ speck96_96.word_size
          ∧ (speck96_96.encrypt_speck_96_96_locals ks pt u n).y < 2 ^ speck96_96.word_size)
    ∧ (speck96_96.encrypt_speck_96_96 ks pt ct u
        = storeLE (storeLE ct 0 (speck96_96.word_size / 8) (speck96_96.encrypt_speck_96_96_locals ks pt u speck96_96.rounds).y)
            (speck96_96.word_size / 8) (speck96_96.word_size / 8) (speck96_96.encrypt_speck_96_96_locals ks pt u speck96_96.rounds).x
    ∧ loadLE (speck96_96.encrypt_speck_96_96 ks pt ct u) 0 (speck96_96.word_size / 8)
        = (speck96_96.encrypt_speck_96_96_locals ks pt u speck96_96.rounds).y
    ∧ loadLE (speck96_96.encrypt_speck_96_96 ks pt ct u) (speck96_96.word_size / 8) (speck96_96.word_size / 8)
        = (speck96_96.encrypt_speck_96_96_locals ks pt u speck96_96.rounds).x)
    ∧ (∀ n, (speck96_96.decrypt_speck_96_96_locals ks ct u n).x < 2 ^ speck96_96.word_size
          ∧ (speck96_96.decrypt_speck_96_96_locals ks ct u n).y < 2 ^ speck96_96.word_size)
    ∧ (speck96_96.decrypt_speck_96_96 ks pt ct u
        = storeLE (storeLE pt 0 (speck96_96.word_size / 8) (speck96_96.decrypt_speck_96_96_locals ks ct u speck96_96.rounds).y)
            (speck96_96.word_size / 8) (speck96_96.word_size / 8) (speck96_96.decrypt_speck_96_96_locals ks ct u speck96_96.rounds).x
    ∧ loadLE (speck96_96.decrypt_speck_96_96 ks pt ct u) 0 (speck96_96.word_size / 8)
        = (speck96_96.decrypt_speck_96_96_locals ks ct u speck96_96.rounds).y
    ∧ loadLE (speck96_96.decrypt_speck_96_96 ks pt ct u) (speck96_96.word_size / 8) (speck96_96.word_size / 8)
        = (speck96_96.decrypt_speck_96_96_locals ks ct u speck96_96.rounds).x)
    ∧ (∀ i : Fin (speck128_64.rounds + 1),
        (forUp speck128_64.expand_step i.val (load_keys key ks speck128_64.bytes speck128_64.key_size).keys).keys0
            < 2 ^ speck128_64.word_size
        ∧ loadLE (speck128_64.expand_speck_128_64 key ks) (speck128_64.bytes * i.val) (speck128_64.word_size / 8)
            = (forUp speck128_64.expand_step i.val (load_keys key ks speck128_64.bytes speck128_64.key_size).keys).keys0)
    ∧ (∀ n, (speck128_64.encrypt_speck_128_64_locals ks pt n).x < 2 ^ speck128_64.word_size
          ∧ (speck128_64.encrypt_speck_128_64_locals ks pt n).y < 2 ^ speck128_64.word_size)
    ∧ (speck128_64.encrypt_speck_128_64 ks pt ct
        = storeLE (storeLE ct 0 (speck128_64.word_size / 8) (speck128_64.encrypt_speck_128_64_locals ks pt speck128_64.rounds).y)
            (speck128_64.word_size / 8) (speck128_64.word_size / 8) (speck128_64.encrypt_speck_128_64_locals ks pt speck128_64.rounds).x
    ∧ loadLE (speck128_64.encrypt_speck_128_64 ks pt ct) 0 (speck128_64.word_size / 8)
        = (speck128_64.encrypt_speck_128_64_locals ks pt speck128_64.rounds).y
    ∧ loadLE (speck128_64.encrypt_speck_128_64 ks pt ct) (speck128_64.word_size / 8) (speck128_64.word_size / 8)
        = (speck128_64.encrypt_speck_128_64_locals ks pt speck128_64.rounds).x)
    ∧ (∀ n, (speck128_64.decrypt_speck_128_64_locals ks ct n).x < 2 ^ speck128_64.word_size
          ∧ (speck128_64.decrypt_speck_128_64_locals ks ct n).y < 2 ^ speck128_64.word_size)
    ∧ (speck128_64.decrypt_speck_128_64 ks pt ct
        = storeLE (storeLE pt 0 (speck128_64.word_size / 8) (speck128_64.decrypt_speck_128_64_locals ks ct speck128_64.rounds).y)
            (speck128_64.word_size / 8) (speck128_64.word_size / 8) (speck128_64.decrypt_speck_128_64_locals ks ct speck128_64.rounds).x
    ∧ loadLE (speck128_64.decrypt_speck_128_64 ks pt ct) 0 (speck128_64.word_size / 8)
        = (speck128_64.decrypt_speck_128_64_locals ks ct speck128_64.rounds).y
    ∧ loadLE (speck128_64.decrypt_speck_128_64 ks pt ct) (speck128_64.word_size / 8) (speck128_64.word_size / 8)
        = (speck128_64.decrypt_speck_128_64_locals ks ct speck128_64.rounds).x)
    ∧ (∀ i : Fin (speck128_128.rounds),
        (forUp speck128_128.expand_step i.val (load_keys key ks speck128_128.bytes speck128_128.key_size).keys).keys0
            < 2 ^ speck128_128.word_size
        ∧ loadLE (speck128_128.expand_speck key ks) (speck128_128.bytes * i.val) (speck128_128.word_size / 8)
            = (forUp speck128_128.expand_step i.val (load_keys key ks speck128_128.bytes speck128_128.key_size).keys).keys0)
    ∧ (∀ n, (speck128_128.encrypt_speck_128_128_locals ks pt n).x < 2 ^ speck128_128.word_size
          ∧ (speck128_128.encrypt_speck_128_128_locals ks pt n).y < 2 ^ speck128_128.word_size)
    ∧ (speck128_128.encrypt_speck_128_128 ks pt ct
        = storeLE (storeLE ct 0 (speck128_128.word_size / 8) (speck128_128.encrypt_speck_128_128_locals ks pt speck128_128.rounds).y)
            (speck128_128.word_size / 8) (speck128_128.word_size / 8) (speck128_128.encrypt_speck_128_128_locals ks pt speck128_128.rounds).x
    ∧ loadLE (speck128_128.encrypt_speck_128_128 ks pt ct) 0 (speck128_128.word_size / 8)
        = (speck128_128.encrypt_speck_128_128_locals ks pt speck128_128.rounds).y
    ∧ loadLE (speck128_128.encrypt_speck_128_128 ks pt ct) (speck128_128.word_size / 8) (speck128_128.word_size / 8)
        = (speck128_128.encrypt_speck_128_128_locals ks pt speck128_128.rounds).x)
    ∧ (∀ n, (speck128_128.decrypt_speck_128_128_locals ks ct n).x < 2 ^ speck128_128.word_size
          ∧ (speck128_128.decrypt_speck_128_128_locals ks ct n).y < 2 ^ speck128_128.word_size)
    ∧ (speck128_128.decrypt_speck_128_128 ks pt ct
        = storeLE (storeLE pt 0 (speck128_128.word_size / 8) (speck128_128.decrypt_speck_128_128_locals ks ct speck128_128.rounds).y)
            (speck128_128.word_size / 8) (speck128_128.word_size / 8) (speck128_128.decrypt_speck_128_128_locals ks ct speck128_128.rounds).x
    ∧ loadLE (speck128_128.decrypt_speck_128_128 ks pt ct) 0 (speck128_128.word_size / 8)
        = (speck128_128.decrypt_speck_128_128_locals ks ct speck128_128.rounds).y
    ∧ loadLE (speck128_128.decrypt_speck_128_128 ks pt ct) (speck128_128.word_size / 8) (speck128_128.word_size / 8)
        = (speck128_128.decrypt_speck_128_128_locals ks ct speck128_128.rounds).x)
    ∧ (∀ i : Fin (speck256_128.rounds + 1),
        (forUp speck256_128.expand_step i.val (load_keys key ks speck256_128.bytes speck256_128.key_size).keys).keys0
            < 2 ^ speck256_128.word_size
        ∧ loadLE (speck256_128.expand_speck key ks) (speck256_128.bytes * i.val) (speck256_128.word_size / 8)
            = (forUp speck256_128.expand_step i.val (load_keys key ks speck256_128.bytes speck256_128.key_size).keys).keys0)
    ∧ (∀ n, (speck256_128.encrypt_speck_256_128_locals ks pt n).x < 2 ^ speck256_128.word_size
          ∧ (speck256_128.encrypt_speck_256_128_locals ks pt n).y < 2 ^ speck256_128.word_size)
    ∧ (speck256_128.encrypt_speck_256_128 ks pt ct
        = storeLE (storeLE ct 0 (speck256_128.word_size / 8) (speck256_128.encrypt_speck_256_128_locals ks pt speck256_128.rounds).y)
            (speck256_128.word_size / 8) (speck256_128.word_size / 8) (speck256_128.encrypt_speck_256_128_locals ks pt speck256_128.rounds).x
    ∧ loadLE (speck256_128.encrypt_speck_256_128 ks pt ct) 0 (speck256_128.word_size / 8)
        = (speck256_128.encrypt_speck_256_128_locals ks pt speck256_128.rounds).y
    ∧ loadLE (speck256_128.encrypt_speck_256_128 ks pt ct) (speck256_128.word_size / 8) (speck256_128.word_size / 8)
        = (speck256_128.encrypt_speck_256_128_locals ks pt speck256_128.rounds).x)
    ∧ (∀ n, (speck256_128.decrypt_speck_256_128_locals ks ct n).x < 2 ^ speck256_128.word_size
          ∧ (speck256_128.decrypt_speck_256_128_locals ks ct n).y < 2 ^ speck256_128.word_size)
    ∧ (speck256_128.decrypt_speck_256_128 ks pt ct
        = storeLE (storeLE pt 0 (speck256_128.word_size / 8) (speck256_128.decrypt_speck_256_128_locals ks ct speck256_128.rounds).y)
            (speck256_128.word_size / 8) (speck256_128.word_size / 8) (speck256_128.decrypt_speck_256_128_locals ks ct speck256_128.rounds).x
    ∧ loadLE (speck256_128.decrypt_speck_256_128 ks pt ct) 0 (speck256_128.word_size / 8)
        = (speck256_128.decrypt_speck_256_128_locals ks ct speck256_128.rounds).y
    ∧ loadLE (speck256_128.decrypt_speck_256_128 ks pt ct) (speck256_128.word_size / 8) (speck256_128.word_size / 8)
        = (speck256_128.decrypt_speck_256_128_locals ks ct speck256_128.rounds).x)
    ∧ (∀ i : Fin (simon64_32.rounds + 1),
        (forUp simon64_32.expand_step i.val (load_keys key ks simon64_32.bytes simon64_32.key_size).keys).keys0
            < 2 ^ simon64_32.word_size
        ∧ loadLE (simon64_32.expand_simon_64_32 key ks) (simon64_32.bytes * i.val) (simon64_32.word_size / 8)
            = (forUp simon64_32.expand_step i.val (load_keys key ks simon64_32.bytes simon64_32.key_size).keys).keys0)
    ∧ (∀ n, (simon64_32.encrypt_simon_64_32_locals ks pt n).x < 2 ^ simon64_32.word_size
          ∧ (simon64_32.encrypt_simon_64_32_locals ks pt n).y < 2 ^ simon64_32.word_size)
    ∧ (simon64_32.encrypt_simon_64_32 ks pt ct
        = storeLE (storeLE ct 0 (simon64_32.word_size / 8) (simon64_32.encrypt_simon_64_32_locals ks pt simon64_32.rounds).y)
            (simon64_32.word_size / 8) (simon64_32.word_size / 8) (simon64_32.encrypt_simon_64_32_locals ks pt simon64_32.rounds).x
    ∧ loadLE (simon64_32.encrypt_simon_64_32 ks pt ct) 0 (simon64_32.word_size / 8)
        = (simon64_32.encrypt_simon_64_32_locals ks pt simon64_32.rounds).y
    ∧ loadLE (simon64_32.encrypt_simon_64_32 ks pt ct) (simon64_32.word_size / 8) (simon64_32.word_size / 8)
        = (simon64_32.encrypt_simon_64_32_locals ks pt simon64_32.rounds).x)
    ∧ (∀ n, (simon64_32.decrypt_simon_64_32_locals ks ct n).x < 2 ^ simon64_32.word_size
          ∧ (simon64_32.decrypt_simon_64_32_locals ks ct n).y < 2 ^ simon64_32.word_size)
    ∧ (simon64_32.decrypt_simon_64_32 ks pt ct
        = storeLE (storeLE pt 0 (simon64_32.word_size / 8) (simon64_32.decrypt_simon_64_32_locals ks ct simon64_32.rounds).x)
            (simon64_32.word_size / 8) (simon64_32.word_size / 8) (simon64_32.decrypt_simon_64_32_locals ks ct simon64_32.rounds).y
    ∧ loadLE (simon64_32.decrypt_simon_64_32 ks pt ct) 0 (simon64_32.word_size / 8)
        = (simon64_32.decrypt_simon_64_32_locals ks ct simon64_32.rounds).x
    ∧ loadLE (simon64_32.decrypt_simon_64_32 ks pt ct) (simon64_32.word_size / 8) (simon64_32.word_size / 8)
        = (simon64_32.decrypt_simon_64_32_locals ks ct simon64_32.rounds).y)
    ∧ (∀ i : Fin (simon72_48.rounds),
        (forUp simon72_48.expand_step i.val (load_keys key ks simon72_48.bytes simon72_48.key_size).keys).keys0
            < 2 ^ simon72_48.word_size
        ∧ loadLE (simon72_48.expand_simon_72_48 key ks) (simon72_48.bytes * i.val) (simon72_48.word_size / 8)
            = (forUp simon72_48.expand_step i.val (load_keys key ks simon72_48.bytes simon72_48.key_size).keys).keys0)
    ∧ (∀ n, (simon72_48.encrypt_simon_72_48_locals ks pt u n).x < 2 ^ simon72_48.word_size
          ∧ (simon72_48.encrypt_simon_72_48_locals ks pt u n).y < 2 ^ simon72_48.word_size)
    ∧ (simon72_48.encrypt_simon_72_48 ks pt ct u
        = storeLE (storeLE ct 0 (simon72_48.word_size / 8) (simon72_48.encrypt_simon_72_48_locals ks pt u simon72_48.rounds).y)
            (simon72_48.word_size / 8) (simon72_48.word_size / 8) (simon72_48.encrypt_simon_72_48_locals ks pt u simon72_48.rounds).x
    ∧ loadLE (simon72_48.encrypt_simon_72_48 ks pt ct u) 0 (simon72_48.word_size / 8)
        = (simon72_48.encrypt_simon_72_48_locals ks pt u simon72_48.rounds).y
    ∧ loadLE (simon72_48.encrypt_simon_72_48 ks pt ct u) (simon72_48.word_size / 8) (simon72_48.word_size / 8)
        = (simon72_48.encrypt_simon_72_48_locals ks pt u simon72_48.rounds).x)
    ∧ (∀ n, (simon72_48.decrypt_simon_72_48_locals ks ct u n).x < 2 ^ simon72_48.word_size
          ∧ (simon72_48.decrypt_simon_72_48_locals ks ct u n).y < 2 ^ simon72_48.word_size)
    ∧ (simon72_48.decrypt_simon_72_48 ks pt ct u
        = storeLE (storeLE pt 0 (simon72_48.word_size / 8) (simon72_48.decrypt_simon_72_48_locals ks ct u simon72_48.rounds).x)
            (simon72_48.word_size / 8) (simon72_48.word_size / 8) (simon72_48.decrypt_simon_72_48_locals ks ct u simon72_48.rounds).y
    ∧ loadLE (simon72_48.decrypt_simon_72_48 ks pt ct u) 0 (simon72_48.word_size / 8)
        = (simon72_48.decrypt_simon_72_48_locals ks ct u simon72_48.rounds).x
    ∧ loadLE (simon72_48.decrypt_simon_72_48 ks pt ct u) (simon72_48.word_size / 8) (simon72_48.word_size / 8)
        = (simon72_48.decrypt_simon_72_48_locals ks ct u simon72_48.rounds).y)
    ∧ (∀ i : Fin (simon128_64.rounds),
        (forUp simon128_64.expand_step i.val (load_keys key ks simon128_64.bytes simon128_64.key_size).keys).keys0
            < 2 ^ simon128_64.word_size
        ∧ loadLE (simon128_64.expand_simon_128_64 key ks) (simon128_64.bytes * i.val) (simon128_64.word_size / 8)
            = (forUp simon128_64.expand_step i.val (load_keys key ks simon128_64.bytes simon128_64.key_size).keys).keys0)
    ∧ (∀ n, (simon128_64.encrypt_simon_128_64_locals ks pt n).x < 2 ^ simon128_64.word_size
          ∧ (simon128_64.encrypt_simon_128_64_locals ks pt n).y < 2 ^ simon128_64.word_size)
    ∧ (simon128_64.encrypt_simon_128_64 ks pt ct
        = storeLE (storeLE ct 0 (simon128_64.word_size / 8) (simon128_64.encrypt_simon_128_64_locals ks pt simon128_64.rounds).y)
            (simon128_64.word_size / 8) (simon128_64.word_size / 8) (simon128_64.encrypt_simon_128_64_locals ks pt simon128_64.rounds).x
    ∧ loadLE (simon128_64.encrypt_simon_128_64 ks pt ct) 0 (simon128_64.word_size / 8)
        = (simon128_64.encrypt_simon_128_64_locals ks pt simon128_64.rounds).y
    ∧ loadLE (simon128_64.encrypt_simon_128_64 ks pt ct) (simon128_64.word_size / 8) (simon128_64.word_size / 8)
        = (simon128_64.encrypt_simon_128_64_locals ks pt simon128_64.rounds).x)
    ∧ (∀ n, (simon128_64.decrypt_simon_128_64_locals ks ct n).x < 2 ^ simon128_64.word_size
          ∧ (simon128_64.decrypt_simon_128_64_locals ks ct n).y < 2 ^ simon128_64.word_size)
    ∧ (simon128_64.decrypt_simon_128_64 ks pt ct
        = storeLE (storeLE pt 0 (simon128_64.word_size / 8) (simon128_64.decrypt_simon_128_64_locals ks ct simon128_64.rounds).x)
            (simon128_64.word_size / 8) (simon128_64.word_size / 8) (simon128_64.decrypt_simon_128_64_locals ks ct simon128_64.rounds).y
    ∧ loadLE (simon128_64.decrypt_simon_128_64 ks pt ct) 0 (simon128_64.word_size / 8)
        = (simon128_64.decrypt_simon_128_64_locals ks ct simon128_64.rounds).x
    ∧ loadLE (simon128_64.decrypt_simon_128_64 ks pt ct) (simon128_64.word_size / 8) (simon128_64.word_size / 8)
        = (simon128_64.decrypt_simon_128_64_locals ks ct simon128_64.rounds).y)
    ∧ (∀ i : Fin (simon144_96.rounds),
        (forUp simon144_96.expand_step i.val (load_keys key ks simon144_96.bytes simon144_96.key_size).keys).keys0
            < 2 ^ simon144_96.word_size
        ∧ loadLE (simon144_96.expand_simon_144_96 key ks) (simon144_96.bytes * i.val) (simon144_96.word_size / 8)
            = (forUp simon144_96.expand_step i.val (load_keys key ks simon144_96.bytes simon144_96.key_size).keys).keys0)
    ∧ (∀ n, (simon144_96.encrypt_simon_144_96_locals ks pt u n).x < 2 ^ simon144_96.word_size
          ∧ (simon144_96.encrypt_simon_144_96_locals ks pt u n).y < 2 ^ simon144_96.word_size)
    ∧ (simon144_96.encrypt_simon_144_96 ks pt ct u
        = storeLE (storeLE ct 0 (simon144_96.word_size / 8) (simon144_96.encrypt_simon_144_96_locals ks pt u simon144_96.rounds).y)
            (simon144_96.word_size / 8) (simon144_96.word_size / 8) (simon144_96.encrypt_simon_144_96_locals ks pt u simon144_96.rounds).x
    ∧ loadLE (simon144_96.encrypt_simon_144_96 ks pt ct u) 0 (simon144_96.word_size / 8)
        = (simon144_96.encrypt_simon_144_96_locals ks pt u simon144_96.rounds).y
    ∧ loadLE (simon144_96.encrypt_simon_144_96 ks pt ct u) (simon144_96.word_size / 8) (simon144_96.word_size / 8)
        = (simon144_96.encrypt_simon_144_96_locals ks pt u simon144_96.rounds).x)
    ∧ (∀ n, (simon144_96.decrypt_simon_144_96_locals ks ct u n).x < 2 ^ simon144_96.word_size
          ∧ (simon144_96.decrypt_simon_144_96_locals ks ct u n).y < 2 ^ simon144_96.word_size)
    ∧ (simon144_96.decrypt_simon_144_96 ks pt ct u
        = storeLE (storeLE pt 0 (simon144_96.word_size / 8) (simon144_96.decrypt_simon_144_96_locals ks ct u simon144_96.rounds).x)
            (simon144_96.word_size / 8) (simon144_96.word_size / 8) (simon144_96.decrypt_simon_144_96_locals ks ct u simon144_96.rounds).y
    ∧ loadLE (simon144_96.decrypt_simon_144_96 ks pt ct u) 0 (simon144_96.word_size / 8)
        = (simon144_96.decrypt_simon_144_96_locals ks ct u simon144_96.rounds).x
    ∧ loadLE (simon144_96.decrypt_simon_144_96 ks pt ct u) (simon144_96.word_size / 8) (simon144_96.word_size / 8)
        = (simon144_96.decrypt_simon_144_96_locals ks ct u simon144_96.rounds).y)
    ∧ (∀ i : Fin (simon128_128.rounds + 1),
        (forUp simon128_128.expand_step i.val (load_keys key ks simon128_128.bytes simon128_128.key_size).keys).keys0
            < 2 ^ simon128_128.word_size
        ∧ loadLE (simon128_128.expand_simon_128_128 key ks) (simon128_128.bytes * i.val) (simon128_128.word_size / 8)
            = (forUp simon128_128.expand_step i.val (load_keys key ks simon128_128.bytes simon128_128.key_size).keys).keys0)
    ∧ (∀ n, (simon128_128.encrypt_simon_128_128_locals ks pt n).x < 2 ^ simon128_128.word_size
          ∧ (simon128_128.encrypt_simon_128_128_locals ks pt n).y < 2 ^ simon128_128.word_size)
    ∧ (simon128_128.encrypt_simon_128_128 ks pt ct
        = storeLE (storeLE ct 0 (simon128_128.word_size / 8) (simon128_128.encrypt_simon_128_128_locals ks pt simon128_128.rounds).y)
            (simon128_128.word_size / 8) (simon128_128.word_size / 8) (simon128_128.encrypt_simon_128_128_locals ks pt simon128_128.rounds).x
    ∧ loadLE (simon128_128.encrypt_simon_128_128 ks pt ct) 0 (simon128_128.word_size / 8)
        = (simon128_128.encrypt_simon_128_128_locals ks pt simon128_128.rounds).y
    ∧ loadLE (simon128_128.encrypt_simon_128_128 ks pt ct) (simon128_128.word_size / 8) (simon128_128.word_size / 8)
        = (simon128_128.encrypt_simon_128_128_locals ks pt simon128_128.rounds).x)
    ∧ (∀ n, (simon128_128.decrypt_simon_128_128_locals ks ct n).x < 2 ^ simon128_128.word_size
          ∧ (simon128_128.decrypt_simon_128_128_locals ks ct n).y < 2 ^ simon128_128.word_size)
    ∧ (simon128_128.decrypt_simon_128_128 ks pt ct
        = storeLE (storeLE pt 0 (simon128_128.word_size / 8) (simon128_128.decrypt_simon_128_128_locals ks ct simon128_128.rounds).x)
            (simon128_128.word_size / 8) (simon128_128.word_size / 8) (simon128_128.decrypt_simon_128_128_locals ks ct simon128_128.rounds).y
    ∧ loadLE (simon128_128.decrypt_simon_128_128 ks pt ct) 0 (simon128_128.word_size / 8)
        = (simon128_128.decrypt_simon_128_128_locals ks ct simon128_128.rounds).x
    ∧ loadLE (simon128_128.decrypt_simon_128_128 ks pt ct) (simon128_128.word_size / 8) (simon128_128.word_size / 8)
        = (simon128_128.decrypt_simon_128_128_locals ks ct simon128_128.rounds).y)
    ∧ (∀ i : Fin (simon192_128.rounds),
        (forUp simon192_128.expand_step i.val (load_keys key ks simon192_128.bytes simon192_128.key_size).keys).keys0
            < 2 ^ simon192_128.word_size
        ∧ loadLE (simon192_128.expand_simon_192_128 key ks) (simon192_128.bytes * i.val) (simon192_128.word_size / 8)
            = (forUp simon192_128.expand_step i.val (load_keys key ks simon192_128.bytes simon192_128.key_size).keys).keys0)
    ∧ (∀ n, (simon192_128.encrypt_simon_192_128_locals ks pt n).x < 2 ^ simon192_128.word_size
          ∧ (simon192_128.encrypt_simon_192_128_locals ks pt n).y < 2 ^ simon192_128.word_size)
    ∧ (simon192_128.encrypt_simon_192_128 ks pt ct
        = storeLE (storeLE ct 0 (simon192_128.word_size / 8) (simon192_128.encrypt_simon_192_128_locals ks pt simon192_128.rounds).y)
            (simon192_128.word_size / 8) (simon192_128.word_size / 8) (simon192_128.encrypt_simon_192_128_locals ks pt simon192_128.rounds).x
    ∧ loadLE (simon192_128.encrypt_simon_192_128 ks pt ct) 0 (simon192_128.word_size / 8)
        = (simon192_128.encrypt_simon_192_128_locals ks pt simon192_128.rounds).y
    ∧ loadLE (simon192_128.encrypt_simon_192_128 ks pt ct) (simon192_128.word_size / 8) (simon192_128.word_size / 8)
        = (simon192_128.encrypt_simon_192_128_locals ks pt simon192_128.rounds).x)
    ∧ (∀ n, (simon192_128.decrypt_simon_192_128_locals ks ct n).x < 2 ^ simon192_128.word_size
          ∧ (simon192_128.decrypt_simon_192_128_locals ks ct n).y < 2 ^ simon192_128.word_size)
    ∧ (simon192_128.decrypt_simon_192_128 ks pt ct
        = storeLE (storeLE pt 0 (simon192_128.word_size / 8) (simon192_128.decrypt_simon_192_128_locals ks ct simon192_128.rounds).x)
            (simon192_128.word_size / 8) (simon192_128.word_size / 8) (simon192_128.decrypt_simon_192_128_locals ks ct simon192_128.rounds).y
    ∧ loadLE (simon192_128.decrypt_simon_192_128 ks pt ct) 0 (simon192_128.word_size / 8)
        = (simon192_128.decrypt_simon_192_128_locals ks ct simon192_128.rounds).x
    ∧ loadLE (simon192_128.decrypt_simon_192_128 ks pt ct) (simon192_128.word_size / 8) (simon192_128.word_size / 8)
        = (simon192_128.decrypt_simon_192_128_locals ks ct simon192_128.rounds).y) :=
  ⟨fun i => expand_subkey_word speck64_32.word_size speck64_32.bytes speck64_32.key_size (speck64_32.word_size / 8)
      speck64_32.expand_step (speck64_32.rounds - 1) key ks (by decide) (by decide) (by decide) (by decide)
      (fun t k ht hk => speck64_32_step_lt t k (Nat.lt_of_lt_of_le ht (by decide)) hk)
      (load_keys_lt key ks speck64_32.bytes speck64_32.key_size speck64_32.word_size (by decide) (by decide) (by decide)) i.val (Nat.le_pred_of_lt i.isLt),
    fun n => speck64_32_encrypt_locals_lt ks pt n,
    stored_words_read_back ct (speck64_32.encrypt_speck_64_32 ks pt ct) (speck64_32.word_size / 8) speck64_32.word_size _ _ (by decide)
      (And.symm (speck64_32_encrypt_locals_lt ks pt speck64_32.rounds)) rfl,
    fun n => speck64_32_decrypt_locals_lt ks ct n,
    stored_words_read_back pt (speck64_32.decrypt_speck_64_32 ks pt ct) (speck64_32.word_size / 8) speck64_32.word_size _ _ (by decide)
      (And.symm (speck64_32_decrypt_locals_lt ks ct speck64_32.rounds)) rfl,
    fun i => expand_subkey_word speck72_48.word_size speck72_48.bytes speck72_48.key_size (speck72_48.word_size / 8)
      speck72_48.expand_step (speck72_48.rounds - 1) key ks (by decide) (by decide) (by decide) (by decide)
      (fun t k _ hk => speck72_48_step_lt t k hk)
      (load_keys_lt key ks speck72_48.bytes speck72_48.key_size speck72_48.word_size (by decide) (by decide) (by decide)) i.val (Nat.le_pred_of_lt i.isLt),
    fun n => speck72_48_encrypt_locals_lt ks pt u n,
    stored_words_read_back ct (speck72_48.encrypt_speck_72_48 ks pt ct u) (speck72_48.word_size / 8) speck72_48.word_size _ _ (by decide)
      (And.symm (speck72_48_encrypt_locals_lt ks pt u speck72_48.rounds)) rfl,
    fun n => speck72_48_decrypt_locals_lt ks ct u n,
    stored_words_read_back pt (speck72_48.decrypt_speck_72_48 ks pt ct u) (speck72_48.word_size / 8) speck72_48.word_size _ _ (by decide)
      (And.symm (speck72_48_decrypt_locals_lt ks ct u speck72_48.rounds)) rfl,
    fun i => expand_subkey_word speck96_48.word_size speck96_48.bytes speck96_48.key_size (speck96_48.word_size / 8)
      speck96_48.expand_step (speck96_48.rounds - 1) key ks (by decide) (by decide) (by decide) (by decide)
      (fun t k _ hk => speck96_48_step_lt t k hk)
      (load_keys_lt key ks speck96_48.bytes speck96_48.key_size speck96_48.word_size (by decide) (by decide) (by decide)) i.val (Nat.le_pred_of_lt i.isLt),
    fun n => speck96_48_encrypt_locals_lt ks pt u n,
    stored_words_read_back ct (speck96_48.encrypt_speck_96_48 ks pt ct u) (speck96_48.word_size / 8) speck96_48.word_size _ _ (by decide)
      (And.symm (speck96_48_encrypt_locals_lt ks pt u speck96_48.rounds)) rfl,
    fun n => speck96_48_decrypt_locals_lt ks ct u n,
    stored_words_read_back pt (speck96_48.decrypt_speck_96_48 ks pt ct u) (speck96_48.word_size / 8) speck96_48.word_size _ _ (by decide)
      (And.symm (speck96_48_decrypt_locals_lt ks ct u speck96_48.rounds)) rfl,
    fun i => expand_subkey_word speck96_96.word_size speck96_96.bytes speck96_96.key_size (speck96_96.word_size / 8)
      speck96_96.expand_step (speck96_96.rounds) key ks (by decide) (by decide) (by decide) (by decide)
      (fun t k _ hk => speck96_96_step_lt t k hk)
      (load_keys_lt key ks speck96_96.bytes speck96_96.key_size speck96_96.word_size (by decide) (by decide) (by decide)) i.val (Nat.le_of_lt_succ i.isLt),
    fun n => speck96_96_encrypt_locals_lt ks pt u n,
    stored_words_read_back ct (speck96_96.encrypt_speck_96_96 ks pt ct u) (speck96_96.word_size / 8) speck96_96.word_size _ _ (by decide)
      (And.symm (speck96_96_encrypt_locals_lt ks pt u speck96_96.rounds)) rfl,
    fun n => speck96_96_decrypt_locals_lt ks ct u n,
    stored_words_read_back pt (speck96_96.decrypt_speck_96_96 ks pt ct u) (speck96_96.word_size / 8) speck96_96.word_size _ _ (by decide)
      (And.symm (speck96_96_decrypt_locals_lt ks ct u speck96_96.rounds)) rfl,
    fun i => expand_subkey_word speck128_64.word_size speck128_64.bytes speck128_64.key_size (speck128_64.word_size / 8)
      speck128_64.expand_step (speck128_64.rounds) key ks (by decide) (by decide) (by decide) (by decide)
      (fun t k _ hk => speck128_64_step_lt t k hk)
      (load_keys_lt key ks speck128_64.bytes speck128_64.key_size speck128_64.word_size (by decide) (by decide) (by decide)) i.val (Nat.le_of_lt_succ i.isLt),
    fun n => speck128_64_encrypt_locals_lt ks pt n,
    stored_words_read_back ct (speck128_64.encrypt_speck_128_64 ks pt ct) (speck128_64.word_size / 8) speck128_64.word_size _ _ (by decide)
      (And.symm (speck128_64_encrypt_locals_lt ks pt speck128_64.rounds)) rfl,
    fun n => speck128_64_decrypt_locals_lt ks ct n,
    stored_words_read_back pt (speck128_64.decrypt_speck_128_64 ks pt ct) (speck128_64.word_size / 8) speck128_64.word_size _ _ (by decide)
      (And.symm (speck128_64_decrypt_locals_lt ks ct speck128_64.rounds)) rfl,
    fun i => expand_subkey_word speck128_128.word_size speck128_128.bytes speck128_128.key_size (speck128_128.word_size / 8)
      speck128_128.expand_step (speck128_128.rounds - 1) key ks (by decide) (by decide) (by decide) (by decide)
      (fun t k _ hk => speck128_128_step_lt t k hk)
      (load_keys_lt key ks speck128_128.bytes speck128_128.key_size speck128_128.word_size (by decide) (by decide) (by decide)) i.val (Nat.le_pred_of_lt i.isLt),
    fun n => speck128_128_encrypt_locals_lt ks pt n,
    stored_words_read_back ct (speck128_128.encrypt_speck_128_128 ks pt ct) (speck128_128.word_size / 8) speck128_128.word_size _ _ (by decide)
      (And.symm (speck128_128_encrypt_locals_lt ks pt speck128_128.rounds)) rfl,
    fun n => speck128_128_decrypt_locals_lt ks ct n,
    stored_words_read_back pt (speck128_128.decrypt_speck_128_128 ks pt ct) (speck128_128.word_size / 8) speck128_128.word_size _ _ (by decide)
      (And.symm (speck128_128_decrypt_locals_lt ks ct speck128_128.rounds)) rfl,
    fun i => expand_subkey_word speck256_128.word_size speck256_128.bytes speck256_128.key_size (speck256_128.word_size / 8)
      speck256_128.expand_step (speck256_128.rounds) key ks (by decide) (by decide) (by decide) (by decide)
      (fun t k _ hk => speck256_128_step_lt t k hk)
      (load_keys_stride12_lt key ks) i.val (Nat.le_of_lt_succ i.isLt),
    fun n => speck256_128_encrypt_locals_lt ks pt n,
    stored_words_read_back ct (speck256_128.encrypt_speck_256_128 ks pt ct) (speck256_128.word_size / 8) speck256_128.word_size _ _ (by decide)
      (And.symm (speck256_128_encrypt_locals_lt ks pt speck256_128.rounds)) rfl,
    fun n => speck256_128_decrypt_locals_lt ks ct n,
    stored_words_read_back pt (speck256_128.decrypt_speck_256_128 ks pt ct) (speck256_128.word_size / 8) speck256_128.word_size _ _ (by decide)
      (And.symm (speck256_128_decrypt_locals_lt ks ct speck256_128.rounds)) rfl,
    fun i => expand_subkey_word simon64_32.word_size simon64_32.bytes simon64_32.key_size (simon64_32.word_size / 8)
      simon64_32.expand_step (simon64_32.rounds) key ks (by decide) (by decide) (by decide) (by decide)
      (fun t k _ hk => simon_step_lt simon64_32.word_size 4 simon64_32.expand_step
        (fun i a b c => ((((2 ^ simon64_32.word_size - 4) ^^^ ((simon64_32.z_sequence >>> (i % 62)) &&& 1)) ^^^ a)
          ^^^ (rotr simon64_32.word_size c 3 ^^^ b)) ^^^ rotr simon64_32.word_size (rotr simon64_32.word_size c 3 ^^^ b) 1)
        (by decide) simon64_32_step_window simon64_32_new_word_lt t k hk)
      (load_keys_lt key ks simon64_32.bytes simon64_32.key_size simon64_32.word_size (by decide) (by decide) (by decide)) i.val (Nat.le_of_lt_succ i.isLt),
    fun n => simon64_32_encrypt_locals_lt ks pt n,
    stored_words_read_back ct (simon64_32.encrypt_simon_64_32 ks pt ct) (simon64_32.word_size / 8) simon64_32.word_size _ _ (by decide)
      (And.symm (simon64_32_encrypt_locals_lt ks pt simon64_32.rounds)) rfl,
    fun n => simon64_32_decrypt_locals_lt ks ct n,
    stored_words_read_back pt (simon64_32.decrypt_simon_64_32 ks pt ct) (simon64_32.word_size / 8) simon64_32.word_size _ _ (by decide)
      (simon64_32_decrypt_locals_lt ks ct simon64_32.rounds) rfl,
    fun i => expand_subkey_word simon72_48.word_size simon72_48.bytes simon72_48.key_size (simon72_48.word_size / 8)
      simon72_48.expand_step (simon72_48.rounds - 1) key ks (by decide) (by decide) (by decide) (by decide)
      (fun t k _ hk => simon_step_lt simon72_48.word_size 3 simon72_48.expand_step
        (fun i a _ c => ((((2 ^ simon72_48.word_size - 4) ^^^ ((simon72_48.z_sequence >>> (i % 62)) &&& 1)) ^^^ a)
          ^^^ rotr simon72_48.word_size c 3) ^^^ rotr simon72_48.word_size (rotr simon72_48.word_size c 3) 1)
        (by decide) simon72_48_step_window simon72_48_new_word_lt t k hk)
      (load_keys_lt key ks simon72_48.bytes simon72_48.key_size simon72_48.word_size (by decide) (by decide) (by decide)) i.val (Nat.le_pred_of_lt i.isLt),
    fun n => simon72_48_encrypt_locals_lt ks pt u n,
    stored_words_read_back ct (simon72_48.encrypt_simon_72_48 ks pt ct u) (simon72_48.word_size / 8) simon72_48.word_size _ _ (by decide)
      (And.symm (simon72_48_encrypt_locals_lt ks pt u simon72_48.rounds)) rfl,
    fun n => simon72_48_decrypt_locals_lt ks ct u n,
    stored_words_read_back pt (simon72_48.decrypt_simon_72_48 ks pt ct u) (simon72_48.word_size / 8) simon72_48.word_size _ _ (by decide)
      (simon72_48_decrypt_locals_lt ks ct u simon72_48.rounds) rfl,
    fun i => expand_subkey_word simon128_64.word_size simon128_64.bytes simon128_64.key_size (simon128_64.word_size / 8)
      simon128_64.expand_step (simon128_64.rounds - 1) key ks (by decide) (by decide) (by decide) (by decide)
      (fun t k _ hk => simon_step_lt simon128_64.word_size 4 simon128_64.expand_step
        (fun i a b c => ((((2 ^ simon128_64.word_size - 4) ^^^ ((simon128_64.z_sequence >>> (i % 62)) &&& 1)) ^^^ a)
          ^^^ (rotr simon128_64.word_size c 3 ^^^ b)) ^^^ rotr simon128_64.word_size (rotr simon128_64.word_size c 3 ^^^ b) 1)
        (by decide) simon128_64_step_window simon128_64_new_word_lt t k hk)
      (load_keys_lt key ks simon128_64.bytes simon128_64.key_size simon128_64.word_size (by decide) (by decide) (by decide)) i.val (Nat.le_pred_of_lt i.isLt),
    fun n => simon128_64_encrypt_locals_lt ks pt n,
    stored_words_read_back ct (simon128_64.encrypt_simon_128_64 ks pt ct) (simon128_64.word_size / 8) simon128_64.word_size _ _ (by decide)
      (And.symm (simon128_64_encrypt_locals_lt ks pt simon128_64.rounds)) rfl,
    fun n => simon128_64_decrypt_locals_lt ks ct n,
    stored_words_read_back pt (simon128_64.decrypt_simon_128_64 ks pt ct) (simon128_64.word_size / 8) simon128_64.word_size _ _ (by decide)
      (simon128_64_decrypt_locals_lt ks ct simon128_64.rounds) rfl,
    fun i => expand_subkey_word simon144_96.word_size simon144_96.bytes simon144_96.key_size (simon144_96.word_size / 8)
      simon144_96.expand_step (simon144_96.rounds - 1) key ks (by decide) (by decide) (by decide) (by decide)
      (fun t k _ hk => simon_step_lt simon144_96.word_size 3 simon144_96.expand_step
        (fun i a _ c => ((((2 ^ simon144_96.word_size - 4) ^^^ ((simon144_96.z_sequence >>> (i % 62)) &&& 1)) ^^^ a)
          ^^^ rotr simon144_96.word_size c 3) ^^^ rotr simon144_96.word_size (rotr simon144_96.word_size c 3) 1)
        (by decide) simon144_96_step_window simon144_96_new_word_lt t k hk)
      (load_keys_lt key ks simon144_96.bytes simon144_96.key_size simon144_96.word_size (by decide) (by decide) (by decide)) i.val (Nat.le_pred_of_lt i.isLt),
    fun n => simon144_96_encrypt_locals_lt ks pt u n,
    stored_words_read_back ct (simon144_96.encrypt_simon_144_96 ks pt ct u) (simon144_96.word_size / 8) simon144_96.word_size _ _ (by decide)
      (And.symm (simon144_96_encrypt_locals_lt ks pt u simon144_96.rounds)) rfl,
    fun n => simon144_96_decrypt_locals_lt ks ct u n,
    stored_words_read_back pt (simon144_96.decrypt_simon_144_96 ks pt ct u) (simon144_96.word_size / 8) simon144_96.word_size _ _ (by decide)
      (simon144_96_decrypt_locals_lt ks ct u simon144_96.rounds) rfl,
    fun i => expand_subkey_word simon128_128.word_size simon128_128.bytes simon128_128.key_size (simon128_128.word_size / 8)
      simon128_128.expand_step (simon128_128.rounds) key ks (by decide) (by decide) (by decide) (by decide)
      (fun t k _ hk => simon_step_lt simon128_128.word_size 2 simon128_128.expand_step
        (fun i a _ c => ((((2 ^ simon128_128.word_size - 4) ^^^ ((simon128_128.z_sequence >>> (i % 62)) &&& 1)) ^^^ a)
          ^^^ rotr simon128_128.word_size c 3) ^^^ rotr simon128_128.word_size (rotr simon128_128.word_size c 3) 1)
        (by decide) simon128_128_step_window simon128_128_new_word_lt t k hk)
      (load_keys_lt key ks simon128_128.bytes simon128_128.key_size simon128_128.word_size (by decide) (by decide) (by decide)) i.val (Nat.le_of_lt_succ i.isLt),
    fun n => simon128_128_encrypt_locals_lt ks pt n,
    stored_words_read_back ct (simon128_128.encrypt_simon_128_128 ks pt ct) (simon128_128.word_size / 8) simon128_128.word_size _ _ (by decide)
      (And.symm (simon128_128_encrypt_locals_lt ks pt simon128_128.rounds)) rfl,
    fun n => simon128_128_decrypt_locals_lt ks ct n,
    stored_words_read_back pt (simon128_128.decrypt_simon_128_128 ks pt ct) (simon128_128.word_size / 8) simon128_128.word_size _ _ (by decide)
      (simon128_128_decrypt_locals_lt ks ct simon128_128.rounds) rfl,
    fun i => expand_subkey_word simon192_128.word_size simon192_128.bytes simon192_128.key_size (simon192_128.word_size / 8)
      simon192_128.expand_step (simon192_128.rounds - 1) key ks (by decide) (by decide) (by decide) (by decide)
      (fun t k _ hk => simon_step_lt simon192_128.word_size 3 simon192_128.expand_step
        (fun i a _ c => ((((2 ^ simon192_128.word_size - 4) ^^^ ((simon192_128.z_sequence >>> (i % 62)) &&& 1)) ^^^ a)
          ^^^ rotr simon192_128.word_size c 3) ^^^ rotr simon192_128.word_size (rotr simon192_128.word_size c 3) 1)
        (by decide) simon192_128_step_window simon192_128_new_word_lt t k hk)
      (load_keys_lt key ks simon192_128.bytes simon192_128.key_size simon192_128.word_size (by decide) (by decide) (by decide)) i.val (Nat.le_pred_of_lt i.isLt),
    fun n => simon192_128_encrypt_locals_lt ks pt n,
    stored_words_read_back ct (simon192_128.encrypt_simon_192_128 ks pt ct) (simon192_128.word_size / 8) simon192_128.word_size _ _ (by decide)
      (And.symm (simon192_128_encrypt_locals_lt ks pt simon192_128.rounds)) rfl,
    fun n => simon192_128_decrypt_locals_lt ks ct n,
    stored_words_read_back pt (simon192_128.decrypt_simon_192_128 ks pt ct) (simon192_128.word_size / 8) simon192_128.word_size _ _ (by decide)
      (simon192_128_decrypt_locals_lt ks ct simon192_128.rounds) rfl⟩

end SimonSpeck
